import Mathlib

/-!
# Aura light propagation volume and the volumetric cloud helpers

A shallow embedding of `Aura/LightPropagation/LightPropagationVolume.cpp` (namespace
`aura`) and of the jitter table, the frame counter and `_itoa` of
`Ephemeris/VolumetricClouds/src/VolumetricClouds.cpp` (namespace `VolumetricClouds`).

* `float` values are rationals. The functions of the first sections carry out every
  arithmetic operation of the source without rounding error, overflow, infinities or NaN.
  The cascade functions `getCellSize`, `getSideHalf`, `setGridCenter` and
  `beginFrame(cascade)` are given a second time in the namespace `aura.f32`, with the
  result of every operation rounded to binary32; the statements about the snapped centre,
  the margin around the camera, the reach of the forward offset and the inverse transform,
  which rounding breaks, are made for these.
* Header constants and build switches that the translation unit only includes
  (`GridRes`, `CASCADE_NOT_MOVING`, `USE_COMPUTE_SHADERS`, ...) are the fields of
  `Config`, passed to every function that reads one of them.
* A function that records commands or calls into the renderer returns, next to the new
  state, the list of calls it issues, in the order of the source.
* Integer fields and counters are natural numbers; where the source computes in
  `uint32_t` the wrap-around at `2 ^ 32` is written out.
-/

namespace aura

/-! ## Vector and matrix types (`Math/AuraVector.h`) -/

/-- Modelled from the spec: `vec3` of `Math/AuraVector.h`, which is not among the
sources; three `float` components `x`, `y`, `z`. -/
structure vec3 where
  x : ℚ
  y : ℚ
  z : ℚ
  deriving DecidableEq

/-- Modelled from the spec: `float4` of `Math/AuraVector.h`, which is not among the
sources; four `float` components `x`, `y`, `z`, `w`. -/
structure float4 where
  x : ℚ
  y : ℚ
  z : ℚ
  w : ℚ
  deriving DecidableEq

/-- Modelled from the spec: `mat4` of `Math/AuraVector.h`, which is not among the
sources; four rows `rows[0..3]`, each a `float4`, as `setGridCenter` reads them
(`rows[0].x`, `rows[0].w`, ...). -/
structure mat4 where
  rows0 : float4
  rows1 : float4
  rows2 : float4
  rows3 : float4
  deriving DecidableEq

namespace vec3

/-- Componentwise `a + b`. -/
def add (a b : vec3) : vec3 := ⟨a.x + b.x, a.y + b.y, a.z + b.z⟩

/-- Componentwise `a - b`. -/
def sub (a b : vec3) : vec3 := ⟨a.x - b.x, a.y - b.y, a.z - b.z⟩

/-- The operator `v / s` (and `v /= s`) with a scalar. -/
def divS (v : vec3) (s : ℚ) : vec3 := ⟨v.x / s, v.y / s, v.z / s⟩

/-- The operator `v * s` (and `v *= s`) with a scalar. -/
def mulS (v : vec3) (s : ℚ) : vec3 := ⟨v.x * s, v.y * s, v.z * s⟩

end vec3

namespace float4

/-- The constructor `float4(v, w)` from a `vec3` and a fourth component. -/
def ofVec3 (v : vec3) (w : ℚ) : float4 := ⟨v.x, v.y, v.z, w⟩

/-- The swizzle `.xyz()`. -/
def xyz (v : float4) : vec3 := ⟨v.x, v.y, v.z⟩

/-- Componentwise `a - b`. -/
def sub (a b : float4) : float4 := ⟨a.x - b.x, a.y - b.y, a.z - b.z, a.w - b.w⟩

/-- The dot product of two four-vectors. -/
def dot (a b : float4) : ℚ := a.x * b.x + a.y * b.y + a.z * b.z + a.w * b.w

end float4

namespace mat4

/-- The column `j` of a matrix, `j = 0..3` (anything above 3 reads the last one). -/
def col (m : mat4) (j : ℕ) : float4 :=
  match j with
  | 0 => ⟨m.rows0.x, m.rows1.x, m.rows2.x, m.rows3.x⟩
  | 1 => ⟨m.rows0.y, m.rows1.y, m.rows2.y, m.rows3.y⟩
  | 2 => ⟨m.rows0.z, m.rows1.z, m.rows2.z, m.rows3.z⟩
  | _ => ⟨m.rows0.w, m.rows1.w, m.rows2.w, m.rows3.w⟩

/-- Modelled from the spec: `mat4 * float4` of `Math/AuraVector.h`, which is not among
the sources; the matrix applied to a column vector, each component the dot product of a
row with the vector. -/
def mulVec (m : mat4) (v : float4) : float4 :=
  ⟨m.rows0.dot v, m.rows1.dot v, m.rows2.dot v, m.rows3.dot v⟩

/-- Modelled from the spec: `mat4 * mat4` of `Math/AuraVector.h`, which is not among
the sources; the matrix product, rows of the left factor against columns of the right. -/
def mul (a b : mat4) : mat4 :=
  ⟨⟨a.rows0.dot (b.col 0), a.rows0.dot (b.col 1), a.rows0.dot (b.col 2), a.rows0.dot (b.col 3)⟩,
   ⟨a.rows1.dot (b.col 0), a.rows1.dot (b.col 1), a.rows1.dot (b.col 2), a.rows1.dot (b.col 3)⟩,
   ⟨a.rows2.dot (b.col 0), a.rows2.dot (b.col 1), a.rows2.dot (b.col 2), a.rows2.dot (b.col 3)⟩,
   ⟨a.rows3.dot (b.col 0), a.rows3.dot (b.col 1), a.rows3.dot (b.col 2), a.rows3.dot (b.col 3)⟩⟩

/-- The identity matrix. -/
def identity : mat4 := ⟨⟨1, 0, 0, 0⟩, ⟨0, 1, 0, 0⟩, ⟨0, 0, 1, 0⟩, ⟨0, 0, 0, 1⟩⟩

/-- The determinant of the 3x3 matrix with rows `(a b c)`, `(d e f)`, `(g h i)`. -/
def det3 (a b c d e f g h i : ℚ) : ℚ :=
  a * (e * i - f * h) - b * (d * i - f * g) + c * (d * h - e * g)

/-- The determinant, expanded along the first row. -/
def det (m : mat4) : ℚ :=
  m.rows0.x * det3 m.rows1.y m.rows1.z m.rows1.w m.rows2.y m.rows2.z m.rows2.w
      m.rows3.y m.rows3.z m.rows3.w
  - m.rows0.y * det3 m.rows1.x m.rows1.z m.rows1.w m.rows2.x m.rows2.z m.rows2.w
      m.rows3.x m.rows3.z m.rows3.w
  + m.rows0.z * det3 m.rows1.x m.rows1.y m.rows1.w m.rows2.x m.rows2.y m.rows2.w
      m.rows3.x m.rows3.y m.rows3.w
  - m.rows0.w * det3 m.rows1.x m.rows1.y m.rows1.z m.rows2.x m.rows2.y m.rows2.z
      m.rows3.x m.rows3.y m.rows3.z

/-- The adjugate: entry `(i, j)` is the cofactor of entry `(j, i)`. -/
def adjugate (m : mat4) : mat4 :=
  ⟨⟨det3 m.rows1.y m.rows1.z m.rows1.w m.rows2.y m.rows2.z m.rows2.w
        m.rows3.y m.rows3.z m.rows3.w,
    -det3 m.rows0.y m.rows0.z m.rows0.w m.rows2.y m.rows2.z m.rows2.w
        m.rows3.y m.rows3.z m.rows3.w,
    det3 m.rows0.y m.rows0.z m.rows0.w m.rows1.y m.rows1.z m.rows1.w
        m.rows3.y m.rows3.z m.rows3.w,
    -det3 m.rows0.y m.rows0.z m.rows0.w m.rows1.y m.rows1.z m.rows1.w
        m.rows2.y m.rows2.z m.rows2.w⟩,
   ⟨-det3 m.rows1.x m.rows1.z m.rows1.w m.rows2.x m.rows2.z m.rows2.w
        m.rows3.x m.rows3.z m.rows3.w,
    det3 m.rows0.x m.rows0.z m.rows0.w m.rows2.x m.rows2.z m.rows2.w
        m.rows3.x m.rows3.z m.rows3.w,
    -det3 m.rows0.x m.rows0.z m.rows0.w m.rows1.x m.rows1.z m.rows1.w
        m.rows3.x m.rows3.z m.rows3.w,
    det3 m.rows0.x m.rows0.z m.rows0.w m.rows1.x m.rows1.z m.rows1.w
        m.rows2.x m.rows2.z m.rows2.w⟩,
   ⟨det3 m.rows1.x m.rows1.y m.rows1.w m.rows2.x m.rows2.y m.rows2.w
        m.rows3.x m.rows3.y m.rows3.w,
    -det3 m.rows0.x m.rows0.y m.rows0.w m.rows2.x m.rows2.y m.rows2.w
        m.rows3.x m.rows3.y m.rows3.w,
    det3 m.rows0.x m.rows0.y m.rows0.w m.rows1.x m.rows1.y m.rows1.w
        m.rows3.x m.rows3.y m.rows3.w,
    -det3 m.rows0.x m.rows0.y m.rows0.w m.rows1.x m.rows1.y m.rows1.w
        m.rows2.x m.rows2.y m.rows2.w⟩,
   ⟨-det3 m.rows1.x m.rows1.y m.rows1.z m.rows2.x m.rows2.y m.rows2.z
        m.rows3.x m.rows3.y m.rows3.z,
    det3 m.rows0.x m.rows0.y m.rows0.z m.rows2.x m.rows2.y m.rows2.z
        m.rows3.x m.rows3.y m.rows3.z,
    -det3 m.rows0.x m.rows0.y m.rows0.z m.rows1.x m.rows1.y m.rows1.z
        m.rows3.x m.rows3.y m.rows3.z,
    det3 m.rows0.x m.rows0.y m.rows0.z m.rows1.x m.rows1.y m.rows1.z
        m.rows2.x m.rows2.y m.rows2.z⟩⟩

/-- Modelled from the spec: `transpose` of `Math/AuraVector.h`, which is not among the
sources; rows and columns exchanged. -/
def transpose (m : mat4) : mat4 := ⟨m.col 0, m.col 1, m.col 2, m.col 3⟩

/-- Every entry of a matrix divided by a scalar. -/
def divS (m : mat4) (s : ℚ) : mat4 :=
  ⟨⟨m.rows0.x / s, m.rows0.y / s, m.rows0.z / s, m.rows0.w / s⟩,
   ⟨m.rows1.x / s, m.rows1.y / s, m.rows1.z / s, m.rows1.w / s⟩,
   ⟨m.rows2.x / s, m.rows2.y / s, m.rows2.z / s, m.rows2.w / s⟩,
   ⟨m.rows3.x / s, m.rows3.y / s, m.rows3.z / s, m.rows3.w / s⟩⟩

/-- Modelled from the spec: the operator `!m` of `Math/AuraVector.h`, which is not among
the sources; the matrix inverse (the spec's world-to-grid transform is the inverse of the
grid-to-world transform), computed as the adjugate divided by the determinant. -/
def inverse (m : mat4) : mat4 := m.adjugate.divS m.det

end mat4

/-- Modelled from the spec: `translate(const vec3&)` of `Math/AuraVector.h`, which is not
among the sources; the homogeneous translation matrix, the translation held in the `w`
component of the first three rows, where `setGridCenter` reads it back. -/
def translate (v : vec3) : mat4 :=
  ⟨⟨1, 0, 0, v.x⟩, ⟨0, 1, 0, v.y⟩, ⟨0, 0, 1, v.z⟩, ⟨0, 0, 0, 1⟩⟩

/-- Modelled from the spec: `translate(float, float, float)` of `Math/AuraVector.h`, which
is not among the sources; `translate` of the vector `(x, y, z)`. -/
def translate3 (x y z : ℚ) : mat4 := translate ⟨x, y, z⟩

/-- Modelled from the spec: `scale(float, float, float)` of `Math/AuraVector.h`, which is
not among the sources; the homogeneous scaling matrix with diagonal `(x, y, z, 1)`. -/
def scale (x y z : ℚ) : mat4 :=
  ⟨⟨x, 0, 0, 0⟩, ⟨0, y, 0, 0⟩, ⟨0, 0, z, 0⟩, ⟨0, 0, 0, 1⟩⟩

/-- The C library `roundf`: the nearest integer, halfway cases away from zero. -/
def roundf (x : ℚ) : ℚ :=
  if 0 ≤ x then ((⌊x + 1 / 2⌋ : ℤ) : ℚ) else ((⌈x - 1 / 2⌉ : ℤ) : ℚ)

/-- The C library `fabsf`. -/
def fabsf (x : ℚ) : ℚ := if x < 0 then -x else x

/-! ## Configuration and state (`LightPropagationVolume.h`, `lpvCommon.h`) -/

/-- The transforms of one cascade, `LightPropagationCascade::State`: the type of
`mInjectState` and `mApplyState`. -/
structure CascadeState where
  mGridToWorld : mat4
  mWorldToGrid : mat4
  mWorldToGridScale : vec3
  mWorldToGridTranslate : vec3
  mSmoothTCOffset : vec3
  deriving DecidableEq

/-- The fields of `LightPropagationCascade` that the translation unit reads or writes; the
render targets `pLightGrids` are named by the cascade's index in the command stream. -/
structure LightPropagationCascade where
  mGridSpan : ℚ
  mGridIntensity : ℚ
  mFlags : ℕ
  mOccludersInjected : Bool
  mInjectState : CascadeState
  mApplyState : CascadeState
  deriving DecidableEq

/-- The `eState` values of `LightPropagationCPUContext` that the translation unit names. -/
inductive CPUContextState where
  | CAPTURED_LIGHT
  | PROPAGATED_LIGHT
  | APPLIED_PROPAGATION
  deriving DecidableEq

/-- The part of `LightPropagationCPUContext` that the translation unit reads or writes: the
public `eState` and the cascade state behind `setApplyState` / `getApplyState`. -/
structure LightPropagationCPUContext where
  eState : CPUContextState
  mApplyState : CascadeState
  deriving DecidableEq

namespace LightPropagationCPUContext

/-- Modelled from the spec: `LightPropagationCPUContext::setApplyState`, which is not among
the sources; it stores the cascade state handed to it (the snapshot of the injection state
kept with the captured grid). -/
def setApplyState (ctx : LightPropagationCPUContext) (s : CascadeState) :
    LightPropagationCPUContext :=
  { ctx with mApplyState := s }

/-- Modelled from the spec: `LightPropagationCPUContext::getApplyState`, which is not among
the sources; it returns the cascade state stored by `setApplyState`. -/
def getApplyState (ctx : LightPropagationCPUContext) : CascadeState := ctx.mApplyState

end LightPropagationCPUContext

/-- The states a resource barrier can name. -/
inductive ResourceState where
  | RESOURCE_STATE_SHADER_RESOURCE
  | RESOURCE_STATE_UNORDERED_ACCESS
  | RESOURCE_STATE_RENDER_TARGET
  | other (bits : ℕ)
  deriving DecidableEq

/-- The constants and build switches the translation unit takes from headers that are not
among the sources, and the one value it takes from a method that is not among them. -/
structure Config where
  /-- The grid resolution `GridRes` of `Shaders/FSL/lpvCommon.h`. -/
  GridRes : ℕ
  /-- The compute work-group edge `WorkGroupSize`. -/
  WorkGroupSize : ℕ
  /-- The number of frames in flight `MAX_FRAMES`. -/
  MAX_FRAMES : ℕ
  /-- The value of the cascade flag `CASCADE_NOT_MOVING`. -/
  CASCADE_NOT_MOVING : ℕ
  /-- The resource state the macro `RESOURCE_STATE_LPV` stands for. -/
  RESOURCE_STATE_LPV : ResourceState
  /-- Whether `USE_COMPUTE_SHADERS` is non-zero. -/
  USE_COMPUTE_SHADERS : Bool
  /-- Whether `ENABLE_CPU_PROPAGATION` is defined. -/
  ENABLE_CPU_PROPAGATION : Bool
  /-- Whether `PRESCALE_LIGHT_VALUES` is defined. -/
  PRESCALE_LIGHT_VALUES : Bool
  /-- The context `LightPropagationCPUContext::load` leaves behind in freshly allocated
  memory. -/
  loadedContext : LightPropagationCPUContext
  deriving DecidableEq

/-- Modelled from the spec: `NUM_GRIDS_PER_CASCADE` of `LightPropagationVolume.h`, which is
not among the sources; each cascade owns 3 grid buffers (the code indexes the six working
grids as `3 * bPhase + i`). -/
def NUM_GRIDS_PER_CASCADE : ℕ := 3

/-- The fields of `LightPropagationVolumeParams` read by the frame functions and by
`getLightApplyData`; `fLightScale` is the array indexed by cascade. -/
structure LightPropagationVolumeParams where
  bUseMultipleReflections : Bool
  bAlternateGPUUpdates : Bool
  bUseCPUPropagation : Bool
  iPropagationSteps : ℕ
  fPropagationScale : ℚ
  fFresnel : ℚ := 0
  fSpecScale : ℚ := 0
  fSpecPow : ℚ := 0
  fGIStrength : ℚ := 0
  fLightScale : List ℚ := []
  deriving DecidableEq

/-- The fields of `Aura` read or written by the frame functions. `pCascades` holds the
cascades themselves (`mCascadeCount` of them after `initAura`), `m_CPUContexts[i]` the
contexts of cascade `i`. -/
structure Aura where
  mParams : LightPropagationVolumeParams
  mOptions : ℕ
  mCascadeCount : ℕ
  pCascades : List LightPropagationCascade
  mGPUPropagationCurrentGrid : ℕ
  mFrameIdx : ℕ
  mInFlightFrameCount : ℕ
  bUseCPUPropagationPreviousFrame : Bool
  m_CPUContexts : List (List LightPropagationCPUContext)
  deriving DecidableEq

/-! ## The command stream -/

/-- The pipelines of `Aura`; the propagation pipelines are arrays indexed by
`bUseMultipleReflections`. -/
inductive Pipeline where
  | pPipelineInjectRSMLight
  | pPipelineLightPropagate1 (index : Bool)
  | pPipelineLightPropagateN (index : Bool)
  | pPipelineLightCopy
  deriving DecidableEq

/-- The descriptor sets of `Aura`. -/
inductive DescriptorSet where
  | pDescriptorSetInjectRSMLight
  | pDescriptorSetLightPropagate1
  | pDescriptorSetLightPropagateN
  | pDescriptorSetLightCopy
  | pDescriptorSetVisualizeLPV
  deriving DecidableEq

/-- The root signatures that receive push constants. -/
inductive RootSignature where
  | pRootSignatureLightPropagate1
  | pRootSignatureLightPropagateN
  deriving DecidableEq

/-- A grid render target or its texture: `pCascades[cascade]->pLightGrids[i]` or
`pAura->pWorkingGrids[i]`. -/
inductive Resource where
  | pLightGrids (cascade i : ℕ)
  | pWorkingGrids (i : ℕ)
  deriving DecidableEq

/-- A `TextureBarrier` or `RenderTargetBarrier`: resource, current state, new state. -/
structure Barrier where
  resource : Resource
  mCurrentState : ResourceState
  mNewState : ResourceState
  deriving DecidableEq

/-- The `LightInjectionData` uniform block written by `injectRSM`. -/
structure LightInjectionData where
  camDir : vec3
  invMvp : mat4
  RSMRes : ℕ × ℕ
  scaleFactor : ℚ
  smoothGridPosOffset : vec3
  WorldToGridScale : vec3
  WorldToGridTranslate : vec3
  deriving DecidableEq

/-- One call into the renderer or into a CPU context, with the arguments that say what it
acts on. `cmdBindRenderTargets` carries the bound colour targets and whether its load
actions clear them. -/
inductive Call where
  | cmdBeginDebugMarker (cascade : ℕ)
  | cmdEndDebugMarker
  | cmdBindPipeline (pipeline : Pipeline)
  | cmdBindDescriptorSet (index : ℕ) (set : DescriptorSet)
  | cmdBindPushConstants (rootSignature : RootSignature) (fPropagationScale : ℚ)
  | cmdDispatch (x y z : ℕ)
  | cmdResourceBarrierTextures (barriers : List Barrier)
  | cmdResourceBarrierRenderTargets (barriers : List Barrier)
  | cmdBindRenderTargets (targets : List Resource) (loadActionClear : Bool)
  | cmdSetViewport (width height : ℚ)
  | cmdSetScissor (width height : ℕ)
  | cmdDrawInstanced (vertexCount firstVertex instanceCount firstInstance : ℕ)
  | cmdDraw (vertexCount firstVertex : ℕ)
  | updateUniformBuffer (frame volume : ℕ) (data : LightInjectionData)
  | updateDescriptorSet (index : ℕ) (set : DescriptorSet)
  | readData (cascade context : ℕ)
  | processData (cascade context : ℕ)
  | applyData (cascade context : ℕ)
  | unloadContext (cascade context : ℕ)
  | loadContext (cascade context : ℕ)
  | mapAsynchronousResources
  deriving DecidableEq

/-! ## Cascade functions -/

/-- `getCellSize`: the edge length of one cell. -/
def getCellSize (cfg : Config) (pCascade : LightPropagationCascade) : ℚ :=
  pCascade.mGridSpan / (cfg.GridRes : ℚ)

/-- `getSideHalf`: half the edge length of the grid. -/
def getSideHalf (pCascade : LightPropagationCascade) : ℚ :=
  pCascade.mGridSpan / 2

/-- The "Snap to grid" statements of `setGridCenter`, in exact arithmetic: divide by the
cell size, round every component with `roundf`, multiply by the cell size. -/
def snapToGrid (cellSize : ℚ) (gridCenter : vec3) : vec3 :=
  let g := gridCenter.divS cellSize
  let g : vec3 := ⟨roundf g.x, roundf g.y, roundf g.z⟩
  g.mulS cellSize

/-- `setGridCenter`, in exact arithmetic: snap the requested centre and derive the
inject-state transforms. -/
def setGridCenter (cfg : Config) (pCascade : LightPropagationCascade) (gridCenter : vec3) :
    LightPropagationCascade :=
  let cellSize := getCellSize cfg pCascade
  let sideHalf := getSideHalf pCascade
  let smoothGridCenter := gridCenter
  let gridCenter := snapToGrid cellSize gridCenter
  let mGridToWorld := ((translate gridCenter).mul (scale sideHalf sideHalf sideHalf)).mul
    ((translate3 (-1) (-1) (-1)).mul (scale 2 2 2))
  let mWorldToGrid := mGridToWorld.inverse
  let mWorldToGridScale : vec3 := ⟨mWorldToGrid.rows0.x, mWorldToGrid.rows1.y, mWorldToGrid.rows2.z⟩
  let mWorldToGridTranslate : vec3 :=
    ⟨mWorldToGrid.rows0.w, mWorldToGrid.rows1.w, mWorldToGrid.rows2.w⟩
  let mSmoothTCOffset := ((mWorldToGrid.mulVec (float4.ofVec3 gridCenter 1)).sub
    (mWorldToGrid.mulVec (float4.ofVec3 smoothGridCenter 1))).xyz
  { pCascade with
    mInjectState :=
      { mGridToWorld := mGridToWorld
        mWorldToGrid := mWorldToGrid
        mWorldToGridScale := mWorldToGridScale
        mWorldToGridTranslate := mWorldToGridTranslate
        mSmoothTCOffset := mSmoothTCOffset } }

/-- The centre `beginFrame` asks for, in exact arithmetic: the camera position plus the
camera direction, scaled so that its largest component is `sideHalf - 4 * cellSize`. -/
def frameGridCenter (cfg : Config) (pCascade : LightPropagationCascade) (camPos camDir : vec3) :
    vec3 :=
  let cellSize := getCellSize cfg pCascade
  let sideHalf := getSideHalf pCascade
  let maxOffset := max (fabsf camDir.x) (fabsf camDir.y)
  let maxOffset := max maxOffset (fabsf camDir.z)
  let offset := camDir.divS maxOffset
  let offset := offset.mulS (sideHalf - 4 * cellSize)
  camPos.add offset

/-- The condition `(!pCascade->mFlags) & CASCADE_NOT_MOVING` of `beginFrame`: the logical
negation of the flag word (1 when the word is zero, 0 otherwise), and-ed bit by bit with
the constant, is non-zero. -/
def recenterGuard (cfg : Config) (mFlags : ℕ) : Bool :=
  ((if mFlags = 0 then 1 else 0) &&& cfg.CASCADE_NOT_MOVING) != 0

/-- `beginFrame(LightPropagationCascade*, camPos, camDir)`. -/
def beginFrameCascade (cfg : Config) (pCascade : LightPropagationCascade) (camPos camDir : vec3) :
    LightPropagationCascade :=
  let gridCenter := frameGridCenter cfg pCascade camPos camDir
  let pCascade := if recenterGuard cfg pCascade.mFlags then setGridCenter cfg pCascade gridCenter
    else pCascade
  { pCascade with mOccludersInjected := false }

/-! ## Frame functions of `Aura` -/

/-- The wrap-around of `uint32_t` arithmetic. -/
def UINT32 : ℕ := 2 ^ 32

/-- A write to `*pAura->pCascades[i]` through `f`. An index outside the array (undefined
behaviour in the source) leaves the state as it is. -/
def Aura.modifyCascade (pAura : Aura) (i : ℕ)
    (f : LightPropagationCascade → LightPropagationCascade) : Aura :=
  match pAura.pCascades[i]? with
  | some c => { pAura with pCascades := pAura.pCascades.set i (f c) }
  | none => pAura

/-- A write to `pAura->m_CPUContexts[i][j]` through `f`. An index outside either array
(undefined behaviour in the source) leaves the state as it is. -/
def Aura.modifyContext (pAura : Aura) (i j : ℕ)
    (f : LightPropagationCPUContext → LightPropagationCPUContext) : Aura :=
  match pAura.m_CPUContexts[i]? with
  | some row =>
    match row[j]? with
    | some ctx => { pAura with m_CPUContexts := pAura.m_CPUContexts.set i (row.set j (f ctx)) }
    | none => pAura
  | none => pAura

/-- `doAlternateGPUUpdates`. -/
def doAlternateGPUUpdates (cfg : Config) (pAura : Aura) : Bool :=
  if cfg.ENABLE_CPU_PROPAGATION then
    pAura.mParams.bAlternateGPUUpdates && !pAura.mParams.bUseCPUPropagation
  else
    pAura.mParams.bAlternateGPUUpdates

/-- `beginFrame(Renderer*, Aura*, camPos, camDir)`. The remainder by a zero cascade count
(undefined behaviour in the source) is the dividend. -/
def beginFrame (cfg : Config) (pAura : Aura) (camPos camDir : vec3) : Aura :=
  if doAlternateGPUUpdates cfg pAura then
    let pAura := { pAura with
      mGPUPropagationCurrentGrid :=
        (pAura.mGPUPropagationCurrentGrid + 1) % UINT32 % pAura.mCascadeCount }
    pAura.modifyCascade pAura.mGPUPropagationCurrentGrid
      (fun c => beginFrameCascade cfg c camPos camDir)
  else
    (List.range pAura.mCascadeCount).foldl
      (fun a i => a.modifyCascade i (fun c => beginFrameCascade cfg c camPos camDir)) pAura

/-- `endFrame`. -/
def endFrame (cfg : Config) (pAura : Aura) : Aura × List Call :=
  let mFrameIdx := (pAura.mFrameIdx + 1) % UINT32
  let mFrameIdx := if mFrameIdx ≥ cfg.MAX_FRAMES then 0 else mFrameIdx
  ({ pAura with mFrameIdx := mFrameIdx }, [Call.mapAsynchronousResources])

/-- `setCascadeCenter`. -/
def setCascadeCenter (cfg : Config) (pAura : Aura) (Cascade : ℕ) (center : vec3) : Aura :=
  pAura.modifyCascade Cascade (fun c => setGridCenter cfg c center)

/-- `getCascadesToUpdateMask`; the sum is accumulated in a `uint32_t`. -/
def getCascadesToUpdateMask (cfg : Config) (pAura : Aura) : ℕ :=
  if doAlternateGPUUpdates cfg pAura then
    (1 <<< pAura.mGPUPropagationCurrentGrid) % UINT32
  else
    (List.range pAura.mCascadeCount).foldl (fun res i => (res + (1 <<< i) % UINT32) % UINT32) 0

/-- The three grids `g 0`, `g 1`, `g 2` of a cascade or of a working set. -/
def gridTriple (g : ℕ → Resource) : List Resource :=
  (List.range NUM_GRIDS_PER_CASCADE).map g

/-- `injectRSM`. The texture arguments `baseRT`, `normalRT`, `depthRT` are only handed on
to the descriptor set and are left out; the light grids are bound with the load action
`LOAD_ACTION_CLEAR`. The statements after the last `cmdBindRenderTargets` (the doubling of
the local `RSMSurfelAreaScaleFactor` and the test of `LPV_ALLOW_OCCLUSION`) are followed by
comments only and leave no trace. An index `iVolume` outside `pCascades` (undefined
behaviour in the source) issues nothing. The two quotients are those of the rationals:
where the source divides by zero (`rtWidth * rtHeight` zero modulo `2 ^ 32`, a zero
`mGridSpan` or a zero `GridRes`) and obtains an infinity or a NaN, the value here is 0, so
the statements about `scaleFactor` are made for non-zero divisors. -/
def injectRSM (cfg : Config) (pAura : Aura) (iVolume : ℕ) (invVP : mat4) (camDir : vec3)
    (rtWidth rtHeight : ℕ) (viewAreaForUnitDepth : ℚ) : Aura × List Call :=
  if doAlternateGPUUpdates cfg pAura && (pAura.mGPUPropagationCurrentGrid != iVolume) then
    (pAura, [])
  else
    match pAura.pCascades[iVolume]? with
    | none => (pAura, [])
    | some pCascade =>
      let RSMSurfelAreaScaleFactor :=
        viewAreaForUnitDepth / (((rtWidth * rtHeight) % UINT32 : ℕ) : ℚ)
      let RSMRes : ℕ × ℕ := (rtWidth, rtHeight)
      let gridArea := pCascade.mGridSpan * pCascade.mGridSpan
      let gridCellArea := gridArea / ((cfg.GridRes * cfg.GridRes : ℕ) : ℚ)
      let blockingPotentialFactor := RSMSurfelAreaScaleFactor / gridCellArea
      let blockingPotentialFactor :=
        if cfg.PRESCALE_LIGHT_VALUES then blockingPotentialFactor * pCascade.mGridIntensity
        else blockingPotentialFactor
      let barriers : List Call :=
        if cfg.USE_COMPUTE_SHADERS then
          [Call.cmdResourceBarrierTextures ((List.range NUM_GRIDS_PER_CASCADE).map
            (fun j => ⟨Resource.pLightGrids iVolume j, cfg.RESOURCE_STATE_LPV,
              ResourceState.RESOURCE_STATE_RENDER_TARGET⟩))]
        else []
      let data : LightInjectionData :=
        { camDir := camDir
          invMvp := invVP.transpose
          RSMRes := RSMRes
          scaleFactor := blockingPotentialFactor
          smoothGridPosOffset := pCascade.mInjectState.mSmoothTCOffset
          WorldToGridScale := pCascade.mInjectState.mWorldToGridScale
          WorldToGridTranslate := pCascade.mInjectState.mWorldToGridTranslate }
      let setIndex := (pAura.mFrameIdx * pAura.mCascadeCount + iVolume) % UINT32
      (pAura, barriers ++
        [Call.updateUniformBuffer pAura.mFrameIdx iVolume data,
         Call.cmdBindRenderTargets (gridTriple (Resource.pLightGrids iVolume)) true,
         Call.cmdSetViewport cfg.GridRes cfg.GridRes,
         Call.cmdSetScissor cfg.GridRes cfg.GridRes,
         Call.cmdBindPipeline Pipeline.pPipelineInjectRSMLight,
         Call.updateDescriptorSet setIndex DescriptorSet.pDescriptorSetInjectRSMLight,
         Call.cmdBindDescriptorSet setIndex DescriptorSet.pDescriptorSetInjectRSMLight,
         Call.cmdDraw ((RSMRes.1 * RSMRes.2) % UINT32) 0,
         Call.cmdBindRenderTargets [] false])

/-! ## Propagation -/

/-- The barrier array filled by a loop `for i < NUM_GRIDS_PER_CASCADE` that writes
`barriers[i * 2] = a i` and `barriers[i * 2 + 1] = b i`. -/
def barrierPairs (a b : ℕ → Barrier) : List Barrier :=
  (List.range NUM_GRIDS_PER_CASCADE).flatMap (fun i => [a i, b i])

/-- The state a working grid is written in: `RESOURCE_STATE_UNORDERED_ACCESS` with compute
shaders, `RESOURCE_STATE_RENDER_TARGET` without. -/
def writableState (cfg : Config) : ResourceState :=
  if cfg.USE_COMPUTE_SHADERS then ResourceState.RESOURCE_STATE_UNORDERED_ACCESS
  else ResourceState.RESOURCE_STATE_RENDER_TARGET

/-- The pass drawn with three vertices and `GridRes` instances. -/
def drawGrid (cfg : Config) : Call := Call.cmdDrawInstanced 3 0 cfg.GridRes 0

/-- The compute dispatch over the whole grid. -/
def dispatchGrid (cfg : Config) : Call :=
  Call.cmdDispatch (cfg.GridRes / cfg.WorkGroupSize) (cfg.GridRes / cfg.WorkGroupSize)
    (cfg.GridRes / cfg.WorkGroupSize)

/-- The calls of `propagateLight(cascade)` from "1st propagation step" to the first "Add
propagated light to the final grid", in either build. -/
def propagateFirstStep (cfg : Config) (pAura : Aura) (cascade : ℕ) : List Call :=
  let pPipelinePropagate1 :=
    Pipeline.pPipelineLightPropagate1 pAura.mParams.bUseMultipleReflections
  if cfg.USE_COMPUTE_SHADERS then
    [Call.cmdBindPipeline pPipelinePropagate1,
     Call.cmdBindDescriptorSet cascade DescriptorSet.pDescriptorSetLightPropagate1,
     Call.cmdBindPushConstants RootSignature.pRootSignatureLightPropagate1
       pAura.mParams.fPropagationScale,
     dispatchGrid cfg,
     Call.cmdResourceBarrierTextures (barrierPairs
       (fun i => ⟨Resource.pLightGrids cascade i, ResourceState.RESOURCE_STATE_SHADER_RESOURCE,
         ResourceState.RESOURCE_STATE_UNORDERED_ACCESS⟩)
       (fun i => ⟨Resource.pWorkingGrids i, ResourceState.RESOURCE_STATE_UNORDERED_ACCESS,
         ResourceState.RESOURCE_STATE_SHADER_RESOURCE⟩)),
     Call.cmdBindPipeline Pipeline.pPipelineLightCopy,
     Call.cmdBindDescriptorSet cascade DescriptorSet.pDescriptorSetLightCopy,
     dispatchGrid cfg]
  else
    [Call.cmdBindRenderTargets (gridTriple Resource.pWorkingGrids) false,
     Call.cmdSetViewport cfg.GridRes cfg.GridRes,
     Call.cmdSetScissor cfg.GridRes cfg.GridRes,
     Call.cmdBindPipeline pPipelinePropagate1,
     Call.cmdBindDescriptorSet cascade DescriptorSet.pDescriptorSetLightPropagate1,
     Call.cmdBindPushConstants RootSignature.pRootSignatureLightPropagate1
       pAura.mParams.fPropagationScale,
     drawGrid cfg,
     Call.cmdBindRenderTargets [] false,
     Call.cmdResourceBarrierTextures (barrierPairs
       (fun i => ⟨Resource.pLightGrids cascade i, ResourceState.RESOURCE_STATE_SHADER_RESOURCE,
         ResourceState.RESOURCE_STATE_RENDER_TARGET⟩)
       (fun i => ⟨Resource.pWorkingGrids i, ResourceState.RESOURCE_STATE_RENDER_TARGET,
         ResourceState.RESOURCE_STATE_SHADER_RESOURCE⟩)),
     Call.cmdBindRenderTargets (gridTriple (Resource.pLightGrids cascade)) false,
     Call.cmdBindPipeline Pipeline.pPipelineLightCopy,
     Call.cmdBindDescriptorSet (cascade * 2 + 0) DescriptorSet.pDescriptorSetLightCopy,
     drawGrid cfg,
     Call.cmdBindRenderTargets [] false]

/-- The calls of one turn of the loop `for (i = 1; i < nPropagationSteps; ++i)` of
`propagateLight(cascade)`, in either build (`PROPAGATE_ACCUMULATE_ONE_PASS` not defined);
`3 * bPhase` is 3 when `bPhase` is true and 0 when it is false. -/
def propagateStep (cfg : Config) (pAura : Aura) (cascade i : ℕ) (bPhase : Bool) : List Call :=
  let pPipelinePropagateN :=
    Pipeline.pPipelineLightPropagateN pAura.mParams.bUseMultipleReflections
  let phase : ℕ := if bPhase then 1 else 0
  let notPhase : ℕ := if !bPhase then 1 else 0
  let notOdd : ℕ := if (i &&& 1) = 0 then 1 else 0
  if cfg.USE_COMPUTE_SHADERS then
    [Call.cmdBindPipeline pPipelinePropagateN,
     Call.cmdBindPushConstants RootSignature.pRootSignatureLightPropagateN
       pAura.mParams.fPropagationScale,
     Call.cmdBindDescriptorSet (cascade * 2 + notOdd) DescriptorSet.pDescriptorSetLightPropagateN,
     dispatchGrid cfg,
     Call.cmdResourceBarrierTextures (barrierPairs
       (fun k => ⟨Resource.pWorkingGrids (3 * phase + k),
         ResourceState.RESOURCE_STATE_UNORDERED_ACCESS,
         ResourceState.RESOURCE_STATE_SHADER_RESOURCE⟩)
       (fun k => ⟨Resource.pWorkingGrids (3 * notPhase + k),
         ResourceState.RESOURCE_STATE_SHADER_RESOURCE,
         ResourceState.RESOURCE_STATE_UNORDERED_ACCESS⟩))]
  else
    [Call.cmdBindRenderTargets (gridTriple (fun k => Resource.pWorkingGrids (3 * phase + k)))
       false,
     Call.cmdBindPipeline pPipelinePropagateN,
     Call.cmdBindDescriptorSet (cascade * 2 + notOdd) DescriptorSet.pDescriptorSetLightPropagateN,
     Call.cmdBindPushConstants RootSignature.pRootSignatureLightPropagateN
       pAura.mParams.fPropagationScale,
     drawGrid cfg,
     Call.cmdBindRenderTargets [] false,
     Call.cmdResourceBarrierTextures (barrierPairs
       (fun k => ⟨Resource.pWorkingGrids (3 * phase + k),
         ResourceState.RESOURCE_STATE_RENDER_TARGET,
         ResourceState.RESOURCE_STATE_SHADER_RESOURCE⟩)
       (fun k => ⟨Resource.pWorkingGrids (3 * notPhase + k),
         ResourceState.RESOURCE_STATE_SHADER_RESOURCE,
         ResourceState.RESOURCE_STATE_RENDER_TARGET⟩)),
     Call.cmdBindRenderTargets (gridTriple (Resource.pLightGrids cascade)) false,
     Call.cmdBindPipeline Pipeline.pPipelineLightCopy,
     Call.cmdBindDescriptorSet (cascade * 2 + (i &&& 1)) DescriptorSet.pDescriptorSetLightCopy,
     drawGrid cfg,
     Call.cmdBindRenderTargets [] false]

/-- The loop `for (i = ...; i < nPropagationSteps; ++i)` of `propagateLight(cascade)` with
`turns` turns left, entered with counter `i` and flag `bPhase`: the calls it issues and the
value of `bPhase` it leaves. -/
def propagateLoop (cfg : Config) (pAura : Aura) (cascade : ℕ) :
    (turns : ℕ) → (i : ℕ) → (bPhase : Bool) → List Call × Bool
  | 0, _, bPhase => ([], bPhase)
  | turns + 1, i, bPhase =>
    let rest := propagateLoop cfg pAura cascade turns (i + 1) (!bPhase)
    (propagateStep cfg pAura cascade i bPhase ++ rest.1, rest.2)

/-- The calls of `propagateLight(cascade)` up to and including the last
`cmdResourceBarrier`, that is, everything the function issues before the statement
`pCascade->mApplyState = pCascade->mInjectState`. -/
def propagatePasses (cfg : Config) (pAura : Aura) (cascade : ℕ) : List Call :=
  let nPropagationSteps := pAura.mParams.iPropagationSteps
  let loop := propagateLoop cfg pAura cascade (nPropagationSteps - 1) 1 true
  let bPhase := loop.2
  let notPhase : ℕ := if !bPhase then 1 else 0
  [Call.cmdBeginDebugMarker cascade] ++ propagateFirstStep cfg pAura cascade ++ loop.1 ++
    [Call.cmdResourceBarrierTextures ((List.range NUM_GRIDS_PER_CASCADE).map
      (fun i => ⟨Resource.pWorkingGrids (3 * notPhase + i),
        ResourceState.RESOURCE_STATE_SHADER_RESOURCE, cfg.RESOURCE_STATE_LPV⟩))]

/-- The statement `pCascade->mApplyState = pCascade->mInjectState`. -/
def commitApplyState (pCascade : LightPropagationCascade) : LightPropagationCascade :=
  { pCascade with mApplyState := pCascade.mInjectState }

/-- `propagateLight(Cmd*, Renderer*, Aura*, uint32_t cascade)`: the passes, then the commit
of the apply state, then `cmdEndDebugMarker`. -/
def propagateLight (cfg : Config) (pAura : Aura) (cascade : ℕ) : Aura × List Call :=
  let issued := propagatePasses cfg pAura cascade
  let pAura := pAura.modifyCascade cascade commitApplyState
  (pAura, issued ++ [Call.cmdEndDebugMarker])

/-- `unloadCPUPropagationResources`: every context is unloaded and the arrays are freed. -/
def unloadCPUPropagationResources (cfg : Config) (pAura : Aura) : Aura × List Call :=
  if cfg.ENABLE_CPU_PROPAGATION then
    ({ pAura with m_CPUContexts := [] },
      (List.range pAura.mCascadeCount).flatMap
        (fun i => (List.range NUM_GRIDS_PER_CASCADE).map (fun j => Call.unloadContext i j)))
  else (pAura, [])

/-- `loadCPUPropagationResources`: `NUM_GRIDS_PER_CASCADE` freshly loaded contexts for
every cascade. -/
def loadCPUPropagationResources (cfg : Config) (pAura : Aura) : Aura × List Call :=
  if cfg.ENABLE_CPU_PROPAGATION then
    ({ pAura with
        m_CPUContexts := List.replicate pAura.mCascadeCount
          (List.replicate NUM_GRIDS_PER_CASCADE cfg.loadedContext) },
      (List.range pAura.mCascadeCount).flatMap
        (fun i => (List.range NUM_GRIDS_PER_CASCADE).map (fun j => Call.loadContext i j)))
  else (pAura, [])

/-- A loop `for (uint32_t i = 0; i < mCascadeCount; ++i)` whose body `body i` changes the
state and issues calls. -/
def forEachCascade (pAura : Aura) (body : ℕ → Aura → Aura × List Call) : Aura × List Call :=
  (List.range pAura.mCascadeCount).foldl
    (fun (acc : Aura × List Call) i => let r := body i acc.1; (r.1, acc.2 ++ r.2)) (pAura, [])

/-- The statement `int readIndex = pAura->mFrameIdx % pAura->mInFlightFrameCount`. -/
def readIndex (pAura : Aura) : ℕ := pAura.mFrameIdx % pAura.mInFlightFrameCount

/-- The statement `int propagateIndex = (pAura->mFrameIdx - pAura->mInFlightFrameCount) %
pAura->mInFlightFrameCount`, computed in `uint32_t` (`mFrameIdx` and `mInFlightFrameCount`
are taken to be `uint32_t`, the type of the `inFlightFrameCount` argument of `initAura`): the
difference wraps modulo `2^32` before the remainder is taken. -/
def propagateIndex (pAura : Aura) : ℕ :=
  ((pAura.mFrameIdx + UINT32 - pAura.mInFlightFrameCount % UINT32) % UINT32)
    % pAura.mInFlightFrameCount

/-- The context `pAura->m_CPUContexts[i][j]`, if both indices are inside their arrays. -/
def Aura.contextAt (pAura : Aura) (i j : ℕ) : Option LightPropagationCPUContext :=
  (pAura.m_CPUContexts[i]?).bind (fun row => row[j]?)

/-- The body of the first loop of the CPU branch of `propagateLight(Aura)` for cascade `i`:
`readData` on the context `readIndex`, `setApplyState(mInjectState)`, then
`eState = CAPTURED_LIGHT`. The method `readData` is not among the sources: it appears as a
call, and `eState` and the stored apply state change only where the function assigns them.
An index outside an array (undefined behaviour in the source) reads and writes nothing. -/
def captureTurn (readIndex i : ℕ) (pAura : Aura) : Aura × List Call :=
  match pAura.pCascades[i]? with
  | none => (pAura, [])
  | some pCascade =>
    let pAura := pAura.modifyContext i readIndex (fun ctx =>
      ctx.setApplyState pCascade.mInjectState)
    let pAura := pAura.modifyContext i readIndex (fun ctx =>
      { ctx with eState := CPUContextState.CAPTURED_LIGHT })
    (pAura, [Call.readData i readIndex])

/-- The body of the second loop of the CPU branch of `propagateLight(Aura)` for cascade `i`:
if the context `propagateIndex` holds captured light, `processData`,
`eState = PROPAGATED_LIGHT`, `applyData`, `mApplyState = getApplyState()`, then
`eState = APPLIED_PROPAGATION`. The methods `processData` and `applyData` are not among the
sources: they appear as calls, and `eState` and the stored apply state change only where the
function assigns them. An index outside an array reads and writes nothing. -/
def applyTurn (propagateIndex i : ℕ) (pAura : Aura) : Aura × List Call :=
  match pAura.contextAt i propagateIndex with
  | none => (pAura, [])
  | some ctx =>
    if ctx.eState = CPUContextState.CAPTURED_LIGHT then
      let pAura := pAura.modifyContext i propagateIndex (fun ctx =>
        { ctx with eState := CPUContextState.PROPAGATED_LIGHT })
      let pAura :=
        match pAura.contextAt i propagateIndex with
        | some ctx => pAura.modifyCascade i (fun c => { c with mApplyState := ctx.getApplyState })
        | none => pAura
      let pAura := pAura.modifyContext i propagateIndex (fun ctx =>
        { ctx with eState := CPUContextState.APPLIED_PROPAGATION })
      (pAura, [Call.processData i propagateIndex, Call.applyData i propagateIndex])
    else (pAura, [])

/-- The first loop of the CPU branch of `propagateLight(Aura)`: capture every cascade into
its context `readIndex`. -/
def captureLight (pAura : Aura) : Aura × List Call :=
  forEachCascade pAura (captureTurn (readIndex pAura))

/-- The second loop of the CPU branch of `propagateLight(Aura)`: process and apply the
context `propagateIndex` of every cascade where it holds captured light. -/
def applyPropagation (propagateIndex : ℕ) (pAura : Aura) : Aura × List Call :=
  forEachCascade pAura (applyTurn propagateIndex)

/-- The CPU branch of `propagateLight(Aura)`: the capture loop, then the propagate loop;
both indices are computed from the frame counters, which neither loop changes. -/
def propagateLightCPU (pAura : Aura) : Aura × List Call :=
  let captured := captureLight pAura
  let applied := applyPropagation (propagateIndex pAura) captured.1
  (applied.1, captured.2 ++ applied.2)

/-- The GPU branch of `propagateLight(Aura)`. -/
def propagateLightGPU (cfg : Config) (pAura : Aura) : Aura × List Call :=
  if doAlternateGPUUpdates cfg pAura then
    let srvBarriers := (List.range NUM_GRIDS_PER_CASCADE).map (fun i =>
      (⟨Resource.pLightGrids pAura.mGPUPropagationCurrentGrid i,
        ResourceState.RESOURCE_STATE_RENDER_TARGET,
        ResourceState.RESOURCE_STATE_SHADER_RESOURCE⟩ : Barrier))
    let r := propagateLight cfg pAura pAura.mGPUPropagationCurrentGrid
    (r.1, [Call.cmdResourceBarrierRenderTargets srvBarriers] ++ r.2)
  else
    let pSrvBarriers := (List.range pAura.mCascadeCount).flatMap (fun i =>
      (List.range NUM_GRIDS_PER_CASCADE).map (fun j =>
        (⟨Resource.pLightGrids i j, ResourceState.RESOURCE_STATE_RENDER_TARGET,
          ResourceState.RESOURCE_STATE_SHADER_RESOURCE⟩ : Barrier)))
    let r := forEachCascade pAura (fun i a => propagateLight cfg a i)
    (r.1, [Call.cmdResourceBarrierRenderTargets pSrvBarriers] ++ r.2)

/-- `propagateLight(Cmd*, Renderer*, ITaskManager*, Aura*)`. -/
def propagateLightAura (cfg : Config) (pAura : Aura) : Aura × List Call :=
  if cfg.ENABLE_CPU_PROPAGATION then
    let reload :=
      if (pAura.bUseCPUPropagationPreviousFrame != pAura.mParams.bUseCPUPropagation)
          && pAura.mParams.bUseCPUPropagation then
        let u := unloadCPUPropagationResources cfg pAura
        let l := loadCPUPropagationResources cfg u.1
        (l.1, u.2 ++ l.2)
      else (pAura, [])
    let pAura := { reload.1 with
      bUseCPUPropagationPreviousFrame := reload.1.mParams.bUseCPUPropagation }
    let r := if pAura.mParams.bUseCPUPropagation then propagateLightCPU pAura
      else propagateLightGPU cfg pAura
    (r.1, reload.2 ++ r.2)
  else
    propagateLightGPU cfg pAura

/-! ## Closed forms and sample values used in the statements below -/

/-- The grid-to-world matrix of a cube of edge `span` centred at `s`: the unit cube
`[0, 1]^3` scaled by `span` and moved so that its centre lands on `s`. -/
def gridToWorldOf (span : ℚ) (s : vec3) : mat4 :=
  ⟨⟨span, 0, 0, s.x - span / 2⟩, ⟨0, span, 0, s.y - span / 2⟩, ⟨0, 0, span, s.z - span / 2⟩,
   ⟨0, 0, 0, 1⟩⟩

/-- The inverse of `gridToWorldOf span s` for a non-zero `span`. -/
def worldToGridOf (span : ℚ) (s : vec3) : mat4 :=
  ⟨⟨1 / span, 0, 0, 1 / 2 - s.x / span⟩, ⟨0, 1 / span, 0, 1 / 2 - s.y / span⟩,
   ⟨0, 0, 1 / span, 1 / 2 - s.z / span⟩, ⟨0, 0, 0, 1⟩⟩

/-- The snapped centre of `beginFrame(cascade)`: the centre it asks for, after the "Snap
to grid" statements of `setGridCenter`. -/
def frameSnappedCenter (cfg : Config) (pCascade : LightPropagationCascade)
    (camPos camDir : vec3) : vec3 :=
  snapToGrid (getCellSize cfg pCascade) (frameGridCenter cfg pCascade camPos camDir)

/-- A sample cascade state: identity matrices, unit scale, zero translation and offset. -/
def sampleState : CascadeState :=
  ⟨mat4.identity, mat4.identity, ⟨1, 1, 1⟩, ⟨0, 0, 0⟩, ⟨0, 0, 0⟩⟩

/-- A sample configuration: `GridRes = 32`, `CASCADE_NOT_MOVING = 1`, compute shaders, no
CPU propagation. -/
def sampleConfig : Config :=
  { GridRes := 32
    WorkGroupSize := 4
    MAX_FRAMES := 3
    CASCADE_NOT_MOVING := 1
    RESOURCE_STATE_LPV := ResourceState.RESOURCE_STATE_UNORDERED_ACCESS
    USE_COMPUTE_SHADERS := true
    ENABLE_CPU_PROPAGATION := false
    PRESCALE_LIGHT_VALUES := false
    loadedContext := ⟨CPUContextState.APPLIED_PROPAGATION, sampleState⟩ }

/-- A sample cascade of span 32 (cell size 1) with the given flag word. -/
def sampleCascade (mFlags : ℕ) : LightPropagationCascade :=
  ⟨32, 1, mFlags, true, sampleState, sampleState⟩

/-- The apply states of all cascades, in the order of `pCascades`. -/
def Aura.applyStates (pAura : Aura) : List CascadeState :=
  pAura.pCascades.map (fun c => c.mApplyState)

/-- The state after consecutive calls of `beginFrame(Aura)`, one for each entry
`(camPos, camDir)` of the list. -/
def beginFrames (cfg : Config) (pAura : Aura) : List (vec3 × vec3) → Aura
  | [] => pAura
  | f :: fs => beginFrames cfg (beginFrame cfg pAura f.1 f.2) fs

/-- The value of `mGPUPropagationCurrentGrid` after each of the consecutive calls of
`beginFrame(Aura)`, one for each entry `(camPos, camDir)` of the list. -/
def selectedGrids (cfg : Config) (pAura : Aura) : List (vec3 × vec3) → List ℕ
  | [] => []
  | f :: fs =>
    (beginFrame cfg pAura f.1 f.2).mGPUPropagationCurrentGrid ::
      selectedGrids cfg (beginFrame cfg pAura f.1 f.2) fs

/-- A sample `Aura` of three cascades, GPU propagation, four propagation steps. -/
def sampleAura (bAlternateGPUUpdates : Bool) (mGPUPropagationCurrentGrid : ℕ) : Aura :=
  { mParams :=
      { bUseMultipleReflections := false
        bAlternateGPUUpdates := bAlternateGPUUpdates
        bUseCPUPropagation := false
        iPropagationSteps := 4
        fPropagationScale := 1 }
    mOptions := 0
    mCascadeCount := 3
    pCascades :=
      [setGridCenter sampleConfig (sampleCascade 0) ⟨1, 0, 0⟩,
       setGridCenter sampleConfig (sampleCascade 0) ⟨2, 0, 0⟩,
       setGridCenter sampleConfig (sampleCascade 1) ⟨3, 0, 0⟩]
    mGPUPropagationCurrentGrid := mGPUPropagationCurrentGrid
    mFrameIdx := 0
    mInFlightFrameCount := 2
    bUseCPUPropagationPreviousFrame := false
    m_CPUContexts := [] }

/-- Modelled from the spec: `max(vec3, vec3)` of `Math/AuraVector.h`, which is not among
the sources; the componentwise maximum, as the `XBOX` branch of `getGridBounds` spells it
out. -/
def vec3.max (a b : vec3) : vec3 := ⟨Max.max a.x b.x, Max.max a.y b.y, Max.max a.z b.z⟩

/-- Modelled from the spec: `sqrf` of `Math/AuraVector.h`, which is not among the sources;
the square of its argument. -/
def sqrf (x : ℚ) : ℚ := x * x

/-- One entry `cascade[i]` of `LightApplyData`. -/
structure CascadeApplyData where
  WorldToGridScale : vec3
  WorldToGridTranslate : vec3
  cellFalloff : float4
  lightScale : ℚ
  smoothGridPosOffset : vec3
  deriving DecidableEq

/-- The `LightApplyData` block filled by `getLightApplyData`; `cascade` holds the entries
the function writes, `cascade[0]` to `cascade[mCascadeCount - 1]`. -/
structure LightApplyData where
  camPos : vec3
  invMvp : mat4
  lumScale : vec3
  normalScale : vec3
  cascadeCount : ℕ
  GIStrength : ℚ
  cascade : List CascadeApplyData
  deriving DecidableEq

/-- The body of the loop of `getLightApplyData` for cascade `i`. A read of `fLightScale[i]`
outside the array (undefined behaviour in the source) gives 0. -/
def cascadeApplyData (cfg : Config) (pAura : Aura) (i : ℕ) (pCascade : LightPropagationCascade) :
    CascadeApplyData :=
  let cellSize := pCascade.mGridSpan / (cfg.GridRes : ℚ)
  { WorldToGridScale := pCascade.mApplyState.mWorldToGridScale
    WorldToGridTranslate := pCascade.mApplyState.mWorldToGridTranslate
    cellFalloff :=
      ⟨1 / sqrf (cellSize * (1 / 2)), 1 / sqrf (cellSize * (3 / 4)), 1 / cellSize,
        1 / sqrf (cellSize * (3 / 2))⟩
    lightScale := pAura.mParams.fLightScale.getD i 0
    smoothGridPosOffset := pCascade.mApplyState.mSmoothTCOffset }

/-- `getLightApplyData`. A cascade index outside `pCascades` (undefined behaviour in the
source) writes no entry. -/
def getLightApplyData (cfg : Config) (pAura : Aura) (invVP : mat4) (camPos : vec3) :
    LightApplyData :=
  { camPos := camPos
    invMvp := invVP.transpose
    lumScale := ⟨pAura.mParams.fFresnel, pAura.mParams.fSpecScale, pAura.mParams.fSpecPow⟩
    normalScale := ⟨1 / (cfg.GridRes : ℚ), 1 / (cfg.GridRes : ℚ), 1 / (cfg.GridRes : ℚ)⟩
    cascadeCount := pAura.mCascadeCount
    GIStrength := pAura.mParams.fGIStrength
    cascade := (List.range pAura.mCascadeCount).filterMap
      (fun i => (pAura.pCascades[i]?).map (cascadeApplyData cfg pAura i)) }

/-- Two cascades that agree in every field but `mInjectState`. -/
def LightPropagationCascade.sameExceptInjectState (c d : LightPropagationCascade) : Prop :=
  c.mGridSpan = d.mGridSpan ∧ c.mGridIntensity = d.mGridIntensity ∧ c.mFlags = d.mFlags ∧
    c.mOccludersInjected = d.mOccludersInjected ∧ c.mApplyState = d.mApplyState

/-- Two `Aura` states that differ only in the `mInjectState` of their cascades. -/
def Aura.sameExceptInjectState (a b : Aura) : Prop :=
  a.mParams = b.mParams ∧ a.mOptions = b.mOptions ∧ a.mCascadeCount = b.mCascadeCount ∧
    List.Forall₂ LightPropagationCascade.sameExceptInjectState a.pCascades b.pCascades ∧
    a.mGPUPropagationCurrentGrid = b.mGPUPropagationCurrentGrid ∧ a.mFrameIdx = b.mFrameIdx ∧
    a.mInFlightFrameCount = b.mInFlightFrameCount ∧
    a.bUseCPUPropagationPreviousFrame = b.bUseCPUPropagationPreviousFrame ∧
    a.m_CPUContexts = b.m_CPUContexts

/-- The sample `Aura` with alternate mode off, every cascade recentred at `(5, 0, 0)`: it
differs from `sampleAura false 0` in the inject states only. -/
def sampleAuraMoved : Aura :=
  { sampleAura false 0 with
    pCascades := (sampleAura false 0).pCascades.map
      (fun c => setGridCenter sampleConfig c ⟨5, 0, 0⟩) }
/-- The value of `bPhase` on entry to the turn with counter `i` of the loop of
`propagateLight(cascade)`: the loop starts at `i = 1` with `true` and flips the flag at
the end of every turn, so the flag is `true` exactly in the turns with an odd counter. -/
def phaseAt (i : ℕ) : Bool := decide (i % 2 = 1)

/-- One call seen by a reader of the command stream who keeps the pipeline bound last and
the pipelines of the passes issued so far: `cmdBindPipeline` changes the pipeline, a
dispatch or draw is a pass of the pipeline bound at that point. -/
def passStep (s : Option Pipeline × List Pipeline) (c : Call) : Option Pipeline × List Pipeline :=
  match c with
  | Call.cmdBindPipeline p => (some p, s.2)
  | Call.cmdDispatch _ _ _ =>
    match s.1 with
    | some p => (s.1, s.2 ++ [p])
    | none => s
  | Call.cmdDrawInstanced _ _ _ _ =>
    match s.1 with
    | some p => (s.1, s.2 ++ [p])
    | none => s
  | Call.cmdDraw _ _ =>
    match s.1 with
    | some p => (s.1, s.2 ++ [p])
    | none => s
  | _ => s

/-- The passes (dispatches and draws) of a call list, each named by the pipeline bound
when it is issued, in order. -/
def issuedPasses (calls : List Call) : List Pipeline :=
  (calls.foldl passStep (none, [])).2

/-- Whether a pipeline is one of the propagation pipelines (`pPipelineLightPropagate1` or
`pPipelineLightPropagateN`). -/
def isPropagationPipeline : Pipeline → Bool
  | Pipeline.pPipelineLightPropagate1 _ => true
  | Pipeline.pPipelineLightPropagateN _ => true
  | _ => false

/-- The sample `Aura` with alternate mode off and the given number of propagation steps. -/
def sampleAuraWithSteps (iPropagationSteps : ℕ) : Aura :=
  { sampleAura false 0 with
    mParams := { (sampleAura false 0).mParams with iPropagationSteps := iPropagationSteps } }
/-- The textures one descriptor of a propagation or copy descriptor set names after
`initAura`: those bound as the array `LPVGrid`, as `workCoeffs0..2` and as `RWGrid0..2`. -/
structure GridDescriptor where
  LPVGrid : List Resource
  workCoeffs : List Resource
  RWGrid : List Resource
  deriving DecidableEq

/-- The `mCount` textures starting at `ppTextures = base`, for a binding with
`mCount = mCascadeCount`; `tex k` is the texture `base[k]`. -/
def textureWindow (pAura : Aura) (tex : ℕ → Resource) : List Resource :=
  (List.range pAura.mCascadeCount).map tex

/-- The descriptor `initAura` writes into `pDescriptorSetLightPropagate1` at index
`cascade` ("Light propagate 1"). -/
def initAuraLightPropagate1 (cfg : Config) (pAura : Aura) (cascade : ℕ) : GridDescriptor :=
  if cfg.USE_COMPUTE_SHADERS then
    { LPVGrid := textureWindow pAura (fun k => Resource.pLightGrids cascade (0 + k))
      workCoeffs := [Resource.pWorkingGrids 0, Resource.pWorkingGrids 1, Resource.pWorkingGrids 2]
      RWGrid := [] }
  else
    { LPVGrid := textureWindow pAura (fun k => Resource.pLightGrids cascade (0 + k))
      workCoeffs := []
      RWGrid := [] }

/-- The descriptor `initAura` writes into `pDescriptorSetLightPropagateN` at index
`cascade * 2 + i`, for `i = 0, 1` ("Light propagate N"): `LPVGrid` starts at
`pWorkingTex + 3 * (i & 1)`, `workCoeffs0..2` at `pWorkingTex + 3 * !(i & 1)`. -/
def initAuraLightPropagateN (cfg : Config) (pAura : Aura) (cascade i : ℕ) : GridDescriptor :=
  let odd : ℕ := i &&& 1
  let notOdd : ℕ := if (i &&& 1) = 0 then 1 else 0
  if cfg.USE_COMPUTE_SHADERS then
    { LPVGrid := textureWindow pAura (fun k => Resource.pWorkingGrids (3 * odd + 0 + k))
      workCoeffs := [Resource.pWorkingGrids (3 * notOdd + 0),
        Resource.pWorkingGrids (3 * notOdd + 1), Resource.pWorkingGrids (3 * notOdd + 2)]
      RWGrid := [Resource.pLightGrids cascade 0, Resource.pLightGrids cascade 1,
        Resource.pLightGrids cascade 2] }
  else
    { LPVGrid := textureWindow pAura (fun k => Resource.pWorkingGrids (3 * odd + 0 + k))
      workCoeffs := []
      RWGrid := [] }

/-- The descriptor sets of the propagation passes as `initAura` leaves them: the descriptor
at `index` of `pDescriptorSetLightPropagate1` (written for `index = cascade`) or of
`pDescriptorSetLightPropagateN` (written for `index = cascade * 2 + i`, `i < 2`), for the
cascades below `mCascadeCount`; `none` where `initAura` writes nothing. -/
def initAuraDescriptor (cfg : Config) (pAura : Aura) (set : DescriptorSet) (index : ℕ) :
    Option GridDescriptor :=
  match set with
  | DescriptorSet.pDescriptorSetLightPropagate1 =>
    if index < pAura.mCascadeCount then some (initAuraLightPropagate1 cfg pAura index) else none
  | DescriptorSet.pDescriptorSetLightPropagateN =>
    if index / 2 < pAura.mCascadeCount then
      some (initAuraLightPropagateN cfg pAura (index / 2) (index % 2))
    else none
  | _ => none

/-- The working set a working grid belongs to: set 0 is `pWorkingGrids[0..2]`, set 1 is
`pWorkingGrids[3..5]`; a cascade grid belongs to none. -/
def workingSet : Resource → Option ℕ
  | Resource.pWorkingGrids j => if j < 6 then some (j / 3) else none
  | Resource.pLightGrids _ _ => none

/-- The descriptor index `cascade * 2 + !(i & 0x1)` bound for the `PropagateN` pass of the
turn with counter `i`. -/
def propagateNIndex (cascade i : ℕ) : ℕ := cascade * 2 + (if (i &&& 1) = 0 then 1 else 0)

/-- The grids a propagation pass of the turn with flag `bPhase` writes, chosen through
`bPhase`: `pWorkingGrids + 3 * bPhase`, bound as render targets when compute shaders are
off and moved out of the writable state by the barrier after the pass in either build. -/
def phaseTargets (bPhase : Bool) : List Resource :=
  gridTriple (fun k => Resource.pWorkingGrids (3 * (if bPhase then 1 else 0) + k))
/-- What a reader of the command stream tracks: the state of every resource, the pipeline,
descriptor and render targets bound last, and whether every check so far has passed. -/
structure Tracker where
  state : Resource → ResourceState
  pipeline : Option Pipeline
  descriptor : Option (DescriptorSet × ℕ)
  targets : List Resource
  ok : Bool

/-- One barrier: its declared current state must be the tracked state of its resource,
which then moves to the new state. -/
def Tracker.barrier (t : Tracker) (b : Barrier) : Tracker :=
  { t with
    ok := t.ok && decide (t.state b.resource = b.mCurrentState)
    state := fun r => if r = b.resource then b.mNewState else t.state r }

/-- The textures the pass about to be issued reads: the `LPVGrid` array of the descriptor
bound last, as `initAura` filled it. -/
def Tracker.reads (cfg : Config) (pAura : Aura) (t : Tracker) : List Resource :=
  match t.descriptor with
  | some (set, index) =>
    match initAuraDescriptor cfg pAura set index with
    | some d => d.LPVGrid
    | none => []
  | none => []

/-- The textures the propagation pass about to be issued writes: with compute shaders the
`workCoeffs0..2` and `RWGrid0..2` of the descriptor bound last, without them the render
targets bound last. -/
def Tracker.writes (cfg : Config) (pAura : Aura) (t : Tracker) : List Resource :=
  if cfg.USE_COMPUTE_SHADERS then
    match t.descriptor with
    | some (set, index) =>
      match initAuraDescriptor cfg pAura set index with
      | some d => d.workCoeffs ++ d.RWGrid
      | none => []
    | none => []
  else t.targets

/-- One pass (dispatch or draw). For a pass of a propagation pipeline every texture read
must be in `RESOURCE_STATE_SHADER_RESOURCE`, every texture written in the writable state,
and no texture may be both read and written. -/
def Tracker.pass (cfg : Config) (pAura : Aura) (t : Tracker) : Tracker :=
  match t.pipeline with
  | some p =>
    if isPropagationPipeline p then
      { t with
        ok := t.ok &&
          (t.reads cfg pAura).all
            (fun r => decide (t.state r = ResourceState.RESOURCE_STATE_SHADER_RESOURCE)) &&
          (t.writes cfg pAura).all (fun r => decide (t.state r = writableState cfg)) &&
          (t.reads cfg pAura).all (fun r => !(t.writes cfg pAura).contains r) }
    else t
  | none => t

/-- One call as the tracker sees it. -/
def Tracker.step (cfg : Config) (pAura : Aura) (t : Tracker) (c : Call) : Tracker :=
  match c with
  | Call.cmdResourceBarrierTextures barriers => barriers.foldl Tracker.barrier t
  | Call.cmdResourceBarrierRenderTargets barriers => barriers.foldl Tracker.barrier t
  | Call.cmdBindPipeline p => { t with pipeline := some p }
  | Call.cmdBindDescriptorSet index set => { t with descriptor := some (set, index) }
  | Call.cmdBindRenderTargets targets _ => { t with targets := targets }
  | Call.cmdDispatch _ _ _ => t.pass cfg pAura
  | Call.cmdDrawInstanced _ _ _ _ => t.pass cfg pAura
  | Call.cmdDraw _ _ => t.pass cfg pAura
  | _ => t

/-- A call list as the tracker sees it, from the tracker state `t`. -/
def Tracker.run (cfg : Config) (pAura : Aura) (t : Tracker) (calls : List Call) : Tracker :=
  calls.foldl (Tracker.step cfg pAura) t

/-- The tracker before any call, with the resource states `state`. -/
def Tracker.start (state : Resource → ResourceState) : Tracker :=
  { state := state, pipeline := none, descriptor := none, targets := [], ok := true }

/-- The resource states on entry to the turn with counter `i` of the loop of
`propagateLight(cascade)`: every check so far has passed, working set `i mod 2` (to be
written) is writable, working set `(i + 1) mod 2` (to be read) is in
`RESOURCE_STATE_SHADER_RESOURCE`, and the grids of the cascade are writable. -/
def Tracker.pingPong (cfg : Config) (cascade : ℕ) (t : Tracker) (i : ℕ) : Prop :=
  t.ok = true ∧
    (∀ k : ℕ, k < 3 → t.state (Resource.pWorkingGrids (3 * (i % 2) + k)) = writableState cfg) ∧
    (∀ k : ℕ, k < 3 → t.state (Resource.pWorkingGrids (3 * ((i + 1) % 2) + k)) =
      ResourceState.RESOURCE_STATE_SHADER_RESOURCE) ∧
    (∀ k : ℕ, k < 3 → t.state (Resource.pLightGrids cascade k) = writableState cfg)

/-- Sample resource states on entry to `propagateLight(cascade)`: every working grid in the
writable state, every cascade grid in `RESOURCE_STATE_SHADER_RESOURCE`. -/
def sampleEntryStates (cfg : Config) : Resource → ResourceState
  | Resource.pWorkingGrids _ => writableState cfg
  | Resource.pLightGrids _ _ => ResourceState.RESOURCE_STATE_SHADER_RESOURCE

/-- What the propagate loop of the CPU branch leaves in a context that it visits: a context
holding captured light ends in `APPLIED_PROPAGATION`, any other context is left as it is. -/
def appliedContext (ctx : LightPropagationCPUContext) : LightPropagationCPUContext :=
  if ctx.eState = CPUContextState.CAPTURED_LIGHT then
    { ctx with eState := CPUContextState.APPLIED_PROPAGATION }
  else ctx

/-- What the propagate loop of the CPU branch leaves in a cascade, given the context it
looks at for that cascade: the apply state stored in a context holding captured light is
copied into `mApplyState`, otherwise the cascade is left as it is. -/
def appliedCascade (ctx : Option LightPropagationCPUContext) (c : LightPropagationCascade) :
    LightPropagationCascade :=
  match ctx with
  | some ctx =>
    if ctx.eState = CPUContextState.CAPTURED_LIGHT then { c with mApplyState := ctx.getApplyState }
    else c
  | none => c

/-- The calls the propagate loop of the CPU branch issues for cascade `i`, given the context
it looks at for that cascade. -/
def applyCalls (propagateIndex i : ℕ) (ctx : Option LightPropagationCPUContext) : List Call :=
  match ctx with
  | some ctx =>
    if ctx.eState = CPUContextState.CAPTURED_LIGHT then
      [Call.processData i propagateIndex, Call.applyData i propagateIndex]
    else []
  | none => []

/-- The sample configuration built with `ENABLE_CPU_PROPAGATION`. -/
def sampleConfigCPU : Config := { sampleConfig with ENABLE_CPU_PROPAGATION := true }

/-- The sample `Aura` on the CPU path: CPU propagation on in this frame and the one before,
`NUM_GRIDS_PER_CASCADE` contexts per cascade as `loadCPUPropagationResources` leaves them,
and the given frame counters. -/
def sampleAuraCPU (mFrameIdx mInFlightFrameCount : ℕ) : Aura :=
  { sampleAura false 0 with
    mParams := { (sampleAura false 0).mParams with bUseCPUPropagation := true }
    mFrameIdx := mFrameIdx
    mInFlightFrameCount := mInFlightFrameCount
    bUseCPUPropagationPreviousFrame := true
    m_CPUContexts := List.replicate 3
      (List.replicate NUM_GRIDS_PER_CASCADE sampleConfigCPU.loadedContext) }

/-- What the capture loop of the CPU branch leaves in the context it visits for a cascade:
the injection state of the cascade as stored apply state, and `CAPTURED_LIGHT`. -/
def capturedContext (c : Option LightPropagationCascade) (ctx : LightPropagationCPUContext) :
    LightPropagationCPUContext :=
  match c with
  | some c => ⟨CPUContextState.CAPTURED_LIGHT, c.mInjectState⟩
  | none => ctx

/-- The calls the capture loop of the CPU branch issues for cascade `i`. -/
def captureCalls (readIndex i : ℕ) (c : Option LightPropagationCascade) : List Call :=
  match c with
  | some _ => [Call.readData i readIndex]
  | none => []

/-- The sample cascade with another span. -/
def sampleCascadeOfSpan (mGridSpan : ℚ) : LightPropagationCascade :=
  { sampleCascade 0 with mGridSpan := mGridSpan }

/-- The array `ppTextures` that the first loop of `drawLpvVisualization` fills: entry
`i * NUM_GRIDS_PER_CASCADE + j` is the texture of `pCascades[i]->pLightGrids[j]`, for
`i < mCascadeCount` and `j < NUM_GRIDS_PER_CASCADE`. -/
def ppTextures (pAura : Aura) : List Resource :=
  (List.range pAura.mCascadeCount).flatMap
    (fun i => (List.range NUM_GRIDS_PER_CASCADE).map (fun j => Resource.pLightGrids i j))

/-- What `drawLpvVisualization` hands to the renderer, as far as the grids and the per-frame
indices go: the render-target barriers of its first `cmdResourceBarrier`, the index of the
uniform buffer it updates, the textures bound as `LPVGrid` (`none` for a slot read outside
`ppTextures`), the index of the descriptor set it updates and binds, and the barriers of its
last `cmdResourceBarrier`. -/
structure VisualizationPass where
  pRenderTargetBarriers : List Barrier
  uniformBuffer : ℕ
  LPVGrid : List (Option Resource)
  descriptorSet : ℕ
  resetBarriers : List Barrier
  deriving DecidableEq

/-- `drawLpvVisualization`. The matrices, the probe radius, the depth target and the draw
itself are left out; `LPVGrid` is bound with `ppTextures = &ppTextures[cascadeIndex *
mCascadeCount + 0]` and `mCount = mCascadeCount`, the product being taken in `uint32_t`. -/
def drawLpvVisualization (cfg : Config) (pAura : Aura) (cascadeIndex : ℕ) : VisualizationPass :=
  let first := (cascadeIndex * pAura.mCascadeCount) % UINT32 + 0
  { pRenderTargetBarriers := (List.range pAura.mCascadeCount).flatMap (fun i =>
      (List.range NUM_GRIDS_PER_CASCADE).map (fun j =>
        (⟨Resource.pLightGrids i j, cfg.RESOURCE_STATE_LPV,
          ResourceState.RESOURCE_STATE_SHADER_RESOURCE⟩ : Barrier)))
    uniformBuffer := pAura.mFrameIdx
    LPVGrid := (List.range pAura.mCascadeCount).map (fun k => (ppTextures pAura)[first + k]?)
    descriptorSet := pAura.mFrameIdx
    resetBarriers := (List.range pAura.mCascadeCount).flatMap (fun i =>
      (List.range NUM_GRIDS_PER_CASCADE).map (fun j =>
        (⟨Resource.pLightGrids i j, ResourceState.RESOURCE_STATE_SHADER_RESOURCE,
          cfg.RESOURCE_STATE_LPV⟩ : Barrier))) }

/-- The sample `Aura` with `n` cascades of span 32. -/
def sampleAuraOfCount (n : ℕ) : Aura :=
  { sampleAura false 0 with mCascadeCount := n, pCascades := List.replicate n (sampleCascade 0) }

/-- The number of descriptors `initAura` asks for in each descriptor set ("Add Descriptor
Sets"); the products are taken in `uint32_t`. -/
def initAuraDescriptorSetCount (cfg : Config) (pAura : Aura) : DescriptorSet → ℕ
  | DescriptorSet.pDescriptorSetInjectRSMLight => (pAura.mCascadeCount * cfg.MAX_FRAMES) % UINT32
  | DescriptorSet.pDescriptorSetLightPropagate1 => pAura.mCascadeCount
  | DescriptorSet.pDescriptorSetLightPropagateN => (pAura.mCascadeCount * 2) % UINT32
  | DescriptorSet.pDescriptorSetLightCopy =>
    if cfg.USE_COMPUTE_SHADERS then pAura.mCascadeCount else (pAura.mCascadeCount * 2) % UINT32
  | DescriptorSet.pDescriptorSetVisualizeLPV => cfg.MAX_FRAMES

/-- The number of frames for which `initAura` creates uniform buffers ("Add uniform
buffers"): for every `i < MAX_FRAMES` the row `pUniformBufferInjectRSM[i]` of `mCascadeCount`
buffers and the buffer `pUniformBufferVisualizationData[i]`. -/
def initAuraUniformBufferFrames (cfg : Config) : ℕ := cfg.MAX_FRAMES

/-- The state after `k` calls of `endFrame`. -/
def endFrames (cfg : Config) : ℕ → Aura → Aura
  | 0, pAura => pAura
  | k + 1, pAura => (endFrame cfg (endFrames cfg k pAura)).1


/-! ## binary32 arithmetic

The cascade functions above carry out the `float` arithmetic of the source without
rounding. This section gives the same functions with the result of every arithmetic
operation rounded to binary32 (IEEE 754 single precision, round to nearest, ties to even),
as the source computes them. Infinities and NaN are not modelled: the rounding `fl` keeps
rounding with an unbounded exponent above `FLT_MAX`, and a quotient by zero is the `0` of
the rationals; every statement about these functions is made at values inside the binary32
range and with non-zero divisors. -/

/-- Rounding to the nearest integer, a tie going to the even neighbour: the rounding of the
last kept bit in binary32 arithmetic. -/
def roundHalfEven (x : ℚ) : ℤ :=
  if x - (⌊x⌋ : ℚ) < 1 / 2 then ⌊x⌋
  else if 1 / 2 < x - (⌊x⌋ : ℚ) then ⌊x⌋ + 1
  else if ⌊x⌋ % 2 = 0 then ⌊x⌋ else ⌊x⌋ + 1

/-- The exponent of the unit in the last place of binary32 at `x`: `e - 23` when
`2 ^ e <= |x| < 2 ^ (e + 1)` with `e >= -126`, and `-149` below the smallest normal number
`2 ^ -126`. -/
def ulpExponent (x : ℚ) : ℤ := max (Int.log 2 |x|) (-126) - 23

/-- The binary32 value that an arithmetic result `x` is rounded to: the multiple of the unit
in the last place nearest to `x`, a tie going to the even multiple. -/
def fl (x : ℚ) : ℚ := (roundHalfEven (x / 2 ^ ulpExponent x) : ℚ) * 2 ^ ulpExponent x

/-- The largest finite binary32 value, `(2 ^ 24 - 1) * 2 ^ 104`. -/
def FLT_MAX : ℚ := (2 ^ 24 - 1) * 2 ^ 104

/-- The rational `x` is a finite binary32 value: rounding leaves it as it is, and it is not
beyond `FLT_MAX`. An operation whose exact result is such a value returns it unchanged. -/
def binary32 (x : ℚ) : Prop := fl x = x ∧ |x| ≤ FLT_MAX

instance (x : ℚ) : Decidable (binary32 x) := by
  unfold binary32
  infer_instance

/-- All three components of a vector are finite binary32 values. -/
def binary32V (v : vec3) : Prop := binary32 v.x ∧ binary32 v.y ∧ binary32 v.z

instance (v : vec3) : Decidable (binary32V v) := by
  unfold binary32V
  infer_instance

namespace f32

/-- The `float` sum `x + y`. -/
def add (x y : ℚ) : ℚ := fl (x + y)

/-- The `float` difference `x - y`. -/
def sub (x y : ℚ) : ℚ := fl (x - y)

/-- The `float` product `x * y`. -/
def mul (x y : ℚ) : ℚ := fl (x * y)

/-- The `float` quotient `x / y`, for `y` other than zero. -/
def div (x y : ℚ) : ℚ := fl (x / y)

/-- Componentwise `a + b` of two `vec3`. -/
def add3 (a b : vec3) : vec3 := ⟨add a.x b.x, add a.y b.y, add a.z b.z⟩

/-- The operator `v / s` (and `v /= s`) of a `vec3` with a scalar: one rounded division
for each component. -/
def divS (v : vec3) (s : ℚ) : vec3 := ⟨div v.x s, div v.y s, div v.z s⟩

/-- The operator `v * s` (and `v *= s`) of a `vec3` with a scalar: one rounded product for
each component. -/
def mulS (v : vec3) (s : ℚ) : vec3 := ⟨mul v.x s, mul v.y s, mul v.z s⟩

/-- Componentwise `a - b` of two `float4`. -/
def sub4 (a b : float4) : float4 := ⟨sub a.x b.x, sub a.y b.y, sub a.z b.z, sub a.w b.w⟩

/-- The dot product of two four-vectors, every product and every partial sum rounded, the
sum taken from the first component on. -/
def dot (a b : float4) : ℚ :=
  add (add (add (mul a.x b.x) (mul a.y b.y)) (mul a.z b.z)) (mul a.w b.w)

/-- Modelled from the spec: `mat4 * float4` of `Math/AuraVector.h`, which is not among
the sources, in `float` arithmetic; each component the dot product of a row with the
vector. -/
def mulVec (m : mat4) (v : float4) : float4 :=
  ⟨dot m.rows0 v, dot m.rows1 v, dot m.rows2 v, dot m.rows3 v⟩

/-- Modelled from the spec: `mat4 * mat4` of `Math/AuraVector.h`, which is not among the
sources, in `float` arithmetic; rows of the left factor against columns of the right. -/
def mulMat (a b : mat4) : mat4 :=
  ⟨⟨dot a.rows0 (b.col 0), dot a.rows0 (b.col 1), dot a.rows0 (b.col 2), dot a.rows0 (b.col 3)⟩,
   ⟨dot a.rows1 (b.col 0), dot a.rows1 (b.col 1), dot a.rows1 (b.col 2), dot a.rows1 (b.col 3)⟩,
   ⟨dot a.rows2 (b.col 0), dot a.rows2 (b.col 1), dot a.rows2 (b.col 2), dot a.rows2 (b.col 3)⟩,
   ⟨dot a.rows3 (b.col 0), dot a.rows3 (b.col 1), dot a.rows3 (b.col 2), dot a.rows3 (b.col 3)⟩⟩

/-- Every component of a four-vector rounded. -/
def round4 (v : float4) : float4 := ⟨fl v.x, fl v.y, fl v.z, fl v.w⟩

/-- Modelled from the spec: the operator `!m` of `Math/AuraVector.h`, which is not among
the sources, in `float` arithmetic: every entry of the inverse of the stored matrix,
rounded once. No `float` implementation of the inverse can store an entry closer to the
entry of the true inverse. -/
def inverse (m : mat4) : mat4 :=
  ⟨round4 m.inverse.rows0, round4 m.inverse.rows1, round4 m.inverse.rows2,
   round4 m.inverse.rows3⟩

/-- `getCellSize` in `float` arithmetic: `mGridSpan / GridRes`, the integer constant
converted to `float` first. -/
def getCellSize (cfg : Config) (pCascade : LightPropagationCascade) : ℚ :=
  div pCascade.mGridSpan (fl (cfg.GridRes : ℚ))

/-- `getSideHalf` in `float` arithmetic: `mGridSpan / 2.0f`. -/
def getSideHalf (pCascade : LightPropagationCascade) : ℚ :=
  div pCascade.mGridSpan 2

/-- The "Snap to grid" statements of `setGridCenter` in `float` arithmetic: divide by the
cell size, round every component with `roundf`, multiply by the cell size. The result of
`roundf` is not rounded again: the nearest integer to a binary32 value is a binary32
value. -/
def snapToGrid (cellSize : ℚ) (gridCenter : vec3) : vec3 :=
  let g := divS gridCenter cellSize
  let g : vec3 := ⟨roundf g.x, roundf g.y, roundf g.z⟩
  mulS g cellSize

/-- `setGridCenter` in `float` arithmetic. -/
def setGridCenter (cfg : Config) (pCascade : LightPropagationCascade) (gridCenter : vec3) :
    LightPropagationCascade :=
  let cellSize := getCellSize cfg pCascade
  let sideHalf := getSideHalf pCascade
  let smoothGridCenter := gridCenter
  let gridCenter := snapToGrid cellSize gridCenter
  let mGridToWorld := mulMat (mulMat (translate gridCenter) (scale sideHalf sideHalf sideHalf))
    (mulMat (translate3 (-1) (-1) (-1)) (scale 2 2 2))
  let mWorldToGrid := inverse mGridToWorld
  let mWorldToGridScale : vec3 := ⟨mWorldToGrid.rows0.x, mWorldToGrid.rows1.y, mWorldToGrid.rows2.z⟩
  let mWorldToGridTranslate : vec3 :=
    ⟨mWorldToGrid.rows0.w, mWorldToGrid.rows1.w, mWorldToGrid.rows2.w⟩
  let mSmoothTCOffset := (sub4 (mulVec mWorldToGrid (float4.ofVec3 gridCenter 1))
    (mulVec mWorldToGrid (float4.ofVec3 smoothGridCenter 1))).xyz
  { pCascade with
    mInjectState :=
      { mGridToWorld := mGridToWorld
        mWorldToGrid := mWorldToGrid
        mWorldToGridScale := mWorldToGridScale
        mWorldToGridTranslate := mWorldToGridTranslate
        mSmoothTCOffset := mSmoothTCOffset } }

/-- The centre `beginFrame` asks for, in `float` arithmetic: `camDir / maxOffset`, times
`sideHalf - 4 * cellSize`, added to `camPos`. `fabsf` and `max` return one of their
arguments (up to sign) and do not round. -/
def frameGridCenter (cfg : Config) (pCascade : LightPropagationCascade) (camPos camDir : vec3) :
    vec3 :=
  let cellSize := getCellSize cfg pCascade
  let sideHalf := getSideHalf pCascade
  let maxOffset := max (fabsf camDir.x) (fabsf camDir.y)
  let maxOffset := max maxOffset (fabsf camDir.z)
  let offset := divS camDir maxOffset
  let offset := mulS offset (sub sideHalf (mul 4 cellSize))
  add3 camPos offset

/-- The snapped centre of `beginFrame(cascade)` in `float` arithmetic: the centre it asks
for, after the "Snap to grid" statements of `setGridCenter`. -/
def frameSnappedCenter (cfg : Config) (pCascade : LightPropagationCascade)
    (camPos camDir : vec3) : vec3 :=
  snapToGrid (getCellSize cfg pCascade) (frameGridCenter cfg pCascade camPos camDir)

/-- `beginFrame(LightPropagationCascade*, camPos, camDir)` in `float` arithmetic. -/
def beginFrameCascade (cfg : Config) (pCascade : LightPropagationCascade) (camPos camDir : vec3) :
    LightPropagationCascade :=
  let gridCenter := frameGridCenter cfg pCascade camPos camDir
  let pCascade := if recenterGuard cfg pCascade.mFlags then setGridCenter cfg pCascade gridCenter
    else pCascade
  { pCascade with mOccludersInjected := false }

/-- The cell size is computed without rounding: `GridRes` and the quotient
`mGridSpan / GridRes` are binary32 values. -/
def cellExact (cfg : Config) (pCascade : LightPropagationCascade) : Prop :=
  binary32 (cfg.GridRes : ℚ) ∧ binary32 (aura.getCellSize cfg pCascade)

/-- The "Snap to grid" statements round nowhere: the three quotients by the cell size and
the three products with it are binary32 values. -/
def snapExact (cellSize : ℚ) (gridCenter : vec3) : Prop :=
  binary32V (gridCenter.divS cellSize) ∧ binary32V (aura.snapToGrid cellSize gridCenter)

/-- The statements of `beginFrame(cascade)` that compute the centre round nowhere:
`sideHalf`, `4 * cellSize`, their difference, the three quotients by `maxOffset`, their
products with the reach and the three sums with `camPos` are binary32 values. -/
def frameExact (cfg : Config) (pCascade : LightPropagationCascade) (camPos camDir : vec3) :
    Prop :=
  binary32 (aura.getSideHalf pCascade) ∧
  binary32 (4 * aura.getCellSize cfg pCascade) ∧
  binary32 (aura.getSideHalf pCascade - 4 * aura.getCellSize cfg pCascade) ∧
  binary32V (camDir.divS (max (max (fabsf camDir.x) (fabsf camDir.y)) (fabsf camDir.z))) ∧
  binary32V ((camDir.divS (max (max (fabsf camDir.x) (fabsf camDir.y)) (fabsf camDir.z))).mulS
    (aura.getSideHalf pCascade - 4 * aura.getCellSize cfg pCascade)) ∧
  binary32V (aura.frameGridCenter cfg pCascade camPos camDir)

/-- The entries of the two transforms of a cube of edge `span` centred at `s` are binary32
values, as are `span / 2` and the components of `s`: `span`, `s_i - span / 2`, `1 / span`
and `1/2 - s_i / span`. -/
def transformExact (span : ℚ) (s : vec3) : Prop :=
  binary32 (span / 2) ∧ binary32 span ∧ binary32V s ∧
  binary32V ⟨s.x - span / 2, s.y - span / 2, s.z - span / 2⟩ ∧
  binary32 (1 / span) ∧
  binary32V ⟨1 / 2 - s.x / span, 1 / 2 - s.y / span, 1 / 2 - s.z / span⟩

/-- The "Snap to grid" statements stay inside the binary32 range: the cell size is not
zero, and neither the three quotients by it nor the three products with it exceed `FLT_MAX`
in magnitude before they are rounded, so that no quotient is by zero and no result is an
infinity. -/
def snapFinite (cellSize : ℚ) (gridCenter : vec3) : Prop :=
  cellSize ≠ 0 ∧
  (|gridCenter.x / cellSize| ≤ FLT_MAX ∧ |gridCenter.y / cellSize| ≤ FLT_MAX ∧
    |gridCenter.z / cellSize| ≤ FLT_MAX) ∧
  (|roundf (div gridCenter.x cellSize) * cellSize| ≤ FLT_MAX ∧
    |roundf (div gridCenter.y cellSize) * cellSize| ≤ FLT_MAX ∧
    |roundf (div gridCenter.z cellSize) * cellSize| ≤ FLT_MAX)

/-- The statements of `beginFrame(cascade)` that compute the centre stay inside the
binary32 range: `sideHalf` and `4 * cellSize` are binary32 values, and `|camPos_i|` plus
the span does not exceed `FLT_MAX` on any axis, so that the sum with the offset is no
infinity. -/
def frameFinite (cfg : Config) (pCascade : LightPropagationCascade) (camPos : vec3) : Prop :=
  binary32 (aura.getSideHalf pCascade) ∧
  binary32 (4 * aura.getCellSize cfg pCascade) ∧
  |camPos.x| + pCascade.mGridSpan ≤ FLT_MAX ∧
  |camPos.y| + pCascade.mGridSpan ≤ FLT_MAX ∧
  |camPos.z| + pCascade.mGridSpan ≤ FLT_MAX

/-- The entries of the two transforms of a cube of edge `span` centred at `s` stay inside
the binary32 range: `span / 2` and `span` are binary32 values, and `s_i - span / 2`,
`1 / span` and the rounded `s_i - span / 2` divided by `span` do not exceed `FLT_MAX` in
magnitude. -/
def transformFinite (span : ℚ) (s : vec3) : Prop :=
  binary32 (span / 2) ∧ binary32 span ∧
  (|s.x - span / 2| ≤ FLT_MAX ∧ |s.y - span / 2| ≤ FLT_MAX ∧ |s.z - span / 2| ≤ FLT_MAX) ∧
  |1 / span| ≤ FLT_MAX ∧
  (|fl (s.x - span / 2) / span| ≤ FLT_MAX ∧ |fl (s.y - span / 2) / span| ≤ FLT_MAX ∧
    |fl (s.z - span / 2) / span| ≤ FLT_MAX)

instance (cfg : Config) (pCascade : LightPropagationCascade) :
    Decidable (cellExact cfg pCascade) := by
  unfold cellExact
  infer_instance

instance (cellSize : ℚ) (gridCenter : vec3) : Decidable (snapExact cellSize gridCenter) := by
  unfold snapExact
  infer_instance

instance (cfg : Config) (pCascade : LightPropagationCascade) (camPos camDir : vec3) :
    Decidable (frameExact cfg pCascade camPos camDir) := by
  unfold frameExact
  infer_instance

instance (span : ℚ) (s : vec3) : Decidable (transformExact span s) := by
  unfold transformExact
  infer_instance

instance (cellSize : ℚ) (gridCenter : vec3) : Decidable (snapFinite cellSize gridCenter) := by
  unfold snapFinite
  infer_instance

instance (cfg : Config) (pCascade : LightPropagationCascade) (camPos : vec3) :
    Decidable (frameFinite cfg pCascade camPos) := by
  unfold frameFinite
  infer_instance

instance (span : ℚ) (s : vec3) : Decidable (transformFinite span s) := by
  unfold transformFinite
  infer_instance

end f32

/-! ## The statements of `propagateLight` in the order of the source -/

/-- One statement of the propagation functions, as far as the renderer and the apply states
see it: a call into the renderer, or the assignment
`pCascade->mApplyState = pCascade->mInjectState` for the cascade with the given index. -/
inductive Statement where
  | call (c : Call)
  | commit (cascade : ℕ)

/-- The effect of one statement on the state and on the list of calls issued so far. -/
def Statement.run (s : Statement) (st : Aura × List Call) : Aura × List Call :=
  match s with
  | Statement.call c => (st.1, st.2 ++ [c])
  | Statement.commit cascade => (st.1.modifyCascade cascade commitApplyState, st.2)

/-- A list of statements run in order from `st`. -/
def runStatements (l : List Statement) (st : Aura × List Call) : Aura × List Call :=
  l.foldl (fun st s => s.run st) st

/-- The statements of `propagateLight(cascade)` in the order of the source: every call from
`cmdBeginDebugMarker` to the last `cmdResourceBarrier`, then the assignment to
`mApplyState`, then `cmdEndDebugMarker`. -/
def propagateLightStatements (cfg : Config) (pAura : Aura) (cascade : ℕ) : List Statement :=
  (propagatePasses cfg pAura cascade).map Statement.call ++
    [Statement.commit cascade, Statement.call Call.cmdEndDebugMarker]

/-- The statements of the GPU branch of `propagateLight(Aura)` in the order of the source:
the barrier on the light grids, then the statements of `propagateLight(cascade)` for the
current grid (alternate mode) or for the cascades `0, ..., mCascadeCount - 1` in turn. -/
def propagateLightGPUStatements (cfg : Config) (pAura : Aura) : List Statement :=
  if doAlternateGPUUpdates cfg pAura then
    let srvBarriers := (List.range NUM_GRIDS_PER_CASCADE).map (fun i =>
      (⟨Resource.pLightGrids pAura.mGPUPropagationCurrentGrid i,
        ResourceState.RESOURCE_STATE_RENDER_TARGET,
        ResourceState.RESOURCE_STATE_SHADER_RESOURCE⟩ : Barrier))
    [Statement.call (Call.cmdResourceBarrierRenderTargets srvBarriers)] ++
      propagateLightStatements cfg pAura pAura.mGPUPropagationCurrentGrid
  else
    let pSrvBarriers := (List.range pAura.mCascadeCount).flatMap (fun i =>
      (List.range NUM_GRIDS_PER_CASCADE).map (fun j =>
        (⟨Resource.pLightGrids i j, ResourceState.RESOURCE_STATE_RENDER_TARGET,
          ResourceState.RESOURCE_STATE_SHADER_RESOURCE⟩ : Barrier)))
    [Statement.call (Call.cmdResourceBarrierRenderTargets pSrvBarriers)] ++
      (List.range pAura.mCascadeCount).flatMap (fun i => propagateLightStatements cfg pAura i)

end aura

namespace VolumetricClouds

/-! # Volumetric clouds: `VolumetricClouds.cpp`

The temporal jitter of the low-resolution cloud buffer and the integer-to-text helper used
for the texture names. -/

/-- The wrap-around of `uint32_t` arithmetic. -/
def UINT32 : ℕ := 2 ^ 32

/-- `const uint32_t glowResBufferSize = 4`. -/
def glowResBufferSize : ℕ := 4

/-- `const uint32_t gHighFreq3DTextureSize = 32`. -/
def gHighFreq3DTextureSize : ℕ := 32

/-- `const uint32_t gLowFreq3DTextureSize = 128`. -/
def gLowFreq3DTextureSize : ℕ := 128

/-- The table `static int2 offset[]`. -/
def offset : List (ℤ × ℤ) :=
  [(2, 1), (1, 2), (2, 0), (0, 1),
   (2, 3), (3, 2), (3, 1), (0, 3),
   (1, 0), (1, 1), (3, 3), (0, 0),
   (2, 2), (1, 3), (3, 0), (0, 2)]

/-- The statement of `VolumetricClouds::AfterSubmit` that steps `g_LowResFrameIndex`:
`(g_LowResFrameIndex + 1) % (glowResBufferSize * glowResBufferSize)` in `uint`; the rest of
the function does not touch the index. -/
def AfterSubmit (g_LowResFrameIndex : ℕ) : ℕ :=
  ((g_LowResFrameIndex + 1) % UINT32) % ((glowResBufferSize * glowResBufferSize) % UINT32)

/-- The index after `k` calls of `AfterSubmit`. -/
def frameIndexAfter : ℕ → ℕ → ℕ
  | 0, g_LowResFrameIndex => g_LowResFrameIndex
  | k + 1, g_LowResFrameIndex => AfterSubmit (frameIndexAfter k g_LowResFrameIndex)

/-- The jitter `(m_JitterX, m_JitterY)` that `VolumetricClouds::Update` reads from
`offset[g_LowResFrameIndex]`, each component cast to `uint32_t`; `none` for an index outside
the table (undefined behaviour in the source). -/
def jitter (g_LowResFrameIndex : ℕ) : Option (ℕ × ℕ) :=
  (offset[g_LowResFrameIndex]?).map
    (fun p => ((p.1 % (UINT32 : ℤ)).toNat, (p.2 % (UINT32 : ℤ)).toNat))

/-- The statements `c = s[i]; s[i] = s[j]; s[j] = c` of `reverse_str`. -/
def swap (s : List Char) (i j : ℕ) : List Char :=
  let c := s.getD i default
  let s := s.set i (s.getD j default)
  s.set j c

/-- The loop `for (i = 0, j = len - 1; i < j; ++i, --j)` of `reverse_str`, entered with the
given `i` and `j` and at most `turns` turns to go. -/
def reverseLoop : ℕ → ℕ → ℕ → List Char → List Char
  | 0, _, _, s => s
  | turns + 1, i, j, s => if i < j then reverseLoop turns (i + 1) (j - 1) (swap s i j) else s

/-- `reverse_str`. The loop runs at most `len` turns (it runs `len / 2`); for `len = 0` the
source starts with `j = -1` and the loop body does not run, as here with `j = 0`. -/
def reverse_str (s : List Char) (len : ℕ) : List Char :=
  reverseLoop len 0 (len - 1) s

/-- A write `s[i] = c` into a buffer of `s.length` bytes; `none` when `i` is outside the
buffer (undefined behaviour in the source). -/
def writeChar (s : List Char) (i : ℕ) (c : Char) : Option (List Char) :=
  if i < s.length then some (s.set i c) else none

/-- The loop `do { s[i++] = (char)(abs(n % 10) + '0'); } while ((n /= 10) != 0)` of `_itoa`
with at most `turns` turns to go: the index and the buffer it leaves. `%` and `/` are the
truncating remainder and quotient of C. -/
def itoaLoop : ℕ → ℤ → ℕ → List Char → Option (ℕ × List Char)
  | 0, _, _, _ => none
  | turns + 1, n, i, s =>
    match writeChar s i (Char.ofNat ((Int.tmod n 10).natAbs + '0'.toNat)) with
    | none => none
    | some s =>
      let n := Int.tdiv n 10
      if n ≠ 0 then itoaLoop turns n (i + 1) s else some (i + 1, s)

/-- `_itoa`: the buffer `s` after the call, `none` when a write falls outside it. Every
turn of the loop makes `|n|` smaller, so `|n| + 1` turns are enough. -/
def _itoa (n : ℤ) (s : List Char) : Option (List Char) :=
  let sign := n
  match itoaLoop (n.natAbs + 1) n 0 s with
  | none => none
  | some (i, s) =>
    match (if sign < 0 then (writeChar s i '-').map (fun s => (i + 1, s)) else some (i, s)) with
    | none => none
    | some (i, s) =>
      match writeChar s i (Char.ofNat 0) with
      | none => none
      | some s => some (reverse_str s i)

/-- The character of a decimal digit. -/
def digitChar (d : ℕ) : Char := Char.ofNat (d + '0'.toNat)

/-- The decimal digits of a natural number, most significant first, `[0]` for zero. -/
def decimalDigits (m : ℕ) : List ℕ :=
  if m = 0 then [0] else (Nat.digits 10 m).reverse

/-- The decimal text of an integer: an optional `-`, then the digits of its absolute
value. -/
def decimalText (n : ℤ) : List Char :=
  (if n < 0 then ['-'] else []) ++ (decimalDigits n.natAbs).map digitChar

/-- The value of a string of decimal digits, `none` when a character is not a digit. -/
def parseDigits (s : List Char) : Option ℕ :=
  s.foldl (fun acc c =>
    acc.bind (fun v => if '0' ≤ c ∧ c ≤ '9' then some (v * 10 + (c.toNat - '0'.toNat)) else none))
    (some 0)

/-- A string parsed as a decimal integer: an optional `-` followed by at least one digit. -/
def parseDecimal (s : List Char) : Option ℤ :=
  match s with
  | [] => none
  | c :: t =>
    if c = '-' then (if t = [] then none else (parseDigits t).map (fun v => -(v : ℤ)))
    else (parseDigits (c :: t)).map (fun v => (v : ℤ))

end VolumetricClouds

namespace aura

/-! ## Rounding and the snapped centre -/

theorem roundf_eq_of_abs_lt (x : ℚ) (k : ℤ) (h : |x - (k : ℚ)| < 1 / 2) :
    roundf x = (k : ℚ) := by
  rw [abs_lt] at h
  unfold roundf
  split
  · have hk : ⌊x + 1 / 2⌋ = k := by
      rw [Int.floor_eq_iff]
      constructor <;> linarith [h.1, h.2]
    rw [hk]
  · have hk : ⌈x - 1 / 2⌉ = k := by
      rw [Int.ceil_eq_iff]
      constructor <;> linarith [h.1, h.2]
    rw [hk]

theorem roundf_intCast (k : ℤ) : roundf (k : ℚ) = (k : ℚ) :=
  roundf_eq_of_abs_lt _ k (by simp)

theorem roundf_exists_int (x : ℚ) : ∃ k : ℤ, roundf x = (k : ℚ) := by
  unfold roundf
  split
  · exact ⟨_, rfl⟩
  · exact ⟨_, rfl⟩

theorem abs_roundf_sub_le (x : ℚ) : |roundf x - x| ≤ 1 / 2 := by
  rw [abs_le]
  unfold roundf
  split
  · have h1 := Int.floor_le (x + 1 / 2)
    have h2 := Int.lt_floor_add_one (x + 1 / 2)
    constructor <;> linarith
  · have h1 := Int.le_ceil (x - 1 / 2)
    have h2 := Int.ceil_lt_add_one (x - 1 / 2)
    constructor <;> linarith

theorem getCellSize_pos (cfg : Config) (c : LightPropagationCascade) (hspan : 0 < c.mGridSpan)
    (hres : 0 < cfg.GridRes) : 0 < getCellSize cfg c := by
  unfold getCellSize
  have : (0 : ℚ) < (cfg.GridRes : ℚ) := by exact_mod_cast hres
  positivity

/-- One component of the snapped centre is an integer multiple of the cell size. -/
theorem snap_component_multiple (cell x : ℚ) : ∃ k : ℤ, roundf (x / cell) * cell = k * cell := by
  obtain ⟨k, hk⟩ := roundf_exists_int (x / cell)
  exact ⟨k, by rw [hk]⟩

/-- One component of the snapped centre is within half a cell of the requested one. -/
theorem snap_component_near (cell x : ℚ) (hcell : 0 < cell) :
    |roundf (x / cell) * cell - x| ≤ cell / 2 := by
  have h := abs_roundf_sub_le (x / cell)
  have hx : roundf (x / cell) * cell - x = (roundf (x / cell) - x / cell) * cell := by
    field_simp
  rw [hx, abs_mul, abs_of_pos hcell]
  calc |roundf (x / cell) - x / cell| * cell ≤ 1 / 2 * cell :=
        mul_le_mul_of_nonneg_right h hcell.le
    _ = cell / 2 := by ring

/-- A multiple of the cell size snaps to itself. -/
theorem snap_component_fixed (cell : ℚ) (k : ℤ) (hcell : cell ≠ 0) :
    roundf ((k : ℚ) * cell / cell) * cell = (k : ℚ) * cell := by
  rw [mul_div_assoc, div_self hcell, mul_one, roundf_intCast]

theorem snapToGrid_fixed (cell : ℚ) (kx ky kz : ℤ) (hcell : cell ≠ 0) :
    snapToGrid cell ⟨kx * cell, ky * cell, kz * cell⟩ = ⟨kx * cell, ky * cell, kz * cell⟩ := by
  simp only [snapToGrid, vec3.divS, vec3.mulS, snap_component_fixed _ _ hcell]

/-! ## The transforms written by `setGridCenter` -/

theorem gridToWorld_eq (span : ℚ) (s : vec3) :
    ((translate s).mul (scale (span / 2) (span / 2) (span / 2))).mul
      ((translate3 (-1) (-1) (-1)).mul (scale 2 2 2)) = gridToWorldOf span s := by
  simp only [translate, translate3, scale, mat4.mul, mat4.col, float4.dot, gridToWorldOf]
  congr 1 <;> congr 1 <;> ring

theorem inverse_gridToWorldOf (span : ℚ) (s : vec3) (h : span ≠ 0) :
    (gridToWorldOf span s).inverse = worldToGridOf span s := by
  simp only [mat4.inverse, mat4.divS, mat4.adjugate, mat4.det, mat4.det3, gridToWorldOf,
    worldToGridOf]
  congr 1 <;> congr 1 <;> field_simp <;> ring

/-- The inject state written by `setGridCenter`, in closed form, for a non-zero span. -/
theorem setGridCenter_mInjectState (cfg : Config) (c : LightPropagationCascade) (u : vec3)
    (h : c.mGridSpan ≠ 0) :
    (setGridCenter cfg c u).mInjectState =
      { mGridToWorld := gridToWorldOf c.mGridSpan (snapToGrid (getCellSize cfg c) u)
        mWorldToGrid := worldToGridOf c.mGridSpan (snapToGrid (getCellSize cfg c) u)
        mWorldToGridScale := ⟨1 / c.mGridSpan, 1 / c.mGridSpan, 1 / c.mGridSpan⟩
        mWorldToGridTranslate :=
          ⟨1 / 2 - (snapToGrid (getCellSize cfg c) u).x / c.mGridSpan,
           1 / 2 - (snapToGrid (getCellSize cfg c) u).y / c.mGridSpan,
           1 / 2 - (snapToGrid (getCellSize cfg c) u).z / c.mGridSpan⟩
        mSmoothTCOffset :=
          ⟨((snapToGrid (getCellSize cfg c) u).x - u.x) / c.mGridSpan,
           ((snapToGrid (getCellSize cfg c) u).y - u.y) / c.mGridSpan,
           ((snapToGrid (getCellSize cfg c) u).z - u.z) / c.mGridSpan⟩ } := by
  simp only [setGridCenter, getSideHalf, gridToWorld_eq, inverse_gridToWorldOf _ _ h]
  simp only [worldToGridOf, mat4.mulVec, float4.dot, float4.ofVec3, float4.sub, float4.xyz]
  congr 1
  congr 1 <;> ring

theorem setGridCenter_mGridSpan (cfg : Config) (c : LightPropagationCascade) (u : vec3) :
    (setGridCenter cfg c u).mGridSpan = c.mGridSpan := rfl

theorem setGridCenter_getCellSize (cfg : Config) (c : LightPropagationCascade) (u : vec3) :
    getCellSize cfg (setGridCenter cfg c u) = getCellSize cfg c := rfl

/-! ## C1 and C3: the snapped grid centre -/

/-- The requested centre `(13/4, -2, 0)` snaps to `(3, -2, 0)` when the cell size is 1. -/
theorem snapToGrid_sample :
    snapToGrid (getCellSize sampleConfig (sampleCascade 0)) ⟨13 / 4, -2, 0⟩ = ⟨3, -2, 0⟩ := by
  have h1 : roundf (13 / 4) = 3 := by
    have h := roundf_eq_of_abs_lt (13 / 4) 3 (by norm_num [abs_lt])
    simpa using h
  have h2 : roundf (-2) = -2 := by simpa using roundf_intCast (-2)
  have h3 : roundf 0 = 0 := by simpa using roundf_intCast 0
  norm_num [snapToGrid, getCellSize, sampleConfig, sampleCascade, vec3.divS, vec3.mulS,
    h1, h2, h3]

/-- In exact arithmetic `setGridCenter` snaps to the nearest cell. For a cascade with
positive span and any requested centre `u`, the centre `s` that `mGridToWorld` is built
from (the image of the grid's mid point `(1/2, 1/2, 1/2)`) has every component an integer
multiple of the cell size, and lies within half a cell of `u` on every axis. -/
theorem setGridCenter_snaps_to_nearest_cell (cfg : Config) (c : LightPropagationCascade)
    (u : vec3) (hspan : 0 < c.mGridSpan) (hres : 0 < cfg.GridRes) :
    (setGridCenter cfg c u).mInjectState.mGridToWorld =
      ((translate (snapToGrid (getCellSize cfg c) u)).mul
        (scale (getSideHalf c) (getSideHalf c) (getSideHalf c))).mul
        ((translate3 (-1) (-1) (-1)).mul (scale 2 2 2)) ∧
    (setGridCenter cfg c u).mInjectState.mGridToWorld.mulVec ⟨1 / 2, 1 / 2, 1 / 2, 1⟩ =
      float4.ofVec3 (snapToGrid (getCellSize cfg c) u) 1 ∧
    (∃ kx ky kz : ℤ, snapToGrid (getCellSize cfg c) u =
      ⟨kx * getCellSize cfg c, ky * getCellSize cfg c, kz * getCellSize cfg c⟩) ∧
    |(snapToGrid (getCellSize cfg c) u).x - u.x| ≤ getCellSize cfg c / 2 ∧
    |(snapToGrid (getCellSize cfg c) u).y - u.y| ≤ getCellSize cfg c / 2 ∧
    |(snapToGrid (getCellSize cfg c) u).z - u.z| ≤ getCellSize cfg c / 2 := by
  have hcell := getCellSize_pos cfg c hspan hres
  refine ⟨rfl, ?_, ?_, ?_, ?_, ?_⟩
  · rw [setGridCenter_mInjectState cfg c u hspan.ne']
    simp only [gridToWorldOf, mat4.mulVec, float4.dot, float4.ofVec3]
    congr 1 <;> ring
  · obtain ⟨kx, hx⟩ := roundf_exists_int (u.x / getCellSize cfg c)
    obtain ⟨ky, hy⟩ := roundf_exists_int (u.y / getCellSize cfg c)
    obtain ⟨kz, hz⟩ := roundf_exists_int (u.z / getCellSize cfg c)
    exact ⟨kx, ky, kz, by simp only [snapToGrid, vec3.divS, vec3.mulS, hx, hy, hz]⟩
  · exact snap_component_near _ _ hcell
  · exact snap_component_near _ _ hcell
  · exact snap_component_near _ _ hcell

theorem fabsf_eq_abs (x : ℚ) : fabsf x = |x| := by
  unfold fabsf
  split
  · rename_i h; rw [abs_of_neg h]
  · rename_i h; rw [abs_of_nonneg (not_lt.mp h)]

/-- A component of the forward offset is no longer than the reach. -/
theorem offset_component_le (d m k : ℚ) (hm : 0 < m) (hd : |d| ≤ m) (hk : 0 ≤ k) :
    |d / m * k| ≤ k := by
  rw [abs_mul, abs_div, abs_of_pos hm, abs_of_nonneg hk]
  have h1 : |d| / m ≤ 1 := (div_le_one hm).mpr hd
  calc |d| / m * k ≤ 1 * k := mul_le_mul_of_nonneg_right h1 hk
    _ = k := one_mul k

/-- The largest absolute component of a non-zero direction is positive. -/
theorem maxOffset_pos (d : vec3) (hd : d ≠ ⟨0, 0, 0⟩) :
    0 < max (max (fabsf d.x) (fabsf d.y)) (fabsf d.z) := by
  simp only [fabsf_eq_abs]
  by_contra hle
  have hle := not_lt.mp hle
  have hx : |d.x| ≤ 0 := le_trans (le_trans (le_max_left _ _) (le_max_left _ _)) hle
  have hy : |d.y| ≤ 0 := le_trans (le_trans (le_max_right _ _) (le_max_left _ _)) hle
  have hz : |d.z| ≤ 0 := le_trans (le_max_right _ _) hle
  apply hd
  cases d with
  | mk x y z =>
    simp only [abs_nonpos_iff] at hx hy hz
    rw [hx, hy, hz]

/-- One axis of the margin bound: a point `g` within `reach` of the camera, snapped by at
most half a cell, stays within `reach + cell / 2` of it. -/
theorem margin_component (cam off s cell reach : ℚ) (hoff : |off| ≤ reach)
    (hs : |s - (cam + off)| ≤ cell / 2) : |cam - s| ≤ reach + cell / 2 := by
  rw [abs_le] at *
  constructor <;> linarith [hoff.1, hoff.2, hs.1, hs.2]


/-- In exact arithmetic the camera is inside the grid with margin after `beginFrame`. With
`GridRes = 32`, a positive span and a non-zero camera direction, the snapped centre `s` of
`beginFrame` satisfies `|camPos_i - s_i| <= gridSpan / 2 - 3.5 * cellSize` on every axis, so
`camPos` is more than three cells inside the cube `[s - gridSpan / 2, s + gridSpan / 2]`;
and when the test that guards `setGridCenter` passes, the cascade's `mGridToWorld` after
`beginFrame` maps the grid's mid point to `s` and its corners 0 and 1 to
`s - gridSpan / 2` and `s + gridSpan / 2`. -/
theorem frameSnappedCenter_margin (cfg : Config) (c : LightPropagationCascade)
    (camPos camDir : vec3) (hres : cfg.GridRes = 32) (hspan : 0 < c.mGridSpan)
    (hdir : camDir ≠ ⟨0, 0, 0⟩) :
    (|camPos.x - (frameSnappedCenter cfg c camPos camDir).x|
        ≤ c.mGridSpan / 2 - 7 / 2 * getCellSize cfg c ∧
      |camPos.y - (frameSnappedCenter cfg c camPos camDir).y|
        ≤ c.mGridSpan / 2 - 7 / 2 * getCellSize cfg c ∧
      |camPos.z - (frameSnappedCenter cfg c camPos camDir).z|
        ≤ c.mGridSpan / 2 - 7 / 2 * getCellSize cfg c) ∧
    ((frameSnappedCenter cfg c camPos camDir).x - c.mGridSpan / 2 + 3 * getCellSize cfg c
        < camPos.x ∧
      camPos.x < (frameSnappedCenter cfg c camPos camDir).x + c.mGridSpan / 2
        - 3 * getCellSize cfg c ∧
      (frameSnappedCenter cfg c camPos camDir).y - c.mGridSpan / 2 + 3 * getCellSize cfg c
        < camPos.y ∧
      camPos.y < (frameSnappedCenter cfg c camPos camDir).y + c.mGridSpan / 2
        - 3 * getCellSize cfg c ∧
      (frameSnappedCenter cfg c camPos camDir).z - c.mGridSpan / 2 + 3 * getCellSize cfg c
        < camPos.z ∧
      camPos.z < (frameSnappedCenter cfg c camPos camDir).z + c.mGridSpan / 2
        - 3 * getCellSize cfg c) ∧
    (recenterGuard cfg c.mFlags = true →
      (beginFrameCascade cfg c camPos camDir).mInjectState.mGridToWorld.mulVec
          ⟨1 / 2, 1 / 2, 1 / 2, 1⟩ = float4.ofVec3 (frameSnappedCenter cfg c camPos camDir) 1 ∧
      (beginFrameCascade cfg c camPos camDir).mInjectState.mGridToWorld.mulVec ⟨0, 0, 0, 1⟩ =
        float4.ofVec3 ((frameSnappedCenter cfg c camPos camDir).sub
          ⟨c.mGridSpan / 2, c.mGridSpan / 2, c.mGridSpan / 2⟩) 1 ∧
      (beginFrameCascade cfg c camPos camDir).mInjectState.mGridToWorld.mulVec ⟨1, 1, 1, 1⟩ =
        float4.ofVec3 ((frameSnappedCenter cfg c camPos camDir).add
          ⟨c.mGridSpan / 2, c.mGridSpan / 2, c.mGridSpan / 2⟩) 1) := by
  have hres0 : 0 < cfg.GridRes := by omega
  have hcell := getCellSize_pos cfg c hspan hres0
  have hcs : c.mGridSpan = 32 * getCellSize cfg c := by
    unfold getCellSize
    rw [hres]
    push_cast
    ring
  have hm := maxOffset_pos camDir hdir
  have hreach : 0 ≤ getSideHalf c - 4 * getCellSize cfg c := by
    unfold getSideHalf
    linarith
  have hx : |camDir.x| ≤ max (max (fabsf camDir.x) (fabsf camDir.y)) (fabsf camDir.z) := by
    rw [← fabsf_eq_abs]
    exact le_trans (le_max_left _ _) (le_max_left _ _)
  have hy : |camDir.y| ≤ max (max (fabsf camDir.x) (fabsf camDir.y)) (fabsf camDir.z) := by
    rw [← fabsf_eq_abs]
    exact le_trans (le_max_right _ _) (le_max_left _ _)
  have hz : |camDir.z| ≤ max (max (fabsf camDir.x) (fabsf camDir.y)) (fabsf camDir.z) := by
    rw [← fabsf_eq_abs]
    exact le_max_right _ _
  have bx := margin_component camPos.x _ _ _ _ (offset_component_le _ _ _ hm hx hreach)
    (snap_component_near (getCellSize cfg c) (camPos.x + camDir.x /
      max (max (fabsf camDir.x) (fabsf camDir.y)) (fabsf camDir.z) *
      (getSideHalf c - 4 * getCellSize cfg c)) hcell)
  have by1 := margin_component camPos.y _ _ _ _ (offset_component_le _ _ _ hm hy hreach)
    (snap_component_near (getCellSize cfg c) (camPos.y + camDir.y /
      max (max (fabsf camDir.x) (fabsf camDir.y)) (fabsf camDir.z) *
      (getSideHalf c - 4 * getCellSize cfg c)) hcell)
  have bz := margin_component camPos.z _ _ _ _ (offset_component_le _ _ _ hm hz hreach)
    (snap_component_near (getCellSize cfg c) (camPos.z + camDir.z /
      max (max (fabsf camDir.x) (fabsf camDir.y)) (fabsf camDir.z) *
      (getSideHalf c - 4 * getCellSize cfg c)) hcell)
  have ex : (getSideHalf c - 4 * getCellSize cfg c) + getCellSize cfg c / 2 =
      c.mGridSpan / 2 - 7 / 2 * getCellSize cfg c := by
    unfold getSideHalf
    ring
  rw [ex] at bx by1 bz
  have hbounds : |camPos.x - (frameSnappedCenter cfg c camPos camDir).x|
        ≤ c.mGridSpan / 2 - 7 / 2 * getCellSize cfg c ∧
      |camPos.y - (frameSnappedCenter cfg c camPos camDir).y|
        ≤ c.mGridSpan / 2 - 7 / 2 * getCellSize cfg c ∧
      |camPos.z - (frameSnappedCenter cfg c camPos camDir).z|
        ≤ c.mGridSpan / 2 - 7 / 2 * getCellSize cfg c := ⟨bx, by1, bz⟩
  refine ⟨hbounds, ?_, ?_⟩
  · obtain ⟨h1, h2, h3⟩ := hbounds
    rw [abs_le] at h1 h2 h3
    refine ⟨?_, ?_, ?_, ?_, ?_, ?_⟩ <;> linarith [h1.1, h1.2, h2.1, h2.2, h3.1, h3.2]
  · intro hg
    have hst : (beginFrameCascade cfg c camPos camDir).mInjectState =
        (setGridCenter cfg c (frameGridCenter cfg c camPos camDir)).mInjectState := by
      simp only [beginFrameCascade, hg, if_true]
    rw [hst, setGridCenter_mInjectState cfg c _ hspan.ne']
    simp only [frameSnappedCenter, gridToWorldOf, mat4.mulVec, float4.dot, float4.ofVec3,
      vec3.sub, vec3.add]
    refine ⟨?_, ?_, ?_⟩ <;> congr 1 <;> ring

/-- The test of `beginFrame` passes exactly when the whole flag word is zero and the
constant `CASCADE_NOT_MOVING` has its lowest bit set. -/
theorem recenterGuard_iff (cfg : Config) (mFlags : ℕ) :
    recenterGuard cfg mFlags = true ↔ mFlags = 0 ∧ cfg.CASCADE_NOT_MOVING % 2 = 1 := by
  unfold recenterGuard
  by_cases h : mFlags = 0
  · simp only [h, if_true, Nat.one_and_eq_mod_two, bne_iff_ne, ne_eq, true_and]
    omega
  · simp [h]

/-- When the test fails `beginFrame(cascade)` writes nothing but `mOccludersInjected`. -/
theorem beginFrameCascade_of_guard_false (cfg : Config) (c : LightPropagationCascade)
    (camPos camDir : vec3) (h : recenterGuard cfg c.mFlags = false) :
    beginFrameCascade cfg c camPos camDir = { c with mOccludersInjected := false } := by
  simp [beginFrameCascade, h]

/-- When the test passes `beginFrame(cascade)` is `setGridCenter` at the frame's centre,
followed by the reset of `mOccludersInjected`. -/
theorem beginFrameCascade_of_guard_true (cfg : Config) (c : LightPropagationCascade)
    (camPos camDir : vec3) (h : recenterGuard cfg c.mFlags = true) :
    beginFrameCascade cfg c camPos camDir =
      { setGridCenter cfg c (frameGridCenter cfg c camPos camDir) with
        mOccludersInjected := false } := by
  simp [beginFrameCascade, h]

/-- C5, the code at a failing input. With `CASCADE_NOT_MOVING = 1` and the flag word 2 the
`CASCADE_NOT_MOVING` bit is clear, yet the test of `beginFrame` fails and the inject state
is left as it was, different from the one `setGridCenter` would have written; and for every
single-bit value `2 ^ k` of `CASCADE_NOT_MOVING` some flag word below 4 has that bit clear
and fails the test. -/
theorem C5_beginFrame_skips_a_cascade_that_may_move :
    ((sampleCascade 2).mFlags &&& sampleConfig.CASCADE_NOT_MOVING = 0 ∧
      recenterGuard sampleConfig (sampleCascade 2).mFlags = false ∧
      (beginFrameCascade sampleConfig (sampleCascade 2) ⟨1, 2, 3⟩ ⟨1, 0, 0⟩).mInjectState =
        (sampleCascade 2).mInjectState ∧
      (beginFrameCascade sampleConfig (sampleCascade 2) ⟨1, 2, 3⟩ ⟨1, 0, 0⟩).mInjectState ≠
        (setGridCenter sampleConfig (sampleCascade 2)
          (frameGridCenter sampleConfig (sampleCascade 2) ⟨1, 2, 3⟩ ⟨1, 0, 0⟩)).mInjectState) ∧
    (∀ k : ℕ, ∃ mFlags : ℕ, mFlags < 4 ∧ mFlags &&& 2 ^ k = 0 ∧
      recenterGuard { sampleConfig with CASCADE_NOT_MOVING := 2 ^ k } mFlags = false) := by
  refine ⟨⟨by decide, by decide, ?_, ?_⟩, ?_⟩
  · rw [beginFrameCascade_of_guard_false _ _ _ _ (by decide)]
  · rw [beginFrameCascade_of_guard_false _ _ _ _ (by decide),
      setGridCenter_mInjectState _ _ _ (by norm_num [sampleCascade])]
    intro h
    have h1 := congrArg (fun st => st.mGridToWorld.rows0.x) h
    norm_num [sampleCascade, sampleState, mat4.identity, gridToWorldOf] at h1
  · intro k
    cases k with
    | zero =>
      refine ⟨2, by decide, by decide, by decide⟩
    | succ k =>
      refine ⟨0, by decide, by simp, ?_⟩
      have h : ¬ (recenterGuard { sampleConfig with CASCADE_NOT_MOVING := 2 ^ (k + 1) } 0 = true) := by
        rw [recenterGuard_iff]
        simp only [true_and]
        rw [pow_succ]
        omega
      simpa using h


/-! ## Writes to one cascade -/

theorem modifyCascade_pCascades_getElem? (a : Aura) (i j : ℕ)
    (f : LightPropagationCascade → LightPropagationCascade) :
    (a.modifyCascade i f).pCascades[j]? =
      if j = i then (a.pCascades[i]?).map f else a.pCascades[j]? := by
  unfold Aura.modifyCascade
  cases h : a.pCascades[i]? with
  | none =>
    by_cases hji : j = i
    · simp [hji, h]
    · simp [hji]
  | some c =>
    by_cases hji : j = i
    · subst hji
      have hlt : j < a.pCascades.length := by
        rcases List.getElem?_eq_some_iff.mp h with ⟨hlt, _⟩
        exact hlt
      simp [List.getElem?_set, hlt]
    · simp only [hji, if_false]
      rw [List.getElem?_set_ne (Ne.symm hji)]

theorem modifyCascade_length (a : Aura) (i : ℕ)
    (f : LightPropagationCascade → LightPropagationCascade) :
    (a.modifyCascade i f).pCascades.length = a.pCascades.length := by
  unfold Aura.modifyCascade
  cases a.pCascades[i]? <;> simp

theorem modifyCascade_mParams (a : Aura) (i : ℕ)
    (f : LightPropagationCascade → LightPropagationCascade) :
    (a.modifyCascade i f).mParams = a.mParams := by
  unfold Aura.modifyCascade
  cases a.pCascades[i]? <;> rfl

theorem modifyCascade_mCascadeCount (a : Aura) (i : ℕ)
    (f : LightPropagationCascade → LightPropagationCascade) :
    (a.modifyCascade i f).mCascadeCount = a.mCascadeCount := by
  unfold Aura.modifyCascade
  cases a.pCascades[i]? <;> rfl

theorem modifyCascade_mGPUPropagationCurrentGrid (a : Aura) (i : ℕ)
    (f : LightPropagationCascade → LightPropagationCascade) :
    (a.modifyCascade i f).mGPUPropagationCurrentGrid = a.mGPUPropagationCurrentGrid := by
  unfold Aura.modifyCascade
  cases a.pCascades[i]? <;> rfl

/-- A write through a function that keeps `mApplyState` keeps every apply state. -/
theorem modifyCascade_applyStates (a : Aura) (i : ℕ)
    (f : LightPropagationCascade → LightPropagationCascade)
    (hf : ∀ c, (f c).mApplyState = c.mApplyState) :
    (a.modifyCascade i f).pCascades.map (fun c => c.mApplyState) =
      a.pCascades.map (fun c => c.mApplyState) := by
  apply List.ext_getElem?
  intro j
  rw [List.getElem?_map, List.getElem?_map, modifyCascade_pCascades_getElem?]
  by_cases hji : j = i
  · subst hji
    simp only [if_true, Option.map_map]
    cases a.pCascades[j]? with
    | none => rfl
    | some c => simp [hf]
  · simp only [hji, if_false]


/-! ## C6: the apply state -/

theorem commitApplyState_idem (c : LightPropagationCascade) :
    commitApplyState (commitApplyState c) = commitApplyState c := rfl

theorem propagateLight_fst (cfg : Config) (a : Aura) (c : ℕ) :
    (propagateLight cfg a c).1 = a.modifyCascade c commitApplyState := rfl

theorem propagateLight_snd (cfg : Config) (a : Aura) (c : ℕ) :
    (propagateLight cfg a c).2 = propagatePasses cfg a c ++ [Call.cmdEndDebugMarker] := rfl

/-- C6. State commit. For a cascade index `c` below `mCascadeCount` (the length of
`pCascades`) and any propagation step count, after `propagateLight(cascade c)` cascade
`c` is the cascade it was with `mApplyState` replaced by its `mInjectState`, so the two
states are equal field for field; every other cascade, inject and apply state included, is
as it was. -/
theorem C6_propagateLight_commits_apply_state (cfg : Config) (a : Aura) (c : ℕ)
    (hlen : a.pCascades.length = a.mCascadeCount) (hc : c < a.mCascadeCount) :
    (∃ pc : LightPropagationCascade, a.pCascades[c]? = some pc ∧
      (propagateLight cfg a c).1.pCascades[c]? =
        some { pc with mApplyState := pc.mInjectState }) ∧
    (∀ pc : LightPropagationCascade, (propagateLight cfg a c).1.pCascades[c]? = some pc →
      pc.mApplyState = pc.mInjectState) ∧
    (∀ j : ℕ, j ≠ c → (propagateLight cfg a c).1.pCascades[j]? = a.pCascades[j]?) ∧
    (propagateLight cfg a c).1.pCascades.length = a.pCascades.length := by
  have hlt : c < a.pCascades.length := by omega
  have hsome : a.pCascades[c]? = some (a.pCascades[c]) := List.getElem?_eq_getElem hlt
  have hres : (propagateLight cfg a c).1.pCascades[c]? =
      some (commitApplyState (a.pCascades[c])) := by
    rw [propagateLight_fst, modifyCascade_pCascades_getElem?, if_pos rfl, hsome]
    rfl
  refine ⟨⟨a.pCascades[c], hsome, hres⟩, ?_, ?_, ?_⟩
  · intro pc hpc
    rw [hres] at hpc
    cases hpc
    rfl
  · intro j hj
    rw [propagateLight_fst, modifyCascade_pCascades_getElem?, if_neg hj]
  · rw [propagateLight_fst, modifyCascade_length]

theorem beginFrameCascade_mApplyState (cfg : Config) (c : LightPropagationCascade)
    (camPos camDir : vec3) : (beginFrameCascade cfg c camPos camDir).mApplyState = c.mApplyState := by
  unfold beginFrameCascade
  by_cases h : recenterGuard cfg c.mFlags = true
  · simp only [h, if_true]; rfl
  · simp only [h]; rfl

theorem foldl_modifyCascade_applyStates (l : List ℕ) (a : Aura)
    (f : LightPropagationCascade → LightPropagationCascade)
    (hf : ∀ c, (f c).mApplyState = c.mApplyState) :
    (l.foldl (fun a i => a.modifyCascade i f) a).applyStates = a.applyStates := by
  induction l generalizing a with
  | nil => rfl
  | cons i l ih =>
    rw [List.foldl_cons, ih]
    exact modifyCascade_applyStates a i f hf

theorem beginFrame_applyStates (cfg : Config) (a : Aura) (camPos camDir : vec3) :
    (beginFrame cfg a camPos camDir).applyStates = a.applyStates := by
  unfold beginFrame
  split
  · exact modifyCascade_applyStates _ _ _ (fun c => beginFrameCascade_mApplyState cfg c _ _)
  · exact foldl_modifyCascade_applyStates _ _ _
      (fun c => beginFrameCascade_mApplyState cfg c _ _)

theorem injectRSM_fst (cfg : Config) (a : Aura) (iVolume : ℕ) (invVP : mat4) (camDir : vec3)
    (rtWidth rtHeight : ℕ) (viewAreaForUnitDepth : ℚ) :
    (injectRSM cfg a iVolume invVP camDir rtWidth rtHeight viewAreaForUnitDepth).1 = a := by
  unfold injectRSM
  split
  · rfl
  · split <;> rfl


/-! ## The passes depend on the parameters only -/

theorem propagateStep_congr (cfg : Config) (a b : Aura) (h : a.mParams = b.mParams)
    (cascade i : ℕ) (bPhase : Bool) :
    propagateStep cfg a cascade i bPhase = propagateStep cfg b cascade i bPhase := by
  simp only [propagateStep, h]

theorem propagateLoop_congr (cfg : Config) (a b : Aura) (h : a.mParams = b.mParams)
    (cascade turns i : ℕ) (bPhase : Bool) :
    propagateLoop cfg a cascade turns i bPhase = propagateLoop cfg b cascade turns i bPhase := by
  induction turns generalizing i bPhase with
  | zero => rfl
  | succ n ih => simp only [propagateLoop, ih, propagateStep_congr cfg a b h]

theorem propagatePasses_congr (cfg : Config) (a b : Aura) (h : a.mParams = b.mParams)
    (cascade : ℕ) : propagatePasses cfg a cascade = propagatePasses cfg b cascade := by
  simp only [propagatePasses, propagateFirstStep, h, propagateLoop_congr cfg a b h]

/-- A loop of `propagateLight(cascade)` over the indices `l`: every listed cascade is
committed, every other cascade is as before, the parameters are as before, and the calls
are those of the cascades of `l`, in the order of `l`. -/
theorem foldl_propagateLight (cfg : Config) (l : List ℕ) (acc : Aura × List Call) :
    (∀ j : ℕ, (l.foldl (fun (acc : Aura × List Call) i =>
        ((propagateLight cfg acc.1 i).1, acc.2 ++ (propagateLight cfg acc.1 i).2))
        acc).1.pCascades[j]? =
      if j ∈ l then (acc.1.pCascades[j]?).map commitApplyState else acc.1.pCascades[j]?) ∧
    (l.foldl (fun (acc : Aura × List Call) i =>
        ((propagateLight cfg acc.1 i).1, acc.2 ++ (propagateLight cfg acc.1 i).2))
        acc).1.mParams = acc.1.mParams ∧
    (l.foldl (fun (acc : Aura × List Call) i =>
        ((propagateLight cfg acc.1 i).1, acc.2 ++ (propagateLight cfg acc.1 i).2))
        acc).2 =
      acc.2 ++ l.flatMap (fun i => propagatePasses cfg acc.1 i ++ [Call.cmdEndDebugMarker]) := by
  induction l generalizing acc with
  | nil => simp
  | cons i l ih =>
    rw [List.foldl_cons]
    obtain ⟨h1, h2, h3⟩ := ih ((propagateLight cfg acc.1 i).1, acc.2 ++ (propagateLight cfg acc.1 i).2)
    have hp : (propagateLight cfg acc.1 i).1.mParams = acc.1.mParams := by
      rw [propagateLight_fst, modifyCascade_mParams]
    refine ⟨?_, ?_, ?_⟩
    · intro j
      rw [h1 j]
      simp only [propagateLight_fst, modifyCascade_pCascades_getElem?, List.mem_cons]
      by_cases hji : j = i
      · subst hji
        by_cases hjl : j ∈ l
        · simp only [hjl, if_true, true_or, Option.map_map]
          cases acc.1.pCascades[j]? <;> rfl
        · simp [hjl]
      · simp [hji]
    · rw [h2, hp]
    · rw [h3, List.flatMap_cons, propagateLight_snd, List.append_assoc]
      congr 2
      apply List.flatMap_congr
      intro k _
      rw [propagatePasses_congr cfg _ _ hp]


/-- On the GPU path `propagateLight(Aura)` is its GPU branch run on the state with
`bUseCPUPropagationPreviousFrame` brought up to date (when CPU propagation is compiled in). -/
theorem propagateLightAura_gpu (cfg : Config) (a : Aura)
    (hgpu : cfg.ENABLE_CPU_PROPAGATION = false ∨ a.mParams.bUseCPUPropagation = false) :
    propagateLightAura cfg a =
      propagateLightGPU cfg
        (if cfg.ENABLE_CPU_PROPAGATION then
          { a with bUseCPUPropagationPreviousFrame := a.mParams.bUseCPUPropagation }
        else a) := by
  unfold propagateLightAura
  by_cases hE : cfg.ENABLE_CPU_PROPAGATION = true
  · have hu : a.mParams.bUseCPUPropagation = false := by
      rcases hgpu with h | h
      · rw [h] at hE; cases hE
      · exact h
    simp [hE, hu]
  · simp [hE]

/-- The cascades after the GPU branch: in alternate mode only the current grid is
committed, otherwise every cascade below `mCascadeCount` is. -/
theorem propagateLightGPU_pCascades (cfg : Config) (a : Aura) (j : ℕ) :
    (propagateLightGPU cfg a).1.pCascades[j]? =
      if doAlternateGPUUpdates cfg a = true then
        (if j = a.mGPUPropagationCurrentGrid then (a.pCascades[j]?).map commitApplyState
          else a.pCascades[j]?)
      else
        (if j < a.mCascadeCount then (a.pCascades[j]?).map commitApplyState
          else a.pCascades[j]?) := by
  unfold propagateLightGPU
  by_cases halt : doAlternateGPUUpdates cfg a = true
  · simp only [halt, if_true, propagateLight_fst, modifyCascade_pCascades_getElem?]
    by_cases hj : j = a.mGPUPropagationCurrentGrid
    · subst hj; simp
    · simp [hj]
  · simp only [halt, forEachCascade]
    have h := (foldl_propagateLight cfg (List.range a.mCascadeCount) (a, [])).1 j
    simp only [List.mem_range] at h
    exact h

/-- The calls of the GPU branch. -/
theorem propagateLightGPU_calls (cfg : Config) (a : Aura) :
    (propagateLightGPU cfg a).2 =
      if doAlternateGPUUpdates cfg a = true then
        [Call.cmdResourceBarrierRenderTargets ((List.range NUM_GRIDS_PER_CASCADE).map (fun i =>
          (⟨Resource.pLightGrids a.mGPUPropagationCurrentGrid i,
            ResourceState.RESOURCE_STATE_RENDER_TARGET,
            ResourceState.RESOURCE_STATE_SHADER_RESOURCE⟩ : Barrier)))] ++
          (propagatePasses cfg a a.mGPUPropagationCurrentGrid ++ [Call.cmdEndDebugMarker])
      else
        [Call.cmdResourceBarrierRenderTargets ((List.range a.mCascadeCount).flatMap (fun i =>
          (List.range NUM_GRIDS_PER_CASCADE).map (fun j =>
            (⟨Resource.pLightGrids i j, ResourceState.RESOURCE_STATE_RENDER_TARGET,
              ResourceState.RESOURCE_STATE_SHADER_RESOURCE⟩ : Barrier))))] ++
          (List.range a.mCascadeCount).flatMap
            (fun i => propagatePasses cfg a i ++ [Call.cmdEndDebugMarker]) := by
  unfold propagateLightGPU
  by_cases halt : doAlternateGPUUpdates cfg a = true
  · simp only [halt, if_true, propagateLight_snd]
  · simp only [halt, forEachCascade]
    have h := (foldl_propagateLight cfg (List.range a.mCascadeCount) (a, [])).2.2
    simp only [List.nil_append] at h
    simp only [h]
    rfl


theorem doAlternateGPUUpdates_congr (cfg : Config) (a b : Aura) (h : a.mParams = b.mParams) :
    doAlternateGPUUpdates cfg a = doAlternateGPUUpdates cfg b := by
  simp only [doAlternateGPUUpdates, h]

/-- The cascades after `propagateLight(Aura)` on the GPU path. -/
theorem propagateLightAura_gpu_pCascades (cfg : Config) (a : Aura)
    (hgpu : cfg.ENABLE_CPU_PROPAGATION = false ∨ a.mParams.bUseCPUPropagation = false) (j : ℕ) :
    (propagateLightAura cfg a).1.pCascades[j]? =
      if doAlternateGPUUpdates cfg a = true then
        (if j = a.mGPUPropagationCurrentGrid then (a.pCascades[j]?).map commitApplyState
          else a.pCascades[j]?)
      else
        (if j < a.mCascadeCount then (a.pCascades[j]?).map commitApplyState
          else a.pCascades[j]?) := by
  have hpar : (if cfg.ENABLE_CPU_PROPAGATION then
      { a with bUseCPUPropagationPreviousFrame := a.mParams.bUseCPUPropagation } else a).mParams
      = a.mParams := by split <;> rfl
  have hcas : (if cfg.ENABLE_CPU_PROPAGATION then
      { a with bUseCPUPropagationPreviousFrame := a.mParams.bUseCPUPropagation }
      else a).pCascades = a.pCascades := by split <;> rfl
  have hcur : (if cfg.ENABLE_CPU_PROPAGATION then
      { a with bUseCPUPropagationPreviousFrame := a.mParams.bUseCPUPropagation }
      else a).mGPUPropagationCurrentGrid = a.mGPUPropagationCurrentGrid := by split <;> rfl
  have hcnt : (if cfg.ENABLE_CPU_PROPAGATION then
      { a with bUseCPUPropagationPreviousFrame := a.mParams.bUseCPUPropagation }
      else a).mCascadeCount = a.mCascadeCount := by split <;> rfl
  rw [propagateLightAura_gpu cfg a hgpu, propagateLightGPU_pCascades,
    doAlternateGPUUpdates_congr cfg _ _ hpar, hcas, hcur, hcnt]

/-- The calls of `propagateLight(Aura)` on the GPU path. -/
theorem propagateLightAura_gpu_calls (cfg : Config) (a : Aura)
    (hgpu : cfg.ENABLE_CPU_PROPAGATION = false ∨ a.mParams.bUseCPUPropagation = false) :
    (propagateLightAura cfg a).2 =
      if doAlternateGPUUpdates cfg a = true then
        [Call.cmdResourceBarrierRenderTargets ((List.range NUM_GRIDS_PER_CASCADE).map (fun i =>
          (⟨Resource.pLightGrids a.mGPUPropagationCurrentGrid i,
            ResourceState.RESOURCE_STATE_RENDER_TARGET,
            ResourceState.RESOURCE_STATE_SHADER_RESOURCE⟩ : Barrier)))] ++
          (propagatePasses cfg a a.mGPUPropagationCurrentGrid ++ [Call.cmdEndDebugMarker])
      else
        [Call.cmdResourceBarrierRenderTargets ((List.range a.mCascadeCount).flatMap (fun i =>
          (List.range NUM_GRIDS_PER_CASCADE).map (fun j =>
            (⟨Resource.pLightGrids i j, ResourceState.RESOURCE_STATE_RENDER_TARGET,
              ResourceState.RESOURCE_STATE_SHADER_RESOURCE⟩ : Barrier))))] ++
          (List.range a.mCascadeCount).flatMap
            (fun i => propagatePasses cfg a i ++ [Call.cmdEndDebugMarker]) := by
  have hpar : (if cfg.ENABLE_CPU_PROPAGATION then
      { a with bUseCPUPropagationPreviousFrame := a.mParams.bUseCPUPropagation } else a).mParams
      = a.mParams := by split <;> rfl
  have hcur : (if cfg.ENABLE_CPU_PROPAGATION then
      { a with bUseCPUPropagationPreviousFrame := a.mParams.bUseCPUPropagation }
      else a).mGPUPropagationCurrentGrid = a.mGPUPropagationCurrentGrid := by split <;> rfl
  have hcnt : (if cfg.ENABLE_CPU_PROPAGATION then
      { a with bUseCPUPropagationPreviousFrame := a.mParams.bUseCPUPropagation }
      else a).mCascadeCount = a.mCascadeCount := by split <;> rfl
  have hcalls := propagateLightGPU_calls cfg (if cfg.ENABLE_CPU_PROPAGATION then
      { a with bUseCPUPropagationPreviousFrame := a.mParams.bUseCPUPropagation } else a)
  rw [← propagateLightAura_gpu cfg a hgpu, doAlternateGPUUpdates_congr cfg _ _ hpar, hcur,
    hcnt] at hcalls
  simp only [propagatePasses_congr cfg _ a hpar] at hcalls
  exact hcalls

/-- C9. `propagateLight(Aura)` propagates the right set of cascades on the GPU path. In
alternate mode it commits cascade `mGPUPropagationCurrentGrid` only, every other cascade
is as it was, and the calls are the barrier of that cascade followed by its
`propagateLight`. Otherwise every cascade is committed, so that `mApplyState` equals
`mInjectState` for all of them, and the calls are the barrier of all cascades followed by
`propagateLight` of cascade 0, 1, ..., `mCascadeCount - 1`, once each, in this order. -/
theorem C9_propagateLight_selects_cascades (cfg : Config) (a : Aura)
    (hgpu : cfg.ENABLE_CPU_PROPAGATION = false ∨ a.mParams.bUseCPUPropagation = false)
    (hlen : a.pCascades.length = a.mCascadeCount) :
    (doAlternateGPUUpdates cfg a = true →
      (propagateLightAura cfg a).1.pCascades[a.mGPUPropagationCurrentGrid]? =
        (a.pCascades[a.mGPUPropagationCurrentGrid]?).map commitApplyState ∧
      (∀ j : ℕ, j ≠ a.mGPUPropagationCurrentGrid →
        (propagateLightAura cfg a).1.pCascades[j]? = a.pCascades[j]?) ∧
      (propagateLightAura cfg a).2 =
        [Call.cmdResourceBarrierRenderTargets ((List.range NUM_GRIDS_PER_CASCADE).map (fun i =>
          (⟨Resource.pLightGrids a.mGPUPropagationCurrentGrid i,
            ResourceState.RESOURCE_STATE_RENDER_TARGET,
            ResourceState.RESOURCE_STATE_SHADER_RESOURCE⟩ : Barrier)))] ++
          (propagatePasses cfg a a.mGPUPropagationCurrentGrid ++ [Call.cmdEndDebugMarker])) ∧
    (doAlternateGPUUpdates cfg a = false →
      (propagateLightAura cfg a).1.pCascades = a.pCascades.map commitApplyState ∧
      (∀ pc ∈ (propagateLightAura cfg a).1.pCascades, pc.mApplyState = pc.mInjectState) ∧
      (propagateLightAura cfg a).2 =
        [Call.cmdResourceBarrierRenderTargets ((List.range a.mCascadeCount).flatMap (fun i =>
          (List.range NUM_GRIDS_PER_CASCADE).map (fun j =>
            (⟨Resource.pLightGrids i j, ResourceState.RESOURCE_STATE_RENDER_TARGET,
              ResourceState.RESOURCE_STATE_SHADER_RESOURCE⟩ : Barrier))))] ++
          (List.range a.mCascadeCount).flatMap
            (fun i => propagatePasses cfg a i ++ [Call.cmdEndDebugMarker])) := by
  have hst := propagateLightAura_gpu_pCascades cfg a hgpu
  have hcalls := propagateLightAura_gpu_calls cfg a hgpu
  refine ⟨?_, ?_⟩
  · intro halt
    refine ⟨?_, ?_, ?_⟩
    · rw [hst, if_pos halt, if_pos rfl]
    · intro j hj
      rw [hst, if_pos halt, if_neg hj]
    · rw [hcalls, if_pos halt]
  · intro halt
    have hne : ¬ (doAlternateGPUUpdates cfg a = true) := by rw [halt]; simp
    have hall : (propagateLightAura cfg a).1.pCascades = a.pCascades.map commitApplyState := by
      apply List.ext_getElem?
      intro j
      rw [hst, if_neg hne, List.getElem?_map]
      by_cases hj : j < a.mCascadeCount
      · rw [if_pos hj]
      · rw [if_neg hj]
        have : a.pCascades.length ≤ j := by omega
        rw [List.getElem?_eq_none this]
        rfl
    refine ⟨hall, ?_, ?_⟩
    · intro pc hpc
      rw [hall, List.mem_map] at hpc
      obtain ⟨c, _, rfl⟩ := hpc
      rfl
    · rw [hcalls, if_neg hne]


/-! ## C8: the round robin of alternate mode -/

/-- In alternate mode `beginFrame(Aura)` advances the current grid and runs
`beginFrame(cascade)` on the new current grid. -/
theorem beginFrame_alternate (cfg : Config) (a : Aura) (camPos camDir : vec3)
    (halt : doAlternateGPUUpdates cfg a = true) :
    beginFrame cfg a camPos camDir =
      ({ a with mGPUPropagationCurrentGrid :=
          (a.mGPUPropagationCurrentGrid + 1) % UINT32 % a.mCascadeCount }).modifyCascade
        ((a.mGPUPropagationCurrentGrid + 1) % UINT32 % a.mCascadeCount)
        (fun c => beginFrameCascade cfg c camPos camDir) := by
  simp only [beginFrame, halt, if_true]

theorem beginFrame_alternate_fields (cfg : Config) (a : Aura) (camPos camDir : vec3)
    (halt : doAlternateGPUUpdates cfg a = true) :
    (beginFrame cfg a camPos camDir).mParams = a.mParams ∧
    (beginFrame cfg a camPos camDir).mCascadeCount = a.mCascadeCount ∧
    (beginFrame cfg a camPos camDir).mGPUPropagationCurrentGrid =
      (a.mGPUPropagationCurrentGrid + 1) % UINT32 % a.mCascadeCount := by
  rw [beginFrame_alternate cfg a camPos camDir halt]
  exact ⟨modifyCascade_mParams _ _ _, modifyCascade_mCascadeCount _ _ _,
    modifyCascade_mGPUPropagationCurrentGrid _ _ _⟩

/-- Adding a constant modulo `n` permutes the indices below `n`. -/
theorem range_map_add_mod_perm (n c : ℕ) :
    ((List.range n).map (fun i => (c + i) % n)).Perm (List.range n) := by
  rcases Nat.eq_zero_or_pos n with h0 | hpos
  · subst h0; simp
  · apply List.Subperm.perm_of_length_le
    · apply List.subperm_of_subset
      · apply List.Nodup.map_on _ (List.nodup_range n)
        intro x hx y hy hxy
        rw [List.mem_range] at hx hy
        have h : x ≡ y [MOD n] := Nat.ModEq.add_left_cancel' c hxy
        unfold Nat.ModEq at h
        rwa [Nat.mod_eq_of_lt hx, Nat.mod_eq_of_lt hy] at h
      · intro x hx
        rw [List.mem_map] at hx
        obtain ⟨i, _, rfl⟩ := hx
        exact List.mem_range.mpr (Nat.mod_lt _ hpos)
    · simp

/-- The current grid over any number of consecutive frames in alternate mode. -/
theorem selectedGrids_eq (cfg : Config) (frames : List (vec3 × vec3)) (a : Aura)
    (halt : doAlternateGPUUpdates cfg a = true) (hn32 : a.mCascadeCount < UINT32)
    (hcur : a.mGPUPropagationCurrentGrid < a.mCascadeCount) :
    selectedGrids cfg a frames =
      (List.range frames.length).map
        (fun i => (a.mGPUPropagationCurrentGrid + 1 + i) % a.mCascadeCount) ∧
    (beginFrames cfg a frames).mGPUPropagationCurrentGrid =
      (a.mGPUPropagationCurrentGrid + frames.length) % a.mCascadeCount := by
  induction frames generalizing a with
  | nil =>
    simp only [selectedGrids, beginFrames, List.length_nil, List.range_zero, List.map_nil,
      Nat.add_zero, true_and]
    exact (Nat.mod_eq_of_lt hcur).symm
  | cons f fs ih =>
    obtain ⟨hp, hc, hg⟩ := beginFrame_alternate_fields cfg a f.1 f.2 halt
    have hwrap : (a.mGPUPropagationCurrentGrid + 1) % UINT32 = a.mGPUPropagationCurrentGrid + 1 :=
      Nat.mod_eq_of_lt (by omega)
    rw [hwrap] at hg
    have hpos : 0 < a.mCascadeCount := by omega
    have halt2 : doAlternateGPUUpdates cfg (beginFrame cfg a f.1 f.2) = true := by
      rw [doAlternateGPUUpdates_congr cfg _ a hp]; exact halt
    have hcur2 : (beginFrame cfg a f.1 f.2).mGPUPropagationCurrentGrid <
        (beginFrame cfg a f.1 f.2).mCascadeCount := by
      rw [hg, hc]; exact Nat.mod_lt _ hpos
    obtain ⟨ih1, ih2⟩ := ih (beginFrame cfg a f.1 f.2) halt2 (by rw [hc]; exact hn32) hcur2
    constructor
    · simp only [selectedGrids, List.length_cons, List.range_succ_eq_map, List.map_cons,
        List.map_map]
      rw [ih1, hg, hc]
      congr 1
      apply List.map_congr_left
      intro i _
      simp only [Function.comp, Nat.succ_eq_add_one]
      rw [Nat.add_assoc ((a.mGPUPropagationCurrentGrid + 1) % a.mCascadeCount), Nat.add_mod,
        Nat.mod_mod, ← Nat.add_mod]
      congr 1
      omega
    · simp only [beginFrames, List.length_cons]
      rw [ih2, hg, hc, Nat.add_mod, Nat.mod_mod, ← Nat.add_mod]
      congr 1
      omega


/-- C8. Alternate mode round-robins the cascades. With `doAlternateGPUUpdates` true,
`mCascadeCount = n >= 1` and the current grid below `n`, `beginFrame(Aura)` sets
`mGPUPropagationCurrentGrid` to `(old + 1) mod n`, which is below `n`, runs
`beginFrame(cascade)` on that cascade and leaves every other cascade as it was; over any
`n` consecutive calls the selected indices are a rearrangement of `0, ..., n - 1` (each
index exactly once) and the current grid is back at its starting value. -/
theorem C8_alternate_mode_round_robin (cfg : Config) (a : Aura)
    (halt : doAlternateGPUUpdates cfg a = true) (hn : 1 ≤ a.mCascadeCount)
    (hn32 : a.mCascadeCount < UINT32)
    (hcur : a.mGPUPropagationCurrentGrid < a.mCascadeCount) :
    (∀ camPos camDir : vec3,
      (beginFrame cfg a camPos camDir).mGPUPropagationCurrentGrid =
        (a.mGPUPropagationCurrentGrid + 1) % a.mCascadeCount ∧
      (beginFrame cfg a camPos camDir).mGPUPropagationCurrentGrid < a.mCascadeCount ∧
      (beginFrame cfg a camPos camDir).pCascades[
          (a.mGPUPropagationCurrentGrid + 1) % a.mCascadeCount]? =
        (a.pCascades[(a.mGPUPropagationCurrentGrid + 1) % a.mCascadeCount]?).map
          (fun c => beginFrameCascade cfg c camPos camDir) ∧
      ∀ j : ℕ, j ≠ (a.mGPUPropagationCurrentGrid + 1) % a.mCascadeCount →
        (beginFrame cfg a camPos camDir).pCascades[j]? = a.pCascades[j]?) ∧
    (∀ frames : List (vec3 × vec3), frames.length = a.mCascadeCount →
      (selectedGrids cfg a frames).Perm (List.range a.mCascadeCount) ∧
      (beginFrames cfg a frames).mGPUPropagationCurrentGrid = a.mGPUPropagationCurrentGrid) := by
  have hwrap : (a.mGPUPropagationCurrentGrid + 1) % UINT32 = a.mGPUPropagationCurrentGrid + 1 :=
    Nat.mod_eq_of_lt (by omega)
  constructor
  · intro camPos camDir
    have hg := (beginFrame_alternate_fields cfg a camPos camDir halt).2.2
    rw [hwrap] at hg
    refine ⟨hg, ?_, ?_, ?_⟩
    · rw [hg]; exact Nat.mod_lt _ (by omega)
    · rw [beginFrame_alternate cfg a camPos camDir halt, hwrap,
        modifyCascade_pCascades_getElem?, if_pos rfl]
    · intro j hj
      rw [beginFrame_alternate cfg a camPos camDir halt, hwrap,
        modifyCascade_pCascades_getElem?, if_neg hj]
  · intro frames hlen
    obtain ⟨h1, h2⟩ := selectedGrids_eq cfg frames a halt hn32 hcur
    constructor
    · rw [h1, hlen]
      exact range_map_add_mod_perm a.mCascadeCount (a.mGPUPropagationCurrentGrid + 1)
    · rw [h2, hlen, Nat.add_mod_right]
      exact Nat.mod_eq_of_lt hcur

/-! ## C10: the update mask -/

/-- The sum of the first `k` single-bit values, accumulated in a `uint32_t`. -/
theorem foldl_mask (k : ℕ) (hk : k ≤ 32) :
    (List.range k).foldl (fun res i => (res + (1 <<< i) % UINT32) % UINT32) 0 = 2 ^ k - 1 := by
  induction k with
  | zero => rfl
  | succ k ih =>
    rw [List.range_succ, List.foldl_append, ih (by omega)]
    simp only [List.foldl_cons, List.foldl_nil, Nat.one_shiftLeft, UINT32]
    have h1 : 2 ^ k < 2 ^ 32 := Nat.pow_lt_pow_right (by norm_num) (by omega)
    have h2 : 2 ^ (k + 1) ≤ 2 ^ 32 := Nat.pow_le_pow_right (by norm_num) hk
    have h3 : 0 < 2 ^ k := Nat.pow_pos (by norm_num)
    rw [Nat.mod_eq_of_lt h1, pow_succ]
    rw [pow_succ] at h2
    rw [Nat.mod_eq_of_lt (by omega)]
    omega

/-- C10. `getCascadesToUpdateMask` names exactly the cascades updated this frame. For
`1 <= mCascadeCount <= 31` and the current grid below `mCascadeCount`, in alternate mode
the mask is `2 ^ mGPUPropagationCurrentGrid` (bit `i` set exactly for the current grid),
and otherwise it is `2 ^ mCascadeCount - 1` (bit `i` set exactly when
`i < mCascadeCount`). -/
theorem C10_getCascadesToUpdateMask (cfg : Config) (a : Aura) (h1 : 1 ≤ a.mCascadeCount)
    (h31 : a.mCascadeCount ≤ 31) (hcur : a.mGPUPropagationCurrentGrid < a.mCascadeCount) :
    (doAlternateGPUUpdates cfg a = true →
      getCascadesToUpdateMask cfg a = 2 ^ a.mGPUPropagationCurrentGrid ∧
      ∀ i : ℕ, (getCascadesToUpdateMask cfg a).testBit i =
        decide (i = a.mGPUPropagationCurrentGrid)) ∧
    (doAlternateGPUUpdates cfg a = false →
      getCascadesToUpdateMask cfg a = 2 ^ a.mCascadeCount - 1 ∧
      ∀ i : ℕ, (getCascadesToUpdateMask cfg a).testBit i = decide (i < a.mCascadeCount)) := by
  constructor
  · intro halt
    have hm : getCascadesToUpdateMask cfg a = 2 ^ a.mGPUPropagationCurrentGrid := by
      simp only [getCascadesToUpdateMask, halt, if_true, Nat.one_shiftLeft, UINT32]
      exact Nat.mod_eq_of_lt (Nat.pow_lt_pow_right (by norm_num) (by omega))
    refine ⟨hm, ?_⟩
    intro i
    rw [hm, Nat.testBit_two_pow]
    by_cases h : i = a.mGPUPropagationCurrentGrid
    · simp [h]
    · have h' : ¬ (a.mGPUPropagationCurrentGrid = i) := fun e => h e.symm
      simp [h, h']
  · intro halt
    have hm : getCascadesToUpdateMask cfg a = 2 ^ a.mCascadeCount - 1 := by
      simp only [getCascadesToUpdateMask, halt]
      exact foldl_mask a.mCascadeCount (by omega)
    refine ⟨hm, ?_⟩
    intro i
    rw [hm, Nat.testBit_two_pow_sub_one]


/-- C6 at the sample `Aura` of three cascades and the cascade index 1. -/
theorem C6_propagateLight_commits_apply_state_witness :
    (sampleAura true 0).pCascades.length = (sampleAura true 0).mCascadeCount ∧
    1 < (sampleAura true 0).mCascadeCount ∧
    (∀ pc : LightPropagationCascade,
      (propagateLight sampleConfig (sampleAura true 0) 1).1.pCascades[1]? = some pc →
      pc.mApplyState = pc.mInjectState) ∧
    (∀ j : ℕ, j ≠ 1 →
      (propagateLight sampleConfig (sampleAura true 0) 1).1.pCascades[j]? =
        (sampleAura true 0).pCascades[j]?) :=
  ⟨rfl, by decide,
    (C6_propagateLight_commits_apply_state sampleConfig (sampleAura true 0) 1 rfl
      (by decide)).2.1,
    (C6_propagateLight_commits_apply_state sampleConfig (sampleAura true 0) 1 rfl
      (by decide)).2.2.1⟩

/-- C8 at the sample `Aura` of three cascades in alternate mode, the current grid at 2: the
next frame selects cascade 0. -/
theorem C8_alternate_mode_round_robin_witness :
    doAlternateGPUUpdates sampleConfig (sampleAura true 2) = true ∧
    (2 + 1) % 3 = 0 ∧
    (∀ camPos camDir : vec3,
      (beginFrame sampleConfig (sampleAura true 2) camPos camDir).mGPUPropagationCurrentGrid =
        ((sampleAura true 2).mGPUPropagationCurrentGrid + 1) % (sampleAura true 2).mCascadeCount) ∧
    (∀ frames : List (vec3 × vec3), frames.length = (sampleAura true 2).mCascadeCount →
      (selectedGrids sampleConfig (sampleAura true 2) frames).Perm
        (List.range (sampleAura true 2).mCascadeCount) ∧
      (beginFrames sampleConfig (sampleAura true 2) frames).mGPUPropagationCurrentGrid =
        (sampleAura true 2).mGPUPropagationCurrentGrid) :=
  ⟨rfl, rfl,
    fun camPos camDir =>
      ((C8_alternate_mode_round_robin sampleConfig (sampleAura true 2) rfl (by decide)
        (by decide) (by decide)).1 camPos camDir).1,
    (C8_alternate_mode_round_robin sampleConfig (sampleAura true 2) rfl (by decide)
      (by decide) (by decide)).2⟩

/-- C9 at the sample `Aura` of three cascades, once with alternate mode off and once with
alternate mode on and the current grid at 1. -/
theorem C9_propagateLight_selects_cascades_witness :
    doAlternateGPUUpdates sampleConfig (sampleAura false 0) = false ∧
    (sampleAura false 0).pCascades.length = (sampleAura false 0).mCascadeCount ∧
    (propagateLightAura sampleConfig (sampleAura false 0)).1.pCascades =
      (sampleAura false 0).pCascades.map commitApplyState ∧
    (∀ j : ℕ, j ≠ (sampleAura true 1).mGPUPropagationCurrentGrid →
      (propagateLightAura sampleConfig (sampleAura true 1)).1.pCascades[j]? =
        (sampleAura true 1).pCascades[j]?) :=
  ⟨rfl, rfl,
    ((C9_propagateLight_selects_cascades sampleConfig (sampleAura false 0) (Or.inl rfl)
      rfl).2 rfl).1,
    ((C9_propagateLight_selects_cascades sampleConfig (sampleAura true 1) (Or.inl rfl)
      rfl).1 rfl).2.1⟩

/-- C10 at the sample `Aura` of three cascades: the mask is 2 in alternate mode with the
current grid at 1, and 7 with alternate mode off. -/
theorem C10_getCascadesToUpdateMask_witness :
    getCascadesToUpdateMask sampleConfig (sampleAura true 1) = 2 ^ 1 ∧
    getCascadesToUpdateMask sampleConfig (sampleAura false 1) = 2 ^ 3 - 1 :=
  ⟨((C10_getCascadesToUpdateMask sampleConfig (sampleAura true 1) (by decide) (by decide)
      (by decide)).1 rfl).1,
    ((C10_getCascadesToUpdateMask sampleConfig (sampleAura false 1) (by decide) (by decide)
      (by decide)).2 rfl).1⟩

/-! ## C11 and C12: injection -/

/-- A loop of writes through `f`, one for each index of a list without repetitions: the
listed cascades are written once, the others are as before. -/
theorem foldl_modifyCascade_getElem? (l : List ℕ) (hl : l.Nodup) (a : Aura)
    (f : LightPropagationCascade → LightPropagationCascade) (j : ℕ) :
    (l.foldl (fun a i => a.modifyCascade i f) a).pCascades[j]? =
      if j ∈ l then (a.pCascades[j]?).map f else a.pCascades[j]? := by
  induction l generalizing a with
  | nil => simp
  | cons i l ih =>
    rw [List.nodup_cons] at hl
    rw [List.foldl_cons, ih hl.2, modifyCascade_pCascades_getElem?]
    by_cases hji : j = i
    · subst hji
      simp [hl.1]
    · simp [hji]

/-- The cascades after `beginFrame(Aura)` when alternate mode is off. -/
theorem beginFrame_all_getElem? (cfg : Config) (a : Aura) (camPos camDir : vec3)
    (halt : doAlternateGPUUpdates cfg a = false) (j : ℕ) :
    (beginFrame cfg a camPos camDir).pCascades[j]? =
      if j < a.mCascadeCount then
        (a.pCascades[j]?).map (fun c => beginFrameCascade cfg c camPos camDir)
      else a.pCascades[j]? := by
  simp only [beginFrame, halt]
  have h := foldl_modifyCascade_getElem? (List.range a.mCascadeCount) (List.nodup_range _) a
    (fun c => beginFrameCascade cfg c camPos camDir) j
  simp only [List.mem_range] at h
  exact h

theorem foldl_modifyCascade_fields (l : List ℕ) (a : Aura)
    (f : LightPropagationCascade → LightPropagationCascade) :
    (l.foldl (fun a i => a.modifyCascade i f) a).mParams = a.mParams ∧
    (l.foldl (fun a i => a.modifyCascade i f) a).mCascadeCount = a.mCascadeCount ∧
    (l.foldl (fun a i => a.modifyCascade i f) a).mGPUPropagationCurrentGrid =
      a.mGPUPropagationCurrentGrid ∧
    (l.foldl (fun a i => a.modifyCascade i f) a).pCascades.length = a.pCascades.length := by
  induction l generalizing a with
  | nil => exact ⟨rfl, rfl, rfl, rfl⟩
  | cons i l ih =>
    rw [List.foldl_cons]
    obtain ⟨h1, h2, h3, h4⟩ := ih (a.modifyCascade i f)
    exact ⟨h1.trans (modifyCascade_mParams _ _ _), h2.trans (modifyCascade_mCascadeCount _ _ _),
      h3.trans (modifyCascade_mGPUPropagationCurrentGrid _ _ _),
      h4.trans (modifyCascade_length _ _ _)⟩

/-- What `beginFrame(Aura)` keeps: the parameters, the cascade count, the number of
cascades; and the current grid stays below the cascade count. -/
theorem beginFrame_fields (cfg : Config) (a : Aura) (camPos camDir : vec3)
    (hcnt : a.mCascadeCount < UINT32) (hcur : a.mGPUPropagationCurrentGrid < a.mCascadeCount) :
    (beginFrame cfg a camPos camDir).mParams = a.mParams ∧
    (beginFrame cfg a camPos camDir).mCascadeCount = a.mCascadeCount ∧
    (beginFrame cfg a camPos camDir).pCascades.length = a.pCascades.length ∧
    (beginFrame cfg a camPos camDir).mGPUPropagationCurrentGrid < a.mCascadeCount ∧
    (beginFrame cfg a camPos camDir).mGPUPropagationCurrentGrid =
      (if doAlternateGPUUpdates cfg a = true then
        (a.mGPUPropagationCurrentGrid + 1) % a.mCascadeCount
      else a.mGPUPropagationCurrentGrid) := by
  by_cases halt : doAlternateGPUUpdates cfg a = true
  · obtain ⟨h1, h2, h3⟩ := beginFrame_alternate_fields cfg a camPos camDir halt
    have hwrap : (a.mGPUPropagationCurrentGrid + 1) % UINT32 = a.mGPUPropagationCurrentGrid + 1 :=
      Nat.mod_eq_of_lt (by omega)
    rw [hwrap] at h3
    refine ⟨h1, h2, ?_, ?_, ?_⟩
    · rw [beginFrame_alternate cfg a camPos camDir halt, modifyCascade_length]
    · rw [h3]; exact Nat.mod_lt _ (by omega)
    · rw [h3, if_pos halt]
  · have h := foldl_modifyCascade_fields (List.range a.mCascadeCount) a
      (fun c => beginFrameCascade cfg c camPos camDir)
    have hb : beginFrame cfg a camPos camDir =
        (List.range a.mCascadeCount).foldl
          (fun a i => a.modifyCascade i (fun c => beginFrameCascade cfg c camPos camDir)) a := by
      simp only [beginFrame, halt]
      rfl
    rw [hb]
    refine ⟨h.1, h.2.1, h.2.2.2, ?_, ?_⟩
    · rw [h.2.2.1]; exact hcur
    · rw [h.2.2.1, if_neg halt]

/-- Bit `i` of the update mask, for at most 32 cascades and a current grid among them. -/
theorem getCascadesToUpdateMask_testBit (cfg : Config) (a : Aura) (hcnt : a.mCascadeCount ≤ 32)
    (hcur : a.mGPUPropagationCurrentGrid < a.mCascadeCount) (i : ℕ) :
    (getCascadesToUpdateMask cfg a).testBit i =
      if doAlternateGPUUpdates cfg a = true then decide (i = a.mGPUPropagationCurrentGrid)
      else decide (i < a.mCascadeCount) := by
  by_cases halt : doAlternateGPUUpdates cfg a = true
  · have hm : getCascadesToUpdateMask cfg a = 2 ^ a.mGPUPropagationCurrentGrid := by
      simp only [getCascadesToUpdateMask, halt, if_true, Nat.one_shiftLeft, UINT32]
      exact Nat.mod_eq_of_lt (Nat.pow_lt_pow_right (by norm_num) (by omega))
    rw [hm, if_pos halt, Nat.testBit_two_pow]
    by_cases h : i = a.mGPUPropagationCurrentGrid
    · simp [h]
    · have h' : ¬ (a.mGPUPropagationCurrentGrid = i) := fun e => h e.symm
      simp [h, h']
  · have hm : getCascadesToUpdateMask cfg a = 2 ^ a.mCascadeCount - 1 := by
      simp only [getCascadesToUpdateMask, halt]
      exact foldl_mask a.mCascadeCount hcnt
    rw [hm, if_neg halt, Nat.testBit_two_pow_sub_one]

/-- The calls of `injectRSM`: none when the volume is throttled, at least one when it is
not and the cascade exists. -/
theorem injectRSM_calls_eq_nil_iff (cfg : Config) (a : Aura) (iVolume : ℕ) (invVP : mat4)
    (camDir : vec3) (rtWidth rtHeight : ℕ) (viewAreaForUnitDepth : ℚ)
    (hi : iVolume < a.pCascades.length) :
    (injectRSM cfg a iVolume invVP camDir rtWidth rtHeight viewAreaForUnitDepth).2 = [] ↔
      (doAlternateGPUUpdates cfg a = true ∧ iVolume ≠ a.mGPUPropagationCurrentGrid) := by
  have hsome : a.pCascades[iVolume]? = some (a.pCascades[iVolume]) := List.getElem?_eq_getElem hi
  unfold injectRSM
  by_cases halt : doAlternateGPUUpdates cfg a = true
  · by_cases hv : a.mGPUPropagationCurrentGrid = iVolume
    · simp [halt, hv, hsome]
    · have hv' : iVolume ≠ a.mGPUPropagationCurrentGrid := fun e => hv e.symm
      simp [halt, hv, hv']
  · simp [halt, hsome]
/-- C11. Injection is throttled consistently with the update mask. For at most 32 cascades
(`pCascades` holding `mCascadeCount` of them), a current grid among them and a volume
`iVolume` below `mCascadeCount`: `injectRSM` returns the state as it was and issues no call
exactly when bit `iVolume` of `getCascadesToUpdateMask` is clear, which is exactly when
alternate mode is on and `iVolume` differs from `mGPUPropagationCurrentGrid`. Within one
frame, in the state left by `beginFrame`, the cascades whose mask bit is set are the ones
`beginFrame` ran `beginFrame(cascade)` on, the ones `injectRSM` issues calls for, and, on
the GPU path, the ones `propagateLight` commits. -/
theorem C11_injection_throttled_with_mask (cfg : Config) (a : Aura) (iVolume : ℕ)
    (hlen : a.pCascades.length = a.mCascadeCount) (hcnt : a.mCascadeCount ≤ 32)
    (hcur : a.mGPUPropagationCurrentGrid < a.mCascadeCount) (hi : iVolume < a.mCascadeCount) :
    (∀ (invVP : mat4) (camDir : vec3) (rtWidth rtHeight : ℕ) (viewAreaForUnitDepth : ℚ),
      (injectRSM cfg a iVolume invVP camDir rtWidth rtHeight viewAreaForUnitDepth = (a, []) ↔
        (getCascadesToUpdateMask cfg a).testBit iVolume = false)) ∧
    ((getCascadesToUpdateMask cfg a).testBit iVolume = false ↔
      (doAlternateGPUUpdates cfg a = true ∧ iVolume ≠ a.mGPUPropagationCurrentGrid)) ∧
    (∀ camPos camDir : vec3,
      (beginFrame cfg a camPos camDir).pCascades[iVolume]? =
        (if (getCascadesToUpdateMask cfg (beginFrame cfg a camPos camDir)).testBit iVolume = true
          then (a.pCascades[iVolume]?).map (fun c => beginFrameCascade cfg c camPos camDir)
          else a.pCascades[iVolume]?) ∧
      (∀ (invVP : mat4) (lightDir : vec3) (rtWidth rtHeight : ℕ) (viewAreaForUnitDepth : ℚ),
        ((injectRSM cfg (beginFrame cfg a camPos camDir) iVolume invVP lightDir rtWidth
            rtHeight viewAreaForUnitDepth).2 ≠ [] ↔
          (getCascadesToUpdateMask cfg (beginFrame cfg a camPos camDir)).testBit iVolume
            = true)) ∧
      ((cfg.ENABLE_CPU_PROPAGATION = false ∨ a.mParams.bUseCPUPropagation = false) →
        (propagateLightAura cfg (beginFrame cfg a camPos camDir)).1.pCascades[iVolume]? =
          (if (getCascadesToUpdateMask cfg (beginFrame cfg a camPos camDir)).testBit iVolume
              = true
            then ((beginFrame cfg a camPos camDir).pCascades[iVolume]?).map commitApplyState
            else (beginFrame cfg a camPos camDir).pCascades[iVolume]?))) := by
  have hbit := getCascadesToUpdateMask_testBit cfg a hcnt hcur iVolume
  have hbitF : (getCascadesToUpdateMask cfg a).testBit iVolume = false ↔
      (doAlternateGPUUpdates cfg a = true ∧ iVolume ≠ a.mGPUPropagationCurrentGrid) := by
    rw [hbit]
    by_cases halt : doAlternateGPUUpdates cfg a = true
    · simp [halt]
    · simp [halt, hi]
  refine ⟨?_, hbitF, ?_⟩
  · intro invVP camDir w h v
    rw [hbitF, ← injectRSM_calls_eq_nil_iff cfg a iVolume invVP camDir w h v (by omega)]
    constructor
    · intro e
      rw [e]
    · intro e
      apply Prod.ext
      · exact injectRSM_fst cfg a iVolume invVP camDir w h v
      · exact e
  · intro camPos camDir
    have hU : a.mCascadeCount < UINT32 := by
      have : (32 : ℕ) < UINT32 := by decide
      omega
    obtain ⟨hp, hc, hl, hcur', hcurEq⟩ := beginFrame_fields cfg a camPos camDir hU hcur
    have halt' := doAlternateGPUUpdates_congr cfg _ a hp
    have hbit' := getCascadesToUpdateMask_testBit cfg (beginFrame cfg a camPos camDir)
      (by rw [hc]; exact hcnt) (by rw [hc]; exact hcur') iVolume
    rw [halt', hc] at hbit'
    refine ⟨?_, ?_, ?_⟩
    · by_cases halt : doAlternateGPUUpdates cfg a = true
      · have hg := hcurEq
        rw [if_pos halt] at hg
        have hwrap : (a.mGPUPropagationCurrentGrid + 1) % UINT32 =
            a.mGPUPropagationCurrentGrid + 1 := Nat.mod_eq_of_lt (by omega)
        rw [hg, if_pos halt] at hbit'
        rw [hbit', beginFrame_alternate cfg a camPos camDir halt, hwrap,
          modifyCascade_pCascades_getElem?]
        by_cases hj : iVolume = (a.mGPUPropagationCurrentGrid + 1) % a.mCascadeCount
        · simp [hj]
        · simp [hj]
      · have haltF : doAlternateGPUUpdates cfg a = false := by simpa using halt
        rw [hbit', beginFrame_all_getElem? cfg a camPos camDir haltF, if_neg halt]
        simp [hi]
    · intro invVP lightDir w h v
      rw [Ne, injectRSM_calls_eq_nil_iff cfg _ iVolume invVP lightDir w h v
        (by rw [hl]; omega), halt', hbit']
      by_cases halt : doAlternateGPUUpdates cfg a = true
      · simp [halt]
      · simp [halt, hi]
    · intro hgpu
      have hgpu' : cfg.ENABLE_CPU_PROPAGATION = false ∨
          (beginFrame cfg a camPos camDir).mParams.bUseCPUPropagation = false := by
        rw [hp]; exact hgpu
      rw [propagateLightAura_gpu_pCascades cfg _ hgpu', halt', hc, hbit']
      by_cases halt : doAlternateGPUUpdates cfg a = true
      · simp [halt]
      · simp [halt, hi]
theorem worldToGridOf_mul_gridToWorldOf (span : ℚ) (s : vec3) (h : span ≠ 0) :
    (worldToGridOf span s).mul (gridToWorldOf span s) = mat4.identity := by
  simp only [worldToGridOf, gridToWorldOf, mat4.mul, mat4.col, float4.dot, mat4.identity]
  congr 1 <;> congr 1 <;> field_simp <;> ring

theorem gridToWorldOf_mul_worldToGridOf (span : ℚ) (s : vec3) (h : span ≠ 0) :
    (gridToWorldOf span s).mul (worldToGridOf span s) = mat4.identity := by
  simp only [worldToGridOf, gridToWorldOf, mat4.mul, mat4.col, float4.dot, mat4.identity]
  congr 1 <;> congr 1 <;> field_simp <;> ring

/-- In exact arithmetic the scale/translate pair is a faithful decomposition of the
world-to-grid transform. After `setGridCenter` on a cascade of positive span, with snapped
centre `s`: for every world point `w` the image `(mWorldToGrid * (w, 1)).xyz` is
`w * mWorldToGridScale + mWorldToGridTranslate` componentwise; `mWorldToGridScale` is
`1 / gridSpan` on every axis; `mWorldToGridTranslate` is `1/2 - s / gridSpan`; and
`mWorldToGrid * mGridToWorld` (as well as the product in the other order) is the identity. -/
theorem scale_translate_decomposition_exact (cfg : Config) (c : LightPropagationCascade)
    (u : vec3) (hspan : 0 < c.mGridSpan) :
    (∀ w : vec3,
      ((setGridCenter cfg c u).mInjectState.mWorldToGrid.mulVec (float4.ofVec3 w 1)).xyz =
        ⟨w.x * (setGridCenter cfg c u).mInjectState.mWorldToGridScale.x +
            (setGridCenter cfg c u).mInjectState.mWorldToGridTranslate.x,
          w.y * (setGridCenter cfg c u).mInjectState.mWorldToGridScale.y +
            (setGridCenter cfg c u).mInjectState.mWorldToGridTranslate.y,
          w.z * (setGridCenter cfg c u).mInjectState.mWorldToGridScale.z +
            (setGridCenter cfg c u).mInjectState.mWorldToGridTranslate.z⟩) ∧
    (setGridCenter cfg c u).mInjectState.mWorldToGridScale =
      ⟨1 / c.mGridSpan, 1 / c.mGridSpan, 1 / c.mGridSpan⟩ ∧
    (setGridCenter cfg c u).mInjectState.mWorldToGridTranslate =
      ⟨1 / 2 - (snapToGrid (getCellSize cfg c) u).x / c.mGridSpan,
        1 / 2 - (snapToGrid (getCellSize cfg c) u).y / c.mGridSpan,
        1 / 2 - (snapToGrid (getCellSize cfg c) u).z / c.mGridSpan⟩ ∧
    (setGridCenter cfg c u).mInjectState.mWorldToGrid.mul
      (setGridCenter cfg c u).mInjectState.mGridToWorld = mat4.identity ∧
    (setGridCenter cfg c u).mInjectState.mGridToWorld.mul
      (setGridCenter cfg c u).mInjectState.mWorldToGrid = mat4.identity := by
  rw [setGridCenter_mInjectState cfg c u hspan.ne']
  refine ⟨?_, rfl, rfl, worldToGridOf_mul_gridToWorldOf _ _ hspan.ne',
    gridToWorldOf_mul_worldToGridOf _ _ hspan.ne'⟩
  intro w
  simp only [worldToGridOf, mat4.mulVec, float4.dot, float4.ofVec3, float4.xyz]
  congr 1 <;> ring

/-- C11 at the sample `Aura` of three cascades in alternate mode with the current grid at
1, and the volume 0: it is throttled and its mask bit is clear. -/
theorem C11_injection_throttled_with_mask_witness :
    (sampleAura true 1).pCascades.length = (sampleAura true 1).mCascadeCount ∧
    (sampleAura true 1).mCascadeCount ≤ 32 ∧
    (sampleAura true 1).mGPUPropagationCurrentGrid < (sampleAura true 1).mCascadeCount ∧
    0 < (sampleAura true 1).mCascadeCount ∧
    (∀ (invVP : mat4) (camDir : vec3) (rtWidth rtHeight : ℕ) (viewAreaForUnitDepth : ℚ),
      (injectRSM sampleConfig (sampleAura true 1) 0 invVP camDir rtWidth rtHeight
          viewAreaForUnitDepth = (sampleAura true 1, []) ↔
        (getCascadesToUpdateMask sampleConfig (sampleAura true 1)).testBit 0 = false)) ∧
    ((getCascadesToUpdateMask sampleConfig (sampleAura true 1)).testBit 0 = false ↔
      (doAlternateGPUUpdates sampleConfig (sampleAura true 1) = true ∧
        0 ≠ (sampleAura true 1).mGPUPropagationCurrentGrid)) :=
  ⟨rfl, by decide, by decide, by decide,
    (C11_injection_throttled_with_mask sampleConfig (sampleAura true 1) 0 rfl (by decide)
      (by decide) (by decide)).1,
    (C11_injection_throttled_with_mask sampleConfig (sampleAura true 1) 0 rfl (by decide)
      (by decide) (by decide)).2.1⟩
/-! ## C18: the data of the lighting pass -/

theorem forall₂_getElem? {α : Type} (R : α → α → Prop) (l₁ l₂ : List α)
    (h : List.Forall₂ R l₁ l₂) (i : ℕ) :
    (l₁[i]? = none ∧ l₂[i]? = none) ∨ ∃ x y, l₁[i]? = some x ∧ l₂[i]? = some y ∧ R x y := by
  induction h generalizing i with
  | nil => left; simp
  | cons hxy _ ih =>
    cases i with
    | zero => right; exact ⟨_, _, by simp, by simp, hxy⟩
    | succ i => simpa using ih i

/-- A loop over the indices of a list that reads the entry of each index visits every
entry once, in order. -/
theorem filterMap_range_getElem? {α β : Type} (l : List α) (f : ℕ → α → β) :
    (List.range l.length).filterMap (fun k => (l[k]?).map (f k)) = l.mapIdx f := by
  induction l using List.reverseRecOn with
  | nil => rfl
  | append_singleton l x ih =>
    rw [List.length_append, List.length_singleton, List.range_succ, List.filterMap_append,
      List.mapIdx_concat, ← ih]
    congr 1
    · apply List.filterMap_congr
      intro k hk
      rw [List.mem_range] at hk
      rw [List.getElem?_append_left hk]
    · simp

theorem cascadeApplyData_congr (cfg : Config) (a b : Aura) (i : ℕ)
    (c d : LightPropagationCascade) (hp : a.mParams = b.mParams)
    (hcd : c.sameExceptInjectState d) :
    cascadeApplyData cfg a i c = cascadeApplyData cfg b i d := by
  obtain ⟨h1, _, _, _, h5⟩ := hcd
  simp only [cascadeApplyData, hp, h1, h5]

/-- Writing the cascades through a function that changes `mInjectState` only gives a state
that differs in the inject states only. -/
theorem sameExceptInjectState_map (a : Aura)
    (f : LightPropagationCascade → LightPropagationCascade)
    (hf : ∀ c : LightPropagationCascade, c.sameExceptInjectState (f c)) :
    a.sameExceptInjectState { a with pCascades := a.pCascades.map f } := by
  refine ⟨rfl, rfl, rfl, ?_, rfl, rfl, rfl, rfl, rfl⟩
  show List.Forall₂ _ a.pCascades (a.pCascades.map f)
  induction a.pCascades with
  | nil => exact List.Forall₂.nil
  | cons c l ih => exact List.Forall₂.cons (hf c) ih

/-- C18. Lighting lookups use the committed snapshot, not the live injection state. The
entry `getLightApplyData` writes for a cascade takes `WorldToGridScale`,
`WorldToGridTranslate` and `smoothGridPosOffset` from the cascade's `mApplyState`; and for
two `Aura` states that differ only in the `mInjectState` of their cascades it returns the
same `LightApplyData` for the same `invVP` and `camPos`. -/
theorem C18_apply_data_ignores_inject_state (cfg : Config) (a b : Aura) (invVP : mat4)
    (camPos : vec3) (hlen : a.pCascades.length = a.mCascadeCount)
    (h : a.sameExceptInjectState b) :
    (getLightApplyData cfg a invVP camPos).cascade =
      a.pCascades.mapIdx (cascadeApplyData cfg a) ∧
    (∀ (i : ℕ) (pc : LightPropagationCascade),
      (cascadeApplyData cfg a i pc).WorldToGridScale = pc.mApplyState.mWorldToGridScale ∧
      (cascadeApplyData cfg a i pc).WorldToGridTranslate =
        pc.mApplyState.mWorldToGridTranslate ∧
      (cascadeApplyData cfg a i pc).smoothGridPosOffset = pc.mApplyState.mSmoothTCOffset) ∧
    getLightApplyData cfg a invVP camPos = getLightApplyData cfg b invVP camPos := by
  refine ⟨?_, fun i pc => ⟨rfl, rfl, rfl⟩, ?_⟩
  · simp only [getLightApplyData]
    rw [← hlen]
    exact filterMap_range_getElem? a.pCascades (cascadeApplyData cfg a)
  · obtain ⟨hp, _, hc, hf, _⟩ := h
    simp only [getLightApplyData, hp, hc]
    congr 1
    apply List.filterMap_congr
    intro i _
    rcases forall₂_getElem? _ _ _ hf i with ⟨h1, h2⟩ | ⟨x, y, h1, h2, hxy⟩
    · rw [h1, h2]; rfl
    · rw [h1, h2]
      simp only [Option.map_some']
      rw [cascadeApplyData_congr cfg a b i x y hp hxy]

/-- C18 at the sample `Aura` and the same `Aura` with every cascade recentred at
`(5, 0, 0)`, which changes the inject states only. -/
theorem C18_apply_data_ignores_inject_state_witness :
    (sampleAura false 0).sameExceptInjectState sampleAuraMoved ∧
    getLightApplyData sampleConfig (sampleAura false 0) mat4.identity ⟨1, 2, 3⟩ =
      getLightApplyData sampleConfig sampleAuraMoved mat4.identity ⟨1, 2, 3⟩ :=
  ⟨sameExceptInjectState_map (sampleAura false 0)
      (fun c => setGridCenter sampleConfig c ⟨5, 0, 0⟩) (fun _ => ⟨rfl, rfl, rfl, rfl, rfl⟩),
    (C18_apply_data_ignores_inject_state sampleConfig (sampleAura false 0) sampleAuraMoved
      mat4.identity ⟨1, 2, 3⟩ rfl
      (sameExceptInjectState_map (sampleAura false 0)
        (fun c => setGridCenter sampleConfig c ⟨5, 0, 0⟩)
        (fun _ => ⟨rfl, rfl, rfl, rfl, rfl⟩))).2.2⟩
/-! ## C14: the passes of `propagateLight(cascade)` -/

theorem phaseAt_succ (i : ℕ) : phaseAt (i + 1) = !phaseAt i := by
  unfold phaseAt
  rcases Nat.mod_two_eq_zero_or_one i with h | h
  · have h1 : (i + 1) % 2 = 1 := by omega
    simp [h, h1]
  · have h1 : (i + 1) % 2 = 0 := by omega
    simp [h, h1]

/-- The loop of `propagateLight(cascade)`, unrolled: entered at counter `i` with the flag
`phaseAt i`, it issues the calls of the turns `i, i + 1, ..., i + turns - 1`, each with the
flag `phaseAt` of its counter, and leaves the flag `phaseAt (i + turns)`. -/
theorem propagateLoop_unrolled (cfg : Config) (a : Aura) (cascade turns i : ℕ) :
    propagateLoop cfg a cascade turns i (phaseAt i) =
      ((List.range turns).flatMap
        (fun k => propagateStep cfg a cascade (i + k) (phaseAt (i + k))),
       phaseAt (i + turns)) := by
  induction turns generalizing i with
  | zero => simp [propagateLoop]
  | succ n ih =>
    have h := ih (i + 1)
    rw [phaseAt_succ] at h
    simp only [propagateLoop, h, List.range_succ_eq_map, List.flatMap_cons, List.flatMap_map,
      Nat.add_zero]
    refine Prod.ext ?_ ?_
    · simp only
      congr 1
      apply List.flatMap_congr
      intro k _
      have e : i + (k + 1) = i + 1 + k := by omega
      simp only [Function.comp, Nat.succ_eq_add_one, e]
    · simp only
      congr 1
      omega

/-- All calls `propagateLight(cascade)` issues before the commit, with the loop unrolled. -/
theorem propagatePasses_unrolled (cfg : Config) (a : Aura) (cascade : ℕ) :
    propagatePasses cfg a cascade =
      [Call.cmdBeginDebugMarker cascade] ++ propagateFirstStep cfg a cascade ++
        (List.range (a.mParams.iPropagationSteps - 1)).flatMap
          (fun k => propagateStep cfg a cascade (1 + k) (phaseAt (1 + k))) ++
        [Call.cmdResourceBarrierTextures ((List.range NUM_GRIDS_PER_CASCADE).map
          (fun i => ⟨Resource.pWorkingGrids
              (3 * (if !phaseAt (1 + (a.mParams.iPropagationSteps - 1)) then 1 else 0) + i),
            ResourceState.RESOURCE_STATE_SHADER_RESOURCE, cfg.RESOURCE_STATE_LPV⟩))] := by
  have h := propagateLoop_unrolled cfg a cascade (a.mParams.iPropagationSteps - 1) 1
  have h1 : phaseAt 1 = true := by decide
  rw [h1] at h
  simp only [propagatePasses, h]
theorem foldl_passStep_first (cfg : Config) (a : Aura) (cascade : ℕ)
    (s : Option Pipeline × List Pipeline) :
    (propagateFirstStep cfg a cascade).foldl passStep s =
      (some Pipeline.pPipelineLightCopy,
        s.2 ++ [Pipeline.pPipelineLightPropagate1 a.mParams.bUseMultipleReflections,
          Pipeline.pPipelineLightCopy]) := by
  by_cases hc : cfg.USE_COMPUTE_SHADERS = true
  · simp [propagateFirstStep, hc, passStep, dispatchGrid]
  · simp [propagateFirstStep, hc, passStep, drawGrid]

theorem foldl_passStep_step (cfg : Config) (a : Aura) (cascade i : ℕ) (bPhase : Bool)
    (s : Option Pipeline × List Pipeline) :
    ((propagateStep cfg a cascade i bPhase).foldl passStep s).2 =
      s.2 ++ (if cfg.USE_COMPUTE_SHADERS then
        [Pipeline.pPipelineLightPropagateN a.mParams.bUseMultipleReflections]
      else [Pipeline.pPipelineLightPropagateN a.mParams.bUseMultipleReflections,
        Pipeline.pPipelineLightCopy]) := by
  by_cases hc : cfg.USE_COMPUTE_SHADERS = true
  · simp [propagateStep, hc, passStep, dispatchGrid]
  · simp [propagateStep, hc, passStep, drawGrid]

theorem foldl_passStep_steps (cfg : Config) (a : Aura) (cascade : ℕ) (f : ℕ → ℕ)
    (g : ℕ → Bool) (l : List ℕ) (s : Option Pipeline × List Pipeline) :
    ((l.flatMap (fun k => propagateStep cfg a cascade (f k) (g k))).foldl passStep s).2 =
      s.2 ++ (List.replicate l.length (if cfg.USE_COMPUTE_SHADERS then
        [Pipeline.pPipelineLightPropagateN a.mParams.bUseMultipleReflections]
      else [Pipeline.pPipelineLightPropagateN a.mParams.bUseMultipleReflections,
        Pipeline.pPipelineLightCopy])).flatten := by
  induction l generalizing s with
  | nil => simp
  | cons k l ih =>
    rw [List.flatMap_cons, List.foldl_append, ih, foldl_passStep_step, List.length_cons,
      List.replicate_succ, List.flatten_cons, List.append_assoc]

/-- The passes of `propagateLight(cascade)`, in order: the first propagation step and its
copy, then one `PropagateN` pass for every further step, followed by a copy pass only when
compute shaders are off. -/
theorem issuedPasses_propagatePasses (cfg : Config) (a : Aura) (cascade : ℕ) :
    issuedPasses (propagatePasses cfg a cascade) =
      [Pipeline.pPipelineLightPropagate1 a.mParams.bUseMultipleReflections,
        Pipeline.pPipelineLightCopy] ++
      (List.replicate (a.mParams.iPropagationSteps - 1) (if cfg.USE_COMPUTE_SHADERS then
        [Pipeline.pPipelineLightPropagateN a.mParams.bUseMultipleReflections]
      else [Pipeline.pPipelineLightPropagateN a.mParams.bUseMultipleReflections,
        Pipeline.pPipelineLightCopy])).flatten := by
  rw [propagatePasses_unrolled]
  unfold issuedPasses
  rw [List.foldl_append, List.foldl_append, List.foldl_append]
  simp only [List.foldl_cons, List.foldl_nil, passStep]
  rw [foldl_passStep_steps, foldl_passStep_first]
  simp

/-- The number of propagation passes among the passes of `propagateLight(cascade)`. -/
theorem propagation_pass_count (cfg : Config) (a : Aura) (cascade : ℕ) :
    ((issuedPasses (propagatePasses cfg a cascade)).filter isPropagationPipeline).length =
      1 + (a.mParams.iPropagationSteps - 1) := by
  rw [issuedPasses_propagatePasses]
  by_cases hc : cfg.USE_COMPUTE_SHADERS = true
  · simp only [hc, if_true, List.flatten_replicate_singleton, List.filter_append,
      List.length_append]
    simp [isPropagationPipeline, List.filter_replicate]
  · simp only [hc]
    simp only [List.filter_append, List.length_append]
    have h : ∀ n : ℕ, ((List.replicate n
        [Pipeline.pPipelineLightPropagateN a.mParams.bUseMultipleReflections,
          Pipeline.pPipelineLightCopy]).flatten.filter isPropagationPipeline).length = n := by
      intro n
      induction n with
      | zero => rfl
      | succ n ih =>
        rw [List.replicate_succ, List.flatten_cons, List.filter_append, List.length_append, ih]
        simp [isPropagationPipeline, List.filter]
        omega
    simp [h, isPropagationPipeline, List.filter]
theorem issuedPasses_propagateLight (cfg : Config) (a : Aura) (cascade : ℕ) :
    issuedPasses (propagateLight cfg a cascade).2 =
      issuedPasses (propagatePasses cfg a cascade) := by
  rw [propagateLight_snd]
  unfold issuedPasses
  rw [List.foldl_append]
  rfl

/-- C14, amended. Propagation runs for the configured step count when that count is at
least 1: for `n = iPropagationSteps >= 1`, `propagateLight(cascade)` issues exactly `n`
propagation passes, one `Propagate1` pass followed by `n - 1` `PropagateN` passes. The
`Propagate1` pass is followed by a `LightCopy` pass; a `PropagateN` pass is followed by a
`LightCopy` pass when compute shaders are off and by no copy pass when they are on. -/
theorem C14_propagation_pass_sequence (cfg : Config) (a : Aura) (cascade : ℕ)
    (hn : 1 ≤ a.mParams.iPropagationSteps) :
    issuedPasses (propagateLight cfg a cascade).2 =
      [Pipeline.pPipelineLightPropagate1 a.mParams.bUseMultipleReflections,
        Pipeline.pPipelineLightCopy] ++
      (List.replicate (a.mParams.iPropagationSteps - 1) (if cfg.USE_COMPUTE_SHADERS then
        [Pipeline.pPipelineLightPropagateN a.mParams.bUseMultipleReflections]
      else [Pipeline.pPipelineLightPropagateN a.mParams.bUseMultipleReflections,
        Pipeline.pPipelineLightCopy])).flatten ∧
    ((issuedPasses (propagateLight cfg a cascade).2).filter isPropagationPipeline).length =
      a.mParams.iPropagationSteps := by
  rw [issuedPasses_propagateLight]
  refine ⟨issuedPasses_propagatePasses cfg a cascade, ?_⟩
  rw [propagation_pass_count]
  omega

/-- C14, amended, at the sample `Aura` with four propagation steps and compute shaders. -/
theorem C14_propagation_pass_sequence_witness :
    1 ≤ (sampleAuraWithSteps 4).mParams.iPropagationSteps ∧
    issuedPasses (propagateLight sampleConfig (sampleAuraWithSteps 4) 0).2 =
      [Pipeline.pPipelineLightPropagate1 false, Pipeline.pPipelineLightCopy,
        Pipeline.pPipelineLightPropagateN false, Pipeline.pPipelineLightPropagateN false,
        Pipeline.pPipelineLightPropagateN false] ∧
    ((issuedPasses (propagateLight sampleConfig (sampleAuraWithSteps 4) 0).2).filter
      isPropagationPipeline).length = 4 :=
  ⟨by decide,
    (C14_propagation_pass_sequence sampleConfig (sampleAuraWithSteps 4) 0 (by decide)).1,
    (C14_propagation_pass_sequence sampleConfig (sampleAuraWithSteps 4) 0 (by decide)).2⟩

/-- C14 as stated fails: with `iPropagationSteps = 0` the first propagation step is still
issued, one propagation pass instead of none; and with compute shaders and two steps the
passes are `Propagate1`, `LightCopy`, `PropagateN`, with no pass after the `PropagateN`
pass. -/
theorem C14_counterexample :
    (sampleAuraWithSteps 0).mParams.iPropagationSteps = 0 ∧
    ((issuedPasses (propagateLight sampleConfig (sampleAuraWithSteps 0) 0).2).filter
      isPropagationPipeline).length = 1 ∧
    sampleConfig.USE_COMPUTE_SHADERS = true ∧
    issuedPasses (propagateLight sampleConfig (sampleAuraWithSteps 2) 0).2 =
      [Pipeline.pPipelineLightPropagate1 false, Pipeline.pPipelineLightCopy,
        Pipeline.pPipelineLightPropagateN false] := by
  refine ⟨rfl, ?_, rfl, ?_⟩
  · rw [issuedPasses_propagateLight, propagation_pass_count]
    rfl
  · rw [issuedPasses_propagateLight, issuedPasses_propagatePasses]
    rfl
theorem and_one_cases (i : ℕ) :
    (i % 2 = 0 ∧ i &&& 1 = 0 ∧ (i + 1) % 2 = 1 ∧ phaseAt i = false) ∨
    (i % 2 = 1 ∧ i &&& 1 = 1 ∧ (i + 1) % 2 = 0 ∧ phaseAt i = true) := by
  rw [Nat.and_one_is_mod]
  unfold phaseAt
  rcases Nat.mod_two_eq_zero_or_one i with h | h
  · left; refine ⟨h, h, by omega, by simp [h]⟩
  · right; refine ⟨h, h, by omega, by simp [h]⟩

/-- The descriptor `initAura` leaves at the index bound for the `PropagateN` pass of the
turn with counter `i`. -/
theorem initAuraDescriptor_propagateN (cfg : Config) (a : Aura) (cascade i : ℕ)
    (hc : cascade < a.mCascadeCount) :
    initAuraDescriptor cfg a DescriptorSet.pDescriptorSetLightPropagateN
        (propagateNIndex cascade i) =
      some
        { LPVGrid := textureWindow a (fun k => Resource.pWorkingGrids (3 * ((i + 1) % 2) + k))
          workCoeffs := if cfg.USE_COMPUTE_SHADERS then
            [Resource.pWorkingGrids (3 * (i % 2) + 0), Resource.pWorkingGrids (3 * (i % 2) + 1),
              Resource.pWorkingGrids (3 * (i % 2) + 2)] else []
          RWGrid := if cfg.USE_COMPUTE_SHADERS then
            [Resource.pLightGrids cascade 0, Resource.pLightGrids cascade 1,
              Resource.pLightGrids cascade 2] else [] } := by
  rcases and_one_cases i with ⟨h0, h1, h2, _⟩ | ⟨h0, h1, h2, _⟩
  · have e1 : (cascade * 2 + 1) / 2 = cascade := by omega
    have e2 : (cascade * 2 + 1) % 2 = 1 := by omega
    by_cases hcomp : cfg.USE_COMPUTE_SHADERS = true
    · simp [initAuraDescriptor, propagateNIndex, initAuraLightPropagateN, h0, h1, h2, e1, e2,
        hc, hcomp]
    · simp [initAuraDescriptor, propagateNIndex, initAuraLightPropagateN, h0, h1, h2, e1, e2,
        hc, hcomp]
  · have e1 : (cascade * 2) / 2 = cascade := by omega
    have e2 : (cascade * 2) % 2 = 0 := by omega
    by_cases hcomp : cfg.USE_COMPUTE_SHADERS = true
    · simp [initAuraDescriptor, propagateNIndex, initAuraLightPropagateN, h0, h1, h2, e1, e2,
        hc, hcomp]
    · simp [initAuraDescriptor, propagateNIndex, initAuraLightPropagateN, h0, h1, h2, e1, e2,
        hc, hcomp]

/-- The grids chosen through `bPhase` in the turn with counter `i` are those of the working
set `i mod 2`. -/
theorem phaseTargets_phaseAt (i : ℕ) :
    phaseTargets (phaseAt i) =
      [Resource.pWorkingGrids (3 * (i % 2) + 0), Resource.pWorkingGrids (3 * (i % 2) + 1),
        Resource.pWorkingGrids (3 * (i % 2) + 2)] := by
  rcases and_one_cases i with ⟨h0, _, _, hp⟩ | ⟨h0, _, _, hp⟩ <;>
    simp [phaseTargets, gridTriple, NUM_GRIDS_PER_CASCADE, hp, h0, List.range_succ]

theorem workingSet_window (a : Aura) (s : ℕ) (hs : s < 2) (h3 : a.mCascadeCount ≤ 3) :
    ∀ r ∈ textureWindow a (fun k => Resource.pWorkingGrids (3 * s + k)),
      workingSet r = some s := by
  intro r hr
  simp only [textureWindow, List.mem_map, List.mem_range] at hr
  obtain ⟨k, hk, rfl⟩ := hr
  have h6 : 3 * s + k < 6 := by omega
  simp only [workingSet, h6, if_true]
  congr 1
  omega

theorem workingSet_triple (s : ℕ) (hs : s < 2) :
    ∀ r ∈ [Resource.pWorkingGrids (3 * s + 0), Resource.pWorkingGrids (3 * s + 1),
        Resource.pWorkingGrids (3 * s + 2)], workingSet r = some s := by
  intro r hr
  simp only [List.mem_cons, List.mem_singleton, List.not_mem_nil, or_false] at hr
  have hs' : s = 0 ∨ s = 1 := by omega
  rcases hs' with rfl | rfl <;> rcases hr with rfl | rfl | rfl <;> simp [workingSet]
/-- Propagation ping-pongs without in-place hazards when there are at most three cascades.
For a cascade below `mCascadeCount <= NUM_GRIDS_PER_CASCADE` (so that the `LPVGrid` windows
of `initAura` stay inside one working set): the calls before the commit are the first step
followed by the turns `i = 1, ..., iPropagationSteps - 1`; the first pass writes working
set 0 (`pWorkingGrids[0..2]`); and in the turn with counter `i` the `PropagateN` pass binds
the descriptor `cascade * 2 + !(i & 1)`, which reads working set `(i + 1) mod 2` and (with
compute shaders) writes working set `i mod 2`, the grids chosen through `bPhase` are those
of working set `i mod 2` as well, the two sets differ, and the set read is the one the
step before wrote. -/
theorem ping_pong_working_sets_of_three_cascades (cfg : Config) (a : Aura) (cascade : ℕ)
    (hc : cascade < a.mCascadeCount) (h3 : a.mCascadeCount ≤ NUM_GRIDS_PER_CASCADE) :
    (∃ last : List Call, propagatePasses cfg a cascade =
      [Call.cmdBeginDebugMarker cascade] ++ propagateFirstStep cfg a cascade ++
        (List.range (a.mParams.iPropagationSteps - 1)).flatMap
          (fun k => propagateStep cfg a cascade (1 + k) (phaseAt (1 + k))) ++ last) ∧
    ((cfg.USE_COMPUTE_SHADERS = true →
        Call.cmdBindDescriptorSet cascade DescriptorSet.pDescriptorSetLightPropagate1 ∈
          propagateFirstStep cfg a cascade ∧
        ∃ d : GridDescriptor,
          initAuraDescriptor cfg a DescriptorSet.pDescriptorSetLightPropagate1 cascade = some d ∧
          d.workCoeffs = [Resource.pWorkingGrids 0, Resource.pWorkingGrids 1,
            Resource.pWorkingGrids 2]) ∧
      (cfg.USE_COMPUTE_SHADERS = false →
        Call.cmdBindRenderTargets [Resource.pWorkingGrids 0, Resource.pWorkingGrids 1,
          Resource.pWorkingGrids 2] false ∈ propagateFirstStep cfg a cascade) ∧
      (∀ r ∈ [Resource.pWorkingGrids 0, Resource.pWorkingGrids 1, Resource.pWorkingGrids 2],
        workingSet r = some 0)) ∧
    (∀ i : ℕ,
      Call.cmdBindDescriptorSet (propagateNIndex cascade i)
          DescriptorSet.pDescriptorSetLightPropagateN ∈
        propagateStep cfg a cascade i (phaseAt i) ∧
      (∃ d : GridDescriptor,
        initAuraDescriptor cfg a DescriptorSet.pDescriptorSetLightPropagateN
          (propagateNIndex cascade i) = some d ∧
        d.LPVGrid ≠ [] ∧
        (∀ r ∈ d.LPVGrid, workingSet r = some ((i + 1) % 2)) ∧
        (∀ r ∈ d.workCoeffs, workingSet r = some (i % 2)) ∧
        (cfg.USE_COMPUTE_SHADERS = true → d.workCoeffs = phaseTargets (phaseAt i))) ∧
      (cfg.USE_COMPUTE_SHADERS = false →
        Call.cmdBindRenderTargets (phaseTargets (phaseAt i)) false ∈
          propagateStep cfg a cascade i (phaseAt i)) ∧
      (∀ r ∈ phaseTargets (phaseAt i), workingSet r = some (i % 2)) ∧
      (i + 1) % 2 ≠ i % 2 ∧
      (i = 1 → (i + 1) % 2 = 0) ∧ (2 ≤ i → (i + 1) % 2 = (i - 1) % 2)) := by
  have h3' : a.mCascadeCount ≤ 3 := h3
  refine ⟨⟨_, propagatePasses_unrolled cfg a cascade⟩, ⟨?_, ?_, ?_⟩, ?_⟩
  · intro hcomp
    refine ⟨by simp [propagateFirstStep, hcomp],
      ⟨initAuraLightPropagate1 cfg a cascade, ?_, ?_⟩⟩
    · simp only [initAuraDescriptor, hc, if_true]
    · simp [initAuraLightPropagate1, hcomp]
  · intro hcomp
    simp [propagateFirstStep, hcomp, gridTriple, NUM_GRIDS_PER_CASCADE, List.range_succ]
  · intro r hr
    exact workingSet_triple 0 (by norm_num) r (by simpa using hr)
  · intro i
    have hi2 : i % 2 < 2 := Nat.mod_lt _ (by norm_num)
    have hi2' : (i + 1) % 2 < 2 := Nat.mod_lt _ (by norm_num)
    refine ⟨?_, ⟨_, initAuraDescriptor_propagateN cfg a cascade i hc, ?_, ?_, ?_, ?_⟩, ?_, ?_,
      by omega, by omega, by omega⟩
    · by_cases hcomp : cfg.USE_COMPUTE_SHADERS = true
      · simp [propagateStep, propagateNIndex, hcomp]
      · simp [propagateStep, propagateNIndex, hcomp]
    · simp only [textureWindow, ne_eq, List.map_eq_nil_iff, List.range_eq_nil]
      omega
    · exact workingSet_window a _ hi2' h3'
    · intro r hr
      by_cases hcomp : cfg.USE_COMPUTE_SHADERS = true
      · simp only [hcomp, if_true] at hr
        exact workingSet_triple _ hi2 r hr
      · simp [hcomp] at hr
    · intro hcomp
      simp only [hcomp, if_true]
      rw [phaseTargets_phaseAt]
    · intro hcomp
      simp [propagateStep, hcomp, phaseTargets]
    · rw [phaseTargets_phaseAt]
      exact workingSet_triple _ hi2
theorem writableState_ne_shader_resource (cfg : Config) :
    writableState cfg ≠ ResourceState.RESOURCE_STATE_SHADER_RESOURCE := by
  unfold writableState
  split <;> simp

/-- A propagation pass whose reads are all in `RESOURCE_STATE_SHADER_RESOURCE`, whose
writes are all writable and disjoint from the reads, passes its checks. -/
theorem Tracker.pass_eq_self (cfg : Config) (a : Aura) (t : Tracker) (hok : t.ok = true)
    (hr : ∀ r ∈ t.reads cfg a, t.state r = ResourceState.RESOURCE_STATE_SHADER_RESOURCE)
    (hw : ∀ r ∈ t.writes cfg a, t.state r = writableState cfg) :
    t.pass cfg a = t := by
  have hd : ∀ r ∈ t.reads cfg a, r ∉ t.writes cfg a := by
    intro r hrr hx
    exact writableState_ne_shader_resource cfg ((hw r hx).symm.trans (hr r hrr))
  unfold Tracker.pass
  cases hp : t.pipeline with
  | none => rfl
  | some p =>
    simp only
    by_cases hprop : isPropagationPipeline p = true
    · simp only [hprop, if_true]
      have h1 : (t.reads cfg a).all
          (fun r => decide (t.state r = ResourceState.RESOURCE_STATE_SHADER_RESOURCE)) = true := by
        rw [List.all_eq_true]
        intro r hrr
        simpa using hr r hrr
      have h2 : (t.writes cfg a).all (fun r => decide (t.state r = writableState cfg)) = true := by
        rw [List.all_eq_true]
        intro r hrr
        simpa using hw r hrr
      have h3 : (t.reads cfg a).all (fun r => !(t.writes cfg a).contains r) = true := by
        rw [List.all_eq_true]
        intro r hrr
        simp [hd r hrr]
      rw [h1, h2, h3, hok]
      cases t
      simp_all
    · simp only [hprop]
      simp
/-- A list of barriers on pairwise different resources, each declaring the tracked state of
its resource: every check passes, every resource named ends in its new state, every other
resource and the bindings are as before. -/
theorem Tracker.foldl_barrier (l : List Barrier) (t : Tracker)
    (hnd : (l.map (fun b => b.resource)).Nodup) (hok : t.ok = true)
    (hcur : ∀ b ∈ l, t.state b.resource = b.mCurrentState) :
    (l.foldl Tracker.barrier t).ok = true ∧
    (∀ b ∈ l, (l.foldl Tracker.barrier t).state b.resource = b.mNewState) ∧
    (∀ r : Resource, (∀ b ∈ l, b.resource ≠ r) →
      (l.foldl Tracker.barrier t).state r = t.state r) ∧
    (l.foldl Tracker.barrier t).pipeline = t.pipeline ∧
    (l.foldl Tracker.barrier t).descriptor = t.descriptor ∧
    (l.foldl Tracker.barrier t).targets = t.targets := by
  induction l generalizing t with
  | nil => simp [hok]
  | cons b l ih =>
    rw [List.map_cons, List.nodup_cons] at hnd
    have hb : ∀ b' ∈ l, b'.resource ≠ b.resource := by
      intro b' hb' e
      exact hnd.1 (List.mem_map.mpr ⟨b', hb', e⟩)
    have hok1 : (t.barrier b).ok = true := by
      simp [Tracker.barrier, hok, hcur b (List.mem_cons_self _ _)]
    have hcur1 : ∀ b' ∈ l, (t.barrier b).state b'.resource = b'.mCurrentState := by
      intro b' hb'
      simp only [Tracker.barrier, hb b' hb', if_false]
      exact hcur b' (List.mem_cons_of_mem _ hb')
    obtain ⟨i1, i2, i3, i4, i5, i6⟩ := ih (t.barrier b) hnd.2 hok1 hcur1
    rw [List.foldl_cons]
    refine ⟨i1, ?_, ?_, i4, i5, i6⟩
    · intro b' hb'
      rcases List.mem_cons.mp hb' with rfl | hb'
      · rw [i3 _ hb]
        simp [Tracker.barrier]
      · exact i2 b' hb'
    · intro r hr
      rw [i3 r (fun b' hb' => hr b' (List.mem_cons_of_mem _ hb'))]
      have hne : r ≠ b.resource := fun e => hr b (List.mem_cons_self _ _) e.symm
      simp [Tracker.barrier, hne]

theorem Tracker.run_append (cfg : Config) (a : Aura) (t : Tracker) (xs ys : List Call) :
    Tracker.run cfg a t (xs ++ ys) = Tracker.run cfg a (Tracker.run cfg a t xs) ys := by
  simp [Tracker.run, List.foldl_append]

theorem barrierPairs_eq (x y : ℕ → Barrier) :
    barrierPairs x y = [x 0, y 0, x 1, y 1, x 2, y 2] := by
  simp [barrierPairs, NUM_GRIDS_PER_CASCADE, List.range_succ]
theorem phase_numbers (i : ℕ) :
    (if phaseAt i = true then 1 else 0) = i % 2 ∧
    (if (!phaseAt i) = true then 1 else 0) = (i + 1) % 2 := by
  rcases and_one_cases i with ⟨h0, _, h2, hp⟩ | ⟨h0, _, h2, hp⟩ <;> simp [h0, h2, hp]

/-- The reads and writes of the `PropagateN` pass of the turn with counter `i`, once its
descriptor (and, without compute shaders, its render targets) are bound. -/
theorem Tracker.reads_writes_propagateN (cfg : Config) (a : Aura) (cascade i : ℕ)
    (t : Tracker) (hc : cascade < a.mCascadeCount)
    (hd : t.descriptor =
      some (DescriptorSet.pDescriptorSetLightPropagateN, propagateNIndex cascade i))
    (ht : cfg.USE_COMPUTE_SHADERS = false → t.targets = phaseTargets (phaseAt i)) :
    t.reads cfg a = textureWindow a (fun k => Resource.pWorkingGrids (3 * ((i + 1) % 2) + k)) ∧
    t.writes cfg a =
      if cfg.USE_COMPUTE_SHADERS then
        [Resource.pWorkingGrids (3 * (i % 2) + 0), Resource.pWorkingGrids (3 * (i % 2) + 1),
          Resource.pWorkingGrids (3 * (i % 2) + 2), Resource.pLightGrids cascade 0,
          Resource.pLightGrids cascade 1, Resource.pLightGrids cascade 2]
      else
        [Resource.pWorkingGrids (3 * (i % 2) + 0), Resource.pWorkingGrids (3 * (i % 2) + 1),
          Resource.pWorkingGrids (3 * (i % 2) + 2)] := by
  have hdesc := initAuraDescriptor_propagateN cfg a cascade i hc
  constructor
  · simp only [Tracker.reads, hd, hdesc]
  · by_cases hcomp : cfg.USE_COMPUTE_SHADERS = true
    · simp [Tracker.writes, hd, hdesc, hcomp]
    · have hcomp' : cfg.USE_COMPUTE_SHADERS = false := by simpa using hcomp
      simp only [Tracker.writes, hcomp', ht hcomp', phaseTargets_phaseAt]
      simp

/-- The `PropagateN` pass of the turn with counter `i` passes its checks in the states the
turn is entered with. -/
theorem Tracker.pass_propagateN (cfg : Config) (a : Aura) (cascade i : ℕ) (t : Tracker)
    (hc : cascade < a.mCascadeCount) (h3 : a.mCascadeCount ≤ 3)
    (hd : t.descriptor =
      some (DescriptorSet.pDescriptorSetLightPropagateN, propagateNIndex cascade i))
    (ht : cfg.USE_COMPUTE_SHADERS = false → t.targets = phaseTargets (phaseAt i))
    (hinv : t.pingPong cfg cascade i) : t.pass cfg a = t := by
  obtain ⟨hok, hw, hr, hg⟩ := hinv
  obtain ⟨hreads, hwrites⟩ := Tracker.reads_writes_propagateN cfg a cascade i t hc hd ht
  apply Tracker.pass_eq_self cfg a t hok
  · intro r hrr
    rw [hreads] at hrr
    simp only [textureWindow, List.mem_map, List.mem_range] at hrr
    obtain ⟨k, hk, rfl⟩ := hrr
    exact hr k (by omega)
  · intro r hrr
    rw [hwrites] at hrr
    by_cases hcomp : cfg.USE_COMPUTE_SHADERS = true
    · simp only [hcomp, if_true, List.mem_cons, List.mem_singleton, List.not_mem_nil,
        or_false] at hrr
      rcases hrr with rfl | rfl | rfl | rfl | rfl | rfl
      · exact hw 0 (by norm_num)
      · exact hw 1 (by norm_num)
      · exact hw 2 (by norm_num)
      · exact hg 0 (by norm_num)
      · exact hg 1 (by norm_num)
      · exact hg 2 (by norm_num)
    · simp only [hcomp, List.mem_cons, List.mem_singleton, List.not_mem_nil, or_false] at hrr
      simp only [Bool.false_eq_true, if_false, List.mem_cons, List.mem_singleton,
        List.not_mem_nil, or_false] at hrr
      rcases hrr with rfl | rfl | rfl
      · exact hw 0 (by norm_num)
      · exact hw 1 (by norm_num)
      · exact hw 2 (by norm_num)
/-- The barriers at the end of the turn with counter `i`: the set just written moves to
`RESOURCE_STATE_SHADER_RESOURCE`, the set just read becomes writable, every declared state
is the tracked one, and the states are those the next turn is entered with. -/
theorem Tracker.barriers_turn (cfg : Config) (cascade i : ℕ) (t : Tracker)
    (hinv : t.pingPong cfg cascade i) :
    ((barrierPairs
        (fun k => ⟨Resource.pWorkingGrids (3 * (i % 2) + k), writableState cfg,
          ResourceState.RESOURCE_STATE_SHADER_RESOURCE⟩)
        (fun k => ⟨Resource.pWorkingGrids (3 * ((i + 1) % 2) + k),
          ResourceState.RESOURCE_STATE_SHADER_RESOURCE, writableState cfg⟩)).foldl
      Tracker.barrier t).pingPong cfg cascade (i + 1) := by
  obtain ⟨hok, hw, hr, hg⟩ := hinv
  have hi2 : (i + 1 + 1) % 2 = i % 2 := by omega
  rw [barrierPairs_eq]
  have hnd : (([⟨Resource.pWorkingGrids (3 * (i % 2) + 0), writableState cfg,
          ResourceState.RESOURCE_STATE_SHADER_RESOURCE⟩,
        ⟨Resource.pWorkingGrids (3 * ((i + 1) % 2) + 0),
          ResourceState.RESOURCE_STATE_SHADER_RESOURCE, writableState cfg⟩,
        ⟨Resource.pWorkingGrids (3 * (i % 2) + 1), writableState cfg,
          ResourceState.RESOURCE_STATE_SHADER_RESOURCE⟩,
        ⟨Resource.pWorkingGrids (3 * ((i + 1) % 2) + 1),
          ResourceState.RESOURCE_STATE_SHADER_RESOURCE, writableState cfg⟩,
        ⟨Resource.pWorkingGrids (3 * (i % 2) + 2), writableState cfg,
          ResourceState.RESOURCE_STATE_SHADER_RESOURCE⟩,
        ⟨Resource.pWorkingGrids (3 * ((i + 1) % 2) + 2),
          ResourceState.RESOURCE_STATE_SHADER_RESOURCE, writableState cfg⟩] :
        List Barrier).map (fun b => b.resource)).Nodup := by
    rcases and_one_cases i with ⟨h0, _, h2, _⟩ | ⟨h0, _, h2, _⟩ <;>
      simp [h0, h2]
  have hcur : ∀ b ∈ ([⟨Resource.pWorkingGrids (3 * (i % 2) + 0), writableState cfg,
          ResourceState.RESOURCE_STATE_SHADER_RESOURCE⟩,
        ⟨Resource.pWorkingGrids (3 * ((i + 1) % 2) + 0),
          ResourceState.RESOURCE_STATE_SHADER_RESOURCE, writableState cfg⟩,
        ⟨Resource.pWorkingGrids (3 * (i % 2) + 1), writableState cfg,
          ResourceState.RESOURCE_STATE_SHADER_RESOURCE⟩,
        ⟨Resource.pWorkingGrids (3 * ((i + 1) % 2) + 1),
          ResourceState.RESOURCE_STATE_SHADER_RESOURCE, writableState cfg⟩,
        ⟨Resource.pWorkingGrids (3 * (i % 2) + 2), writableState cfg,
          ResourceState.RESOURCE_STATE_SHADER_RESOURCE⟩,
        ⟨Resource.pWorkingGrids (3 * ((i + 1) % 2) + 2),
          ResourceState.RESOURCE_STATE_SHADER_RESOURCE, writableState cfg⟩] : List Barrier),
      t.state b.resource = b.mCurrentState := by
    intro b hb
    simp only [List.mem_cons, List.mem_singleton, List.not_mem_nil, or_false] at hb
    rcases hb with rfl | rfl | rfl | rfl | rfl | rfl
    · exact hw 0 (by norm_num)
    · exact hr 0 (by norm_num)
    · exact hw 1 (by norm_num)
    · exact hr 1 (by norm_num)
    · exact hw 2 (by norm_num)
    · exact hr 2 (by norm_num)
  obtain ⟨j1, j2, j3, _, _, _⟩ := Tracker.foldl_barrier _ t hnd hok hcur
  refine ⟨j1, ?_, ?_, ?_⟩
  · intro k hk
    have hk' : k = 0 ∨ k = 1 ∨ k = 2 := by omega
    rcases hk' with rfl | rfl | rfl
    · exact j2 ⟨Resource.pWorkingGrids (3 * ((i + 1) % 2) + 0),
        ResourceState.RESOURCE_STATE_SHADER_RESOURCE, writableState cfg⟩ (by simp)
    · exact j2 ⟨Resource.pWorkingGrids (3 * ((i + 1) % 2) + 1),
        ResourceState.RESOURCE_STATE_SHADER_RESOURCE, writableState cfg⟩ (by simp)
    · exact j2 ⟨Resource.pWorkingGrids (3 * ((i + 1) % 2) + 2),
        ResourceState.RESOURCE_STATE_SHADER_RESOURCE, writableState cfg⟩ (by simp)
  · intro k hk
    rw [hi2]
    have hk' : k = 0 ∨ k = 1 ∨ k = 2 := by omega
    rcases hk' with rfl | rfl | rfl
    · exact j2 ⟨Resource.pWorkingGrids (3 * (i % 2) + 0), writableState cfg,
        ResourceState.RESOURCE_STATE_SHADER_RESOURCE⟩ (by simp)
    · exact j2 ⟨Resource.pWorkingGrids (3 * (i % 2) + 1), writableState cfg,
        ResourceState.RESOURCE_STATE_SHADER_RESOURCE⟩ (by simp)
    · exact j2 ⟨Resource.pWorkingGrids (3 * (i % 2) + 2), writableState cfg,
        ResourceState.RESOURCE_STATE_SHADER_RESOURCE⟩ (by simp)
  · intro k hk
    rw [j3 _ (by
      intro b hb
      simp only [List.mem_cons, List.mem_singleton, List.not_mem_nil, or_false] at hb
      rcases hb with rfl | rfl | rfl | rfl | rfl | rfl <;> simp)]
    exact hg k hk
/-- One turn of the loop keeps the ping-pong states: entered with the states of turn `i`,
the calls of the turn pass every check and leave the states of turn `i + 1`. -/
theorem Tracker.run_turn (cfg : Config) (a : Aura) (cascade i : ℕ) (t : Tracker)
    (hc : cascade < a.mCascadeCount) (h3 : a.mCascadeCount ≤ 3)
    (hinv : t.pingPong cfg cascade i) :
    (Tracker.run cfg a t (propagateStep cfg a cascade i (phaseAt i))).pingPong cfg cascade
      (i + 1) := by
  obtain ⟨hp1, hp2⟩ := phase_numbers i
  by_cases hcomp : cfg.USE_COMPUTE_SHADERS = true
  · have hwr : writableState cfg = ResourceState.RESOURCE_STATE_UNORDERED_ACCESS := by
      simp [writableState, hcomp]
    have e : propagateStep cfg a cascade i (phaseAt i) =
        [Call.cmdBindPipeline (Pipeline.pPipelineLightPropagateN a.mParams.bUseMultipleReflections),
         Call.cmdBindPushConstants RootSignature.pRootSignatureLightPropagateN
           a.mParams.fPropagationScale,
         Call.cmdBindDescriptorSet (propagateNIndex cascade i)
           DescriptorSet.pDescriptorSetLightPropagateN,
         dispatchGrid cfg,
         Call.cmdResourceBarrierTextures (barrierPairs
           (fun k => ⟨Resource.pWorkingGrids (3 * (i % 2) + k), writableState cfg,
             ResourceState.RESOURCE_STATE_SHADER_RESOURCE⟩)
           (fun k => ⟨Resource.pWorkingGrids (3 * ((i + 1) % 2) + k),
             ResourceState.RESOURCE_STATE_SHADER_RESOURCE, writableState cfg⟩))] := by
      simp only [propagateStep, hcomp, if_true, hp1, hp2, propagateNIndex, hwr]
    rw [e]
    simp only [Tracker.run, List.foldl_cons, List.foldl_nil, Tracker.step, dispatchGrid]
    have hinv' : Tracker.pingPong cfg cascade
        { state := t.state,
          pipeline := some (Pipeline.pPipelineLightPropagateN a.mParams.bUseMultipleReflections),
          descriptor := some (DescriptorSet.pDescriptorSetLightPropagateN,
            propagateNIndex cascade i),
          targets := t.targets, ok := t.ok } i := hinv
    rw [Tracker.pass_propagateN cfg a cascade i _ hc h3 rfl (fun h => by rw [hcomp] at h; cases h)
      hinv']
    exact Tracker.barriers_turn cfg cascade i _ hinv'
  · have hcomp' : cfg.USE_COMPUTE_SHADERS = false := by simpa using hcomp
    have hwr : writableState cfg = ResourceState.RESOURCE_STATE_RENDER_TARGET := by
      simp [writableState, hcomp']
    have e : propagateStep cfg a cascade i (phaseAt i) =
        [Call.cmdBindRenderTargets (phaseTargets (phaseAt i)) false,
         Call.cmdBindPipeline (Pipeline.pPipelineLightPropagateN a.mParams.bUseMultipleReflections),
         Call.cmdBindDescriptorSet (propagateNIndex cascade i)
           DescriptorSet.pDescriptorSetLightPropagateN,
         Call.cmdBindPushConstants RootSignature.pRootSignatureLightPropagateN
           a.mParams.fPropagationScale,
         drawGrid cfg,
         Call.cmdBindRenderTargets [] false,
         Call.cmdResourceBarrierTextures (barrierPairs
           (fun k => ⟨Resource.pWorkingGrids (3 * (i % 2) + k), writableState cfg,
             ResourceState.RESOURCE_STATE_SHADER_RESOURCE⟩)
           (fun k => ⟨Resource.pWorkingGrids (3 * ((i + 1) % 2) + k),
             ResourceState.RESOURCE_STATE_SHADER_RESOURCE, writableState cfg⟩)),
         Call.cmdBindRenderTargets (gridTriple (Resource.pLightGrids cascade)) false,
         Call.cmdBindPipeline Pipeline.pPipelineLightCopy,
         Call.cmdBindDescriptorSet (cascade * 2 + (i &&& 1))
           DescriptorSet.pDescriptorSetLightCopy,
         drawGrid cfg,
         Call.cmdBindRenderTargets [] false] := by
      simp only [propagateStep, hcomp', hp1, hp2, propagateNIndex, hwr, phaseTargets]
      simp
    rw [e]
    simp only [Tracker.run, List.foldl_cons, List.foldl_nil, Tracker.step, drawGrid]
    have hinv' : Tracker.pingPong cfg cascade
        { state := t.state,
          pipeline := some (Pipeline.pPipelineLightPropagateN a.mParams.bUseMultipleReflections),
          descriptor := some (DescriptorSet.pDescriptorSetLightPropagateN,
            propagateNIndex cascade i),
          targets := phaseTargets (phaseAt i), ok := t.ok } i := hinv
    rw [Tracker.pass_propagateN cfg a cascade i _ hc h3 rfl (fun _ => rfl) hinv']
    have hb := Tracker.barriers_turn cfg cascade i
      { state := t.state,
        pipeline := some (Pipeline.pPipelineLightPropagateN a.mParams.bUseMultipleReflections),
        descriptor := some (DescriptorSet.pDescriptorSetLightPropagateN,
          propagateNIndex cascade i),
        targets := [], ok := t.ok } hinv
    obtain ⟨k1, k2, k3, k4⟩ := hb
    refine ⟨?_, ?_, ?_, ?_⟩
    · simpa [Tracker.pass, isPropagationPipeline] using k1
    · intro k hk
      simpa [Tracker.pass, isPropagationPipeline] using k2 k hk
    · intro k hk
      simpa [Tracker.pass, isPropagationPipeline] using k3 k hk
    · intro k hk
      simpa [Tracker.pass, isPropagationPipeline] using k4 k hk
/-- The barriers after the first propagation pass: the grids of the cascade become writable,
working set 0 moves to `RESOURCE_STATE_SHADER_RESOURCE`, every declared state is the tracked
one, and the states are those the loop is entered with (counter 1). -/
theorem Tracker.barriers_first (cfg : Config) (cascade : ℕ) (t : Tracker) (hok : t.ok = true)
    (hW : ∀ j : ℕ, j < 6 → t.state (Resource.pWorkingGrids j) = writableState cfg)
    (hG : ∀ k : ℕ, k < 3 →
      t.state (Resource.pLightGrids cascade k) = ResourceState.RESOURCE_STATE_SHADER_RESOURCE) :
    ((barrierPairs
        (fun i => ⟨Resource.pLightGrids cascade i, ResourceState.RESOURCE_STATE_SHADER_RESOURCE,
          writableState cfg⟩)
        (fun i => ⟨Resource.pWorkingGrids i, writableState cfg,
          ResourceState.RESOURCE_STATE_SHADER_RESOURCE⟩)).foldl
      Tracker.barrier t).pingPong cfg cascade 1 := by
  rw [barrierPairs_eq]
  have hnd : (([⟨Resource.pLightGrids cascade 0, ResourceState.RESOURCE_STATE_SHADER_RESOURCE,
          writableState cfg⟩,
        ⟨Resource.pWorkingGrids 0, writableState cfg,
          ResourceState.RESOURCE_STATE_SHADER_RESOURCE⟩,
        ⟨Resource.pLightGrids cascade 1, ResourceState.RESOURCE_STATE_SHADER_RESOURCE,
          writableState cfg⟩,
        ⟨Resource.pWorkingGrids 1, writableState cfg,
          ResourceState.RESOURCE_STATE_SHADER_RESOURCE⟩,
        ⟨Resource.pLightGrids cascade 2, ResourceState.RESOURCE_STATE_SHADER_RESOURCE,
          writableState cfg⟩,
        ⟨Resource.pWorkingGrids 2, writableState cfg,
          ResourceState.RESOURCE_STATE_SHADER_RESOURCE⟩] :
        List Barrier).map (fun b => b.resource)).Nodup := by
    simp
  have hcur : ∀ b ∈ ([⟨Resource.pLightGrids cascade 0,
          ResourceState.RESOURCE_STATE_SHADER_RESOURCE, writableState cfg⟩,
        ⟨Resource.pWorkingGrids 0, writableState cfg,
          ResourceState.RESOURCE_STATE_SHADER_RESOURCE⟩,
        ⟨Resource.pLightGrids cascade 1, ResourceState.RESOURCE_STATE_SHADER_RESOURCE,
          writableState cfg⟩,
        ⟨Resource.pWorkingGrids 1, writableState cfg,
          ResourceState.RESOURCE_STATE_SHADER_RESOURCE⟩,
        ⟨Resource.pLightGrids cascade 2, ResourceState.RESOURCE_STATE_SHADER_RESOURCE,
          writableState cfg⟩,
        ⟨Resource.pWorkingGrids 2, writableState cfg,
          ResourceState.RESOURCE_STATE_SHADER_RESOURCE⟩] : List Barrier),
      t.state b.resource = b.mCurrentState := by
    intro b hb
    simp only [List.mem_cons, List.mem_singleton, List.not_mem_nil, or_false] at hb
    rcases hb with rfl | rfl | rfl | rfl | rfl | rfl
    · exact hG 0 (by norm_num)
    · exact hW 0 (by norm_num)
    · exact hG 1 (by norm_num)
    · exact hW 1 (by norm_num)
    · exact hG 2 (by norm_num)
    · exact hW 2 (by norm_num)
  obtain ⟨j1, j2, j3, _, _, _⟩ := Tracker.foldl_barrier _ t hnd hok hcur
  refine ⟨j1, ?_, ?_, ?_⟩
  · intro k hk
    rw [j3 _ (by
      intro b hb
      simp only [List.mem_cons, List.mem_singleton, List.not_mem_nil, or_false] at hb
      rcases hb with rfl | rfl | rfl | rfl | rfl | rfl <;> simp <;> omega)]
    exact hW _ (by omega)
  · intro k hk
    have hk' : k = 0 ∨ k = 1 ∨ k = 2 := by omega
    rcases hk' with rfl | rfl | rfl
    · exact j2 ⟨Resource.pWorkingGrids 0, writableState cfg,
        ResourceState.RESOURCE_STATE_SHADER_RESOURCE⟩ (by simp)
    · exact j2 ⟨Resource.pWorkingGrids 1, writableState cfg,
        ResourceState.RESOURCE_STATE_SHADER_RESOURCE⟩ (by simp)
    · exact j2 ⟨Resource.pWorkingGrids 2, writableState cfg,
        ResourceState.RESOURCE_STATE_SHADER_RESOURCE⟩ (by simp)
  · intro k hk
    have hk' : k = 0 ∨ k = 1 ∨ k = 2 := by omega
    rcases hk' with rfl | rfl | rfl
    · exact j2 ⟨Resource.pLightGrids cascade 0, ResourceState.RESOURCE_STATE_SHADER_RESOURCE,
        writableState cfg⟩ (by simp)
    · exact j2 ⟨Resource.pLightGrids cascade 1, ResourceState.RESOURCE_STATE_SHADER_RESOURCE,
        writableState cfg⟩ (by simp)
    · exact j2 ⟨Resource.pLightGrids cascade 2, ResourceState.RESOURCE_STATE_SHADER_RESOURCE,
        writableState cfg⟩ (by simp)
/-- The `Propagate1` pass passes its checks in the states `propagateLight(cascade)` is
entered with: it reads the grids of the cascade and writes working set 0. -/
theorem Tracker.pass_propagate1 (cfg : Config) (a : Aura) (cascade : ℕ) (t : Tracker)
    (hc : cascade < a.mCascadeCount) (h3 : a.mCascadeCount ≤ 3)
    (hd : t.descriptor = some (DescriptorSet.pDescriptorSetLightPropagate1, cascade))
    (ht : cfg.USE_COMPUTE_SHADERS = false → t.targets = gridTriple Resource.pWorkingGrids)
    (hok : t.ok = true)
    (hW : ∀ j : ℕ, j < 6 → t.state (Resource.pWorkingGrids j) = writableState cfg)
    (hG : ∀ k : ℕ, k < 3 →
      t.state (Resource.pLightGrids cascade k) = ResourceState.RESOURCE_STATE_SHADER_RESOURCE) :
    t.pass cfg a = t := by
  apply Tracker.pass_eq_self cfg a t hok
  · intro r hrr
    simp only [Tracker.reads, hd, initAuraDescriptor, hc, if_true] at hrr
    have hl : (initAuraLightPropagate1 cfg a cascade).LPVGrid =
        textureWindow a (fun k => Resource.pLightGrids cascade (0 + k)) := by
      unfold initAuraLightPropagate1
      split <;> rfl
    rw [hl] at hrr
    simp only [textureWindow, List.mem_map, List.mem_range] at hrr
    obtain ⟨k, hk, rfl⟩ := hrr
    exact hG _ (by omega)
  · intro r hrr
    by_cases hcomp : cfg.USE_COMPUTE_SHADERS = true
    · simp only [Tracker.writes, hcomp, if_true, hd, initAuraDescriptor, hc,
        initAuraLightPropagate1, List.append_nil, List.mem_cons, List.mem_singleton,
        List.not_mem_nil, or_false] at hrr
      rcases hrr with rfl | rfl | rfl
      · exact hW 0 (by norm_num)
      · exact hW 1 (by norm_num)
      · exact hW 2 (by norm_num)
    · have hcomp' : cfg.USE_COMPUTE_SHADERS = false := by simpa using hcomp
      simp only [Tracker.writes, hcomp', ht hcomp', gridTriple, NUM_GRIDS_PER_CASCADE,
        List.mem_map, List.mem_range] at hrr
      simp only [Bool.false_eq_true, if_false, List.mem_map, List.mem_range] at hrr
      obtain ⟨k, hk, rfl⟩ := hrr
      exact hW k (by omega)
/-- The first propagation step, tracked from the states `propagateLight(cascade)` is entered
with, passes every check and leaves the states the loop is entered with (counter 1). -/
theorem Tracker.run_first (cfg : Config) (a : Aura) (cascade : ℕ) (t : Tracker)
    (hc : cascade < a.mCascadeCount) (h3 : a.mCascadeCount ≤ 3) (hok : t.ok = true)
    (hW : ∀ j : ℕ, j < 6 → t.state (Resource.pWorkingGrids j) = writableState cfg)
    (hG : ∀ k : ℕ, k < 3 →
      t.state (Resource.pLightGrids cascade k) = ResourceState.RESOURCE_STATE_SHADER_RESOURCE) :
    (Tracker.run cfg a t (propagateFirstStep cfg a cascade)).pingPong cfg cascade 1 := by
  by_cases hcomp : cfg.USE_COMPUTE_SHADERS = true
  · have hwr : ResourceState.RESOURCE_STATE_UNORDERED_ACCESS = writableState cfg := by
      simp [writableState, hcomp]
    simp only [propagateFirstStep, hcomp, if_true, hwr, Tracker.run, List.foldl_cons,
      List.foldl_nil, Tracker.step, dispatchGrid]
    rw [Tracker.pass_propagate1 cfg a cascade
      { state := t.state,
        pipeline := some (Pipeline.pPipelineLightPropagate1 a.mParams.bUseMultipleReflections),
        descriptor := some (DescriptorSet.pDescriptorSetLightPropagate1, cascade),
        targets := t.targets, ok := t.ok } hc h3 rfl
      (fun h => by rw [hcomp] at h; cases h) hok hW hG]
    obtain ⟨k1, k2, k3, k4⟩ := Tracker.barriers_first cfg cascade
      { state := t.state,
        pipeline := some (Pipeline.pPipelineLightPropagate1 a.mParams.bUseMultipleReflections),
        descriptor := some (DescriptorSet.pDescriptorSetLightPropagate1, cascade),
        targets := t.targets, ok := t.ok } hok hW hG
    refine ⟨?_, ?_, ?_, ?_⟩
    · simpa [Tracker.pass, isPropagationPipeline] using k1
    · intro k hk
      simpa [Tracker.pass, isPropagationPipeline] using k2 k hk
    · intro k hk
      simpa [Tracker.pass, isPropagationPipeline] using k3 k hk
    · intro k hk
      simpa [Tracker.pass, isPropagationPipeline] using k4 k hk
  · have hcomp' : cfg.USE_COMPUTE_SHADERS = false := by simpa using hcomp
    have hwr : ResourceState.RESOURCE_STATE_RENDER_TARGET = writableState cfg := by
      simp [writableState, hcomp']
    simp only [propagateFirstStep, hcomp', Bool.false_eq_true, if_false, hwr, Tracker.run,
      List.foldl_cons, List.foldl_nil, Tracker.step, drawGrid]
    rw [Tracker.pass_propagate1 cfg a cascade
      { state := t.state,
        pipeline := some (Pipeline.pPipelineLightPropagate1 a.mParams.bUseMultipleReflections),
        descriptor := some (DescriptorSet.pDescriptorSetLightPropagate1, cascade),
        targets := gridTriple Resource.pWorkingGrids, ok := t.ok } hc h3 rfl
      (fun _ => rfl) hok hW hG]
    obtain ⟨k1, k2, k3, k4⟩ := Tracker.barriers_first cfg cascade
      { state := t.state,
        pipeline := some (Pipeline.pPipelineLightPropagate1 a.mParams.bUseMultipleReflections),
        descriptor := some (DescriptorSet.pDescriptorSetLightPropagate1, cascade),
        targets := [], ok := t.ok } hok hW hG
    refine ⟨?_, ?_, ?_, ?_⟩
    · simpa [Tracker.pass, isPropagationPipeline] using k1
    · intro k hk
      simpa [Tracker.pass, isPropagationPipeline] using k2 k hk
    · intro k hk
      simpa [Tracker.pass, isPropagationPipeline] using k3 k hk
    · intro k hk
      simpa [Tracker.pass, isPropagationPipeline] using k4 k hk
/-- The turns `1, ..., m` of the loop, tracked from the states turn 1 is entered with, pass
every check and leave the states turn `m + 1` would be entered with. -/
theorem Tracker.run_turns (cfg : Config) (a : Aura) (cascade : ℕ) (t : Tracker)
    (hc : cascade < a.mCascadeCount) (h3 : a.mCascadeCount ≤ 3)
    (hinv : t.pingPong cfg cascade 1) (m : ℕ) :
    (Tracker.run cfg a t ((List.range m).flatMap
      (fun k => propagateStep cfg a cascade (1 + k) (phaseAt (1 + k))))).pingPong cfg cascade
      (1 + m) := by
  induction m with
  | zero => simpa [Tracker.run] using hinv
  | succ n ih =>
    rw [List.range_succ, List.flatMap_append, Tracker.run_append]
    simp only [List.flatMap_cons, List.flatMap_nil, List.append_nil]
    have h := Tracker.run_turn cfg a cascade (1 + n) _ hc h3 ih
    have e : 1 + (n + 1) = 1 + n + 1 := by omega
    rw [e]
    exact h

/-- The last barrier of `propagateLight(cascade)`, issued after `m - 1` turns: the working
set it names is the one read by the turn that would come next, every declared state is the
tracked one. -/
theorem Tracker.barriers_last (cfg : Config) (cascade m : ℕ) (t : Tracker)
    (hinv : t.pingPong cfg cascade m) :
    (((List.range NUM_GRIDS_PER_CASCADE).map
        (fun i => (⟨Resource.pWorkingGrids (3 * (if !phaseAt m then 1 else 0) + i),
          ResourceState.RESOURCE_STATE_SHADER_RESOURCE, cfg.RESOURCE_STATE_LPV⟩ : Barrier))).foldl
      Tracker.barrier t).ok = true := by
  obtain ⟨hok, hw, hr, hg⟩ := hinv
  obtain ⟨_, hp2⟩ := phase_numbers m
  rw [hp2]
  refine (Tracker.foldl_barrier _ t ?_ hok ?_).1
  · simp only [List.map_map, NUM_GRIDS_PER_CASCADE]
    refine List.Nodup.map_on ?_ (List.nodup_range 3)
    intro x _ y _ hxy
    simp only [Function.comp] at hxy
    injection hxy with hxy
    omega
  · intro b hb
    simp only [List.mem_map, List.mem_range, NUM_GRIDS_PER_CASCADE] at hb
    obtain ⟨k, hk, rfl⟩ := hb
    exact hr k hk
/-- A failed check stays failed: barriers never set `ok` back to `true`. -/
theorem Tracker.foldl_barrier_ok (l : List Barrier) (t : Tracker)
    (h : (l.foldl Tracker.barrier t).ok = true) : t.ok = true := by
  induction l generalizing t with
  | nil => simpa using h
  | cons b l ih =>
    have h1 := ih (t.barrier b) (by simpa using h)
    simp only [Tracker.barrier, Bool.and_eq_true] at h1
    exact h1.1

/-- A failed check stays failed: a pass never sets `ok` back to `true`. -/
theorem Tracker.pass_ok (cfg : Config) (a : Aura) (t : Tracker)
    (h : (t.pass cfg a).ok = true) : t.ok = true := by
  unfold Tracker.pass at h
  cases hp : t.pipeline with
  | none => simpa [hp] using h
  | some p =>
    simp only [hp] at h
    by_cases hprop : isPropagationPipeline p = true
    · simp only [hprop, if_true, Bool.and_eq_true] at h
      exact h.1.1.1
    · simpa [hprop] using h

/-- A failed check stays failed: no call sets `ok` back to `true`. -/
theorem Tracker.step_ok (cfg : Config) (a : Aura) (t : Tracker) (c : Call)
    (h : (Tracker.step cfg a t c).ok = true) : t.ok = true := by
  cases c <;> simp only [Tracker.step] at h <;>
    first
    | exact h
    | exact Tracker.foldl_barrier_ok _ t h
    | exact Tracker.pass_ok cfg a t h

/-- If the tracker accepts a call list, it accepts every prefix of it. -/
theorem Tracker.run_ok_of_append (cfg : Config) (a : Aura) (t : Tracker) (xs ys : List Call)
    (h : (Tracker.run cfg a t (xs ++ ys)).ok = true) : (Tracker.run cfg a t xs).ok = true := by
  rw [Tracker.run_append] at h
  generalize Tracker.run cfg a t xs = u at h
  induction ys generalizing u with
  | nil => simpa [Tracker.run] using h
  | cons c ys ih =>
    have h1 := ih (Tracker.step cfg a u c) (by simpa [Tracker.run] using h)
    exact Tracker.step_ok cfg a u c h1

/-- The whole call list of `propagateLight(cascade)`, tracked from the states the function
is entered with, passes every check. -/
theorem Tracker.run_propagateLight (cfg : Config) (a : Aura) (cascade : ℕ)
    (state : Resource → ResourceState)
    (hc : cascade < a.mCascadeCount) (h3 : a.mCascadeCount ≤ 3)
    (hW : ∀ j : ℕ, j < 6 → state (Resource.pWorkingGrids j) = writableState cfg)
    (hG : ∀ k : ℕ, k < 3 →
      state (Resource.pLightGrids cascade k) = ResourceState.RESOURCE_STATE_SHADER_RESOURCE) :
    (Tracker.run cfg a (Tracker.start state) (propagateLight cfg a cascade).2).ok = true := by
  have h1 : (Tracker.run cfg a (Tracker.start state) [Call.cmdBeginDebugMarker cascade]) =
      Tracker.start state := rfl
  have hfirst := Tracker.run_first cfg a cascade (Tracker.start state) hc h3 rfl hW hG
  have hturns := Tracker.run_turns cfg a cascade _ hc h3 hfirst (a.mParams.iPropagationSteps - 1)
  have hlast := Tracker.barriers_last cfg cascade _ _ hturns
  simp only [propagateLight, propagatePasses_unrolled, Tracker.run_append, h1]
  simpa [Tracker.run, Tracker.step] using hlast
/-- Resource-state transitions in `propagateLight(cascade)` are consistent when there are
at most three cascades. For a cascade below `mCascadeCount <= NUM_GRIDS_PER_CASCADE`, any
step count and either build: if on entry the six working grids are in the writable state
and the three grids of the cascade in `RESOURCE_STATE_SHADER_RESOURCE`, then after every
leading part of the issued calls the tracker is still `ok`, that is, every barrier issued so
far declared the tracked state of its texture as its current state, and at every
`Propagate1` or `PropagateN` pass issued so far every texture read was in
`RESOURCE_STATE_SHADER_RESOURCE`, every texture written was in the writable state, and no
texture was both read and written. -/
theorem Tracker.accepts_of_three_cascades (cfg : Config) (a : Aura) (cascade : ℕ)
    (state : Resource → ResourceState)
    (hc : cascade < a.mCascadeCount) (h3 : a.mCascadeCount ≤ NUM_GRIDS_PER_CASCADE)
    (hW : ∀ j : ℕ, j < 2 * NUM_GRIDS_PER_CASCADE →
      state (Resource.pWorkingGrids j) = writableState cfg)
    (hG : ∀ k : ℕ, k < NUM_GRIDS_PER_CASCADE →
      state (Resource.pLightGrids cascade k) = ResourceState.RESOURCE_STATE_SHADER_RESOURCE)
    (xs ys : List Call) (hxs : (propagateLight cfg a cascade).2 = xs ++ ys) :
    (Tracker.run cfg a (Tracker.start state) xs).ok = true := by
  apply Tracker.run_ok_of_append cfg a _ xs ys
  rw [← hxs]
  exact Tracker.run_propagateLight cfg a cascade state hc h3 hW hG

/-- The tracker is not vacuous: started with every texture in
`RESOURCE_STATE_SHADER_RESOURCE`, the first propagation pass of the sample fails its check
(working set 0 is written while not writable). -/
theorem Tracker.rejects_shader_resource_start :
    (Tracker.run sampleConfig (sampleAura false 0)
      (Tracker.start (fun _ => ResourceState.RESOURCE_STATE_SHADER_RESOURCE))
      (propagateLight sampleConfig (sampleAura false 0) 0).2).ok = false := by
  decide

/-- With four cascades the `LPVGrid` window of a `PropagateN` descriptor (`mCount =
mCascadeCount` textures) reaches into the working set being written, and the tracker
rejects the call list. -/
theorem Tracker.rejects_four_cascades :
    (Tracker.run sampleConfig { sampleAura false 0 with mCascadeCount := 4 }
      (Tracker.start (sampleEntryStates sampleConfig))
      (propagateLight sampleConfig { sampleAura false 0 with mCascadeCount := 4 } 0).2).ok =
      false := by
  decide

/-! ## C16 and C17: the CPU path of `propagateLight(Aura)` -/

theorem modifyContext_pCascades (a : Aura) (i j : ℕ)
    (f : LightPropagationCPUContext → LightPropagationCPUContext) :
    (a.modifyContext i j f).pCascades = a.pCascades := by
  unfold Aura.modifyContext
  cases a.m_CPUContexts[i]? with
  | none => rfl
  | some row =>
    simp only
    cases hctx : row[j]? <;> rfl

theorem modifyContext_mCascadeCount (a : Aura) (i j : ℕ)
    (f : LightPropagationCPUContext → LightPropagationCPUContext) :
    (a.modifyContext i j f).mCascadeCount = a.mCascadeCount := by
  unfold Aura.modifyContext
  cases a.m_CPUContexts[i]? with
  | none => rfl
  | some row =>
    simp only
    cases hctx : row[j]? <;> rfl

theorem modifyCascade_contextAt (a : Aura) (i : ℕ)
    (f : LightPropagationCascade → LightPropagationCascade) (k l : ℕ) :
    (a.modifyCascade i f).contextAt k l = a.contextAt k l := by
  unfold Aura.modifyCascade Aura.contextAt
  cases a.pCascades[i]? <;> rfl

/-- A write to `m_CPUContexts[i][j]` changes that context and no other. -/
theorem modifyContext_contextAt (a : Aura) (i j : ℕ)
    (f : LightPropagationCPUContext → LightPropagationCPUContext) (k l : ℕ) :
    (a.modifyContext i j f).contextAt k l =
      if k = i ∧ l = j then (a.contextAt i j).map f else a.contextAt k l := by
  cases hrow : a.m_CPUContexts[i]? with
  | none =>
    have e : a.modifyContext i j f = a := by
      unfold Aura.modifyContext
      simp only [hrow]
    rw [e]
    by_cases h : k = i ∧ l = j
    · obtain ⟨rfl, rfl⟩ := h
      simp [Aura.contextAt, hrow]
    · simp [h]
  | some row =>
    cases hctx : row[j]? with
    | none =>
      have e : a.modifyContext i j f = a := by
        unfold Aura.modifyContext
        simp only [hrow, hctx]
      rw [e]
      by_cases h : k = i ∧ l = j
      · obtain ⟨rfl, rfl⟩ := h
        simp [Aura.contextAt, hrow, hctx]
      · simp [h]
    | some ctx =>
      have e : a.modifyContext i j f =
          { a with m_CPUContexts := a.m_CPUContexts.set i (row.set j (f ctx)) } := by
        unfold Aura.modifyContext
        simp only [hrow, hctx]
      rw [e]
      unfold Aura.contextAt
      simp only [hrow, Option.some_bind, hctx, Option.map_some']
      by_cases hk : k = i
      · subst hk
        have hlt : k < a.m_CPUContexts.length := by
          rcases List.getElem?_eq_some_iff.mp hrow with ⟨h, _⟩
          exact h
        rw [List.getElem?_set, if_pos rfl, if_pos hlt]
        simp only [Option.some_bind]
        by_cases hl : l = j
        · subst hl
          have hlt' : l < row.length := by
            rcases List.getElem?_eq_some_iff.mp hctx with ⟨h, _⟩
            exact h
          simp [List.getElem?_set, hlt']
        · have hl' : ¬ j = l := fun h => hl h.symm
          simp [hl, List.getElem?_set_ne hl', hrow]
      · have hk' : ¬ i = k := fun h => hk h.symm
        simp [hk, List.getElem?_set_ne hk']
/-- One turn of the propagate loop, in closed form. -/
theorem applyTurn_eq (p i : ℕ) (a : Aura) :
    applyTurn p i a =
      match a.contextAt i p with
      | none => (a, [])
      | some ctx =>
        if ctx.eState = CPUContextState.CAPTURED_LIGHT then
          (((a.modifyContext i p (fun ctx =>
                { ctx with eState := CPUContextState.PROPAGATED_LIGHT })).modifyCascade i
              (fun c => { c with mApplyState := ctx.getApplyState })).modifyContext i p
            (fun ctx => { ctx with eState := CPUContextState.APPLIED_PROPAGATION }),
            [Call.processData i p, Call.applyData i p])
        else (a, []) := by
  unfold applyTurn
  cases hctx : a.contextAt i p with
  | none => rfl
  | some ctx =>
    simp only
    by_cases hcap : ctx.eState = CPUContextState.CAPTURED_LIGHT
    · simp only [hcap, if_true]
      rw [modifyContext_contextAt, if_pos ⟨rfl, rfl⟩, hctx]
      rfl
    · simp only [hcap, if_false]

theorem applyTurn_calls (p i : ℕ) (a : Aura) :
    (applyTurn p i a).2 = applyCalls p i (a.contextAt i p) := by
  rw [applyTurn_eq]
  unfold applyCalls
  cases a.contextAt i p with
  | none => rfl
  | some ctx =>
    simp only
    split <;> rfl

theorem applyTurn_mCascadeCount (p i : ℕ) (a : Aura) :
    (applyTurn p i a).1.mCascadeCount = a.mCascadeCount := by
  rw [applyTurn_eq]
  cases a.contextAt i p with
  | none => rfl
  | some ctx =>
    simp only
    split
    · simp only [modifyContext_mCascadeCount, modifyCascade_mCascadeCount]
    · rfl

/-- One turn of the propagate loop changes the context `[i][p]` and no other. -/
theorem applyTurn_contextAt (p i : ℕ) (a : Aura) (k l : ℕ) :
    (applyTurn p i a).1.contextAt k l =
      if k = i ∧ l = p then (a.contextAt i p).map appliedContext else a.contextAt k l := by
  rw [applyTurn_eq]
  cases hctx : a.contextAt i p with
  | none =>
    by_cases h : k = i ∧ l = p
    · obtain ⟨rfl, rfl⟩ := h
      simp [hctx]
    · simp [h]
  | some ctx =>
    simp only
    by_cases hcap : ctx.eState = CPUContextState.CAPTURED_LIGHT
    · simp only [hcap, if_true, modifyContext_contextAt, modifyCascade_contextAt]
      by_cases h : k = i ∧ l = p
      · simp [h, hctx, appliedContext, hcap]
      · simp [h]
    · simp only [hcap, if_false]
      by_cases h : k = i ∧ l = p
      · obtain ⟨rfl, rfl⟩ := h
        simp [hctx, appliedContext, hcap]
      · simp [h]

/-- One turn of the propagate loop changes the cascade `i` and no other. -/
theorem applyTurn_pCascades (p i : ℕ) (a : Aura) (j : ℕ) :
    (applyTurn p i a).1.pCascades[j]? =
      if j = i then (a.pCascades[i]?).map (appliedCascade (a.contextAt i p))
      else a.pCascades[j]? := by
  rw [applyTurn_eq]
  cases hctx : a.contextAt i p with
  | none =>
    have e : appliedCascade none = fun c => c := by
      funext c
      rfl
    by_cases h : j = i
    · subst h
      simp [e]
    · simp [h]
  | some ctx =>
    simp only
    by_cases hcap : ctx.eState = CPUContextState.CAPTURED_LIGHT
    · have e : appliedCascade (some ctx) = fun c => { c with mApplyState := ctx.getApplyState } := by
        funext c
        simp [appliedCascade, hcap]
      simp only [hcap, if_true, modifyContext_pCascades, modifyCascade_pCascades_getElem?]
      by_cases h : j = i
      · simp [h, e]
      · simp [h]
    · have e : appliedCascade (some ctx) = fun c => c := by
        funext c
        simp [appliedCascade, hcap]
      simp only [hcap, if_false]
      by_cases h : j = i
      · subst h
        simp [e]
      · simp [h]
/-- The propagate loop over a list of distinct cascade indices: each context `[k][p]` and
each cascade `k` with `k` in the list is changed as its own turn changes it, from the state
the loop is entered with; nothing else changes; the calls are those of the turns, in order. -/
theorem foldl_applyTurn (p : ℕ) (l : List ℕ) (hl : l.Nodup) (a : Aura) (cs : List Call) :
    let r := l.foldl
      (fun (acc : Aura × List Call) i => let r := applyTurn p i acc.1; (r.1, acc.2 ++ r.2))
      (a, cs)
    (∀ k q : ℕ, r.1.contextAt k q =
      if k ∈ l ∧ q = p then (a.contextAt k p).map appliedContext else a.contextAt k q) ∧
    (∀ j : ℕ, r.1.pCascades[j]? =
      if j ∈ l then (a.pCascades[j]?).map (appliedCascade (a.contextAt j p))
      else a.pCascades[j]?) ∧
    r.2 = cs ++ l.flatMap (fun i => applyCalls p i (a.contextAt i p)) ∧
    r.1.mCascadeCount = a.mCascadeCount := by
  induction l generalizing a cs with
  | nil => simp
  | cons i l ih =>
    rw [List.nodup_cons] at hl
    obtain ⟨hil, hl⟩ := hl
    simp only [List.foldl_cons]
    obtain ⟨h1, h2, h3, h4⟩ := ih hl (applyTurn p i a).1 (cs ++ (applyTurn p i a).2)
    refine ⟨?_, ?_, ?_, ?_⟩
    · intro k q
      rw [h1 k q]
      by_cases hk : k = i
      · subst hk
        by_cases hq : q = p
        · subst hq
          simp [hil, applyTurn_contextAt]
        · simp [hq, applyTurn_contextAt]
      · by_cases hkl : k ∈ l
        · by_cases hq : q = p
          · subst hq
            simp [hk, hkl, applyTurn_contextAt]
          · simp [hk, hq, applyTurn_contextAt]
        · simp [hk, hkl, applyTurn_contextAt]
    · intro j
      rw [h2 j]
      by_cases hj : j = i
      · subst hj
        simp [hil, applyTurn_pCascades]
      · by_cases hjl : j ∈ l
        · simp [hj, hjl, applyTurn_pCascades, applyTurn_contextAt]
        · simp [hj, hjl, applyTurn_pCascades]
    · rw [h3, applyTurn_calls, List.flatMap_cons, List.append_assoc]
      congr 2
      apply List.flatMap_congr
      intro k hk
      have hki : k ≠ i := fun h => hil (h ▸ hk)
      rw [applyTurn_contextAt]
      simp [hki]
    · rw [h4, applyTurn_mCascadeCount]

/-- The propagate loop of the CPU branch, in closed form. -/
theorem applyPropagation_spec (p : ℕ) (a : Aura) :
    (∀ k q : ℕ, (applyPropagation p a).1.contextAt k q =
      if k < a.mCascadeCount ∧ q = p then (a.contextAt k p).map appliedContext
      else a.contextAt k q) ∧
    (∀ j : ℕ, (applyPropagation p a).1.pCascades[j]? =
      if j < a.mCascadeCount then (a.pCascades[j]?).map (appliedCascade (a.contextAt j p))
      else a.pCascades[j]?) ∧
    (applyPropagation p a).2 =
      (List.range a.mCascadeCount).flatMap (fun i => applyCalls p i (a.contextAt i p)) ∧
    (applyPropagation p a).1.mCascadeCount = a.mCascadeCount := by
  have h := foldl_applyTurn p (List.range a.mCascadeCount) (List.nodup_range _) a []
  simp only [List.mem_range, List.nil_append] at h
  exact h
/-- One turn of the capture loop changes the context `[i][r]` and no other. -/
theorem captureTurn_contextAt (r i : ℕ) (a : Aura) (k l : ℕ) :
    (captureTurn r i a).1.contextAt k l =
      if k = i ∧ l = r then (a.contextAt i r).map (capturedContext (a.pCascades[i]?))
      else a.contextAt k l := by
  unfold captureTurn
  cases hc : a.pCascades[i]? with
  | none =>
    have e : capturedContext none = fun ctx => ctx := by
      funext ctx
      rfl
    by_cases h : k = i ∧ l = r
    · obtain ⟨rfl, rfl⟩ := h
      simp [e]
    · simp [h]
  | some c =>
    have e : capturedContext (some c) = fun _ => ⟨CPUContextState.CAPTURED_LIGHT, c.mInjectState⟩ := by
      funext ctx
      rfl
    simp only [modifyContext_contextAt]
    by_cases h : k = i ∧ l = r
    · simp only [h, and_self, if_true, e, Option.map_map]
      congr 1
    · simp [h]

theorem captureTurn_fields (r i : ℕ) (a : Aura) :
    (captureTurn r i a).1.pCascades = a.pCascades ∧
    (captureTurn r i a).1.mCascadeCount = a.mCascadeCount ∧
    (captureTurn r i a).2 = captureCalls r i (a.pCascades[i]?) := by
  unfold captureTurn
  cases hc : a.pCascades[i]? with
  | none => exact ⟨rfl, rfl, rfl⟩
  | some c =>
    refine ⟨?_, ?_, rfl⟩
    · simp only [modifyContext_pCascades]
    · simp only [modifyContext_mCascadeCount]

/-- The capture loop over a list of distinct cascade indices. -/
theorem foldl_captureTurn (r : ℕ) (l : List ℕ) (hl : l.Nodup) (a : Aura) (cs : List Call) :
    let s := l.foldl
      (fun (acc : Aura × List Call) i => let s := captureTurn r i acc.1; (s.1, acc.2 ++ s.2))
      (a, cs)
    (∀ k q : ℕ, s.1.contextAt k q =
      if k ∈ l ∧ q = r then (a.contextAt k r).map (capturedContext (a.pCascades[k]?))
      else a.contextAt k q) ∧
    s.1.pCascades = a.pCascades ∧
    s.2 = cs ++ l.flatMap (fun i => captureCalls r i (a.pCascades[i]?)) ∧
    s.1.mCascadeCount = a.mCascadeCount := by
  induction l generalizing a cs with
  | nil => simp
  | cons i l ih =>
    rw [List.nodup_cons] at hl
    obtain ⟨hil, hl⟩ := hl
    simp only [List.foldl_cons]
    obtain ⟨h1, h2, h3, h4⟩ := ih hl (captureTurn r i a).1 (cs ++ (captureTurn r i a).2)
    obtain ⟨f1, f2, f3⟩ := captureTurn_fields r i a
    refine ⟨?_, ?_, ?_, ?_⟩
    · intro k q
      rw [h1 k q, f1]
      by_cases hk : k = i
      · subst hk
        by_cases hq : q = r
        · subst hq
          simp [hil, captureTurn_contextAt]
        · simp [hq, captureTurn_contextAt]
      · by_cases hkl : k ∈ l
        · by_cases hq : q = r
          · subst hq
            simp [hk, hkl, captureTurn_contextAt]
          · simp [hk, hq, captureTurn_contextAt]
        · simp [hk, hkl, captureTurn_contextAt]
    · rw [h2, f1]
    · rw [h3, f3, f1, List.flatMap_cons, List.append_assoc]
    · rw [h4, f2]

/-- The capture loop of the CPU branch, in closed form. -/
theorem captureLight_spec (a : Aura) :
    (∀ k q : ℕ, (captureLight a).1.contextAt k q =
      if k < a.mCascadeCount ∧ q = readIndex a then
        (a.contextAt k (readIndex a)).map (capturedContext (a.pCascades[k]?))
      else a.contextAt k q) ∧
    (captureLight a).1.pCascades = a.pCascades ∧
    (captureLight a).2 =
      (List.range a.mCascadeCount).flatMap
        (fun i => captureCalls (readIndex a) i (a.pCascades[i]?)) ∧
    (captureLight a).1.mCascadeCount = a.mCascadeCount := by
  have h := foldl_captureTurn (readIndex a) (List.range a.mCascadeCount) (List.nodup_range _) a []
  simp only [List.mem_range, List.nil_append] at h
  exact h
/-- The capture loop issues `readData` calls only. -/
theorem captureLight_calls_readData (a : Aura) (c : Call) (hc : c ∈ (captureLight a).2) :
    ∃ i : ℕ, c = Call.readData i (readIndex a) := by
  rw [(captureLight_spec a).2.2.1, List.mem_flatMap] at hc
  obtain ⟨i, _, hi⟩ := hc
  unfold captureCalls at hi
  cases hx : a.pCascades[i]? with
  | none => simp [hx] at hi
  | some x =>
    simp only [hx, List.mem_singleton] at hi
    exact ⟨i, hi⟩

/-- A call of the propagate loop that names cascade `i` and context `j` is issued for a
cascade below `mCascadeCount`, on the context `p`, which held captured light on entry. -/
theorem applyPropagation_calls_mem (p : ℕ) (a : Aura) (i j : ℕ)
    (h : Call.processData i j ∈ (applyPropagation p a).2 ∨
      Call.applyData i j ∈ (applyPropagation p a).2) :
    i < a.mCascadeCount ∧ j = p ∧
      ∃ ctx : LightPropagationCPUContext,
        a.contextAt i p = some ctx ∧ ctx.eState = CPUContextState.CAPTURED_LIGHT := by
  rw [(applyPropagation_spec p a).2.2.1] at h
  simp only [List.mem_flatMap, List.mem_range] at h
  have key : ∀ c : Call, (c = Call.processData i j ∨ c = Call.applyData i j) →
      (∃ k, k < a.mCascadeCount ∧ c ∈ applyCalls p k (a.contextAt k p)) →
      i < a.mCascadeCount ∧ j = p ∧
        ∃ ctx : LightPropagationCPUContext,
          a.contextAt i p = some ctx ∧ ctx.eState = CPUContextState.CAPTURED_LIGHT := by
    intro c hc hk
    obtain ⟨k, hk, hmem⟩ := hk
    unfold applyCalls at hmem
    cases hctx : a.contextAt k p with
    | none => simp [hctx] at hmem
    | some ctx =>
      simp only [hctx] at hmem
      by_cases hcap : ctx.eState = CPUContextState.CAPTURED_LIGHT
      · simp only [hcap, if_true, List.mem_cons, List.mem_singleton, List.not_mem_nil,
          or_false] at hmem
        rcases hc with rfl | rfl
        · rcases hmem with hm | hm
          · injection hm with h1 h2
            subst h1
            subst h2
            exact ⟨hk, rfl, ctx, hctx, hcap⟩
          · cases hm
        · rcases hmem with hm | hm
          · cases hm
          · injection hm with h1 h2
            subst h1
            subst h2
            exact ⟨hk, rfl, ctx, hctx, hcap⟩
      · simp [hcap] at hmem
  rcases h with h | h
  · exact key _ (Or.inl rfl) h
  · exact key _ (Or.inr rfl) h
/-- C17. The CPU context state machine never applies an uncaptured or half-processed
cascade. In the CPU branch of `propagateLight(Aura)`, with `p = propagateIndex` and the state
on entry to the propagate loop being the one the capture loop leaves:
the calls are those of the capture loop followed, cascade by cascade, by the pair
`processData`, `applyData` (in this order) on context `p` exactly where that context held
`CAPTURED_LIGHT` on entry to the propagate loop; any `processData` or `applyData` call of the
branch names such a context; such a context ends the call in `APPLIED_PROPAGATION` and its
stored apply state becomes the `mApplyState` of its cascade; and where the context is missing
or not in `CAPTURED_LIGHT`, no `processData` or `applyData` is issued for the cascade, and the
cascade (its `mApplyState` included) and the context are left as they were. -/
theorem C17_cpu_contexts_applied_only_when_captured (a : Aura) :
    ((propagateLightCPU a).2 = (captureLight a).2 ++
      (List.range a.mCascadeCount).flatMap (fun i =>
        match (captureLight a).1.contextAt i (propagateIndex a) with
        | some ctx =>
          if ctx.eState = CPUContextState.CAPTURED_LIGHT then
            [Call.processData i (propagateIndex a), Call.applyData i (propagateIndex a)]
          else []
        | none => [])) ∧
    (∀ i j : ℕ,
      (Call.processData i j ∈ (propagateLightCPU a).2 ∨
        Call.applyData i j ∈ (propagateLightCPU a).2) →
      i < a.mCascadeCount ∧ j = propagateIndex a ∧
        ∃ ctx : LightPropagationCPUContext,
          (captureLight a).1.contextAt i j = some ctx ∧
          ctx.eState = CPUContextState.CAPTURED_LIGHT) ∧
    (∀ (i : ℕ) (ctx : LightPropagationCPUContext), i < a.mCascadeCount →
      (captureLight a).1.contextAt i (propagateIndex a) = some ctx →
      ctx.eState = CPUContextState.CAPTURED_LIGHT →
      (propagateLightCPU a).1.contextAt i (propagateIndex a) =
          some { ctx with eState := CPUContextState.APPLIED_PROPAGATION } ∧
        (propagateLightCPU a).1.pCascades[i]? =
          ((captureLight a).1.pCascades[i]?).map
            (fun c => { c with mApplyState := ctx.getApplyState })) ∧
    (∀ i : ℕ,
      (¬ ∃ ctx : LightPropagationCPUContext,
        (captureLight a).1.contextAt i (propagateIndex a) = some ctx ∧
        ctx.eState = CPUContextState.CAPTURED_LIGHT) →
      (propagateLightCPU a).1.pCascades[i]? = (captureLight a).1.pCascades[i]? ∧
        (propagateLightCPU a).1.contextAt i (propagateIndex a) =
          (captureLight a).1.contextAt i (propagateIndex a) ∧
        ∀ j : ℕ, Call.processData i j ∉ (propagateLightCPU a).2 ∧
          Call.applyData i j ∉ (propagateLightCPU a).2) := by
  obtain ⟨g1, g2, g3, _⟩ := applyPropagation_spec (propagateIndex a) (captureLight a).1
  have hcount : (captureLight a).1.mCascadeCount = a.mCascadeCount := (captureLight_spec a).2.2.2
  rw [hcount] at g1 g2 g3
  have hcalls : (propagateLightCPU a).2 =
      (captureLight a).2 ++ (applyPropagation (propagateIndex a) (captureLight a).1).2 := rfl
  have hstate : (propagateLightCPU a).1 =
      (applyPropagation (propagateIndex a) (captureLight a).1).1 := rfl
  have hmem : ∀ i j : ℕ,
      (Call.processData i j ∈ (propagateLightCPU a).2 ∨
        Call.applyData i j ∈ (propagateLightCPU a).2) →
      i < a.mCascadeCount ∧ j = propagateIndex a ∧
        ∃ ctx : LightPropagationCPUContext,
          (captureLight a).1.contextAt i j = some ctx ∧
          ctx.eState = CPUContextState.CAPTURED_LIGHT := by
    intro i j h
    have h2 : Call.processData i j ∈ (applyPropagation (propagateIndex a) (captureLight a).1).2 ∨
        Call.applyData i j ∈ (applyPropagation (propagateIndex a) (captureLight a).1).2 := by
      rw [hcalls] at h
      simp only [List.mem_append] at h
      rcases h with (h | h) | (h | h)
      · obtain ⟨k, hk⟩ := captureLight_calls_readData a _ h
        cases hk
      · exact Or.inl h
      · obtain ⟨k, hk⟩ := captureLight_calls_readData a _ h
        cases hk
      · exact Or.inr h
    obtain ⟨m1, m2, ctx, m3, m4⟩ := applyPropagation_calls_mem _ _ i j h2
    rw [hcount] at m1
    subst m2
    exact ⟨m1, rfl, ctx, m3, m4⟩
  refine ⟨?_, hmem, ?_, ?_⟩
  · rw [hcalls, g3]
    rfl
  · intro i ctx hi hctx hcap
    rw [hstate, g1, g2, if_pos ⟨hi, rfl⟩, if_pos hi, hctx]
    have e : appliedCascade (some ctx) = fun c => { c with mApplyState := ctx.getApplyState } := by
      funext c
      simp [appliedCascade, hcap]
    simp [appliedContext, hcap, e]
  · intro i hno
    have hid : (fun c => appliedCascade ((captureLight a).1.contextAt i (propagateIndex a)) c) =
        fun c => c := by
      funext c
      unfold appliedCascade
      cases hctx : (captureLight a).1.contextAt i (propagateIndex a) with
      | none => rfl
      | some ctx =>
        have hcap : ¬ ctx.eState = CPUContextState.CAPTURED_LIGHT := fun h => hno ⟨ctx, hctx, h⟩
        simp [hcap]
    have hidc : ((captureLight a).1.contextAt i (propagateIndex a)).map appliedContext =
        (captureLight a).1.contextAt i (propagateIndex a) := by
      cases hctx : (captureLight a).1.contextAt i (propagateIndex a) with
      | none => rfl
      | some ctx =>
        have hcap : ¬ ctx.eState = CPUContextState.CAPTURED_LIGHT := fun h => hno ⟨ctx, hctx, h⟩
        simp [appliedContext, hcap]
    refine ⟨?_, ?_, ?_⟩
    · rw [hstate, g2]
      by_cases hi : i < a.mCascadeCount
      · rw [if_pos hi]
        have : appliedCascade ((captureLight a).1.contextAt i (propagateIndex a)) =
            fun c => c := hid
        rw [this]
        simp
      · rw [if_neg hi]
    · rw [hstate, g1]
      by_cases hi : i < a.mCascadeCount
      · rw [if_pos ⟨hi, rfl⟩, hidc]
      · rw [if_neg (fun h => hi h.1)]
    · intro j
      constructor
      · intro h
        obtain ⟨_, hj, ctx, hctx, hcap⟩ := hmem i j (Or.inl h)
        subst hj
        exact hno ⟨ctx, hctx, hcap⟩
      · intro h
        obtain ⟨_, hj, ctx, hctx, hcap⟩ := hmem i j (Or.inr h)
        subst hj
        exact hno ⟨ctx, hctx, hcap⟩
/-- C17 at the sample `Aura` on the CPU path (frame 2, two frames in flight): `processData`
is issued on context 0 of cascade 0, so that context held captured light on entry to the
propagate loop. -/
theorem C17_cpu_contexts_applied_only_when_captured_witness :
    Call.processData 0 0 ∈ (propagateLightCPU (sampleAuraCPU 2 2)).2 ∧
    (0 < (sampleAuraCPU 2 2).mCascadeCount ∧ 0 = propagateIndex (sampleAuraCPU 2 2) ∧
      ∃ ctx : LightPropagationCPUContext,
        (captureLight (sampleAuraCPU 2 2)).1.contextAt 0 0 = some ctx ∧
        ctx.eState = CPUContextState.CAPTURED_LIGHT) :=
  ⟨by decide,
    (C17_cpu_contexts_applied_only_when_captured (sampleAuraCPU 2 2)).2.1 0 0
      (Or.inl (by decide))⟩

/-- Without wrap-around the subtraction in `propagateIndex` changes nothing: for
`1 <= mInFlightFrameCount <= mFrameIdx < 2^32` the two indices are equal. -/
theorem propagateIndex_eq_readIndex (a : Aura) (h1 : 1 ≤ a.mInFlightFrameCount)
    (h2 : a.mInFlightFrameCount ≤ a.mFrameIdx) (h3 : a.mFrameIdx < UINT32) :
    propagateIndex a = readIndex a := by
  unfold propagateIndex readIndex
  have hn : a.mInFlightFrameCount % UINT32 = a.mInFlightFrameCount :=
    Nat.mod_eq_of_lt (by omega)
  have e : a.mFrameIdx + UINT32 - a.mInFlightFrameCount =
      (a.mFrameIdx - a.mInFlightFrameCount) + UINT32 := by omega
  have hx : (a.mFrameIdx - a.mInFlightFrameCount) % UINT32 =
      a.mFrameIdx - a.mInFlightFrameCount := Nat.mod_eq_of_lt (by omega)
  rw [hn, e, Nat.add_mod_right, hx]
  conv_rhs => rw [← Nat.sub_add_cancel h2]
  rw [Nat.add_mod_right]

/-- With wrap-around the two indices are still equal whenever `mInFlightFrameCount` divides
`2^32` (1, 2, 4, ...). -/
theorem propagateIndex_eq_readIndex_of_dvd (a : Aura) (hd : a.mInFlightFrameCount ∣ UINT32) :
    propagateIndex a = readIndex a := by
  unfold propagateIndex readIndex
  have hle : a.mInFlightFrameCount ≤ UINT32 := Nat.le_of_dvd (by decide) hd
  rw [Nat.mod_mod_of_dvd _ hd]
  rcases Nat.lt_or_ge a.mInFlightFrameCount UINT32 with hlt | hge
  · rw [Nat.mod_eq_of_lt hlt]
    obtain ⟨k, hk⟩ := hd
    have hk1 : 1 ≤ k := by
      rcases Nat.eq_zero_or_pos k with h0 | h0
      · rw [h0, Nat.mul_zero] at hk
        exact absurd hk (by decide)
      · exact h0
    have e : a.mFrameIdx + UINT32 - a.mInFlightFrameCount =
        a.mFrameIdx + a.mInFlightFrameCount * (k - 1) := by
      have : a.mInFlightFrameCount * k =
          a.mInFlightFrameCount * (k - 1) + a.mInFlightFrameCount := by
        conv_lhs => rw [← Nat.sub_add_cancel hk1]
        rw [Nat.mul_add, Nat.mul_one]
      omega
    rw [e, Nat.add_mul_mod_self_left]
  · have hEq : a.mInFlightFrameCount = UINT32 := by omega
    rw [hEq, Nat.mod_self, Nat.sub_zero, Nat.add_mod_right]

/-- With three frames in flight and a frame index below 3 the difference wraps, and the
context processed is the one captured two calls earlier, not three. -/
theorem propagateIndex_three_in_flight :
    propagateIndex (sampleAuraCPU 0 3) = 1 ∧ propagateIndex (sampleAuraCPU 1 3) = 2 ∧
    propagateIndex (sampleAuraCPU 2 3) = 0 := by
  decide

/-- C16, the code at a failing input. On the CPU path with `mFrameIdx = 2` and
`mInFlightFrameCount = 2` the context captured in the call is the context processed in the
same call: both indices are 0, context 0 of every cascade does not hold captured light
before the call, and the call issues `readData` on it and then `processData` and `applyData`
on it. -/
theorem C16_context_processed_in_the_call_that_captured_it :
    readIndex (sampleAuraCPU 2 2) = 0 ∧ propagateIndex (sampleAuraCPU 2 2) = 0 ∧
    (∀ i : ℕ, i < 3 → ((sampleAuraCPU 2 2).contextAt i 0).map (fun ctx => ctx.eState) =
      some CPUContextState.APPLIED_PROPAGATION) ∧
    (propagateLightAura sampleConfigCPU (sampleAuraCPU 2 2)).2 =
      [Call.readData 0 0, Call.readData 1 0, Call.readData 2 0,
       Call.processData 0 0, Call.applyData 0 0,
       Call.processData 1 0, Call.applyData 1 0,
       Call.processData 2 0, Call.applyData 2 0] := by
  refine ⟨by decide, by decide, by decide, by decide⟩

/-! ## C21: sub-cell motion leaves the transforms alone -/

/-- The largest of the absolute values of three numbers scaled by a non-negative factor. -/
theorem max3_abs_mul (a b c k : ℚ) (hk : 0 ≤ k) :
    max (max |a * k| |b * k|) |c * k| = max (max |a| |b|) |c| * k := by
  rw [abs_mul, abs_mul, abs_mul, abs_of_nonneg hk, max_mul_of_nonneg _ _ hk,
    max_mul_of_nonneg _ _ hk]

/-- In exact arithmetic the forward offset points along the camera direction and has a
fixed reach. With `GridRes = 32`, a positive span and a non-zero camera direction, the
unsnapped grid centre minus `camPos` is `camDir` scaled by the positive factor
`(gridSpan / 2 - 4 * cellSize) / maxOffset`, and its largest absolute component is exactly
`gridSpan / 2 - 4 * cellSize` (three eighths of the span). -/
theorem frameGridCenter_direction_and_reach (cfg : Config) (c : LightPropagationCascade)
    (camPos camDir : vec3) (hres : cfg.GridRes = 32) (hspan : 0 < c.mGridSpan)
    (hdir : camDir ≠ ⟨0, 0, 0⟩) :
    (∃ k : ℚ, 0 < k ∧ (frameGridCenter cfg c camPos camDir).sub camPos = camDir.mulS k) ∧
    max (max |(frameGridCenter cfg c camPos camDir).x - camPos.x|
        |(frameGridCenter cfg c camPos camDir).y - camPos.y|)
      |(frameGridCenter cfg c camPos camDir).z - camPos.z| =
      c.mGridSpan / 2 - 4 * getCellSize cfg c ∧
    c.mGridSpan / 2 - 4 * getCellSize cfg c = 3 / 8 * c.mGridSpan := by
  have hm := maxOffset_pos camDir hdir
  have hreach : c.mGridSpan / 2 - 4 * getCellSize cfg c = 3 / 8 * c.mGridSpan := by
    simp only [getCellSize, hres]
    push_cast
    ring
  have hreach_pos : 0 < c.mGridSpan / 2 - 4 * getCellSize cfg c := by
    rw [hreach]
    positivity
  set m := max (max (fabsf camDir.x) (fabsf camDir.y)) (fabsf camDir.z) with hmdef
  have hx : (frameGridCenter cfg c camPos camDir).x - camPos.x =
      camDir.x / m * (c.mGridSpan / 2 - 4 * getCellSize cfg c) := by
    simp only [frameGridCenter, getSideHalf, vec3.add, vec3.mulS, vec3.divS, ← hmdef]
    ring
  have hy : (frameGridCenter cfg c camPos camDir).y - camPos.y =
      camDir.y / m * (c.mGridSpan / 2 - 4 * getCellSize cfg c) := by
    simp only [frameGridCenter, getSideHalf, vec3.add, vec3.mulS, vec3.divS, ← hmdef]
    ring
  have hz : (frameGridCenter cfg c camPos camDir).z - camPos.z =
      camDir.z / m * (c.mGridSpan / 2 - 4 * getCellSize cfg c) := by
    simp only [frameGridCenter, getSideHalf, vec3.add, vec3.mulS, vec3.divS, ← hmdef]
    ring
  refine ⟨⟨(c.mGridSpan / 2 - 4 * getCellSize cfg c) / m, div_pos hreach_pos hm, ?_⟩, ?_, hreach⟩
  · cases camDir with
    | mk dx dy dz =>
      simp only [vec3.sub, vec3.mulS]
      simp only at hx hy hz
      rw [hx, hy, hz]
      congr 1 <;> ring
  · rw [hx, hy, hz, max3_abs_mul _ _ _ _ hreach_pos.le]
    have hmax : max (max |camDir.x / m| |camDir.y / m|) |camDir.z / m| = 1 := by
      have e : ∀ d : ℚ, |d / m| = |d| * m⁻¹ := by
        intro d
        rw [abs_div, abs_of_pos hm, div_eq_mul_inv]
      rw [e, e, e, ← max_mul_of_nonneg _ _ (inv_nonneg.mpr hm.le),
        ← max_mul_of_nonneg _ _ (inv_nonneg.mpr hm.le)]
      have hm' : max (max |camDir.x| |camDir.y|) |camDir.z| = m := by
        rw [hmdef]
        simp only [fabsf_eq_abs]
      rw [hm']
      exact mul_inv_cancel₀ hm.ne'
    rw [hmax, one_mul]

/-! ## C24: the falloff radii of `getLightApplyData` -/

/-- Every entry `getLightApplyData` writes is the loop body run on a cascade of the `Aura`. -/
theorem getLightApplyData_cascade_mem (cfg : Config) (a : Aura) (invVP : mat4) (camPos : vec3)
    (e : CascadeApplyData) (he : e ∈ (getLightApplyData cfg a invVP camPos).cascade) :
    ∃ (i : ℕ) (pc : LightPropagationCascade),
      i < a.mCascadeCount ∧ a.pCascades[i]? = some pc ∧ e = cascadeApplyData cfg a i pc := by
  simp only [getLightApplyData, List.mem_filterMap, List.mem_range] at he
  obtain ⟨i, hi, h⟩ := he
  cases hpc : a.pCascades[i]? with
  | none => simp [hpc] at h
  | some pc =>
    simp only [hpc, Option.map_some', Option.some.injEq] at h
    exact ⟨i, pc, hi, hpc, h.symm⟩

/-- With three cascades the window bound as `LPVGrid` is the selected cascade's own grids. -/
theorem drawLpvVisualization_LPVGrid_of_three (cfg : Config) (a : Aura) (cascadeIndex : ℕ)
    (h3 : a.mCascadeCount = 3) (hc : cascadeIndex < a.mCascadeCount) :
    (drawLpvVisualization cfg a cascadeIndex).LPVGrid =
      (gridTriple (Resource.pLightGrids cascadeIndex)).map some := by
  rw [h3] at hc
  have hc' : cascadeIndex = 0 ∨ cascadeIndex = 1 ∨ cascadeIndex = 2 := by omega
  simp only [drawLpvVisualization, ppTextures, h3, gridTriple, NUM_GRIDS_PER_CASCADE, UINT32]
  rcases hc' with rfl | rfl | rfl <;> decide

/-- The window bound as `LPVGrid` has `mCascadeCount` slots, so it is the selected cascade's
`NUM_GRIDS_PER_CASCADE` grids only when there are exactly three cascades. -/
theorem drawLpvVisualization_LPVGrid_iff (cfg : Config) (a : Aura) (cascadeIndex : ℕ)
    (hc : cascadeIndex < a.mCascadeCount) :
    (drawLpvVisualization cfg a cascadeIndex).LPVGrid =
        (gridTriple (Resource.pLightGrids cascadeIndex)).map some ↔
      a.mCascadeCount = NUM_GRIDS_PER_CASCADE := by
  constructor
  · intro h
    have hl := congrArg List.length h
    simpa [drawLpvVisualization, gridTriple] using hl
  · intro h
    exact drawLpvVisualization_LPVGrid_of_three cfg a cascadeIndex h hc

/-- C25, the code at failing inputs. With two cascades and `cascadeIndex = 1` the window
bound as `LPVGrid` is `ppTextures[2..3]`, the last grid of cascade 0 and the first grid of
cascade 1, not the three grids of cascade 1; with four cascades and `cascadeIndex = 3` it
starts at `ppTextures[12]`, the end of the 12-entry array, so every slot is read outside
it. -/
theorem C25_visualization_binds_a_window_of_the_wrong_stride :
    (sampleAuraOfCount 2).mCascadeCount = 2 ∧
    (ppTextures (sampleAuraOfCount 2)).length = NUM_GRIDS_PER_CASCADE * 2 ∧
    (drawLpvVisualization sampleConfig (sampleAuraOfCount 2) 1).LPVGrid =
      [some (Resource.pLightGrids 0 2), some (Resource.pLightGrids 1 0)] ∧
    (drawLpvVisualization sampleConfig (sampleAuraOfCount 2) 1).LPVGrid ≠
      [some (Resource.pLightGrids 1 0), some (Resource.pLightGrids 1 1),
        some (Resource.pLightGrids 1 2)] ∧
    (ppTextures (sampleAuraOfCount 4)).length = NUM_GRIDS_PER_CASCADE * 4 ∧
    (drawLpvVisualization sampleConfig (sampleAuraOfCount 4) 3).LPVGrid =
      [none, none, none, none] := by
  refine ⟨rfl, by decide, by decide, by decide, by decide, by decide⟩

/-! ## C26: the indices into the CPU contexts -/

/-- `loadCPUPropagationResources` gives every cascade `NUM_GRIDS_PER_CASCADE` contexts. -/
theorem loadCPUPropagationResources_rows (cfg : Config) (a : Aura)
    (h : cfg.ENABLE_CPU_PROPAGATION = true) :
    (loadCPUPropagationResources cfg a).1.m_CPUContexts.length = a.mCascadeCount ∧
    ∀ row ∈ (loadCPUPropagationResources cfg a).1.m_CPUContexts,
      row.length = NUM_GRIDS_PER_CASCADE := by
  simp only [loadCPUPropagationResources, h, if_true, List.length_replicate, true_and]
  intro row hrow
  rw [List.eq_of_mem_replicate hrow, List.length_replicate]

/-- With at most `NUM_GRIDS_PER_CASCADE` frames in flight both indices are inside a row of
contexts. -/
theorem cpu_indices_lt (a : Aura) (h1 : 1 ≤ a.mInFlightFrameCount)
    (h3 : a.mInFlightFrameCount ≤ NUM_GRIDS_PER_CASCADE) :
    readIndex a < NUM_GRIDS_PER_CASCADE ∧ propagateIndex a < NUM_GRIDS_PER_CASCADE := by
  have hpos : 0 < a.mInFlightFrameCount := h1
  constructor
  · exact lt_of_lt_of_le (Nat.mod_lt _ hpos) h3
  · exact lt_of_lt_of_le (Nat.mod_lt _ hpos) h3

/-- C26, the code at a failing input. With `MAX_FRAMES = 3`, `mFrameIdx = 2` and five frames
in flight, `readIndex` is 2 but `propagateIndex` is 3, while every cascade owns
`NUM_GRIDS_PER_CASCADE = 3` contexts: the context `m_CPUContexts[i][propagateIndex]` the
propagate loop reads lies outside the row. -/
theorem C26_propagate_index_outside_the_contexts :
    (sampleAuraCPU 2 5).mFrameIdx < sampleConfigCPU.MAX_FRAMES ∧
    1 ≤ (sampleAuraCPU 2 5).mInFlightFrameCount ∧
    readIndex (sampleAuraCPU 2 5) = 2 ∧
    propagateIndex (sampleAuraCPU 2 5) = 3 ∧
    NUM_GRIDS_PER_CASCADE = 3 ∧
    (∀ row ∈ (loadCPUPropagationResources sampleConfigCPU (sampleAuraCPU 2 5)).1.m_CPUContexts,
      row.length = NUM_GRIDS_PER_CASCADE) ∧
    (loadCPUPropagationResources sampleConfigCPU (sampleAuraCPU 2 5)).1.contextAt 0
      (propagateIndex (sampleAuraCPU 2 5)) = none := by
  refine ⟨by decide, by decide, by decide, by decide, rfl, ?_, by decide⟩
  exact (loadCPUPropagationResources_rows sampleConfigCPU (sampleAuraCPU 2 5) rfl).2

/-! ## C27: descriptor-set indices -/

/-- The index `f * n + v` is below `n * m` for `f < m` and `v < n`. -/
theorem frame_volume_index_lt (n m f v : ℕ) (hf : f < m) (hv : v < n) : f * n + v < n * m := by
  have h : (f + 1) * n ≤ m * n := Nat.mul_le_mul_right n hf
  rw [Nat.add_mul, Nat.one_mul] at h
  rw [Nat.mul_comm n m]
  omega

/-- The index `f * n + v` determines `f` and `v` when `v < n`. -/
theorem frame_volume_index_inj (n f v f' v' : ℕ) (hv : v < n) (hv' : v' < n)
    (h : f * n + v = f' * n + v') : f = f' ∧ v = v' := by
  have hn : 0 < n := by omega
  have h1 : (f * n + v) / n = f := by
    rw [Nat.add_comm, Nat.add_mul_div_right _ _ hn, Nat.div_eq_of_lt hv, Nat.zero_add]
  have h2 : (f' * n + v') / n = f' := by
    rw [Nat.add_comm, Nat.add_mul_div_right _ _ hn, Nat.div_eq_of_lt hv', Nat.zero_add]
  have hff : f = f' := by rw [← h1, ← h2, h]
  subst hff
  exact ⟨rfl, by omega⟩

/-- Every index below `n * m` is `f * n + v` for some `f < m` and `v < n`. -/
theorem frame_volume_index_surj (n m idx : ℕ) (h : idx < n * m) :
    ∃ f v : ℕ, f < m ∧ v < n ∧ idx = f * n + v := by
  have hn : 0 < n := by
    rcases Nat.eq_zero_or_pos n with h0 | h0
    · rw [h0, Nat.zero_mul] at h
      omega
    · exact h0
  refine ⟨idx / n, idx % n, ?_, Nat.mod_lt _ hn, ?_⟩
  · exact Nat.div_lt_of_lt_mul h
  · rw [Nat.mul_comm]
    exact (Nat.div_add_mod idx n).symm

/-- The descriptor index `injectRSM` binds in `pDescriptorSetInjectRSMLight`. -/
theorem injectRSM_set_index (cfg : Config) (a : Aura) (iVolume : ℕ) (invVP : mat4)
    (camDir : vec3) (rtWidth rtHeight : ℕ) (viewAreaForUnitDepth : ℚ) (idx : ℕ)
    (h : Call.cmdBindDescriptorSet idx DescriptorSet.pDescriptorSetInjectRSMLight ∈
        (injectRSM cfg a iVolume invVP camDir rtWidth rtHeight viewAreaForUnitDepth).2 ∨
      Call.updateDescriptorSet idx DescriptorSet.pDescriptorSetInjectRSMLight ∈
        (injectRSM cfg a iVolume invVP camDir rtWidth rtHeight viewAreaForUnitDepth).2) :
    idx = (a.mFrameIdx * a.mCascadeCount + iVolume) % UINT32 := by
  unfold injectRSM at h
  by_cases hth : (doAlternateGPUUpdates cfg a && (a.mGPUPropagationCurrentGrid != iVolume)) = true
  · simp [hth] at h
  · cases hpc : a.pCascades[iVolume]? with
    | none => simp [hth, hpc] at h
    | some pc =>
      by_cases hcomp : cfg.USE_COMPUTE_SHADERS = true
      · simp [hth, hpc, hcomp] at h
        exact h
      · simp [hth, hpc, hcomp] at h
        exact h

/-- The descriptor indices `propagateLight(cascade)` binds in
`pDescriptorSetLightPropagateN` are `cascade * 2` or `cascade * 2 + 1`. -/
theorem propagateLight_setN_index (cfg : Config) (a : Aura) (cascade idx : ℕ)
    (h : Call.cmdBindDescriptorSet idx DescriptorSet.pDescriptorSetLightPropagateN ∈
      (propagateLight cfg a cascade).2) :
    idx = cascade * 2 + 0 ∨ idx = cascade * 2 + 1 := by
  rw [propagateLight_snd, propagatePasses_unrolled] at h
  simp only [List.mem_append, List.mem_cons, List.mem_singleton, List.not_mem_nil, or_false,
    List.mem_flatMap, List.mem_range, false_or] at h
  rcases h with (((h | h) | ⟨k, _, h⟩) | h) | h
  · cases h
  · unfold propagateFirstStep at h
    by_cases hcomp : cfg.USE_COMPUTE_SHADERS = true
    · simp [hcomp, dispatchGrid] at h
    · simp [hcomp, drawGrid] at h
  · unfold propagateStep at h
    by_cases hcomp : cfg.USE_COMPUTE_SHADERS = true
    · simp [hcomp, dispatchGrid] at h
      by_cases hodd : (1 + k) % 2 = 0
      · rw [if_pos hodd] at h
        exact Or.inr h
      · rw [if_neg hodd] at h
        exact Or.inl h
    · simp [hcomp, drawGrid] at h
      by_cases hodd : (1 + k) % 2 = 0
      · rw [if_pos hodd] at h
        exact Or.inr h
      · rw [if_neg hodd] at h
        exact Or.inl h
  · cases h
  · cases h

/-- C27. Injection descriptor sets are never shared or out of range. When the products
`mCascadeCount * MAX_FRAMES` and `mCascadeCount * 2` fit `uint32_t`: the index
`mFrameIdx * mCascadeCount + iVolume` maps the pairs `(mFrameIdx < MAX_FRAMES, iVolume <
mCascadeCount)` one-to-one onto the indices below the number of sets `initAura` allocates
for `pDescriptorSetInjectRSMLight`; it is the index `injectRSM` updates and binds; and the
`PropagateN` index `cascade * 2 + b` with `b` in `{0, 1}`, the only kind of index
`propagateLight(cascade)` binds in `pDescriptorSetLightPropagateN`, is below the allocated
`mCascadeCount * 2` for every cascade below `mCascadeCount`. -/
theorem C27_descriptor_indices_in_range (cfg : Config) (a : Aura)
    (hsize : a.mCascadeCount * cfg.MAX_FRAMES < UINT32) (h2 : a.mCascadeCount * 2 < UINT32) :
    (∀ f v : ℕ, f < cfg.MAX_FRAMES → v < a.mCascadeCount →
      f * a.mCascadeCount + v <
        initAuraDescriptorSetCount cfg a DescriptorSet.pDescriptorSetInjectRSMLight) ∧
    (∀ f v f' v' : ℕ, v < a.mCascadeCount → v' < a.mCascadeCount →
      f * a.mCascadeCount + v = f' * a.mCascadeCount + v' → f = f' ∧ v = v') ∧
    (∀ idx : ℕ,
      idx < initAuraDescriptorSetCount cfg a DescriptorSet.pDescriptorSetInjectRSMLight →
      ∃ f v : ℕ, f < cfg.MAX_FRAMES ∧ v < a.mCascadeCount ∧ idx = f * a.mCascadeCount + v) ∧
    (∀ (iVolume : ℕ) (invVP : mat4) (camDir : vec3) (rtWidth rtHeight : ℕ)
      (viewAreaForUnitDepth : ℚ) (idx : ℕ),
      a.mFrameIdx < cfg.MAX_FRAMES → iVolume < a.mCascadeCount →
      (Call.cmdBindDescriptorSet idx DescriptorSet.pDescriptorSetInjectRSMLight ∈
          (injectRSM cfg a iVolume invVP camDir rtWidth rtHeight viewAreaForUnitDepth).2 ∨
        Call.updateDescriptorSet idx DescriptorSet.pDescriptorSetInjectRSMLight ∈
          (injectRSM cfg a iVolume invVP camDir rtWidth rtHeight viewAreaForUnitDepth).2) →
      idx = a.mFrameIdx * a.mCascadeCount + iVolume ∧
        idx < initAuraDescriptorSetCount cfg a DescriptorSet.pDescriptorSetInjectRSMLight) ∧
    (∀ cascade b : ℕ, cascade < a.mCascadeCount → b < 2 →
      cascade * 2 + b <
        initAuraDescriptorSetCount cfg a DescriptorSet.pDescriptorSetLightPropagateN) ∧
    (∀ cascade idx : ℕ, cascade < a.mCascadeCount →
      Call.cmdBindDescriptorSet idx DescriptorSet.pDescriptorSetLightPropagateN ∈
        (propagateLight cfg a cascade).2 →
      idx < initAuraDescriptorSetCount cfg a DescriptorSet.pDescriptorSetLightPropagateN) := by
  have hI : initAuraDescriptorSetCount cfg a DescriptorSet.pDescriptorSetInjectRSMLight =
      a.mCascadeCount * cfg.MAX_FRAMES := by
    simp only [initAuraDescriptorSetCount]
    exact Nat.mod_eq_of_lt hsize
  have hN : initAuraDescriptorSetCount cfg a DescriptorSet.pDescriptorSetLightPropagateN =
      a.mCascadeCount * 2 := by
    simp only [initAuraDescriptorSetCount]
    exact Nat.mod_eq_of_lt h2
  rw [hI, hN]
  refine ⟨?_, ?_, ?_, ?_, ?_, ?_⟩
  · intro f v hf hv
    exact frame_volume_index_lt _ _ f v hf hv
  · intro f v f' v' hv hv' h
    exact frame_volume_index_inj _ f v f' v' hv hv' h
  · intro idx h
    exact frame_volume_index_surj _ _ idx h
  · intro iVolume invVP camDir rtWidth rtHeight area idx hf hv h
    have hlt := frame_volume_index_lt _ _ a.mFrameIdx iVolume hf hv
    have hidx := injectRSM_set_index cfg a iVolume invVP camDir rtWidth rtHeight area idx h
    rw [Nat.mod_eq_of_lt (lt_trans hlt hsize)] at hidx
    exact ⟨hidx, hidx ▸ hlt⟩
  · intro cascade b hc hb
    omega
  · intro cascade idx hc h
    rcases propagateLight_setN_index cfg a cascade idx h with h | h <;> omega

/-- C27 at the sample `Aura` (three cascades, `MAX_FRAMES = 3`): frame 2 and volume 2 give
index 8, below the 9 allocated sets; the pair is recovered from the index; and the
`PropagateN` index of cascade 2 with `b = 1` is 5, below the 6 allocated sets. -/
theorem C27_descriptor_indices_in_range_witness :
    (sampleAura false 0).mCascadeCount * sampleConfig.MAX_FRAMES < UINT32 ∧
    (sampleAura false 0).mCascadeCount * 2 < UINT32 ∧
    2 * (sampleAura false 0).mCascadeCount + 2 <
      initAuraDescriptorSetCount sampleConfig (sampleAura false 0)
        DescriptorSet.pDescriptorSetInjectRSMLight ∧
    2 * 2 + 1 <
      initAuraDescriptorSetCount sampleConfig (sampleAura false 0)
        DescriptorSet.pDescriptorSetLightPropagateN :=
  ⟨by decide, by decide,
    (C27_descriptor_indices_in_range sampleConfig (sampleAura false 0) (by decide)
      (by decide)).1 2 2 (by decide) (by decide),
    (C27_descriptor_indices_in_range sampleConfig (sampleAura false 0) (by decide)
      (by decide)).2.2.2.2.1 2 1 (by decide) (by decide)⟩

/-! ## C28: the frame index -/

/-- One `endFrame` steps a frame index below `MAX_FRAMES` to its successor modulo
`MAX_FRAMES`. -/
theorem endFrame_mFrameIdx (cfg : Config) (a : Aura)
    (hU : cfg.MAX_FRAMES ≤ UINT32) (hf : a.mFrameIdx < cfg.MAX_FRAMES) :
    (endFrame cfg a).1.mFrameIdx = (a.mFrameIdx + 1) % cfg.MAX_FRAMES := by
  simp only [endFrame]
  rcases Nat.lt_or_ge (a.mFrameIdx + 1) cfg.MAX_FRAMES with hlt | hge
  · have h1 : (a.mFrameIdx + 1) % UINT32 = a.mFrameIdx + 1 := Nat.mod_eq_of_lt (by omega)
    rw [h1, if_neg (by omega), Nat.mod_eq_of_lt hlt]
  · have heq : a.mFrameIdx + 1 = cfg.MAX_FRAMES := by omega
    rw [heq, Nat.mod_self]
    split <;> rename_i h
    · rfl
    · have hlt : cfg.MAX_FRAMES % UINT32 < cfg.MAX_FRAMES := by omega
      rcases Nat.lt_or_ge cfg.MAX_FRAMES UINT32 with h3 | h3
      · rw [Nat.mod_eq_of_lt h3] at hlt
        omega
      · have : cfg.MAX_FRAMES = UINT32 := by omega
        rw [this, Nat.mod_self]

/-- After `k` calls of `endFrame` from frame index 0 the index is `k mod MAX_FRAMES`. -/
theorem endFrames_mFrameIdx (cfg : Config) (a : Aura) (hM : 1 ≤ cfg.MAX_FRAMES)
    (hU : cfg.MAX_FRAMES ≤ UINT32) (h0 : a.mFrameIdx = 0) (k : ℕ) :
    (endFrames cfg k a).mFrameIdx = k % cfg.MAX_FRAMES := by
  induction k with
  | zero => simp [endFrames, h0]
  | succ n ih =>
    have hlt : (endFrames cfg n a).mFrameIdx < cfg.MAX_FRAMES := by
      rw [ih]
      exact Nat.mod_lt _ hM
    simp only [endFrames]
    rw [endFrame_mFrameIdx cfg _ hU hlt, ih, Nat.mod_add_mod]

/-- C28. The frame index is a modulo-`MAX_FRAMES` counter. For `1 <= MAX_FRAMES <= 2^32`,
starting from an `Aura` with `mFrameIdx = 0` (as `initAura` leaves it), after any number
`k` of `endFrame` calls `mFrameIdx = k mod MAX_FRAMES`; so `mFrameIdx < MAX_FRAMES`, the
number of frames `initAura` creates uniform buffers for and the number of
`pDescriptorSetVisualizeLPV` sets it allocates. -/
theorem C28_frame_index_modulo_counter (cfg : Config) (a : Aura) (hM : 1 ≤ cfg.MAX_FRAMES)
    (hU : cfg.MAX_FRAMES ≤ UINT32) (h0 : a.mFrameIdx = 0) (k : ℕ) :
    (endFrames cfg k a).mFrameIdx = k % cfg.MAX_FRAMES ∧
    (endFrames cfg k a).mFrameIdx < cfg.MAX_FRAMES ∧
    (endFrames cfg k a).mFrameIdx < initAuraUniformBufferFrames cfg ∧
    (endFrames cfg k a).mFrameIdx <
      initAuraDescriptorSetCount cfg a DescriptorSet.pDescriptorSetVisualizeLPV := by
  have h := endFrames_mFrameIdx cfg a hM hU h0 k
  have hlt : (endFrames cfg k a).mFrameIdx < cfg.MAX_FRAMES := by
    rw [h]
    exact Nat.mod_lt _ hM
  exact ⟨h, hlt, hlt, hlt⟩

/-- C28 at the sample `Aura` (`MAX_FRAMES = 3`): after seven `endFrame` calls the frame
index is 1. -/
theorem C28_frame_index_modulo_counter_witness :
    1 ≤ sampleConfig.MAX_FRAMES ∧ sampleConfig.MAX_FRAMES ≤ UINT32 ∧
    (sampleAura false 0).mFrameIdx = 0 ∧
    (endFrames sampleConfig 7 (sampleAura false 0)).mFrameIdx = 7 % sampleConfig.MAX_FRAMES ∧
    7 % sampleConfig.MAX_FRAMES = 1 :=
  ⟨by decide, by decide, rfl,
    (C28_frame_index_modulo_counter sampleConfig (sampleAura false 0) (by decide) (by decide)
      rfl 7).1, by decide⟩


/-! ## binary32 rounding -/

theorem roundHalfEven_eq_of_abs_lt (x : ℚ) (n : ℤ) (h : |x - (n : ℚ)| < 1 / 2) :
    roundHalfEven x = n := by
  rw [abs_lt] at h
  unfold roundHalfEven
  by_cases h1 : x - (⌊x⌋ : ℚ) < 1 / 2
  · rw [if_pos h1, Int.floor_eq_iff]
    have := Int.floor_le x
    constructor
    · by_contra hc
      have hc := not_le.mp hc
      have h2 : (⌊x⌋ : ℤ) < n := by
        have : (⌊x⌋ : ℚ) < n := lt_of_le_of_lt (Int.floor_le x) hc
        exact_mod_cast this
      have h3 : ((⌊x⌋ + 1 : ℤ) : ℚ) ≤ n := by exact_mod_cast h2
      push_cast at h3
      linarith [h.1]
    · linarith [h.2]
  · have h1' := not_lt.mp h1
    by_cases h2 : 1 / 2 < x - (⌊x⌋ : ℚ)
    · rw [if_neg h1, if_pos h2]
      have hlt := Int.lt_floor_add_one x
      have hle := Int.floor_le x
      have a : (⌊x⌋ : ℤ) < n := by
        have : (⌊x⌋ : ℚ) < n := by linarith [h.1]
        exact_mod_cast this
      have b : n < ⌊x⌋ + 2 := by
        have : (n : ℚ) < ((⌊x⌋ + 2 : ℤ) : ℚ) := by push_cast; linarith [h.2]
        exact_mod_cast this
      omega
    · exfalso
      have h2' := not_lt.mp h2
      have e : x - (⌊x⌋ : ℚ) = 1 / 2 := le_antisymm h2' h1'
      have a : (⌊x⌋ : ℤ) < n := by
        have : (⌊x⌋ : ℚ) < n := by linarith [h.1]
        exact_mod_cast this
      have b : n < ⌊x⌋ + 1 := by
        have : (n : ℚ) < ((⌊x⌋ + 1 : ℤ) : ℚ) := by push_cast; linarith [h.2]
        exact_mod_cast this
      omega

theorem roundHalfEven_intCast (n : ℤ) : roundHalfEven (n : ℚ) = n :=
  roundHalfEven_eq_of_abs_lt _ n (by simp)

/-- A tie goes to the even neighbour. -/
theorem roundHalfEven_tie (n : ℤ) :
    roundHalfEven ((n : ℚ) + 1 / 2) = if n % 2 = 0 then n else n + 1 := by
  have hf : ⌊(n : ℚ) + 1 / 2⌋ = n := by
    rw [Int.floor_eq_iff]
    constructor <;> linarith
  unfold roundHalfEven
  rw [hf]
  have e : (n : ℚ) + 1 / 2 - (n : ℚ) = 1 / 2 := by ring
  rw [e]
  simp

theorem abs_roundHalfEven_sub_le (x : ℚ) : |(roundHalfEven x : ℚ) - x| ≤ 1 / 2 := by
  have hle := Int.floor_le x
  have hlt := Int.lt_floor_add_one x
  rw [abs_le]
  unfold roundHalfEven
  by_cases h1 : x - (⌊x⌋ : ℚ) < 1 / 2
  · rw [if_pos h1]
    constructor <;> linarith
  · rw [if_neg h1]
    have h1' := not_lt.mp h1
    by_cases h2 : 1 / 2 < x - (⌊x⌋ : ℚ)
    · rw [if_pos h2]
      push_cast
      constructor <;> linarith
    · rw [if_neg h2]
      have h2' := not_lt.mp h2
      split
      · constructor <;> linarith
      · push_cast
        constructor <;> linarith

theorem log_eq_of_bounds (r : ℚ) (L : ℤ) (h1 : (2 : ℚ) ^ L ≤ r) (h2 : r < (2 : ℚ) ^ (L + 1)) :
    Int.log 2 r = L := by
  have hr : 0 < r := lt_of_lt_of_le (zpow_pos (by norm_num) L) h1
  have a := (Int.zpow_le_iff_le_log (by norm_num : 1 < 2) hr).mp (by exact_mod_cast h1)
  have b := (Int.lt_zpow_iff_log_lt (by norm_num : 1 < 2) hr).mp (by exact_mod_cast h2)
  omega

/-- Evaluation of the rounding at a number whose binade is known. -/
theorem fl_eq_of (x : ℚ) (L n : ℤ) (hL : -126 ≤ L) (h1 : (2 : ℚ) ^ L ≤ |x|)
    (h2 : |x| < (2 : ℚ) ^ (L + 1)) (hn : roundHalfEven (x / 2 ^ (L - 23)) = n) :
    fl x = (n : ℚ) * 2 ^ (L - 23) := by
  have hlog := log_eq_of_bounds |x| L h1 h2
  have hE : ulpExponent x = L - 23 := by
    unfold ulpExponent
    rw [hlog, max_eq_left hL]
  unfold fl
  rw [hE, hn]

theorem fl_zero : fl 0 = 0 := by
  simp [fl, roundHalfEven]

theorem ulpExponent_zero : ulpExponent 0 = -23 := by
  simp [ulpExponent]

/-- The unit in the last place at a 24-bit multiple of a power of two is no coarser than
that power. -/
theorem ulpExponent_le_of_dyadic (m e : ℤ) (hm0 : m ≠ 0) (hm : |m| < 2 ^ 24) (he : -149 ≤ e) :
    ulpExponent ((m : ℚ) * 2 ^ e) ≤ e := by
  have hpos : (0 : ℚ) < |(m : ℚ) * 2 ^ e| := by
    apply abs_pos.mpr
    exact mul_ne_zero (by exact_mod_cast hm0) (zpow_ne_zero _ (by norm_num))
  have hlt : |(m : ℚ) * 2 ^ e| < (2 : ℚ) ^ (24 + e) := by
    rw [abs_mul, abs_of_pos (zpow_pos (by norm_num : (0 : ℚ) < 2) e), zpow_add₀ (by norm_num)]
    apply mul_lt_mul_of_pos_right _ (zpow_pos (by norm_num) e)
    have h24 : |(m : ℚ)| < 2 ^ 24 := by exact_mod_cast hm
    have e24 : (2 : ℚ) ^ (24 : ℤ) = 2 ^ 24 := by norm_num
    rw [e24]
    exact h24
  have hlog := (Int.lt_zpow_iff_log_lt (by norm_num : 1 < 2) hpos).mp (by exact_mod_cast hlt)
  unfold ulpExponent
  rcases max_cases (Int.log 2 |(m : ℚ) * 2 ^ e|) (-126) with ⟨h, _⟩ | ⟨h, _⟩ <;> rw [h] <;> omega

/-- A multiple `m * 2 ^ e` of a power of two with `|m| < 2 ^ 24` and `e >= -149` is a fixed
point of the rounding. -/
theorem fl_of_dyadic (m e : ℤ) (hm : |m| < 2 ^ 24) (he : -149 ≤ e) :
    fl ((m : ℚ) * 2 ^ e) = (m : ℚ) * 2 ^ e := by
  by_cases hm0 : m = 0
  · subst hm0
    simp [fl_zero]
  have hE := ulpExponent_le_of_dyadic m e hm0 hm he
  unfold fl
  generalize ulpExponent ((m : ℚ) * 2 ^ e) = E at hE
  obtain ⟨k, hk⟩ : ∃ k : ℕ, e = E + k := ⟨(e - E).toNat, by omega⟩
  have h2 : (2 : ℚ) ^ e = 2 ^ k * 2 ^ E := by
    rw [hk, zpow_add₀ (by norm_num), zpow_natCast, mul_comm]
  have hq : (m : ℚ) * 2 ^ e / 2 ^ E = ((m * 2 ^ k : ℤ) : ℚ) := by
    rw [h2]
    push_cast
    field_simp
    ring
  rw [hq, roundHalfEven_intCast, h2]
  push_cast
  ring

/-- The same for `|m| = 2 ^ 24`. -/
theorem fl_of_dyadic_le (m e : ℤ) (hm : |m| ≤ 2 ^ 24) (he : -149 ≤ e) :
    fl ((m : ℚ) * 2 ^ e) = (m : ℚ) * 2 ^ e := by
  rcases lt_or_eq_of_le hm with h | h
  · exact fl_of_dyadic m e h he
  · have hm' : m = 2 ^ 24 ∨ m = -2 ^ 24 := by
      rcases abs_cases m with ⟨h1, _⟩ | ⟨h1, _⟩ <;> omega
    have e2 : (2 : ℚ) ^ (e + 1) = 2 ^ e * 2 := by
      rw [zpow_add₀ (by norm_num), zpow_one]
    rcases hm' with rfl | rfl
    · have := fl_of_dyadic (2 ^ 23) (e + 1) (by norm_num) (by omega)
      rw [e2] at this
      have e3 : ((2 ^ 24 : ℤ) : ℚ) * 2 ^ e = ((2 ^ 23 : ℤ) : ℚ) * (2 ^ e * 2) := by
        push_cast; ring
      rw [e3]; exact this
    · have := fl_of_dyadic (-2 ^ 23) (e + 1) (by norm_num) (by omega)
      rw [e2] at this
      have e3 : ((-2 ^ 24 : ℤ) : ℚ) * 2 ^ e = ((-2 ^ 23 : ℤ) : ℚ) * (2 ^ e * 2) := by
        push_cast; ring
      rw [e3]; exact this

/-- The result of a rounding is a fixed point of the rounding. -/
theorem fl_fl (x : ℚ) : fl (fl x) = fl x := by
  by_cases hx : x = 0
  · subst hx; rw [fl_zero, fl_zero]
  have hpos : (0 : ℚ) < |x| := abs_pos.mpr hx
  have hE : -149 ≤ ulpExponent x := by
    unfold ulpExponent
    have := le_max_right (Int.log 2 |x|) (-126)
    omega
  have hL : Int.log 2 |x| + 1 ≤ ulpExponent x + 24 := by
    unfold ulpExponent
    have := le_max_left (Int.log 2 |x|) (-126)
    omega
  have hlt : |x| < (2 : ℚ) ^ (ulpExponent x + 24) := by
    have h1 := Int.lt_zpow_succ_log_self (by norm_num : 1 < 2) |x|
    have h2 : ((2 : ℕ) : ℚ) ^ (Int.log 2 |x| + 1) ≤ ((2 : ℕ) : ℚ) ^ (ulpExponent x + 24) :=
      zpow_le_zpow_right₀ (by norm_num) hL
    have := lt_of_lt_of_le h1 h2
    exact_mod_cast this
  have hq : |x / 2 ^ ulpExponent x| < 2 ^ 24 := by
    rw [abs_div, abs_of_pos (zpow_pos (by norm_num : (0 : ℚ) < 2) _),
      div_lt_iff₀ (zpow_pos (by norm_num) _)]
    rw [zpow_add₀ (by norm_num)] at hlt
    have e : (2 : ℚ) ^ (24 : ℤ) = 2 ^ 24 := by norm_num
    rw [e, mul_comm] at hlt
    exact hlt
  have hn : |roundHalfEven (x / 2 ^ ulpExponent x)| ≤ 2 ^ 24 := by
    have h := abs_roundHalfEven_sub_le (x / 2 ^ ulpExponent x)
    rw [abs_le] at h
    rw [abs_lt] at hq
    rw [abs_le]
    constructor
    · have : ((-2 ^ 24 - 1 : ℤ) : ℚ) < (roundHalfEven (x / 2 ^ ulpExponent x) : ℚ) := by
        push_cast; linarith [h.1, hq.1]
      have := Int.cast_lt.mp this
      omega
    · have : (roundHalfEven (x / 2 ^ ulpExponent x) : ℚ) < ((2 ^ 24 + 1 : ℤ) : ℚ) := by
        push_cast; linarith [h.2, hq.2]
      have := Int.cast_lt.mp this
      omega
  exact fl_of_dyadic_le _ _ hn hE

theorem roundHalfEven_neg (x : ℚ) : roundHalfEven (-x) = -roundHalfEven x := by
  have hle := Int.floor_le x
  have hlt := Int.lt_floor_add_one x
  rcases lt_trichotomy (x - (⌊x⌋ : ℚ)) (1 / 2) with h | h | h
  · have h1 : roundHalfEven x = ⌊x⌋ := by
      unfold roundHalfEven
      rw [if_pos h]
    rw [h1]
    by_cases h0 : x - (⌊x⌋ : ℚ) = 0
    · have hx : x = ((⌊x⌋ : ℤ) : ℚ) := by linarith
      have : -x = ((-⌊x⌋ : ℤ) : ℚ) := by push_cast; linarith
      rw [this, roundHalfEven_intCast]
    · apply roundHalfEven_eq_of_abs_lt
      rw [abs_lt]
      push_cast
      constructor <;> linarith
  · have hx : x = (⌊x⌋ : ℚ) + 1 / 2 := by linarith
    have h1 : roundHalfEven x = if ⌊x⌋ % 2 = 0 then ⌊x⌋ else ⌊x⌋ + 1 := by
      unfold roundHalfEven
      rw [if_neg (by linarith), if_neg (by linarith)]
    have h2 : -x = ((-⌊x⌋ - 1 : ℤ) : ℚ) + 1 / 2 := by push_cast; linarith
    rw [h1, h2, roundHalfEven_tie]
    by_cases hpar : ⌊x⌋ % 2 = 0
    · have hpar' : ¬ ((-⌊x⌋ - 1) % 2 = 0) := by omega
      rw [if_pos hpar, if_neg hpar']
      ring
    · have hpar' : (-⌊x⌋ - 1) % 2 = 0 := by omega
      rw [if_neg hpar, if_pos hpar']
      ring
  · have h1 : roundHalfEven x = ⌊x⌋ + 1 := by
      unfold roundHalfEven
      rw [if_neg (by linarith), if_pos h]
    rw [h1]
    apply roundHalfEven_eq_of_abs_lt
    rw [abs_lt]
    push_cast
    constructor <;> linarith

theorem fl_neg (x : ℚ) : fl (-x) = -fl x := by
  have hE : ulpExponent (-x) = ulpExponent x := by
    unfold ulpExponent
    rw [abs_neg]
  unfold fl
  rw [hE, neg_div, roundHalfEven_neg]
  push_cast
  ring


theorem fl_intCast (m : ℤ) (hm : |m| < 2 ^ 24) : fl (m : ℚ) = (m : ℚ) := by
  have h := fl_of_dyadic m 0 hm (by norm_num)
  simpa using h

theorem fl_natCast (n : ℕ) (hn : n < 2 ^ 24) : fl (n : ℚ) = (n : ℚ) := by
  have h := fl_intCast (n : ℤ) (by rw [abs_of_nonneg (by positivity)]; exact_mod_cast hn)
  simpa using h

theorem fl_one : fl 1 = 1 := by
  simpa using fl_intCast 1 (by norm_num)

theorem fl_two : fl 2 = 2 := by
  simpa using fl_intCast 2 (by norm_num)

theorem fl_four : fl 4 = 4 := by
  simpa using fl_intCast 4 (by norm_num)

theorem fl_neg_one : fl (-1) = -1 := by
  rw [fl_neg, fl_one]

/-- A multiple `m * 2 ^ e` of a power of two with `|m| < 2 ^ 24` and `-149 <= e <= 104` is
a finite binary32 value. -/
theorem binary32_of_dyadic (m e : ℤ) (hm : |m| < 2 ^ 24) (he : -149 ≤ e) (he' : e ≤ 104) :
    binary32 ((m : ℚ) * 2 ^ e) := by
  refine ⟨fl_of_dyadic m e hm he, ?_⟩
  have h1 : |(m : ℚ)| ≤ 2 ^ 24 - 1 := by
    have : |m| ≤ 2 ^ 24 - 1 := by omega
    exact_mod_cast this
  have h2 : (2 : ℚ) ^ e ≤ 2 ^ (104 : ℤ) := zpow_le_zpow_right₀ (by norm_num) he'
  have h3 : (2 : ℚ) ^ (104 : ℤ) = 2 ^ 104 := by norm_num
  rw [abs_mul, abs_of_pos (zpow_pos (by norm_num : (0 : ℚ) < 2) e), FLT_MAX]
  rw [h3] at h2
  exact mul_le_mul h1 h2 (zpow_pos (by norm_num) e).le (by norm_num)

theorem binary32_intCast (m : ℤ) (hm : |m| < 2 ^ 24) : binary32 (m : ℚ) := by
  have h := binary32_of_dyadic m 0 hm (by norm_num) (by norm_num)
  simpa using h

theorem binary32_zero : binary32 0 := by
  simpa using binary32_intCast 0 (by norm_num)

theorem binary32_neg (x : ℚ) (h : binary32 x) : binary32 (-x) := by
  refine ⟨?_, ?_⟩
  · rw [fl_neg, h.1]
  · rw [abs_neg]; exact h.2

/-- A rational that is written as `m * 2 ^ e` with `|m| < 2 ^ 24` and `-149 <= e <= 104`
is a finite binary32 value. -/
theorem binary32_of_eq (x : ℚ) (m e : ℤ) (hx : x = (m : ℚ) * 2 ^ e) (hm : |m| < 2 ^ 24)
    (he : -149 ≤ e) (he' : e ≤ 104) : binary32 x := by
  rw [hx]
  exact binary32_of_dyadic m e hm he he'

theorem fl_of_eq (x : ℚ) (m e : ℤ) (hx : x = (m : ℚ) * 2 ^ e) (hm : |m| < 2 ^ 24)
    (he : -149 ≤ e) : fl x = x := by
  rw [hx]
  exact fl_of_dyadic m e hm he

/-- A binary32 value of magnitude at least `2 ^ 23` is an integer. -/
theorem binary32_large_is_int (x : ℚ) (h : fl x = x) (hx : (2 : ℚ) ^ 23 ≤ |x|) :
    ∃ n : ℤ, x = (n : ℚ) := by
  have hpos : (0 : ℚ) < |x| := lt_of_lt_of_le (by norm_num) hx
  have hlog : (23 : ℤ) ≤ Int.log 2 |x| := by
    apply (Int.zpow_le_iff_le_log (by norm_num : 1 < 2) hpos).mp
    have e : ((2 : ℕ) : ℚ) ^ (23 : ℤ) = 2 ^ 23 := by norm_num
    rw [e]
    exact hx
  have hE : 0 ≤ ulpExponent x := by
    unfold ulpExponent
    have := le_max_left (Int.log 2 |x|) (-126)
    omega
  obtain ⟨k, hk⟩ : ∃ k : ℕ, ulpExponent x = (k : ℤ) := ⟨(ulpExponent x).toNat, by omega⟩
  refine ⟨roundHalfEven (x / 2 ^ ulpExponent x) * 2 ^ k, ?_⟩
  have h' := h
  unfold fl at h'
  rw [hk, zpow_natCast] at h'
  rw [hk, zpow_natCast]
  push_cast
  exact h'.symm

/-- The nearest integer to a binary32 value is a binary32 value: `roundf` does not round
its result. -/
theorem binary32_roundf (x : ℚ) (h : binary32 x) : binary32 (roundf x) := by
  by_cases hx : (2 : ℚ) ^ 23 ≤ |x|
  · obtain ⟨n, hn⟩ := binary32_large_is_int x h.1 hx
    have e : roundf x = x := by
      rw [hn, roundf_intCast]
    rw [e]
    exact h
  · have hx' := not_le.mp hx
    obtain ⟨k, hk⟩ := roundf_exists_int x
    have hr := abs_roundf_sub_le x
    rw [hk] at hr ⊢
    rw [abs_le] at hr
    rw [abs_lt] at hx'
    apply binary32_intCast
    rw [abs_lt]
    constructor
    · have : ((-2 ^ 23 - 1 : ℤ) : ℚ) < (k : ℚ) := by push_cast; linarith [hr.1, hx'.1]
      have := Int.cast_lt.mp this
      omega
    · have : (k : ℚ) < ((2 ^ 23 + 1 : ℤ) : ℚ) := by push_cast; linarith [hr.2, hx'.2]
      have := Int.cast_lt.mp this
      omega


/-! ## The size of the rounding error -/

/-- The rounding error: at most half a unit in the last place, that is, `2 ^ -24` of the
magnitude for a normal number and `2 ^ -150` below the normal range. -/
theorem abs_fl_sub_le (x : ℚ) : |fl x - x| ≤ |x| / 2 ^ 24 + 1 / 2 ^ 150 := by
  by_cases hx : x = 0
  · subst hx
    rw [fl_zero]
    norm_num
  have hpos : (0 : ℚ) < |x| := abs_pos.mpr hx
  have h2pos : (0 : ℚ) < 2 ^ ulpExponent x := zpow_pos (by norm_num) _
  have hr := abs_roundHalfEven_sub_le (x / 2 ^ ulpExponent x)
  have e : fl x - x =
      ((roundHalfEven (x / 2 ^ ulpExponent x) : ℚ) - x / 2 ^ ulpExponent x) *
        2 ^ ulpExponent x := by
    unfold fl
    field_simp
  have h1 : |fl x - x| ≤ 1 / 2 * 2 ^ ulpExponent x := by
    rw [e, abs_mul, abs_of_pos h2pos]
    exact mul_le_mul_of_nonneg_right hr h2pos.le
  have h2 : (1 : ℚ) / 2 * 2 ^ ulpExponent x ≤ |x| / 2 ^ 24 + 1 / 2 ^ 150 := by
    by_cases hL : -126 ≤ Int.log 2 |x|
    · have hE : ulpExponent x = Int.log 2 |x| - 23 := by
        unfold ulpExponent
        rw [max_eq_left hL]
      have hle : ((2 : ℕ) : ℚ) ^ Int.log 2 |x| ≤ |x| := Int.zpow_log_le_self (by norm_num) hpos
      have hle' : (2 : ℚ) ^ Int.log 2 |x| ≤ |x| := by exact_mod_cast hle
      rw [hE, zpow_sub₀ (by norm_num)]
      have e23 : (2 : ℚ) ^ (23 : ℤ) = 2 ^ 23 := by norm_num
      rw [e23]
      have : (1 : ℚ) / 2 * (2 ^ Int.log 2 |x| / 2 ^ 23) ≤ |x| / 2 ^ 24 := by
        have e' : (1 : ℚ) / 2 * (2 ^ Int.log 2 |x| / 2 ^ 23) = 2 ^ Int.log 2 |x| / 2 ^ 24 := by
          ring
        rw [e']
        exact (div_le_div_iff_of_pos_right (by positivity)).mpr hle'
      linarith [this, (by positivity : (0 : ℚ) ≤ 1 / 2 ^ 150)]
    · have hE : ulpExponent x = -149 := by
        unfold ulpExponent
        rw [max_eq_right (by omega)]
        norm_num
      rw [hE]
      have e149 : (2 : ℚ) ^ (-149 : ℤ) = 1 / 2 ^ 149 := by
        rw [zpow_neg]
        norm_num
      rw [e149]
      have : (0 : ℚ) ≤ |x| / 2 ^ 24 := by positivity
      have e2 : (1 : ℚ) / 2 * (1 / 2 ^ 149) = 1 / 2 ^ 150 := by norm_num
      linarith
  exact le_trans h1 h2

/-- Rounding does not leave the binary32 range. -/
theorem abs_fl_le_FLT_MAX (x : ℚ) (h : |x| ≤ FLT_MAX) : |fl x| ≤ FLT_MAX := by
  by_cases hx : x = 0
  · subst hx
    rw [fl_zero]
    norm_num [FLT_MAX]
  have hpos : (0 : ℚ) < |x| := abs_pos.mpr hx
  have h2pos : (0 : ℚ) < 2 ^ ulpExponent x := zpow_pos (by norm_num) _
  have hlt128 : |x| < ((2 : ℕ) : ℚ) ^ (128 : ℤ) := by
    have : FLT_MAX < ((2 : ℕ) : ℚ) ^ (128 : ℤ) := by norm_num [FLT_MAX]
    exact lt_of_le_of_lt h this
  have hL : Int.log 2 |x| < 128 := (Int.lt_zpow_iff_log_lt (by norm_num) hpos).mp hlt128
  have hE : ulpExponent x ≤ 104 := by
    unfold ulpExponent
    rcases max_cases (Int.log 2 |x|) (-126) with ⟨h1, _⟩ | ⟨h1, _⟩ <;> rw [h1] <;> omega
  have hr := abs_roundHalfEven_sub_le (x / 2 ^ ulpExponent x)
  rw [abs_le] at hr
  have hfl : |fl x| = |(roundHalfEven (x / 2 ^ ulpExponent x) : ℚ)| * 2 ^ ulpExponent x := by
    unfold fl
    rw [abs_mul, abs_of_pos h2pos]
  rcases lt_or_eq_of_le hE with hlt | heq
  · -- the unit in the last place is at most `2 ^ 103`
    have hL' : Int.log 2 |x| + 1 ≤ ulpExponent x + 24 := by
      unfold ulpExponent
      have := le_max_left (Int.log 2 |x|) (-126)
      omega
    have hxlt : |x| < (2 : ℚ) ^ (ulpExponent x + 24) := by
      have h1 := Int.lt_zpow_succ_log_self (by norm_num : 1 < 2) |x|
      have h2 : ((2 : ℕ) : ℚ) ^ (Int.log 2 |x| + 1) ≤ ((2 : ℕ) : ℚ) ^ (ulpExponent x + 24) :=
        zpow_le_zpow_right₀ (by norm_num) hL'
      have := lt_of_lt_of_le h1 h2
      exact_mod_cast this
    have hq : |x / 2 ^ ulpExponent x| < 2 ^ 24 := by
      rw [abs_div, abs_of_pos h2pos, div_lt_iff₀ h2pos]
      rw [zpow_add₀ (by norm_num)] at hxlt
      have e : (2 : ℚ) ^ (24 : ℤ) = 2 ^ 24 := by norm_num
      rw [e, mul_comm] at hxlt
      exact hxlt
    rw [abs_lt] at hq
    have hn : |(roundHalfEven (x / 2 ^ ulpExponent x) : ℚ)| ≤ 2 ^ 24 := by
      have hnz : |roundHalfEven (x / 2 ^ ulpExponent x)| ≤ 2 ^ 24 := by
        rw [abs_le]
        constructor
        · have : ((-2 ^ 24 - 1 : ℤ) : ℚ) < (roundHalfEven (x / 2 ^ ulpExponent x) : ℚ) := by
            push_cast; linarith [hr.1, hq.1]
          have := Int.cast_lt.mp this
          omega
        · have : (roundHalfEven (x / 2 ^ ulpExponent x) : ℚ) < ((2 ^ 24 + 1 : ℤ) : ℚ) := by
            push_cast; linarith [hr.2, hq.2]
          have := Int.cast_lt.mp this
          omega
      exact_mod_cast hnz
    have hE103 : (2 : ℚ) ^ ulpExponent x ≤ 2 ^ (103 : ℤ) :=
      zpow_le_zpow_right₀ (by norm_num) (by omega)
    have e103 : (2 : ℚ) ^ (103 : ℤ) = 2 ^ 103 := by norm_num
    rw [e103] at hE103
    rw [hfl]
    calc |(roundHalfEven (x / 2 ^ ulpExponent x) : ℚ)| * 2 ^ ulpExponent x
        ≤ 2 ^ 24 * 2 ^ 103 := mul_le_mul hn hE103 h2pos.le (by norm_num)
      _ ≤ FLT_MAX := by norm_num [FLT_MAX]
  · -- the unit in the last place is `2 ^ 104`
    have e104 : (2 : ℚ) ^ (104 : ℤ) = 2 ^ 104 := by norm_num
    rw [heq, e104] at hr
    have hq : |x / 2 ^ 104| ≤ 2 ^ 24 - 1 := by
      rw [abs_div, abs_of_pos (by norm_num : (0 : ℚ) < 2 ^ 104), div_le_iff₀ (by norm_num)]
      unfold FLT_MAX at h
      exact h
    rw [abs_le] at hq
    have hn : |(roundHalfEven (x / 2 ^ 104) : ℚ)| ≤ 2 ^ 24 - 1 := by
      have hnz : |roundHalfEven (x / 2 ^ 104)| ≤ 2 ^ 24 - 1 := by
        rw [abs_le]
        constructor
        · have : ((-2 ^ 24 : ℤ) : ℚ) < (roundHalfEven (x / 2 ^ 104) : ℚ) := by
            push_cast; linarith [hr.1, hq.1]
          have := Int.cast_lt.mp this
          omega
        · have : (roundHalfEven (x / 2 ^ 104) : ℚ) < ((2 ^ 24 : ℤ) : ℚ) := by
            push_cast; linarith [hr.2, hq.2]
          have := Int.cast_lt.mp this
          omega
      exact_mod_cast hnz
    rw [hfl, heq, e104]
    unfold FLT_MAX
    exact mul_le_mul_of_nonneg_right hn (by norm_num)

/-- The rounding of a number inside the binary32 range is a finite binary32 value. -/
theorem binary32_fl (x : ℚ) (h : |x| ≤ FLT_MAX) : binary32 (fl x) :=
  ⟨fl_fl x, abs_fl_le_FLT_MAX x h⟩

/-- One component of the snap in `float` arithmetic: the quotient is rounded, `roundf` moves
it by at most one half, the product is rounded; the result is within half a cell of the
requested value up to the two rounding errors. -/
theorem abs_f32_snap_sub_le (cell x : ℚ) (hcell : 0 < cell) :
    |fl (roundf (fl (x / cell)) * cell) - x| ≤
      cell / 2 + (|x| + cell) / 2 ^ 22 + 1 / 2 ^ 150 := by
  have hq := abs_fl_sub_le (x / cell)
  have hk := abs_roundf_sub_le (fl (x / cell))
  have hs := abs_fl_sub_le (roundf (fl (x / cell)) * cell)
  have hxc : |x / cell| * cell = |x| := by
    rw [abs_div, abs_of_pos hcell]
    field_simp
  -- the integer is within one half and the rounding error of the quotient
  have hkq : |roundf (fl (x / cell)) - x / cell| ≤ 1 / 2 + |x / cell| / 2 ^ 24 + 1 / 2 ^ 150 := by
    have e : roundf (fl (x / cell)) - x / cell =
        (roundf (fl (x / cell)) - fl (x / cell)) + (fl (x / cell) - x / cell) := by ring
    rw [e]
    exact le_trans (abs_add _ _) (by linarith)
  -- the exact product is within half a cell and the scaled rounding error of `x`
  have hp : |roundf (fl (x / cell)) * cell - x| ≤ cell / 2 + |x| / 2 ^ 24 + cell / 2 ^ 150 := by
    have e : roundf (fl (x / cell)) * cell - x = (roundf (fl (x / cell)) - x / cell) * cell := by
      field_simp
    rw [e, abs_mul, abs_of_pos hcell]
    calc |roundf (fl (x / cell)) - x / cell| * cell
        ≤ (1 / 2 + |x / cell| / 2 ^ 24 + 1 / 2 ^ 150) * cell :=
          mul_le_mul_of_nonneg_right hkq hcell.le
      _ = cell / 2 + |x / cell| * cell / 2 ^ 24 + cell / 2 ^ 150 := by ring
      _ = cell / 2 + |x| / 2 ^ 24 + cell / 2 ^ 150 := by rw [hxc]
  have hpabs : |roundf (fl (x / cell)) * cell| ≤
      |x| + (cell / 2 + |x| / 2 ^ 24 + cell / 2 ^ 150) := by
    have e : roundf (fl (x / cell)) * cell = x + (roundf (fl (x / cell)) * cell - x) := by ring
    rw [e]
    exact le_trans (abs_add _ _) (by linarith)
  have hx0 : 0 ≤ |x| := abs_nonneg x
  have e : fl (roundf (fl (x / cell)) * cell) - x =
      (fl (roundf (fl (x / cell)) * cell) - roundf (fl (x / cell)) * cell) +
        (roundf (fl (x / cell)) * cell - x) := by ring
  rw [e]
  refine le_trans (abs_add _ _) ?_
  have h1 : |roundf (fl (x / cell)) * cell| / 2 ^ 24 ≤
      (|x| + (cell / 2 + |x| / 2 ^ 24 + cell / 2 ^ 150)) / 2 ^ 24 :=
    (div_le_div_iff_of_pos_right (by positivity)).mpr hpabs
  have h2 : (|x| + (cell / 2 + |x| / 2 ^ 24 + cell / 2 ^ 150)) / 2 ^ 24 + 1 / 2 ^ 150 +
      (cell / 2 + |x| / 2 ^ 24 + cell / 2 ^ 150) ≤
      cell / 2 + (|x| + cell) / 2 ^ 22 + 1 / 2 ^ 150 := by
    have : (0 : ℚ) ≤ |x| * (1 / 2 ^ 22 - 1 / 2 ^ 24 - 1 / 2 ^ 24 - 1 / 2 ^ 48) := by
      apply mul_nonneg hx0
      norm_num
    have hc : (0 : ℚ) ≤ cell * (1 / 2 ^ 22 - 1 / 2 ^ 25 - 1 / 2 ^ 174 - 1 / 2 ^ 150) := by
      apply mul_nonneg hcell.le
      norm_num
    have e1 : (|x| + (cell / 2 + |x| / 2 ^ 24 + cell / 2 ^ 150)) / 2 ^ 24 =
        |x| * (1 / 2 ^ 24 + 1 / 2 ^ 48) + cell * (1 / 2 ^ 25 + 1 / 2 ^ 174) := by
      ring
    rw [e1]
    have e2 : (|x| + cell) / 2 ^ 22 = |x| * (1 / 2 ^ 22) + cell * (1 / 2 ^ 22) := by ring
    rw [e2]
    nlinarith [this, hc]
  linarith [hs, hp, h1, h2]

/-- One component of the centre `beginFrame` asks for in `float` arithmetic: the quotient
`d / m` (with `|d| <= m`), the reach `R`, their product and the sum with the camera
coordinate are each rounded; the result is within four rounding errors of
`cam + d / m * R`. -/
theorem abs_f32_frame_sub_le (cam d m R : ℚ) (hm : 0 < m) (hd : |d| ≤ m) (hR : 0 ≤ R) :
    |fl (cam + fl (fl (d / m) * fl R)) - cam - d / m * R| ≤
        |cam| / 2 ^ 24 + R / 2 ^ 21 + 6 / 2 ^ 150 ∧
    |fl (fl (d / m) * fl R)| ≤ R + 6 * R / 2 ^ 24 + 4 / 2 ^ 150 := by
  have ha : |d / m| ≤ 1 := by
    rw [abs_div, abs_of_pos hm]
    exact (div_le_one hm).mpr hd
  have hq := abs_fl_sub_le (d / m)
  have hr := abs_fl_sub_le R
  rw [abs_of_nonneg hR] at hr
  have hp := abs_fl_sub_le (fl (d / m) * fl R)
  have hg := abs_fl_sub_le (cam + fl (fl (d / m) * fl R))
  have hq' : |fl (d / m) - d / m| ≤ 2 / 2 ^ 24 := by
    have : |d / m| / 2 ^ 24 ≤ 1 / 2 ^ 24 := (div_le_div_iff_of_pos_right (by positivity)).mpr ha
    have e : (1 : ℚ) / 2 ^ 150 ≤ 1 / 2 ^ 24 := by norm_num
    linarith
  have hqabs : |fl (d / m)| ≤ 2 := by
    have e : fl (d / m) = d / m + (fl (d / m) - d / m) := by ring
    rw [e]
    refine le_trans (abs_add _ _) ?_
    have : (2 : ℚ) / 2 ^ 24 ≤ 1 := by norm_num
    linarith
  -- the product before its rounding
  have hqr : |fl (d / m) * fl R - d / m * R| ≤ 4 * R / 2 ^ 24 + 2 / 2 ^ 150 := by
    have e : fl (d / m) * fl R - d / m * R =
        fl (d / m) * (fl R - R) + (fl (d / m) - d / m) * R := by ring
    rw [e]
    refine le_trans (abs_add _ _) ?_
    rw [abs_mul, abs_mul, abs_of_nonneg hR]
    have h1 : |fl (d / m)| * |fl R - R| ≤ 2 * (R / 2 ^ 24 + 1 / 2 ^ 150) :=
      mul_le_mul hqabs hr (abs_nonneg _) (by norm_num)
    have h2 : |fl (d / m) - d / m| * R ≤ 2 / 2 ^ 24 * R :=
      mul_le_mul_of_nonneg_right hq' hR
    have e1 : 2 * (R / 2 ^ 24 + 1 / 2 ^ 150) + 2 / 2 ^ 24 * R = 4 * R / 2 ^ 24 + 2 / 2 ^ 150 := by
      ring
    linarith
  have haR : |d / m * R| ≤ R := by
    rw [abs_mul, abs_of_nonneg hR]
    calc |d / m| * R ≤ 1 * R := mul_le_mul_of_nonneg_right ha hR
      _ = R := one_mul R
  have hqrabs : |fl (d / m) * fl R| ≤ R + 4 * R / 2 ^ 24 + 2 / 2 ^ 150 := by
    have e : fl (d / m) * fl R = d / m * R + (fl (d / m) * fl R - d / m * R) := by ring
    rw [e]
    refine le_trans (abs_add _ _) ?_
    linarith
  -- the product after its rounding
  have hpa : |fl (fl (d / m) * fl R) - d / m * R| ≤ 6 * R / 2 ^ 24 + 4 / 2 ^ 150 := by
    have e : fl (fl (d / m) * fl R) - d / m * R =
        (fl (fl (d / m) * fl R) - fl (d / m) * fl R) + (fl (d / m) * fl R - d / m * R) := by
      ring
    rw [e]
    refine le_trans (abs_add _ _) ?_
    have h1 : |fl (d / m) * fl R| / 2 ^ 24 ≤ (R + 4 * R / 2 ^ 24 + 2 / 2 ^ 150) / 2 ^ 24 :=
      (div_le_div_iff_of_pos_right (by positivity)).mpr hqrabs
    have h2 : (R + 4 * R / 2 ^ 24 + 2 / 2 ^ 150) / 2 ^ 24 + 1 / 2 ^ 150 +
        (4 * R / 2 ^ 24 + 2 / 2 ^ 150) ≤ 6 * R / 2 ^ 24 + 4 / 2 ^ 150 := by
      have : (0 : ℚ) ≤ R * (6 / 2 ^ 24 - 1 / 2 ^ 24 - 4 / 2 ^ 48 - 4 / 2 ^ 24) := by
        apply mul_nonneg hR
        norm_num
      have e1 : (R + 4 * R / 2 ^ 24 + 2 / 2 ^ 150) / 2 ^ 24 =
          R * (1 / 2 ^ 24 + 4 / 2 ^ 48) + 2 / 2 ^ 174 := by ring
      have e2 : (2 : ℚ) / 2 ^ 174 ≤ 1 / 2 ^ 150 := by norm_num
      rw [e1]
      nlinarith [this, e2]
    linarith
  have hpabs : |fl (fl (d / m) * fl R)| ≤ R + 6 * R / 2 ^ 24 + 4 / 2 ^ 150 := by
    have e : fl (fl (d / m) * fl R) = d / m * R + (fl (fl (d / m) * fl R) - d / m * R) := by
      ring
    rw [e]
    refine le_trans (abs_add _ _) ?_
    linarith
  refine ⟨?_, hpabs⟩
  -- the sum
  have e : fl (cam + fl (fl (d / m) * fl R)) - cam - d / m * R =
      (fl (cam + fl (fl (d / m) * fl R)) - (cam + fl (fl (d / m) * fl R))) +
        (fl (fl (d / m) * fl R) - d / m * R) := by ring
  rw [e]
  refine le_trans (abs_add _ _) ?_
  have hsum : |cam + fl (fl (d / m) * fl R)| ≤ |cam| + (R + 6 * R / 2 ^ 24 + 4 / 2 ^ 150) :=
    le_trans (abs_add _ _) (by linarith)
  have h1 : |cam + fl (fl (d / m) * fl R)| / 2 ^ 24 ≤
      (|cam| + (R + 6 * R / 2 ^ 24 + 4 / 2 ^ 150)) / 2 ^ 24 :=
    (div_le_div_iff_of_pos_right (by positivity)).mpr hsum
  have h2 : (|cam| + (R + 6 * R / 2 ^ 24 + 4 / 2 ^ 150)) / 2 ^ 24 + 1 / 2 ^ 150 +
      (6 * R / 2 ^ 24 + 4 / 2 ^ 150) ≤ |cam| / 2 ^ 24 + R / 2 ^ 21 + 6 / 2 ^ 150 := by
    have : (0 : ℚ) ≤ R * (1 / 2 ^ 21 - 1 / 2 ^ 24 - 6 / 2 ^ 48 - 6 / 2 ^ 24) := by
      apply mul_nonneg hR
      norm_num
    have e1 : (|cam| + (R + 6 * R / 2 ^ 24 + 4 / 2 ^ 150)) / 2 ^ 24 =
        |cam| / 2 ^ 24 + R * (1 / 2 ^ 24 + 6 / 2 ^ 48) + 4 / 2 ^ 174 := by ring
    have e2 : (4 : ℚ) / 2 ^ 174 ≤ 1 / 2 ^ 150 := by norm_num
    rw [e1]
    nlinarith [this, e2]
  linarith


/-! ## The `float` functions where nothing rounds -/

theorem f32_getCellSize_eq (cfg : Config) (c : LightPropagationCascade)
    (h : f32.cellExact cfg c) : f32.getCellSize cfg c = getCellSize cfg c := by
  unfold f32.getCellSize f32.div
  rw [h.1.1]
  exact h.2.1

theorem f32_snapToGrid_eq (cell : ℚ) (u : vec3) (h : f32.snapExact cell u) :
    f32.snapToGrid cell u = snapToGrid cell u := by
  obtain ⟨⟨hx, hy, hz⟩, ⟨kx, ky, kz⟩⟩ := h
  simp only [vec3.divS] at hx hy hz
  simp only [snapToGrid, vec3.divS, vec3.mulS] at kx ky kz
  simp only [f32.snapToGrid, f32.divS, f32.mulS, f32.div, f32.mul, snapToGrid, vec3.divS,
    vec3.mulS, hx.1, hy.1, hz.1, kx.1, ky.1, kz.1]

theorem f32_getSideHalf_eq (c : LightPropagationCascade) (h : binary32 (getSideHalf c)) :
    f32.getSideHalf c = getSideHalf c := h.1

theorem f32_frameGridCenter_eq (cfg : Config) (c : LightPropagationCascade)
    (camPos camDir : vec3) (hc : f32.cellExact cfg c) (h : f32.frameExact cfg c camPos camDir) :
    f32.frameGridCenter cfg c camPos camDir = frameGridCenter cfg c camPos camDir := by
  obtain ⟨hh, h4, hr, ⟨dx, dy, dz⟩, ⟨ox, oy, oz⟩, ⟨gx, gy, gz⟩⟩ := h
  simp only [vec3.divS] at dx dy dz
  simp only [vec3.divS, vec3.mulS] at ox oy oz
  simp only [frameGridCenter, vec3.divS, vec3.mulS, vec3.add] at gx gy gz
  simp only [f32.frameGridCenter, f32_getCellSize_eq cfg c hc, f32_getSideHalf_eq c hh,
    f32.divS, f32.mulS, f32.add3, f32.div, f32.mul, f32.sub, f32.add, frameGridCenter,
    vec3.divS, vec3.mulS, vec3.add, h4.1, hr.1, dx.1, dy.1, dz.1, ox.1, oy.1, oz.1,
    gx.1, gy.1, gz.1]

/-- The `float` product that `setGridCenter` stores in `mGridToWorld`, when `sideHalf`, its
double, the centre and the centre minus `sideHalf` are binary32 values. -/
theorem f32_gridToWorld_eq (h : ℚ) (s : vec3) (hh : binary32 h) (h2 : binary32 (h * 2))
    (hs : binary32V s) (hd : binary32V ⟨s.x - h, s.y - h, s.z - h⟩) :
    f32.mulMat (f32.mulMat (translate s) (scale h h h))
      (f32.mulMat (translate3 (-1) (-1) (-1)) (scale 2 2 2)) = gridToWorldOf (h * 2) s := by
  obtain ⟨sx, sy, sz⟩ := hs
  obtain ⟨dx, dy, dz⟩ := hd
  have ex : fl (-h + s.x) = -h + s.x := by
    have e : -h + s.x = s.x - h := by ring
    rw [e]; exact dx.1
  have ey : fl (-h + s.y) = -h + s.y := by
    have e : -h + s.y = s.y - h := by ring
    rw [e]; exact dy.1
  have ez : fl (-h + s.z) = -h + s.z := by
    have e : -h + s.z = s.z - h := by ring
    rw [e]; exact dz.1
  simp only [f32.mulMat, f32.dot, f32.add, f32.mul, translate, translate3, scale, mat4.col,
    mul_zero, zero_mul, mul_one, one_mul, add_zero, zero_add, mul_neg, neg_zero, fl_zero,
    fl_one, fl_two, fl_neg, fl_fl, hh.1, h2.1, sx.1, sy.1, sz.1, ex, ey, ez, gridToWorldOf]
  congr 1 <;> congr 1 <;> ring

/-- The `float` inverse of the grid-to-world matrix of a cube, when the entries of the true
inverse are binary32 values. -/
theorem f32_inverse_gridToWorldOf (span : ℚ) (s : vec3) (hspan : span ≠ 0)
    (h1 : binary32 (1 / span))
    (ht : binary32V ⟨1 / 2 - s.x / span, 1 / 2 - s.y / span, 1 / 2 - s.z / span⟩) :
    f32.inverse (gridToWorldOf span s) = worldToGridOf span s := by
  obtain ⟨tx, ty, tz⟩ := ht
  simp only [f32.inverse, f32.round4, inverse_gridToWorldOf span s hspan, worldToGridOf, fl_zero,
    fl_one, h1.1, tx.1, ty.1, tz.1]

/-- The four transforms that `setGridCenter` stores in `float` arithmetic, when the entries
of the two matrices are binary32 values. -/
theorem f32_setGridCenter_transforms (cfg : Config) (c : LightPropagationCascade) (u : vec3)
    (hspan : c.mGridSpan ≠ 0)
    (hT : f32.transformExact c.mGridSpan (f32.snapToGrid (f32.getCellSize cfg c) u)) :
    (f32.setGridCenter cfg c u).mInjectState.mGridToWorld =
      gridToWorldOf c.mGridSpan (f32.snapToGrid (f32.getCellSize cfg c) u) ∧
    (f32.setGridCenter cfg c u).mInjectState.mWorldToGrid =
      worldToGridOf c.mGridSpan (f32.snapToGrid (f32.getCellSize cfg c) u) ∧
    (f32.setGridCenter cfg c u).mInjectState.mWorldToGridScale =
      ⟨1 / c.mGridSpan, 1 / c.mGridSpan, 1 / c.mGridSpan⟩ ∧
    (f32.setGridCenter cfg c u).mInjectState.mWorldToGridTranslate =
      ⟨1 / 2 - (f32.snapToGrid (f32.getCellSize cfg c) u).x / c.mGridSpan,
        1 / 2 - (f32.snapToGrid (f32.getCellSize cfg c) u).y / c.mGridSpan,
        1 / 2 - (f32.snapToGrid (f32.getCellSize cfg c) u).z / c.mGridSpan⟩ := by
  obtain ⟨hh, h2, hs, hd, h1, ht⟩ := hT
  have hside : f32.getSideHalf c = c.mGridSpan / 2 := hh.1
  have e2 : c.mGridSpan / 2 * 2 = c.mGridSpan := by ring
  have hG := f32_gridToWorld_eq (c.mGridSpan / 2) (f32.snapToGrid (f32.getCellSize cfg c) u) hh
    (by rw [e2]; exact h2) hs hd
  rw [e2] at hG
  have hW := f32_inverse_gridToWorldOf c.mGridSpan (f32.snapToGrid (f32.getCellSize cfg c) u)
    hspan h1 ht
  have hG' : (f32.setGridCenter cfg c u).mInjectState.mGridToWorld =
      gridToWorldOf c.mGridSpan (f32.snapToGrid (f32.getCellSize cfg c) u) := by
    simp only [f32.setGridCenter, hside, hG]
  have hW' : (f32.setGridCenter cfg c u).mInjectState.mWorldToGrid =
      worldToGridOf c.mGridSpan (f32.snapToGrid (f32.getCellSize cfg c) u) := by
    simp only [f32.setGridCenter, hside, hG, hW]
  refine ⟨hG', hW', ?_, ?_⟩
  · simp only [f32.setGridCenter, hside, hG, hW, worldToGridOf]
  · simp only [f32.setGridCenter, hside, hG, hW, worldToGridOf]

/-- The `float` product that `setGridCenter` stores in `mGridToWorld`, whatever rounds: a
diagonal `fl (sideHalf * 2)`, a last column `fl (s_i - sideHalf)`, zeros elsewhere and the
last row `(0, 0, 0, 1)`; `sideHalf` and the components of `s` are results of earlier
roundings. -/
theorem f32_gridToWorld_form (h : ℚ) (s : vec3) (hh : fl h = h) (hx : fl s.x = s.x)
    (hy : fl s.y = s.y) (hz : fl s.z = s.z) :
    f32.mulMat (f32.mulMat (translate s) (scale h h h))
      (f32.mulMat (translate3 (-1) (-1) (-1)) (scale 2 2 2)) =
      ⟨⟨fl (h * 2), 0, 0, fl (s.x - h)⟩, ⟨0, fl (h * 2), 0, fl (s.y - h)⟩,
       ⟨0, 0, fl (h * 2), fl (s.z - h)⟩, ⟨0, 0, 0, 1⟩⟩ := by
  have ex : -h + s.x = s.x - h := by ring
  have ey : -h + s.y = s.y - h := by ring
  have ez : -h + s.z = s.z - h := by ring
  simp only [f32.mulMat, f32.dot, f32.add, f32.mul, translate, translate3, scale, mat4.col,
    mul_zero, zero_mul, mul_one, one_mul, add_zero, zero_add, mul_neg, neg_zero, fl_zero,
    fl_one, fl_two, fl_neg, fl_fl, hh, hx, hy, hz, ex, ey, ez]

theorem f32_snapToGrid_fl (cell : ℚ) (u : vec3) :
    fl (f32.snapToGrid cell u).x = (f32.snapToGrid cell u).x ∧
    fl (f32.snapToGrid cell u).y = (f32.snapToGrid cell u).y ∧
    fl (f32.snapToGrid cell u).z = (f32.snapToGrid cell u).z := by
  simp only [f32.snapToGrid, f32.mulS, f32.mul, fl_fl, and_self]

/-- The `float` inverse of the grid-to-world matrix of a cube, whatever rounds: every entry
of the true inverse rounded. -/
theorem f32_inverse_gridToWorldOf_form (span : ℚ) (s : vec3) (hspan : span ≠ 0) :
    f32.inverse (gridToWorldOf span s) =
      ⟨⟨fl (1 / span), 0, 0, fl (1 / 2 - s.x / span)⟩,
       ⟨0, fl (1 / span), 0, fl (1 / 2 - s.y / span)⟩,
       ⟨0, 0, fl (1 / span), fl (1 / 2 - s.z / span)⟩, ⟨0, 0, 0, 1⟩⟩ := by
  simp only [f32.inverse, f32.round4, inverse_gridToWorldOf span s hspan, worldToGridOf, fl_zero,
    fl_one]

/-- The world-to-grid transform `setGridCenter` stores in `float` arithmetic for a span such
that `gridSpan / 2` and `gridSpan` are binary32 values, whatever else rounds: the diagonal
is the rounded `1 / gridSpan`, the last column the rounded quotient of the last column of
`mGridToWorld` by `-gridSpan`, and the scale and the translation are read from them. -/
theorem f32_setGridCenter_stored (cfg : Config) (c : LightPropagationCascade) (u : vec3)
    (hspan : c.mGridSpan ≠ 0) (hh : binary32 (c.mGridSpan / 2)) (h2 : binary32 c.mGridSpan) :
    (f32.setGridCenter cfg c u).mInjectState.mWorldToGrid =
      ⟨⟨fl (1 / c.mGridSpan), 0, 0,
          fl (-(fl ((f32.snapToGrid (f32.getCellSize cfg c) u).x - c.mGridSpan / 2) /
            c.mGridSpan))⟩,
        ⟨0, fl (1 / c.mGridSpan), 0,
          fl (-(fl ((f32.snapToGrid (f32.getCellSize cfg c) u).y - c.mGridSpan / 2) /
            c.mGridSpan))⟩,
        ⟨0, 0, fl (1 / c.mGridSpan),
          fl (-(fl ((f32.snapToGrid (f32.getCellSize cfg c) u).z - c.mGridSpan / 2) /
            c.mGridSpan))⟩,
        ⟨0, 0, 0, 1⟩⟩ ∧
    (f32.setGridCenter cfg c u).mInjectState.mWorldToGridScale =
      ⟨fl (1 / c.mGridSpan), fl (1 / c.mGridSpan), fl (1 / c.mGridSpan)⟩ ∧
    (f32.setGridCenter cfg c u).mInjectState.mWorldToGridTranslate =
      ⟨fl (-(fl ((f32.snapToGrid (f32.getCellSize cfg c) u).x - c.mGridSpan / 2) /
          c.mGridSpan)),
        fl (-(fl ((f32.snapToGrid (f32.getCellSize cfg c) u).y - c.mGridSpan / 2) /
          c.mGridSpan)),
        fl (-(fl ((f32.snapToGrid (f32.getCellSize cfg c) u).z - c.mGridSpan / 2) /
          c.mGridSpan))⟩ := by
  have hside : f32.getSideHalf c = c.mGridSpan / 2 := hh.1
  obtain ⟨sx, sy, sz⟩ := f32_snapToGrid_fl (f32.getCellSize cfg c) u
  have e2 : c.mGridSpan / 2 * 2 = c.mGridSpan := by ring
  have hG := f32_gridToWorld_form (c.mGridSpan / 2) (f32.snapToGrid (f32.getCellSize cfg c) u)
    hh.1 sx sy sz
  rw [e2, h2.1] at hG
  have hform : ∀ bx by1 bz : ℚ,
      (⟨⟨c.mGridSpan, 0, 0, bx⟩, ⟨0, c.mGridSpan, 0, by1⟩, ⟨0, 0, c.mGridSpan, bz⟩,
        ⟨0, 0, 0, 1⟩⟩ : mat4) =
      gridToWorldOf c.mGridSpan ⟨bx + c.mGridSpan / 2, by1 + c.mGridSpan / 2,
        bz + c.mGridSpan / 2⟩ := by
    intro bx by1 bz
    simp only [gridToWorldOf, add_sub_cancel_right]
  rw [hform] at hG
  have hW := f32_inverse_gridToWorldOf_form c.mGridSpan
    ⟨fl ((f32.snapToGrid (f32.getCellSize cfg c) u).x - c.mGridSpan / 2) + c.mGridSpan / 2,
      fl ((f32.snapToGrid (f32.getCellSize cfg c) u).y - c.mGridSpan / 2) + c.mGridSpan / 2,
      fl ((f32.snapToGrid (f32.getCellSize cfg c) u).z - c.mGridSpan / 2) + c.mGridSpan / 2⟩
    hspan
  have hq : ∀ b : ℚ, 1 / 2 - (b + c.mGridSpan / 2) / c.mGridSpan = -(b / c.mGridSpan) := by
    intro b
    field_simp
    ring
  simp only [hq] at hW
  refine ⟨?_, ?_, ?_⟩
  · simp only [f32.setGridCenter, hside, hG, hW]
  · simp only [f32.setGridCenter, hside, hG, hW]
  · simp only [f32.setGridCenter, hside, hG, hW]


/-! ## Values of the `float` functions at sample inputs -/

/-- The quotient `(14417933 / 8) / (55 / 16)`, about `524288.47`, rounds up to
`524288.5`: the unit in the last place is `1 / 16` there. -/
theorem fl_sample_quotient : fl (28835866 / 55) = 1048577 / 2 := by
  have h := fl_eq_of (28835866 / 55) 19 8388616 (by norm_num)
    (by rw [abs_of_pos (by norm_num)]; norm_num)
    (by rw [abs_of_pos (by norm_num)]; norm_num)
    (roundHalfEven_eq_of_abs_lt _ _ (by rw [abs_lt]; constructor <;> norm_num))
  rw [h]
  norm_num

/-- The product `524289 * (55 / 16) = 1802243.4375` lies half way between the binary32
neighbours `1802243.375` and `1802243.5` and goes to the one with the even last bit. -/
theorem fl_sample_product : fl (28835895 / 16) = 3604487 / 2 := by
  have ht := roundHalfEven_tie 14417947
  have hq : (28835895 / 16 : ℚ) / 2 ^ ((20 : ℤ) - 23) = ((14417947 : ℤ) : ℚ) + 1 / 2 := by
    norm_num
  have h := fl_eq_of (28835895 / 16) 20 14417948 (by norm_num)
    (by rw [abs_of_pos (by norm_num)]; norm_num)
    (by rw [abs_of_pos (by norm_num)]; norm_num)
    (by rw [hq, ht]; norm_num)
  rw [h]
  norm_num

theorem roundf_sample_half : roundf (1048577 / 2) = 524289 := by
  unfold roundf
  rw [if_pos (by norm_num)]
  have : ⌊(1048577 / 2 : ℚ) + 1 / 2⌋ = 524289 := by
    rw [Int.floor_eq_iff]
    constructor <;> norm_num
  rw [this]
  norm_num

theorem roundf_zero : roundf 0 = 0 := by simpa using roundf_intCast 0

theorem fl_55_16 : fl (55 / 16) = 55 / 16 := by
  have h := fl_of_dyadic 55 (-4) (by norm_num) (by norm_num)
  norm_num at h
  exact h

theorem fl_32 : fl 32 = 32 := by
  simpa using fl_intCast 32 (by norm_num)

theorem f32_getCellSize_span110 :
    f32.getCellSize sampleConfig (sampleCascadeOfSpan 110) = 55 / 16 := by
  have e : (110 : ℚ) / 32 = 55 / 16 := by norm_num
  simp only [f32.getCellSize, f32.div, sampleConfig, sampleCascadeOfSpan, sampleCascade,
    Nat.cast_ofNat, fl_32, e, fl_55_16]

/-- The snapped centre at span 110 for the requested centre `(1802241.625, 0, 0)`. -/
theorem f32_snapToGrid_span110 :
    f32.snapToGrid (f32.getCellSize sampleConfig (sampleCascadeOfSpan 110))
      ⟨14417933 / 8, 0, 0⟩ = ⟨3604487 / 2, 0, 0⟩ := by
  have e1 : (14417933 / 8 : ℚ) / (55 / 16) = 28835866 / 55 := by norm_num
  have e2 : (524289 : ℚ) * (55 / 16) = 28835895 / 16 := by norm_num
  simp only [f32_getCellSize_span110, f32.snapToGrid, f32.divS, f32.mulS, f32.div, f32.mul,
    e1, fl_sample_quotient, roundf_sample_half, e2, fl_sample_product, zero_div, fl_zero,
    roundf_zero, zero_mul]

theorem f32_getCellSize_sample : f32.getCellSize sampleConfig (sampleCascade 0) = 1 := by
  have e : (32 : ℚ) / 32 = 1 := by norm_num
  simp only [f32.getCellSize, f32.div, sampleConfig, sampleCascade, Nat.cast_ofNat, fl_32, e,
    fl_one]

theorem f32_getSideHalf_sample : f32.getSideHalf (sampleCascade 0) = 16 := by
  have e : (32 : ℚ) / 2 = 16 := by norm_num
  simp only [f32.getSideHalf, f32.div, sampleCascade, e]
  exact fl_of_eq 16 16 0 (by norm_num) (by norm_num) (by norm_num)

/-- The sum `(1/2 - 2^-25) + 12` is not a binary32 value (the unit in the last place is
`2^-20` there) and rounds to `12.5`. -/
theorem fl_sample_sum : fl (419430399 / 33554432) = 25 / 2 := by
  have h := fl_eq_of (419430399 / 33554432) 3 13107200 (by norm_num)
    (by rw [abs_of_pos (by norm_num)]; norm_num)
    (by rw [abs_of_pos (by norm_num)]; norm_num)
    (roundHalfEven_eq_of_abs_lt _ _ (by rw [abs_lt]; constructor <;> norm_num))
  rw [h]
  norm_num

theorem fl_12 : fl 12 = 12 := fl_of_eq 12 12 0 (by norm_num) (by norm_num) (by norm_num)

theorem fl_13 : fl 13 = 13 := fl_of_eq 13 13 0 (by norm_num) (by norm_num) (by norm_num)

theorem fl_25_2 : fl (25 / 2) = 25 / 2 :=
  fl_of_eq (25 / 2) 25 (-1) (by norm_num) (by norm_num) (by norm_num)

theorem roundf_25_2 : roundf (25 / 2) = 13 := by
  unfold roundf
  rw [if_pos (by norm_num)]
  have : ⌊(25 / 2 : ℚ) + 1 / 2⌋ = 13 := by
    rw [Int.floor_eq_iff]
    constructor <;> norm_num
  rw [this]
  norm_num

theorem fabsf_one : fabsf 1 = 1 := by
  rw [fabsf_eq_abs]; norm_num

theorem fabsf_zero : fabsf 0 = 0 := by
  rw [fabsf_eq_abs]; norm_num

/-- The centre `beginFrame` asks for at span 32 with the camera at
`(1/2 - 2^-25, 0, 0)` looking along `(1, 0, 0)`: the sum `camPos.x + 12` rounds to `12.5`. -/
theorem f32_frameGridCenter_sample :
    f32.frameGridCenter sampleConfig (sampleCascade 0) ⟨16777215 / 33554432, 0, 0⟩ ⟨1, 0, 0⟩ =
      ⟨25 / 2, 0, 0⟩ := by
  have e1 : (4 : ℚ) * 1 = 4 := by norm_num
  have e2 : (16 : ℚ) - 4 = 12 := by norm_num
  have e3 : (16777215 / 33554432 : ℚ) + 12 = 419430399 / 33554432 := by norm_num
  have e4 : max (max (1 : ℚ) 0) 0 = 1 := by norm_num
  simp only [f32.frameGridCenter, f32_getCellSize_sample, f32_getSideHalf_sample, f32.divS,
    f32.mulS, f32.add3, f32.div, f32.mul, f32.sub, f32.add, fabsf_one, fabsf_zero, e4, e1,
    fl_four, e2, fl_12, div_one, fl_one, one_mul, zero_div, fl_zero, zero_mul, add_zero, e3,
    fl_sample_sum]

/-- The snapped centre of `beginFrame` for the same camera: `12.5` is half way between two
cells and `roundf` takes it away from zero, to 13. -/
theorem f32_frameSnappedCenter_sample :
    f32.frameSnappedCenter sampleConfig (sampleCascade 0) ⟨16777215 / 33554432, 0, 0⟩
      ⟨1, 0, 0⟩ = ⟨13, 0, 0⟩ := by
  simp only [f32.frameSnappedCenter, f32_frameGridCenter_sample, f32_getCellSize_sample,
    f32.snapToGrid, f32.divS, f32.mulS, f32.div, f32.mul, div_one, fl_25_2, roundf_25_2,
    mul_one, fl_13, fl_zero, roundf_zero]

/-- The quotient `1 / 50` is not a binary32 value: it rounds to `5368709 / 2^28`. -/
theorem fl_one_fiftieth : fl (1 / 50) = 5368709 / 268435456 := by
  have h := fl_eq_of (1 / 50) (-6) 10737418 (by norm_num)
    (by rw [abs_of_pos (by norm_num)]; norm_num)
    (by rw [abs_of_pos (by norm_num)]; norm_num)
    (roundHalfEven_eq_of_abs_lt _ _ (by rw [abs_lt]; constructor <;> norm_num))
  rw [h]
  norm_num


/-! ## Staying inside the binary32 range -/

/-- A snap that rounds nowhere stays inside the binary32 range. -/
theorem snapFinite_of_snapExact (cfg : Config) (c : LightPropagationCascade) (u : vec3)
    (hspan : 0 < c.mGridSpan) (hres : 0 < cfg.GridRes) (hcell : f32.cellExact cfg c)
    (hsnap : f32.snapExact (getCellSize cfg c) u) :
    f32.snapFinite (f32.getCellSize cfg c) u := by
  rw [f32_getCellSize_eq cfg c hcell]
  obtain ⟨⟨hx, hy, hz⟩, ⟨kx, ky, kz⟩⟩ := hsnap
  simp only [vec3.divS] at hx hy hz
  simp only [snapToGrid, vec3.divS, vec3.mulS] at kx ky kz
  refine ⟨(getCellSize_pos cfg c hspan hres).ne', ⟨hx.2, hy.2, hz.2⟩, ?_, ?_, ?_⟩
  · simp only [f32.div, hx.1]
    exact kx.2
  · simp only [f32.div, hy.1]
    exact ky.2
  · simp only [f32.div, hz.1]
    exact kz.2

/-- The snapped centre of a snap that stays inside the binary32 range is a vector of
binary32 values. -/
theorem f32_snapToGrid_binary32V (cell : ℚ) (u : vec3) (h : f32.snapFinite cell u) :
    binary32V (f32.snapToGrid cell u) := by
  obtain ⟨_, _, px, py, pz⟩ := h
  exact ⟨binary32_fl _ px, binary32_fl _ py, binary32_fl _ pz⟩

/-- Transforms whose entries are binary32 values stay inside the binary32 range. -/
theorem transformFinite_of_transformExact (span : ℚ) (s : vec3) (hs : span ≠ 0)
    (h : f32.transformExact span s) : f32.transformFinite span s := by
  obtain ⟨hh, h2, _, ⟨dx, dy, dz⟩, h1, ⟨tx, ty, tz⟩⟩ := h
  have key : ∀ x : ℚ, binary32 (x - span / 2) → binary32 (1 / 2 - x / span) →
      |fl (x - span / 2) / span| ≤ FLT_MAX := by
    intro x hd ht
    rw [hd.1]
    have e : (x - span / 2) / span = -(1 / 2 - x / span) := by
      field_simp
      ring
    rw [e, abs_neg]
    exact ht.2
  exact ⟨hh, h2, ⟨dx.2, dy.2, dz.2⟩, h1.2, key _ dx tx, key _ dy ty, key _ dz tz⟩

/-- The snapped centre in `float` arithmetic is within half a cell and two rounding errors
of the requested one, on every axis. -/
theorem f32_snapToGrid_near (cell : ℚ) (u : vec3) (hcell : 0 < cell) :
    |(f32.snapToGrid cell u).x - u.x| ≤ cell / 2 + (|u.x| + cell) / 2 ^ 22 + 1 / 2 ^ 150 ∧
    |(f32.snapToGrid cell u).y - u.y| ≤ cell / 2 + (|u.y| + cell) / 2 ^ 22 + 1 / 2 ^ 150 ∧
    |(f32.snapToGrid cell u).z - u.z| ≤ cell / 2 + (|u.z| + cell) / 2 ^ 22 + 1 / 2 ^ 150 :=
  ⟨abs_f32_snap_sub_le _ u.x hcell, abs_f32_snap_sub_le _ u.y hcell,
    abs_f32_snap_sub_le _ u.z hcell⟩


/-! ## The centre of `beginFrame` in `float` arithmetic, whatever rounds -/

/-- A positive binary32 value is at least the smallest subnormal number `2 ^ -149`. -/
theorem le_of_fl_eq_of_pos (x : ℚ) (h : fl x = x) (hx : 0 < x) : 1 / 2 ^ 149 ≤ x := by
  have hE : -149 ≤ ulpExponent x := by
    unfold ulpExponent
    have := le_max_right (Int.log 2 |x|) (-126)
    omega
  have hp : (0 : ℚ) < 2 ^ ulpExponent x := zpow_pos (by norm_num) _
  have hn : 0 < roundHalfEven (x / 2 ^ ulpExponent x) := by
    by_contra hcon
    push_neg at hcon
    have h0 : (roundHalfEven (x / 2 ^ ulpExponent x) : ℚ) ≤ 0 := by exact_mod_cast hcon
    have h1 : fl x ≤ 0 := mul_nonpos_of_nonpos_of_nonneg h0 hp.le
    linarith
  have hn1 : (1 : ℚ) ≤ roundHalfEven (x / 2 ^ ulpExponent x) := by exact_mod_cast hn
  have h149 : (2 : ℚ) ^ (-149 : ℤ) ≤ 2 ^ ulpExponent x :=
    zpow_le_zpow_right₀ (by norm_num) hE
  have e : (2 : ℚ) ^ (-149 : ℤ) = 1 / 2 ^ 149 := by
    rw [zpow_neg, one_div]
    norm_num
  have h2 : (2 : ℚ) ^ ulpExponent x ≤ fl x := by
    unfold fl
    calc (2 : ℚ) ^ ulpExponent x = 1 * 2 ^ ulpExponent x := (one_mul _).symm
      _ ≤ _ := mul_le_mul_of_nonneg_right hn1 hp.le
  rw [h] at h2
  rw [e] at h149
  exact le_trans h149 h2

/-- One axis of the centre `beginFrame` asks for, at `GridRes = 32`: the result is within
`|cam| / 2^24 + span / 2^22 + 2^-147` of `cam + d / m * (span / 2 - 4 * cell)`, and the sum
stays inside the binary32 range. -/
theorem f32_frame_axis (span cell cam d m : ℚ) (hcs : span = 32 * cell)
    (hcell : 1 / 2 ^ 149 ≤ cell) (hm : 0 < m) (hd : |d| ≤ m)
    (hc : |cam| + span ≤ FLT_MAX) :
    |fl (cam + fl (fl (d / m) * fl (span / 2 - 4 * cell))) - cam -
        d / m * (span / 2 - 4 * cell)| ≤ |cam| / 2 ^ 24 + span / 2 ^ 22 + 1 / 2 ^ 147 ∧
    |fl (fl (d / m) * fl (span / 2 - 4 * cell))| ≤ span / 2 ∧
    |cam + fl (fl (d / m) * fl (span / 2 - 4 * cell))| ≤ FLT_MAX := by
  have hR : (0 : ℚ) ≤ span / 2 - 4 * cell := by
    have : (0 : ℚ) ≤ cell := le_trans (by norm_num) hcell
    linarith
  obtain ⟨h1, h2⟩ := abs_f32_frame_sub_le cam d m (span / 2 - 4 * cell) hm hd hR
  have hp : |fl (fl (d / m) * fl (span / 2 - 4 * cell))| ≤ span / 2 := by
    refine le_trans h2 ?_
    rw [hcs]
    have e : (32 * cell / 2 - 4 * cell + 6 * (32 * cell / 2 - 4 * cell) / 2 ^ 24 + 4 / 2 ^ 150 :
        ℚ) = cell * (12 + 72 / 2 ^ 24) + 4 / 2 ^ 150 := by ring
    rw [e]
    have e2 : (4 : ℚ) / 2 ^ 150 = 2 * (1 / 2 ^ 149) := by norm_num
    have e3 : cell * (12 + 72 / 2 ^ 24) ≤ cell * 13 := by
      apply mul_le_mul_of_nonneg_left (by norm_num)
      exact le_trans (by norm_num) hcell
    linarith
  refine ⟨?_, hp, ?_⟩
  · refine le_trans h1 ?_
    have e1 : (span / 2 - 4 * cell) / 2 ^ 21 ≤ span / 2 ^ 22 := by
      rw [hcs]
      have e : (32 * cell / 2 - 4 * cell) / 2 ^ 21 = cell * (12 / 2 ^ 21) := by ring
      have e' : 32 * cell / 2 ^ 22 = cell * (32 / 2 ^ 22) := by ring
      rw [e, e']
      apply mul_le_mul_of_nonneg_left (by norm_num)
      exact le_trans (by norm_num) hcell
    have e2 : (6 : ℚ) / 2 ^ 150 ≤ 1 / 2 ^ 147 := by norm_num
    linarith
  · refine le_trans (abs_add _ _) ?_
    have : (0 : ℚ) ≤ span := by
      rw [hcs]
      have : (0 : ℚ) ≤ cell := le_trans (by norm_num) hcell
      linarith
    linarith

/-- The centre `beginFrame` asks for in `float` arithmetic, when the cell size, `sideHalf`
and `4 * cellSize` are computed without rounding: on every axis the quotient by
`maxOffset`, the reach, the product and the sum are rounded. -/
theorem f32_frameGridCenter_form (cfg : Config) (c : LightPropagationCascade)
    (camPos camDir : vec3) (hcell : f32.cellExact cfg c) (hfin : f32.frameFinite cfg c camPos) :
    f32.frameGridCenter cfg c camPos camDir =
      ⟨fl (camPos.x + fl (fl (camDir.x /
          max (max (fabsf camDir.x) (fabsf camDir.y)) (fabsf camDir.z)) *
          fl (c.mGridSpan / 2 - 4 * getCellSize cfg c))),
        fl (camPos.y + fl (fl (camDir.y /
          max (max (fabsf camDir.x) (fabsf camDir.y)) (fabsf camDir.z)) *
          fl (c.mGridSpan / 2 - 4 * getCellSize cfg c))),
        fl (camPos.z + fl (fl (camDir.z /
          max (max (fabsf camDir.x) (fabsf camDir.y)) (fabsf camDir.z)) *
          fl (c.mGridSpan / 2 - 4 * getCellSize cfg c)))⟩ := by
  have hh : fl (c.mGridSpan / 2) = c.mGridSpan / 2 := hfin.1.1
  have h4 : fl (4 * getCellSize cfg c) = 4 * getCellSize cfg c := hfin.2.1.1
  simp only [f32.frameGridCenter, f32_getCellSize_eq cfg c hcell, f32.getSideHalf, f32.divS,
    f32.mulS, f32.add3, f32.div, f32.mul, f32.sub, f32.add, hh, h4]

/-- The largest of three numbers moves by at most `S` when each of them moves by at most
`S`. -/
theorem abs_max3_sub_le (a b c a' b' c' S : ℚ) (ha : |a' - a| ≤ S) (hb : |b' - b| ≤ S)
    (hc : |c' - c| ≤ S) : |max (max a' b') c' - max (max a b) c| ≤ S := by
  refine le_trans (abs_max_sub_max_le_max _ _ _ _) (max_le ?_ hc)
  exact le_trans (abs_max_sub_max_le_max _ _ _ _) (max_le ha hb)

/-- The centre `beginFrame` asks for in `float` arithmetic, at `GridRes = 32` with the cell
size, `sideHalf` and `4 * cellSize` computed without rounding and `|camPos_i| + gridSpan`
inside the binary32 range: a vector of binary32 values, on every axis within
`|camPos_i| / 2^24 + gridSpan / 2^22 + 2^-147` of the centre in exact arithmetic. -/
theorem f32_frameGridCenter_near (cfg : Config) (c : LightPropagationCascade)
    (camPos camDir : vec3) (hres : cfg.GridRes = 32) (hspan : 0 < c.mGridSpan)
    (hdir : camDir ≠ ⟨0, 0, 0⟩) (hcell : f32.cellExact cfg c)
    (hfin : f32.frameFinite cfg c camPos) :
    binary32V (f32.frameGridCenter cfg c camPos camDir) ∧
    (|(f32.frameGridCenter cfg c camPos camDir).x - (frameGridCenter cfg c camPos camDir).x| ≤
        |camPos.x| / 2 ^ 24 + c.mGridSpan / 2 ^ 22 + 1 / 2 ^ 147 ∧
      |(f32.frameGridCenter cfg c camPos camDir).y - (frameGridCenter cfg c camPos camDir).y| ≤
        |camPos.y| / 2 ^ 24 + c.mGridSpan / 2 ^ 22 + 1 / 2 ^ 147 ∧
      |(f32.frameGridCenter cfg c camPos camDir).z - (frameGridCenter cfg c camPos camDir).z| ≤
        |camPos.z| / 2 ^ 24 + c.mGridSpan / 2 ^ 22 + 1 / 2 ^ 147) := by
  have hres0 : 0 < cfg.GridRes := by omega
  have hcpos := getCellSize_pos cfg c hspan hres0
  have hcs : c.mGridSpan = 32 * getCellSize cfg c := by
    unfold getCellSize
    rw [hres]
    push_cast
    ring
  have hc149 := le_of_fl_eq_of_pos _ hcell.2.1 hcpos
  have hm := maxOffset_pos camDir hdir
  have hx : |camDir.x| ≤ max (max (fabsf camDir.x) (fabsf camDir.y)) (fabsf camDir.z) := by
    rw [← fabsf_eq_abs]
    exact le_trans (le_max_left _ _) (le_max_left _ _)
  have hy : |camDir.y| ≤ max (max (fabsf camDir.x) (fabsf camDir.y)) (fabsf camDir.z) := by
    rw [← fabsf_eq_abs]
    exact le_trans (le_max_right _ _) (le_max_left _ _)
  have hz : |camDir.z| ≤ max (max (fabsf camDir.x) (fabsf camDir.y)) (fabsf camDir.z) := by
    rw [← fabsf_eq_abs]
    exact le_max_right _ _
  obtain ⟨_, _, fx, fy, fz⟩ := id hfin
  obtain ⟨ax, _, bx⟩ := f32_frame_axis _ _ camPos.x camDir.x _ hcs hc149 hm hx fx
  obtain ⟨ay, _, by1⟩ := f32_frame_axis _ _ camPos.y camDir.y _ hcs hc149 hm hy fy
  obtain ⟨az, _, bz⟩ := f32_frame_axis _ _ camPos.z camDir.z _ hcs hc149 hm hz fz
  rw [f32_frameGridCenter_form cfg c camPos camDir hcell hfin]
  have gx : (frameGridCenter cfg c camPos camDir).x = camPos.x + camDir.x /
      max (max (fabsf camDir.x) (fabsf camDir.y)) (fabsf camDir.z) *
        (c.mGridSpan / 2 - 4 * getCellSize cfg c) := by
    simp only [frameGridCenter, getSideHalf, vec3.add, vec3.mulS, vec3.divS]
  have gy : (frameGridCenter cfg c camPos camDir).y = camPos.y + camDir.y /
      max (max (fabsf camDir.x) (fabsf camDir.y)) (fabsf camDir.z) *
        (c.mGridSpan / 2 - 4 * getCellSize cfg c) := by
    simp only [frameGridCenter, getSideHalf, vec3.add, vec3.mulS, vec3.divS]
  have gz : (frameGridCenter cfg c camPos camDir).z = camPos.z + camDir.z /
      max (max (fabsf camDir.x) (fabsf camDir.y)) (fabsf camDir.z) *
        (c.mGridSpan / 2 - 4 * getCellSize cfg c) := by
    simp only [frameGridCenter, getSideHalf, vec3.add, vec3.mulS, vec3.divS]
  refine ⟨⟨binary32_fl _ bx, binary32_fl _ by1, binary32_fl _ bz⟩, ?_, ?_, ?_⟩
  · rw [gx]
    have e : ∀ a b t : ℚ, a - (b + t) = a - b - t := by intro a b t; ring
    rw [e]
    exact ax
  · rw [gy]
    have e : ∀ a b t : ℚ, a - (b + t) = a - b - t := by intro a b t; ring
    rw [e]
    exact ay
  · rw [gz]
    have e : ∀ a b t : ℚ, a - (b + t) = a - b - t := by intro a b t; ring
    rw [e]
    exact az


/-! ## C2, C4, C19 and C23 in binary32 arithmetic -/

/-- C2 as stated fails in binary32 arithmetic. For the cascade of span 110 with
`GridRes = 32` (cell size `3.4375`, computed without rounding) and the requested centre
`(1802241.625, 0, 0)`, whose components are binary32 values, `setGridCenter` builds
`mGridToWorld` from the centre `s = (1802243.5, 0, 0)`: the quotient `524288.47...` rounds
to `524288.5`, `roundf` takes it to `524289`, and the product `1802243.4375` rounds to
`1802243.5`. This `s.x` is `1.875` away from the requested `1802241.625`, more than half a
cell (`1.71875`), and it is not an integer multiple of the cell size. -/
theorem C2_counterexample :
    (0 : ℚ) < (sampleCascadeOfSpan 110).mGridSpan ∧
    binary32 (sampleCascadeOfSpan 110).mGridSpan ∧
    binary32V ⟨14417933 / 8, 0, 0⟩ ∧
    f32.getCellSize sampleConfig (sampleCascadeOfSpan 110) = 55 / 16 ∧
    f32.snapToGrid (f32.getCellSize sampleConfig (sampleCascadeOfSpan 110))
      ⟨14417933 / 8, 0, 0⟩ = ⟨3604487 / 2, 0, 0⟩ ∧
    (f32.setGridCenter sampleConfig (sampleCascadeOfSpan 110)
        ⟨14417933 / 8, 0, 0⟩).mInjectState.mGridToWorld =
      gridToWorldOf 110 ⟨3604487 / 2, 0, 0⟩ ∧
    ¬ (|(f32.snapToGrid (f32.getCellSize sampleConfig (sampleCascadeOfSpan 110))
        ⟨14417933 / 8, 0, 0⟩).x - 14417933 / 8| ≤
      f32.getCellSize sampleConfig (sampleCascadeOfSpan 110) / 2) ∧
    ¬ ∃ k : ℤ, (f32.snapToGrid (f32.getCellSize sampleConfig (sampleCascadeOfSpan 110))
        ⟨14417933 / 8, 0, 0⟩).x =
      (k : ℚ) * f32.getCellSize sampleConfig (sampleCascadeOfSpan 110) := by
  have hspan : (sampleCascadeOfSpan 110).mGridSpan = 110 := rfl
  have hside : f32.getSideHalf (sampleCascadeOfSpan 110) = 55 := by
    have e : (110 : ℚ) / 2 = 55 := by norm_num
    simp only [f32.getSideHalf, f32.div, hspan, e]
    exact fl_of_eq 55 55 0 (by norm_num) (by norm_num) (by norm_num)
  have hG := f32_gridToWorld_eq 55 ⟨3604487 / 2, 0, 0⟩
    (binary32_of_eq _ 55 0 (by norm_num) (by norm_num) (by norm_num) (by norm_num))
    (binary32_of_eq _ 110 0 (by norm_num) (by norm_num) (by norm_num) (by norm_num))
    ⟨binary32_of_eq _ 3604487 (-1) (by norm_num) (by norm_num) (by norm_num) (by norm_num),
      binary32_zero, binary32_zero⟩
    ⟨binary32_of_eq _ 3604377 (-1) (by norm_num) (by norm_num) (by norm_num) (by norm_num),
      binary32_of_eq _ (-55) 0 (by norm_num) (by norm_num) (by norm_num) (by norm_num),
      binary32_of_eq _ (-55) 0 (by norm_num) (by norm_num) (by norm_num) (by norm_num)⟩
  have e2 : (55 : ℚ) * 2 = 110 := by norm_num
  rw [e2] at hG
  refine ⟨by rw [hspan]; norm_num, ?_, ?_, f32_getCellSize_span110, f32_snapToGrid_span110,
    ?_, ?_, ?_⟩
  · rw [hspan]
    exact binary32_of_eq _ 110 0 (by norm_num) (by norm_num) (by norm_num) (by norm_num)
  · exact ⟨binary32_of_eq _ 14417933 (-3) (by norm_num) (by norm_num) (by norm_num)
      (by norm_num), binary32_zero, binary32_zero⟩
  · simp only [f32.setGridCenter, f32_snapToGrid_span110, hside, hG]
  · rw [f32_snapToGrid_span110, f32_getCellSize_span110]
    norm_num [abs_le]
  · rw [f32_snapToGrid_span110, f32_getCellSize_span110]
    rintro ⟨k, hk⟩
    have h1 : (55 : ℚ) * k = 28835896 := by
      simp only at hk
      linarith
    have h2 : (55 : ℤ) * k = 28835896 := by exact_mod_cast h1
    omega

/-- C2, amended. In binary32 arithmetic `setGridCenter` snaps to the nearest cell up to the
rounding of the quotient and of the product. For a cascade with positive span whose cell
size `gridSpan / GridRes` is computed without rounding, and a requested centre `u` whose
snap stays inside the binary32 range (no quotient `u_i / cellSize` and no product
`roundf (u_i / cellSize) * cellSize` exceeds `FLT_MAX` in magnitude), the centre `s` that
`mGridToWorld` is built from is a vector of binary32 values, every component of `s` is the
rounding of an integer multiple of the cell size, and
`|s_i - u_i| <= cellSize / 2 + (|u_i| + cellSize) / 2^22 + 2^-150` on every axis; and if the
three quotients and the three products are binary32 values, so that the snap rounds
nowhere, every component of `s` is an integer multiple of the cell size and `s` lies within
half a cell of `u` on every axis. -/
theorem C2_setGridCenter_snaps_to_nearest_cell (cfg : Config) (c : LightPropagationCascade)
    (u : vec3) (hspan : 0 < c.mGridSpan) (hres : 0 < cfg.GridRes)
    (hcell : f32.cellExact cfg c) (hfin : f32.snapFinite (f32.getCellSize cfg c) u) :
    (f32.setGridCenter cfg c u).mInjectState.mGridToWorld =
      f32.mulMat (f32.mulMat (translate (f32.snapToGrid (f32.getCellSize cfg c) u))
        (scale (f32.getSideHalf c) (f32.getSideHalf c) (f32.getSideHalf c)))
        (f32.mulMat (translate3 (-1) (-1) (-1)) (scale 2 2 2)) ∧
    f32.getCellSize cfg c = c.mGridSpan / (cfg.GridRes : ℚ) ∧
    binary32V (f32.snapToGrid (f32.getCellSize cfg c) u) ∧
    (∃ kx ky kz : ℤ, f32.snapToGrid (f32.getCellSize cfg c) u =
      ⟨fl (kx * f32.getCellSize cfg c), fl (ky * f32.getCellSize cfg c),
        fl (kz * f32.getCellSize cfg c)⟩) ∧
    (|(f32.snapToGrid (f32.getCellSize cfg c) u).x - u.x| ≤
        f32.getCellSize cfg c / 2 + (|u.x| + f32.getCellSize cfg c) / 2 ^ 22 + 1 / 2 ^ 150 ∧
      |(f32.snapToGrid (f32.getCellSize cfg c) u).y - u.y| ≤
        f32.getCellSize cfg c / 2 + (|u.y| + f32.getCellSize cfg c) / 2 ^ 22 + 1 / 2 ^ 150 ∧
      |(f32.snapToGrid (f32.getCellSize cfg c) u).z - u.z| ≤
        f32.getCellSize cfg c / 2 + (|u.z| + f32.getCellSize cfg c) / 2 ^ 22 + 1 / 2 ^ 150) ∧
    (f32.snapExact (getCellSize cfg c) u →
      (∃ kx ky kz : ℤ, f32.snapToGrid (f32.getCellSize cfg c) u =
        ⟨kx * f32.getCellSize cfg c, ky * f32.getCellSize cfg c,
          kz * f32.getCellSize cfg c⟩) ∧
      |(f32.snapToGrid (f32.getCellSize cfg c) u).x - u.x| ≤ f32.getCellSize cfg c / 2 ∧
      |(f32.snapToGrid (f32.getCellSize cfg c) u).y - u.y| ≤ f32.getCellSize cfg c / 2 ∧
      |(f32.snapToGrid (f32.getCellSize cfg c) u).z - u.z| ≤ f32.getCellSize cfg c / 2) := by
  have hc := f32_getCellSize_eq cfg c hcell
  have hpos : 0 < f32.getCellSize cfg c := by
    rw [hc]
    exact getCellSize_pos cfg c hspan hres
  refine ⟨rfl, ?_, f32_snapToGrid_binary32V _ u hfin, ?_, ⟨?_, ?_, ?_⟩, ?_⟩
  · rw [hc]
    rfl
  · obtain ⟨kx, hx⟩ := roundf_exists_int (f32.div u.x (f32.getCellSize cfg c))
    obtain ⟨ky, hy⟩ := roundf_exists_int (f32.div u.y (f32.getCellSize cfg c))
    obtain ⟨kz, hz⟩ := roundf_exists_int (f32.div u.z (f32.getCellSize cfg c))
    exact ⟨kx, ky, kz, by simp only [f32.snapToGrid, f32.divS, f32.mulS, f32.mul, hx, hy, hz]⟩
  · exact abs_f32_snap_sub_le _ u.x hpos
  · exact abs_f32_snap_sub_le _ u.y hpos
  · exact abs_f32_snap_sub_le _ u.z hpos
  · intro hsnap
    have hs := f32_snapToGrid_eq (getCellSize cfg c) u hsnap
    have h := setGridCenter_snaps_to_nearest_cell cfg c u hspan hres
    rw [hc, hs]
    exact ⟨h.2.2.1, h.2.2.2.1, h.2.2.2.2.1, h.2.2.2.2.2⟩

theorem roundf_5_2 : roundf (5 / 2) = 3 := by
  unfold roundf
  rw [if_pos (by norm_num)]
  have : ⌊(5 / 2 : ℚ) + 1 / 2⌋ = 3 := by
    rw [Int.floor_eq_iff]
    constructor <;> norm_num
  rw [this]
  norm_num

/-- The requested centre `(125/32, -25/8, 0)` snaps to `(75/16, -25/8, 0)` at span 50, where
the cell size is `25/16`. -/
theorem snapToGrid_span50 :
    snapToGrid (getCellSize sampleConfig (sampleCascadeOfSpan 50)) ⟨125 / 32, -25 / 8, 0⟩ =
      ⟨75 / 16, -25 / 8, 0⟩ := by
  have h2 : roundf (-2) = -2 := by simpa using roundf_intCast (-2)
  have e1 : (125 / 32 : ℚ) / (50 / 32) = 5 / 2 := by norm_num
  have e2 : (-25 / 8 : ℚ) / (50 / 32) = -2 := by norm_num
  simp only [snapToGrid, getCellSize, sampleConfig, sampleCascadeOfSpan, sampleCascade,
    vec3.divS, vec3.mulS, Nat.cast_ofNat, e1, e2, roundf_5_2, h2, zero_div, roundf_zero]
  norm_num

theorem cellExact_span50 : f32.cellExact sampleConfig (sampleCascadeOfSpan 50) := by
  refine ⟨?_, ?_⟩
  · exact binary32_of_eq _ 32 0 (by norm_num [sampleConfig]) (by norm_num) (by norm_num)
      (by norm_num)
  · exact binary32_of_eq _ 25 (-4)
      (by norm_num [getCellSize, sampleConfig, sampleCascadeOfSpan, sampleCascade])
      (by norm_num) (by norm_num) (by norm_num)

theorem snapExact_span50 :
    f32.snapExact (getCellSize sampleConfig (sampleCascadeOfSpan 50))
      ⟨125 / 32, -25 / 8, 0⟩ := by
  refine ⟨⟨?_, ?_, ?_⟩, ?_⟩
  · exact binary32_of_eq _ 5 (-1)
      (by norm_num [getCellSize, sampleConfig, sampleCascadeOfSpan, sampleCascade, vec3.divS])
      (by norm_num) (by norm_num) (by norm_num)
  · exact binary32_of_eq _ (-2) 0
      (by norm_num [getCellSize, sampleConfig, sampleCascadeOfSpan, sampleCascade, vec3.divS])
      (by norm_num) (by norm_num) (by norm_num)
  · exact binary32_of_eq _ 0 0
      (by norm_num [getCellSize, sampleConfig, sampleCascadeOfSpan, sampleCascade, vec3.divS])
      (by norm_num) (by norm_num) (by norm_num)
  · rw [snapToGrid_span50]
    exact ⟨binary32_of_eq _ 75 (-4) (by norm_num) (by norm_num) (by norm_num) (by norm_num),
      binary32_of_eq _ (-25) (-3) (by norm_num) (by norm_num) (by norm_num) (by norm_num),
      binary32_zero⟩

theorem cellExact_span110 : f32.cellExact sampleConfig (sampleCascadeOfSpan 110) := by
  refine ⟨?_, ?_⟩
  · exact binary32_of_eq _ 32 0 (by norm_num [sampleConfig]) (by norm_num) (by norm_num)
      (by norm_num)
  · exact binary32_of_eq _ 55 (-4)
      (by norm_num [getCellSize, sampleConfig, sampleCascadeOfSpan, sampleCascade])
      (by norm_num) (by norm_num) (by norm_num)

/-- The snap of `(1802241.625, 0, 0)` at span 110 stays inside the binary32 range. -/
theorem snapFinite_span110 :
    f32.snapFinite (f32.getCellSize sampleConfig (sampleCascadeOfSpan 110))
      ⟨14417933 / 8, 0, 0⟩ := by
  have e1 : (14417933 / 8 : ℚ) / (55 / 16) = 28835866 / 55 := by norm_num
  rw [f32_getCellSize_span110]
  simp only [f32.snapFinite, f32.div, e1, fl_sample_quotient, roundf_sample_half, zero_div,
    fl_zero, roundf_zero, zero_mul, abs_zero]
  refine ⟨by norm_num, ⟨?_, ?_, ?_⟩, ?_, ?_, ?_⟩ <;>
    first
      | (rw [abs_of_pos (by norm_num)]; norm_num [FLT_MAX])
      | norm_num [FLT_MAX]

/-- C2, amended, at two inputs. At span 110 (cell size `55/16`) and the requested centre
`(1802241.625, 0, 0)`, where the quotient and the product are both rounded, the snapped
centre is within `cellSize / 2 + (|u.x| + cellSize) / 2^22 + 2^-150` of the request. At
span 50 (cell size `25/16`) and the requested centre `(125/32, -25/8, 0)` the quotients
`5/2`, `-2`, `0` and the products `75/16`, `-25/8`, `0` are binary32 values, and the
snapped centre is within half a cell of the request. -/
theorem C2_setGridCenter_snaps_to_nearest_cell_witness :
    ((0 : ℚ) < (sampleCascadeOfSpan 110).mGridSpan ∧ 0 < sampleConfig.GridRes ∧
      f32.cellExact sampleConfig (sampleCascadeOfSpan 110) ∧
      f32.snapFinite (f32.getCellSize sampleConfig (sampleCascadeOfSpan 110))
        ⟨14417933 / 8, 0, 0⟩ ∧
      |(f32.snapToGrid (f32.getCellSize sampleConfig (sampleCascadeOfSpan 110))
          ⟨14417933 / 8, 0, 0⟩).x - 14417933 / 8| ≤
        f32.getCellSize sampleConfig (sampleCascadeOfSpan 110) / 2 +
          (|(14417933 / 8 : ℚ)| + f32.getCellSize sampleConfig (sampleCascadeOfSpan 110)) /
            2 ^ 22 + 1 / 2 ^ 150) ∧
    ((0 : ℚ) < (sampleCascadeOfSpan 50).mGridSpan ∧
      f32.cellExact sampleConfig (sampleCascadeOfSpan 50) ∧
      f32.snapFinite (f32.getCellSize sampleConfig (sampleCascadeOfSpan 50))
        ⟨125 / 32, -25 / 8, 0⟩ ∧
      f32.snapExact (getCellSize sampleConfig (sampleCascadeOfSpan 50))
        ⟨125 / 32, -25 / 8, 0⟩ ∧
      (∃ kx ky kz : ℤ,
        f32.snapToGrid (f32.getCellSize sampleConfig (sampleCascadeOfSpan 50))
          ⟨125 / 32, -25 / 8, 0⟩ =
        ⟨kx * f32.getCellSize sampleConfig (sampleCascadeOfSpan 50),
          ky * f32.getCellSize sampleConfig (sampleCascadeOfSpan 50),
          kz * f32.getCellSize sampleConfig (sampleCascadeOfSpan 50)⟩) ∧
      |(f32.snapToGrid (f32.getCellSize sampleConfig (sampleCascadeOfSpan 50))
          ⟨125 / 32, -25 / 8, 0⟩).x - 125 / 32| ≤
        f32.getCellSize sampleConfig (sampleCascadeOfSpan 50) / 2) :=
  ⟨⟨by norm_num [sampleCascadeOfSpan, sampleCascade], by decide, cellExact_span110,
      snapFinite_span110,
      (C2_setGridCenter_snaps_to_nearest_cell sampleConfig (sampleCascadeOfSpan 110)
        ⟨14417933 / 8, 0, 0⟩ (by norm_num [sampleCascadeOfSpan, sampleCascade]) (by decide)
        cellExact_span110 snapFinite_span110).2.2.2.2.1.1⟩,
    ⟨by norm_num [sampleCascadeOfSpan, sampleCascade], cellExact_span50,
      snapFinite_of_snapExact _ _ _ (by norm_num [sampleCascadeOfSpan, sampleCascade])
        (by decide) cellExact_span50 snapExact_span50,
      snapExact_span50,
      ((C2_setGridCenter_snaps_to_nearest_cell sampleConfig (sampleCascadeOfSpan 50)
        ⟨125 / 32, -25 / 8, 0⟩ (by norm_num [sampleCascadeOfSpan, sampleCascade])
        (by decide) cellExact_span50
        (snapFinite_of_snapExact _ _ _ (by norm_num [sampleCascadeOfSpan, sampleCascade])
          (by decide) cellExact_span50 snapExact_span50)).2.2.2.2.2 snapExact_span50).1,
      ((C2_setGridCenter_snaps_to_nearest_cell sampleConfig (sampleCascadeOfSpan 50)
        ⟨125 / 32, -25 / 8, 0⟩ (by norm_num [sampleCascadeOfSpan, sampleCascade])
        (by decide) cellExact_span50
        (snapFinite_of_snapExact _ _ _ (by norm_num [sampleCascadeOfSpan, sampleCascade])
          (by decide) cellExact_span50 snapExact_span50)).2.2.2.2.2 snapExact_span50).2.1⟩⟩


/-- The sum `2^26 + 12` lies half way between the binary32 neighbours `2^26 + 8` and
`2^26 + 16` (the unit in the last place is 8 there) and goes to the one with the even last
bit. -/
theorem fl_sample_far_sum : fl 67108876 = 67108880 := by
  have ht := roundHalfEven_tie 8388609
  have hq : (67108876 : ℚ) / 2 ^ ((26 : ℤ) - 23) = ((8388609 : ℤ) : ℚ) + 1 / 2 := by
    norm_num
  have h := fl_eq_of 67108876 26 8388610 (by norm_num)
    (by rw [abs_of_pos (by norm_num)]; norm_num)
    (by rw [abs_of_pos (by norm_num)]; norm_num)
    (by rw [hq, ht]; norm_num)
  rw [h]
  norm_num

theorem fl_far_center : fl 67108880 = 67108880 :=
  fl_of_eq 67108880 8388610 3 (by norm_num) (by norm_num) (by norm_num)

theorem roundf_far_center : roundf 67108880 = 67108880 := by
  simpa using roundf_intCast 67108880

/-- The centre `beginFrame` asks for at span 32 with the camera at `(2^26, 0, 0)` looking
along `(1, 0, 0)`: the sum `camPos.x + 12` rounds to `2^26 + 16`. -/
theorem f32_frameGridCenter_far :
    f32.frameGridCenter sampleConfig (sampleCascade 0) ⟨67108864, 0, 0⟩ ⟨1, 0, 0⟩ =
      ⟨67108880, 0, 0⟩ := by
  have e1 : (4 : ℚ) * 1 = 4 := by norm_num
  have e2 : (16 : ℚ) - 4 = 12 := by norm_num
  have e3 : (67108864 : ℚ) + 12 = 67108876 := by norm_num
  have e4 : max (max (1 : ℚ) 0) 0 = 1 := by norm_num
  simp only [f32.frameGridCenter, f32_getCellSize_sample, f32_getSideHalf_sample, f32.divS,
    f32.mulS, f32.add3, f32.div, f32.mul, f32.sub, f32.add, fabsf_one, fabsf_zero, e4, e1,
    fl_four, e2, fl_12, div_one, fl_one, one_mul, zero_div, fl_zero, zero_mul, add_zero, e3,
    fl_sample_far_sum]

theorem f32_frameSnappedCenter_far :
    f32.frameSnappedCenter sampleConfig (sampleCascade 0) ⟨67108864, 0, 0⟩ ⟨1, 0, 0⟩ =
      ⟨67108880, 0, 0⟩ := by
  simp only [f32.frameSnappedCenter, f32_frameGridCenter_far, f32_getCellSize_sample,
    f32.snapToGrid, f32.divS, f32.mulS, f32.div, f32.mul, div_one, fl_far_center,
    roundf_far_center, mul_one, fl_zero, roundf_zero]

theorem vec3_x_ne_zero : (⟨1, 0, 0⟩ : vec3) ≠ ⟨0, 0, 0⟩ := by
  intro h
  have := congrArg vec3.x h
  norm_num at this

/-- C4 as stated fails in binary32 arithmetic. At span 32 with `GridRes = 32` (cell size 1,
bound `gridSpan / 2 - 3.5 * cellSize = 12.5`) and the camera looking along `(1, 0, 0)`:
from `camPos = (1/2 - 2^-25, 0, 0)` the sum `camPos.x + 12` rounds to `12.5`, which
`roundf` takes to 13, so the snapped centre is `(13, 0, 0)` and
`|camPos.x - s.x| = 12.5 + 2^-25` exceeds the bound; from `camPos = (2^26, 0, 0)` the sum
rounds to `2^26 + 16`, the snapped centre is `(2^26 + 16, 0, 0)` and
`|camPos.x - s.x| = 16 = gridSpan / 2`: the camera lies on a face of the cube. Both camera
positions are binary32 values and the test that guards `setGridCenter` passes. -/
theorem C4_counterexample :
    sampleConfig.GridRes = 32 ∧ (0 : ℚ) < (sampleCascade 0).mGridSpan ∧
    (⟨1, 0, 0⟩ : vec3) ≠ ⟨0, 0, 0⟩ ∧
    recenterGuard sampleConfig (sampleCascade 0).mFlags = true ∧
    binary32V ⟨16777215 / 33554432, 0, 0⟩ ∧
    f32.frameSnappedCenter sampleConfig (sampleCascade 0) ⟨16777215 / 33554432, 0, 0⟩
      ⟨1, 0, 0⟩ = ⟨13, 0, 0⟩ ∧
    (f32.beginFrameCascade sampleConfig (sampleCascade 0) ⟨16777215 / 33554432, 0, 0⟩
      ⟨1, 0, 0⟩).mInjectState.mGridToWorld = gridToWorldOf 32 ⟨13, 0, 0⟩ ∧
    ¬ (|(⟨16777215 / 33554432, 0, 0⟩ : vec3).x -
        (f32.frameSnappedCenter sampleConfig (sampleCascade 0) ⟨16777215 / 33554432, 0, 0⟩
          ⟨1, 0, 0⟩).x| ≤
      (sampleCascade 0).mGridSpan / 2 -
        7 / 2 * f32.getCellSize sampleConfig (sampleCascade 0)) ∧
    binary32V ⟨67108864, 0, 0⟩ ∧
    f32.frameSnappedCenter sampleConfig (sampleCascade 0) ⟨67108864, 0, 0⟩ ⟨1, 0, 0⟩ =
      ⟨67108880, 0, 0⟩ ∧
    |(⟨67108864, 0, 0⟩ : vec3).x -
        (f32.frameSnappedCenter sampleConfig (sampleCascade 0) ⟨67108864, 0, 0⟩
          ⟨1, 0, 0⟩).x| = (sampleCascade 0).mGridSpan / 2 := by
  have hspan : (sampleCascade 0).mGridSpan = 32 := rfl
  have hG := f32_gridToWorld_eq 16 ⟨13, 0, 0⟩
    (binary32_of_eq _ 16 0 (by norm_num) (by norm_num) (by norm_num) (by norm_num))
    (binary32_of_eq _ 32 0 (by norm_num) (by norm_num) (by norm_num) (by norm_num))
    ⟨binary32_of_eq _ 13 0 (by norm_num) (by norm_num) (by norm_num) (by norm_num),
      binary32_zero, binary32_zero⟩
    ⟨binary32_of_eq _ (-3) 0 (by norm_num) (by norm_num) (by norm_num) (by norm_num),
      binary32_of_eq _ (-16) 0 (by norm_num) (by norm_num) (by norm_num) (by norm_num),
      binary32_of_eq _ (-16) 0 (by norm_num) (by norm_num) (by norm_num) (by norm_num)⟩
  have e2 : (16 : ℚ) * 2 = 32 := by norm_num
  rw [e2] at hG
  have hsnap : f32.snapToGrid (f32.getCellSize sampleConfig (sampleCascade 0))
      (f32.frameGridCenter sampleConfig (sampleCascade 0) ⟨16777215 / 33554432, 0, 0⟩
        ⟨1, 0, 0⟩) = ⟨13, 0, 0⟩ := f32_frameSnappedCenter_sample
  refine ⟨rfl, by rw [hspan]; norm_num, vec3_x_ne_zero, by decide, ?_,
    f32_frameSnappedCenter_sample, ?_, ?_, ?_, f32_frameSnappedCenter_far, ?_⟩
  · exact ⟨binary32_of_eq _ 16777215 (-25) (by norm_num) (by norm_num) (by norm_num)
      (by norm_num), binary32_zero, binary32_zero⟩
  · have hg : recenterGuard sampleConfig (sampleCascade 0).mFlags = true := by decide
    simp only [f32.beginFrameCascade, hg, if_true, f32.setGridCenter, hsnap,
      f32_getSideHalf_sample, hG]
  · rw [f32_frameSnappedCenter_sample, f32_getCellSize_sample, hspan]
    norm_num [abs_le]
  · exact ⟨binary32_of_eq _ 1 26 (by norm_num) (by norm_num) (by norm_num) (by norm_num),
      binary32_zero, binary32_zero⟩
  · rw [f32_frameSnappedCenter_far, hspan]
    norm_num [abs_of_neg]

/-- One axis of the margin bound in `float` arithmetic, at `GridRes = 32`: a centre `g`
within the reach `span / 2 - 4 * cell` of the camera, computed as `g1` with the error of
four roundings and snapped to `s` with the error of two more, stays within
`span / 2 - 3.5 * cell + (|cam| + span) / 2^21 + 2^-146` of the camera. -/
theorem f32_margin_axis (span cell cam g g1 s : ℚ) (hcs : span = 32 * cell) (hcell : 0 ≤ cell)
    (hg : |g - cam| ≤ span / 2 - 4 * cell)
    (hgg : |g1 - g| ≤ |cam| / 2 ^ 24 + span / 2 ^ 22 + 1 / 2 ^ 147)
    (hs : |s - g1| ≤ cell / 2 + (|g1| + cell) / 2 ^ 22 + 1 / 2 ^ 150) :
    |cam - s| ≤ span / 2 - 7 / 2 * cell + ((|cam| + span) / 2 ^ 21 + 1 / 2 ^ 146) := by
  have hA := abs_nonneg cam
  have t1 : |cam - s| ≤ |g - cam| + |g1 - g| + |s - g1| := by
    have e : cam - s = -((g - cam) + (g1 - g) + (s - g1)) := by ring
    rw [e, abs_neg]
    exact le_trans (abs_add _ _) (add_le_add_right (abs_add _ _) _)
  have t2 : |g1| ≤ |cam| + |g - cam| + |g1 - g| := by
    have e : g1 = cam + (g - cam) + (g1 - g) := by ring
    calc |g1| = |cam + (g - cam) + (g1 - g)| := by rw [← e]
      _ ≤ |cam + (g - cam)| + |g1 - g| := abs_add _ _
      _ ≤ |cam| + |g - cam| + |g1 - g| := add_le_add_right (abs_add _ _) _
  have t3 : (|g1| + cell) / 2 ^ 22 ≤
      (|cam| + (span / 2 - 4 * cell) + (|cam| / 2 ^ 24 + span / 2 ^ 22 + 1 / 2 ^ 147) + cell) /
        2 ^ 22 :=
    (div_le_div_iff_of_pos_right (by positivity)).mpr (by linarith)
  have e3 : (|cam| + (span / 2 - 4 * cell) + (|cam| / 2 ^ 24 + span / 2 ^ 22 + 1 / 2 ^ 147) +
      cell) / 2 ^ 22 =
      |cam| * (1 / 2 ^ 22 + 1 / 2 ^ 46) + cell * (13 / 2 ^ 22 + 32 / 2 ^ 44) + 1 / 2 ^ 169 := by
    rw [hcs]
    ring
  have e4 : |cam| / 2 ^ 24 + span / 2 ^ 22 + 1 / 2 ^ 147 =
      |cam| * (1 / 2 ^ 24) + cell * (32 / 2 ^ 22) + 1 / 2 ^ 147 := by
    rw [hcs]
    ring
  have e5 : (|cam| + span) / 2 ^ 21 + 1 / 2 ^ 146 =
      |cam| * (1 / 2 ^ 21) + cell * (32 / 2 ^ 21) + 1 / 2 ^ 146 := by
    rw [hcs]
    ring
  have c1 : |cam| * (1 / 2 ^ 24) + |cam| * (1 / 2 ^ 22 + 1 / 2 ^ 46) ≤ |cam| * (1 / 2 ^ 21) := by
    rw [← mul_add]
    exact mul_le_mul_of_nonneg_left (by norm_num) hA
  have c2 : cell * (32 / 2 ^ 22) + cell * (13 / 2 ^ 22 + 32 / 2 ^ 44) ≤ cell * (32 / 2 ^ 21) := by
    rw [← mul_add]
    exact mul_le_mul_of_nonneg_left (by norm_num) hcell
  have c3 : (1 : ℚ) / 2 ^ 147 + 1 / 2 ^ 169 + 1 / 2 ^ 150 ≤ 1 / 2 ^ 146 := by norm_num
  rw [e5]
  rw [e4] at hgg
  rw [e3] at t3
  linarith

/-- C4, amended. In binary32 arithmetic the camera is inside the grid with margin after
`beginFrame`, up to the rounding of the centre. With `GridRes = 32`, a positive span, a
non-zero camera direction, the cell size, `sideHalf` and `4 * cellSize` computed without
rounding, `|camPos_i| + gridSpan` at most `FLT_MAX`, and a snap that stays inside the
binary32 range, the snapped centre `s` of `beginFrame` is a vector of binary32 values with
`|camPos_i - s_i| <= gridSpan / 2 - 3.5 * cellSize + (|camPos_i| + gridSpan) / 2^21 + 2^-146`
on every axis; on an axis where `(|camPos_i| + gridSpan) / 2^21 + 2^-146` is at most half
a cell, at least three full cells lie between `camPos` and either face of the cube
`[s - gridSpan / 2, s + gridSpan / 2]`. If moreover the computation of the centre and the
snap round nowhere, `|camPos_i - s_i| <= gridSpan / 2 - 3.5 * cellSize` on every axis and
`camPos` is more than three cells inside the cube. When the test that guards
`setGridCenter` passes, `mGridToWorld` after `beginFrame` is the product built from `s`. -/
theorem C4_camera_inside_grid_with_margin (cfg : Config) (c : LightPropagationCascade)
    (camPos camDir : vec3) (hres : cfg.GridRes = 32) (hspan : 0 < c.mGridSpan)
    (hdir : camDir ≠ ⟨0, 0, 0⟩) (hcell : f32.cellExact cfg c)
    (hfin : f32.frameFinite cfg c camPos)
    (hsf : f32.snapFinite (f32.getCellSize cfg c) (f32.frameGridCenter cfg c camPos camDir)) :
    binary32V (f32.frameSnappedCenter cfg c camPos camDir) ∧
    (|camPos.x - (f32.frameSnappedCenter cfg c camPos camDir).x| ≤
        c.mGridSpan / 2 - 7 / 2 * f32.getCellSize cfg c +
          ((|camPos.x| + c.mGridSpan) / 2 ^ 21 + 1 / 2 ^ 146) ∧
      |camPos.y - (f32.frameSnappedCenter cfg c camPos camDir).y| ≤
        c.mGridSpan / 2 - 7 / 2 * f32.getCellSize cfg c +
          ((|camPos.y| + c.mGridSpan) / 2 ^ 21 + 1 / 2 ^ 146) ∧
      |camPos.z - (f32.frameSnappedCenter cfg c camPos camDir).z| ≤
        c.mGridSpan / 2 - 7 / 2 * f32.getCellSize cfg c +
          ((|camPos.z| + c.mGridSpan) / 2 ^ 21 + 1 / 2 ^ 146)) ∧
    (((|camPos.x| + c.mGridSpan) / 2 ^ 21 + 1 / 2 ^ 146 ≤ f32.getCellSize cfg c / 2 →
        |camPos.x - (f32.frameSnappedCenter cfg c camPos camDir).x| ≤
          c.mGridSpan / 2 - 3 * f32.getCellSize cfg c) ∧
      ((|camPos.y| + c.mGridSpan) / 2 ^ 21 + 1 / 2 ^ 146 ≤ f32.getCellSize cfg c / 2 →
        |camPos.y - (f32.frameSnappedCenter cfg c camPos camDir).y| ≤
          c.mGridSpan / 2 - 3 * f32.getCellSize cfg c) ∧
      ((|camPos.z| + c.mGridSpan) / 2 ^ 21 + 1 / 2 ^ 146 ≤ f32.getCellSize cfg c / 2 →
        |camPos.z - (f32.frameSnappedCenter cfg c camPos camDir).z| ≤
          c.mGridSpan / 2 - 3 * f32.getCellSize cfg c)) ∧
    (f32.frameExact cfg c camPos camDir →
      f32.snapExact (getCellSize cfg c) (frameGridCenter cfg c camPos camDir) →
      (|camPos.x - (f32.frameSnappedCenter cfg c camPos camDir).x|
          ≤ c.mGridSpan / 2 - 7 / 2 * f32.getCellSize cfg c ∧
        |camPos.y - (f32.frameSnappedCenter cfg c camPos camDir).y|
          ≤ c.mGridSpan / 2 - 7 / 2 * f32.getCellSize cfg c ∧
        |camPos.z - (f32.frameSnappedCenter cfg c camPos camDir).z|
          ≤ c.mGridSpan / 2 - 7 / 2 * f32.getCellSize cfg c) ∧
      ((f32.frameSnappedCenter cfg c camPos camDir).x - c.mGridSpan / 2
            + 3 * f32.getCellSize cfg c < camPos.x ∧
        camPos.x < (f32.frameSnappedCenter cfg c camPos camDir).x + c.mGridSpan / 2
          - 3 * f32.getCellSize cfg c ∧
        (f32.frameSnappedCenter cfg c camPos camDir).y - c.mGridSpan / 2
            + 3 * f32.getCellSize cfg c < camPos.y ∧
        camPos.y < (f32.frameSnappedCenter cfg c camPos camDir).y + c.mGridSpan / 2
          - 3 * f32.getCellSize cfg c ∧
        (f32.frameSnappedCenter cfg c camPos camDir).z - c.mGridSpan / 2
            + 3 * f32.getCellSize cfg c < camPos.z ∧
        camPos.z < (f32.frameSnappedCenter cfg c camPos camDir).z + c.mGridSpan / 2
          - 3 * f32.getCellSize cfg c)) ∧
    (recenterGuard cfg c.mFlags = true →
      (f32.beginFrameCascade cfg c camPos camDir).mInjectState.mGridToWorld =
        f32.mulMat (f32.mulMat (translate (f32.frameSnappedCenter cfg c camPos camDir))
          (scale (f32.getSideHalf c) (f32.getSideHalf c) (f32.getSideHalf c)))
          (f32.mulMat (translate3 (-1) (-1) (-1)) (scale 2 2 2))) := by
  have hc := f32_getCellSize_eq cfg c hcell
  have hres0 : 0 < cfg.GridRes := by omega
  have hcpos := getCellSize_pos cfg c hspan hres0
  have hcs : c.mGridSpan = 32 * getCellSize cfg c := by
    unfold getCellSize
    rw [hres]
    push_cast
    ring
  have hm := maxOffset_pos camDir hdir
  have hreach : 0 ≤ c.mGridSpan / 2 - 4 * getCellSize cfg c := by linarith
  have hx : |camDir.x| ≤ max (max (fabsf camDir.x) (fabsf camDir.y)) (fabsf camDir.z) := by
    rw [← fabsf_eq_abs]
    exact le_trans (le_max_left _ _) (le_max_left _ _)
  have hy : |camDir.y| ≤ max (max (fabsf camDir.x) (fabsf camDir.y)) (fabsf camDir.z) := by
    rw [← fabsf_eq_abs]
    exact le_trans (le_max_right _ _) (le_max_left _ _)
  have hz : |camDir.z| ≤ max (max (fabsf camDir.x) (fabsf camDir.y)) (fabsf camDir.z) := by
    rw [← fabsf_eq_abs]
    exact le_max_right _ _
  have gx : |(frameGridCenter cfg c camPos camDir).x - camPos.x| ≤
      c.mGridSpan / 2 - 4 * getCellSize cfg c := by
    have e : (frameGridCenter cfg c camPos camDir).x - camPos.x = camDir.x /
        max (max (fabsf camDir.x) (fabsf camDir.y)) (fabsf camDir.z) *
          (c.mGridSpan / 2 - 4 * getCellSize cfg c) := by
      simp only [frameGridCenter, getSideHalf, vec3.add, vec3.mulS, vec3.divS]
      ring
    rw [e]
    exact offset_component_le _ _ _ hm hx hreach
  have gy : |(frameGridCenter cfg c camPos camDir).y - camPos.y| ≤
      c.mGridSpan / 2 - 4 * getCellSize cfg c := by
    have e : (frameGridCenter cfg c camPos camDir).y - camPos.y = camDir.y /
        max (max (fabsf camDir.x) (fabsf camDir.y)) (fabsf camDir.z) *
          (c.mGridSpan / 2 - 4 * getCellSize cfg c) := by
      simp only [frameGridCenter, getSideHalf, vec3.add, vec3.mulS, vec3.divS]
      ring
    rw [e]
    exact offset_component_le _ _ _ hm hy hreach
  have gz : |(frameGridCenter cfg c camPos camDir).z - camPos.z| ≤
      c.mGridSpan / 2 - 4 * getCellSize cfg c := by
    have e : (frameGridCenter cfg c camPos camDir).z - camPos.z = camDir.z /
        max (max (fabsf camDir.x) (fabsf camDir.y)) (fabsf camDir.z) *
          (c.mGridSpan / 2 - 4 * getCellSize cfg c) := by
      simp only [frameGridCenter, getSideHalf, vec3.add, vec3.mulS, vec3.divS]
      ring
    rw [e]
    exact offset_component_le _ _ _ hm hz hreach
  obtain ⟨_, nx, ny, nz⟩ := f32_frameGridCenter_near cfg c camPos camDir hres hspan hdir hcell hfin
  have hsfin : binary32V (f32.frameSnappedCenter cfg c camPos camDir) :=
    f32_snapToGrid_binary32V _ _ hsf
  have hpos : 0 < f32.getCellSize cfg c := by
    rw [hc]
    exact hcpos
  have hcs1 : c.mGridSpan = 32 * f32.getCellSize cfg c := by
    rw [hc]
    exact hcs
  rw [← hc] at gx gy gz
  obtain ⟨sx, sy, sz⟩ := f32_snapToGrid_near (f32.getCellSize cfg c)
    (f32.frameGridCenter cfg c camPos camDir) hpos
  have bx : |camPos.x - (f32.frameSnappedCenter cfg c camPos camDir).x| ≤
      c.mGridSpan / 2 - 7 / 2 * f32.getCellSize cfg c +
        ((|camPos.x| + c.mGridSpan) / 2 ^ 21 + 1 / 2 ^ 146) :=
    f32_margin_axis _ _ _ _ _ _ hcs1 hpos.le gx nx sx
  have by1 : |camPos.y - (f32.frameSnappedCenter cfg c camPos camDir).y| ≤
      c.mGridSpan / 2 - 7 / 2 * f32.getCellSize cfg c +
        ((|camPos.y| + c.mGridSpan) / 2 ^ 21 + 1 / 2 ^ 146) :=
    f32_margin_axis _ _ _ _ _ _ hcs1 hpos.le gy ny sy
  have bz : |camPos.z - (f32.frameSnappedCenter cfg c camPos camDir).z| ≤
      c.mGridSpan / 2 - 7 / 2 * f32.getCellSize cfg c +
        ((|camPos.z| + c.mGridSpan) / 2 ^ 21 + 1 / 2 ^ 146) :=
    f32_margin_axis _ _ _ _ _ _ hcs1 hpos.le gz nz sz
  refine ⟨hsfin, ⟨bx, by1, bz⟩, ⟨?_, ?_, ?_⟩, ?_, ?_⟩
  · intro h
    linarith
  · intro h
    linarith
  · intro h
    linarith
  · intro hframe hsnap
    have hf := f32_frameGridCenter_eq cfg c camPos camDir hcell hframe
    have hs : f32.frameSnappedCenter cfg c camPos camDir =
        frameSnappedCenter cfg c camPos camDir := by
      unfold f32.frameSnappedCenter frameSnappedCenter
      rw [hc, hf]
      exact f32_snapToGrid_eq _ _ hsnap
    have h := frameSnappedCenter_margin cfg c camPos camDir hres hspan hdir
    rw [hs, hc]
    exact ⟨h.1, h.2.1⟩
  · intro hg
    simp only [f32.beginFrameCascade, hg, if_true]
    rfl

theorem cellExact_sample : f32.cellExact sampleConfig (sampleCascade 0) := by
  refine ⟨?_, ?_⟩
  · exact binary32_of_eq _ 32 0 (by norm_num [sampleConfig]) (by norm_num) (by norm_num)
      (by norm_num)
  · exact binary32_of_eq _ 1 0 (by norm_num [getCellSize, sampleConfig, sampleCascade])
      (by norm_num) (by norm_num) (by norm_num)

theorem maxOffset_sample : max (max (fabsf 2) (fabsf 0)) (fabsf (-1)) = 2 := by
  simp only [fabsf_eq_abs]
  norm_num

/-- The centre `beginFrame` asks for, in exact arithmetic, at span 32 with the camera at
`(1, 2, 3)` looking along `(2, 0, -1)`. -/
theorem frameGridCenter_sample :
    frameGridCenter sampleConfig (sampleCascade 0) ⟨1, 2, 3⟩ ⟨2, 0, -1⟩ = ⟨13, 2, -3⟩ := by
  simp only [frameGridCenter, maxOffset_sample, getSideHalf, getCellSize, sampleConfig,
    sampleCascade, vec3.divS, vec3.mulS, vec3.add]
  norm_num

theorem frameExact_sample :
    f32.frameExact sampleConfig (sampleCascade 0) ⟨1, 2, 3⟩ ⟨2, 0, -1⟩ := by
  refine ⟨?_, ?_, ?_, ⟨?_, ?_, ?_⟩, ⟨?_, ?_, ?_⟩, ?_⟩
  · exact binary32_of_eq _ 16 0 (by norm_num [getSideHalf, sampleCascade]) (by norm_num)
      (by norm_num) (by norm_num)
  · exact binary32_of_eq _ 4 0 (by norm_num [getCellSize, sampleConfig, sampleCascade])
      (by norm_num) (by norm_num) (by norm_num)
  · exact binary32_of_eq _ 12 0
      (by norm_num [getSideHalf, getCellSize, sampleConfig, sampleCascade])
      (by norm_num) (by norm_num) (by norm_num)
  · exact binary32_of_eq _ 1 0 (by simp only [vec3.divS, maxOffset_sample]; norm_num)
      (by norm_num) (by norm_num) (by norm_num)
  · exact binary32_of_eq _ 0 0 (by simp only [vec3.divS, maxOffset_sample]; norm_num)
      (by norm_num) (by norm_num) (by norm_num)
  · exact binary32_of_eq _ (-1) (-1) (by simp only [vec3.divS, maxOffset_sample]; norm_num)
      (by norm_num) (by norm_num) (by norm_num)
  · exact binary32_of_eq _ 12 0
      (by simp only [vec3.divS, vec3.mulS, maxOffset_sample]
          norm_num [getSideHalf, getCellSize, sampleConfig, sampleCascade])
      (by norm_num) (by norm_num) (by norm_num)
  · exact binary32_of_eq _ 0 0
      (by simp only [vec3.divS, vec3.mulS, maxOffset_sample]
          norm_num [getSideHalf, getCellSize, sampleConfig, sampleCascade])
      (by norm_num) (by norm_num) (by norm_num)
  · exact binary32_of_eq _ (-6) 0
      (by simp only [vec3.divS, vec3.mulS, maxOffset_sample]
          norm_num [getSideHalf, getCellSize, sampleConfig, sampleCascade])
      (by norm_num) (by norm_num) (by norm_num)
  · rw [frameGridCenter_sample]
    exact ⟨binary32_of_eq _ 13 0 (by norm_num) (by norm_num) (by norm_num) (by norm_num),
      binary32_of_eq _ 2 0 (by norm_num) (by norm_num) (by norm_num) (by norm_num),
      binary32_of_eq _ (-3) 0 (by norm_num) (by norm_num) (by norm_num) (by norm_num)⟩

theorem snapToGrid_frame_sample :
    snapToGrid (getCellSize sampleConfig (sampleCascade 0)) ⟨13, 2, -3⟩ = ⟨13, 2, -3⟩ := by
  have h := snapToGrid_fixed (getCellSize sampleConfig (sampleCascade 0)) 13 2 (-3)
    (by norm_num [getCellSize, sampleConfig, sampleCascade])
  have e : getCellSize sampleConfig (sampleCascade 0) = 1 := by
    norm_num [getCellSize, sampleConfig, sampleCascade]
  rw [e] at h ⊢
  norm_num at h
  exact h

theorem snapExact_frame_sample :
    f32.snapExact (getCellSize sampleConfig (sampleCascade 0))
      (frameGridCenter sampleConfig (sampleCascade 0) ⟨1, 2, 3⟩ ⟨2, 0, -1⟩) := by
  rw [frameGridCenter_sample]
  refine ⟨⟨?_, ?_, ?_⟩, ?_⟩
  · exact binary32_of_eq _ 13 0
      (by norm_num [getCellSize, sampleConfig, sampleCascade, vec3.divS])
      (by norm_num) (by norm_num) (by norm_num)
  · exact binary32_of_eq _ 2 0
      (by norm_num [getCellSize, sampleConfig, sampleCascade, vec3.divS])
      (by norm_num) (by norm_num) (by norm_num)
  · exact binary32_of_eq _ (-3) 0
      (by norm_num [getCellSize, sampleConfig, sampleCascade, vec3.divS])
      (by norm_num) (by norm_num) (by norm_num)
  · rw [snapToGrid_frame_sample]
    exact ⟨binary32_of_eq _ 13 0 (by norm_num) (by norm_num) (by norm_num) (by norm_num),
      binary32_of_eq _ 2 0 (by norm_num) (by norm_num) (by norm_num) (by norm_num),
      binary32_of_eq _ (-3) 0 (by norm_num) (by norm_num) (by norm_num) (by norm_num)⟩

theorem vec3_sample_dir_ne_zero : (⟨2, 0, -1⟩ : vec3) ≠ ⟨0, 0, 0⟩ := by
  intro h
  have := congrArg vec3.x h
  norm_num at this

theorem frameFinite_sample (camPos : vec3) (hx : |camPos.x| ≤ 1)
    (hy : |camPos.y| ≤ 2) (hz : |camPos.z| ≤ 3) :
    f32.frameFinite sampleConfig (sampleCascade 0) camPos := by
  have e : (sampleCascade 0).mGridSpan = 32 := rfl
  refine ⟨?_, ?_, ?_, ?_, ?_⟩
  · exact binary32_of_eq _ 16 0 (by norm_num [getSideHalf, sampleCascade]) (by norm_num)
      (by norm_num) (by norm_num)
  · exact binary32_of_eq _ 4 0 (by norm_num [getCellSize, sampleConfig, sampleCascade])
      (by norm_num) (by norm_num) (by norm_num)
  · rw [e]
    have : (35 : ℚ) ≤ FLT_MAX := by norm_num [FLT_MAX]
    linarith
  · rw [e]
    have : (35 : ℚ) ≤ FLT_MAX := by norm_num [FLT_MAX]
    linarith
  · rw [e]
    have : (35 : ℚ) ≤ FLT_MAX := by norm_num [FLT_MAX]
    linarith

/-- The snap of the centre `(12.5, 0, 0)`, which `beginFrame` asks for with the camera at
`(1/2 - 2^-25, 0, 0)`, stays inside the binary32 range. -/
theorem snapFinite_frame_rounding :
    f32.snapFinite (f32.getCellSize sampleConfig (sampleCascade 0))
      (f32.frameGridCenter sampleConfig (sampleCascade 0) ⟨16777215 / 33554432, 0, 0⟩
        ⟨1, 0, 0⟩) := by
  rw [f32_getCellSize_sample, f32_frameGridCenter_sample]
  simp only [f32.snapFinite, f32.div, div_one, fl_25_2, roundf_25_2, fl_zero, roundf_zero,
    mul_one, abs_zero]
  refine ⟨by norm_num, ⟨?_, ?_, ?_⟩, ?_, ?_, ?_⟩ <;>
    first
      | (rw [abs_of_pos (by norm_num)]; norm_num [FLT_MAX])
      | norm_num [FLT_MAX]

theorem snapFinite_frame_sample :
    f32.snapFinite (f32.getCellSize sampleConfig (sampleCascade 0))
      (f32.frameGridCenter sampleConfig (sampleCascade 0) ⟨1, 2, 3⟩ ⟨2, 0, -1⟩) := by
  rw [f32_frameGridCenter_eq _ _ _ _ cellExact_sample frameExact_sample]
  exact snapFinite_of_snapExact _ _ _ (by norm_num [sampleCascade]) (by decide)
    cellExact_sample snapExact_frame_sample

/-- C4, amended, at two inputs of the span-32 cascade with a zero flag word. With the
camera at `(1/2 - 2^-25, 0, 0)` looking along `(1, 0, 0)`, where the sum `camPos.x + 12` is
rounded, the snapped centre is within `12.5 + (|camPos.x| + 32) / 2^21 + 2^-146` of the
camera and three full cells remain. With the camera at `(1, 2, 3)` looking along
`(2, 0, -1)` the centre asked for is `(13, 2, -3)`, nothing rounds, and the snapped centre
is within `12.5` of the camera. -/
theorem C4_camera_inside_grid_with_margin_witness :
    (sampleConfig.GridRes = 32 ∧ (0 : ℚ) < (sampleCascade 0).mGridSpan ∧
      (⟨1, 0, 0⟩ : vec3) ≠ ⟨0, 0, 0⟩ ∧
      f32.cellExact sampleConfig (sampleCascade 0) ∧
      f32.frameFinite sampleConfig (sampleCascade 0) ⟨16777215 / 33554432, 0, 0⟩ ∧
      f32.snapFinite (f32.getCellSize sampleConfig (sampleCascade 0))
        (f32.frameGridCenter sampleConfig (sampleCascade 0) ⟨16777215 / 33554432, 0, 0⟩
          ⟨1, 0, 0⟩) ∧
      |(⟨16777215 / 33554432, 0, 0⟩ : vec3).x -
          (f32.frameSnappedCenter sampleConfig (sampleCascade 0) ⟨16777215 / 33554432, 0, 0⟩
            ⟨1, 0, 0⟩).x| ≤
        (sampleCascade 0).mGridSpan / 2 -
          7 / 2 * f32.getCellSize sampleConfig (sampleCascade 0) +
          ((|(⟨16777215 / 33554432, 0, 0⟩ : vec3).x| + (sampleCascade 0).mGridSpan) / 2 ^ 21 +
            1 / 2 ^ 146) ∧
      |(⟨16777215 / 33554432, 0, 0⟩ : vec3).x -
          (f32.frameSnappedCenter sampleConfig (sampleCascade 0) ⟨16777215 / 33554432, 0, 0⟩
            ⟨1, 0, 0⟩).x| ≤
        (sampleCascade 0).mGridSpan / 2 -
          3 * f32.getCellSize sampleConfig (sampleCascade 0)) ∧
    ((⟨2, 0, -1⟩ : vec3) ≠ ⟨0, 0, 0⟩ ∧
      f32.frameFinite sampleConfig (sampleCascade 0) ⟨1, 2, 3⟩ ∧
      f32.snapFinite (f32.getCellSize sampleConfig (sampleCascade 0))
        (f32.frameGridCenter sampleConfig (sampleCascade 0) ⟨1, 2, 3⟩ ⟨2, 0, -1⟩) ∧
      f32.frameExact sampleConfig (sampleCascade 0) ⟨1, 2, 3⟩ ⟨2, 0, -1⟩ ∧
      f32.snapExact (getCellSize sampleConfig (sampleCascade 0))
        (frameGridCenter sampleConfig (sampleCascade 0) ⟨1, 2, 3⟩ ⟨2, 0, -1⟩) ∧
      recenterGuard sampleConfig (sampleCascade 0).mFlags = true ∧
      |(⟨1, 2, 3⟩ : vec3).x -
          (f32.frameSnappedCenter sampleConfig (sampleCascade 0) ⟨1, 2, 3⟩ ⟨2, 0, -1⟩).x|
        ≤ (sampleCascade 0).mGridSpan / 2 -
          7 / 2 * f32.getCellSize sampleConfig (sampleCascade 0) ∧
      (f32.beginFrameCascade sampleConfig (sampleCascade 0) ⟨1, 2, 3⟩
          ⟨2, 0, -1⟩).mInjectState.mGridToWorld =
        f32.mulMat (f32.mulMat
          (translate (f32.frameSnappedCenter sampleConfig (sampleCascade 0) ⟨1, 2, 3⟩
            ⟨2, 0, -1⟩))
          (scale (f32.getSideHalf (sampleCascade 0)) (f32.getSideHalf (sampleCascade 0))
            (f32.getSideHalf (sampleCascade 0))))
          (f32.mulMat (translate3 (-1) (-1) (-1)) (scale 2 2 2))) :=
  ⟨⟨rfl, by norm_num [sampleCascade], vec3_x_ne_zero, cellExact_sample,
      frameFinite_sample _ (by rw [abs_of_pos (by norm_num)]; norm_num) (by norm_num)
        (by norm_num),
      snapFinite_frame_rounding,
      (C4_camera_inside_grid_with_margin sampleConfig (sampleCascade 0)
        ⟨16777215 / 33554432, 0, 0⟩ ⟨1, 0, 0⟩ rfl (by norm_num [sampleCascade])
        vec3_x_ne_zero cellExact_sample
        (frameFinite_sample _ (by rw [abs_of_pos (by norm_num)]; norm_num) (by norm_num)
          (by norm_num))
        snapFinite_frame_rounding).2.1.1,
      (C4_camera_inside_grid_with_margin sampleConfig (sampleCascade 0)
        ⟨16777215 / 33554432, 0, 0⟩ ⟨1, 0, 0⟩ rfl (by norm_num [sampleCascade])
        vec3_x_ne_zero cellExact_sample
        (frameFinite_sample _ (by rw [abs_of_pos (by norm_num)]; norm_num) (by norm_num)
          (by norm_num))
        snapFinite_frame_rounding).2.2.1.1
        (by
          rw [f32_getCellSize_sample]
          have e : (sampleCascade 0).mGridSpan = 32 := rfl
          rw [e, abs_of_pos (by norm_num)]
          norm_num)⟩,
    ⟨vec3_sample_dir_ne_zero,
      frameFinite_sample _ (by norm_num) (by norm_num) (by norm_num),
      snapFinite_frame_sample, frameExact_sample, snapExact_frame_sample, by decide,
      ((C4_camera_inside_grid_with_margin sampleConfig (sampleCascade 0) ⟨1, 2, 3⟩ ⟨2, 0, -1⟩
        rfl (by norm_num [sampleCascade]) vec3_sample_dir_ne_zero cellExact_sample
        (frameFinite_sample _ (by norm_num) (by norm_num) (by norm_num))
        snapFinite_frame_sample).2.2.2.1 frameExact_sample snapExact_frame_sample).1.1,
      (C4_camera_inside_grid_with_margin sampleConfig (sampleCascade 0) ⟨1, 2, 3⟩ ⟨2, 0, -1⟩
        rfl (by norm_num [sampleCascade]) vec3_sample_dir_ne_zero cellExact_sample
        (frameFinite_sample _ (by norm_num) (by norm_num) (by norm_num))
        snapFinite_frame_sample).2.2.2.2 (by decide)⟩⟩


/-- C23 as stated fails in binary32 arithmetic. At span 32 with `GridRes = 32` (cell size 1,
reach `gridSpan / 2 - 4 * cellSize = 12`) and the camera looking along `(1, 0, 0)`: from
`camPos = (1/2 - 2^-25, 0, 0)` the sum `camPos.x + 12` rounds to `12.5`, so the unsnapped
centre minus `camPos` is `(12 + 2^-25, 0, 0)` and its largest absolute component is not 12;
from `camPos = (2^26, 0, 0)` the sum rounds to `2^26 + 16` and the largest absolute
component is 16. Both camera positions are binary32 values. -/
theorem C23_counterexample :
    sampleConfig.GridRes = 32 ∧ (0 : ℚ) < (sampleCascade 0).mGridSpan ∧
    (⟨1, 0, 0⟩ : vec3) ≠ ⟨0, 0, 0⟩ ∧
    binary32V ⟨16777215 / 33554432, 0, 0⟩ ∧
    (f32.frameGridCenter sampleConfig (sampleCascade 0) ⟨16777215 / 33554432, 0, 0⟩
        ⟨1, 0, 0⟩).sub ⟨16777215 / 33554432, 0, 0⟩ = ⟨402653185 / 33554432, 0, 0⟩ ∧
    (sampleCascade 0).mGridSpan / 2 - 4 * f32.getCellSize sampleConfig (sampleCascade 0) = 12 ∧
    max (max
        |(f32.frameGridCenter sampleConfig (sampleCascade 0) ⟨16777215 / 33554432, 0, 0⟩
          ⟨1, 0, 0⟩).x - 16777215 / 33554432|
        |(f32.frameGridCenter sampleConfig (sampleCascade 0) ⟨16777215 / 33554432, 0, 0⟩
          ⟨1, 0, 0⟩).y - 0|)
      |(f32.frameGridCenter sampleConfig (sampleCascade 0) ⟨16777215 / 33554432, 0, 0⟩
          ⟨1, 0, 0⟩).z - 0| ≠
      (sampleCascade 0).mGridSpan / 2 - 4 * f32.getCellSize sampleConfig (sampleCascade 0) ∧
    binary32V ⟨67108864, 0, 0⟩ ∧
    (f32.frameGridCenter sampleConfig (sampleCascade 0) ⟨67108864, 0, 0⟩ ⟨1, 0, 0⟩).sub
      ⟨67108864, 0, 0⟩ = ⟨16, 0, 0⟩ := by
  have hspan : (sampleCascade 0).mGridSpan = 32 := rfl
  refine ⟨rfl, by rw [hspan]; norm_num, vec3_x_ne_zero, ?_, ?_, ?_, ?_, ?_, ?_⟩
  · exact ⟨binary32_of_eq _ 16777215 (-25) (by norm_num) (by norm_num) (by norm_num)
      (by norm_num), binary32_zero, binary32_zero⟩
  · rw [f32_frameGridCenter_sample]
    norm_num [vec3.sub]
  · rw [f32_getCellSize_sample, hspan]
    norm_num
  · rw [f32_frameGridCenter_sample, f32_getCellSize_sample, hspan]
    have e : |(25 / 2 : ℚ) - 16777215 / 33554432| = 402653185 / 33554432 := by
      rw [abs_of_pos (by norm_num)]
      norm_num
    simp only [e, sub_zero, abs_zero]
    norm_num
  · exact ⟨binary32_of_eq _ 1 26 (by norm_num) (by norm_num) (by norm_num) (by norm_num),
      binary32_zero, binary32_zero⟩
  · rw [f32_frameGridCenter_far]
    norm_num [vec3.sub]

/-- C23, amended. In binary32 arithmetic the forward offset points along the camera
direction and has a fixed reach, up to the rounding of the centre. With `GridRes = 32`, a
positive span, a non-zero camera direction, the cell size, `sideHalf` and `4 * cellSize`
computed without rounding and `|camPos_i| + gridSpan` at most `FLT_MAX`, the unsnapped grid
centre is a vector of binary32 values; on every axis the centre minus `camPos` is within
`|camPos_i| / 2^24 + gridSpan / 2^22 + 2^-147` of `camDir_i * k`, for the positive factor
`k = (gridSpan / 2 - 4 * cellSize) / maxOffset`; and its largest absolute component is
within `(|camPos.x| + |camPos.y| + |camPos.z|) / 2^24 + gridSpan / 2^22 + 2^-147` of
`gridSpan / 2 - 4 * cellSize` (three eighths of the span). If moreover the difference
`sideHalf - 4 * cellSize`, the quotients `camDir_i / maxOffset`, their products with the
reach and the sums with `camPos_i` are binary32 values, the centre minus `camPos` is
`camDir` scaled by a positive factor, and its largest absolute component is exactly
`gridSpan / 2 - 4 * cellSize`. -/
theorem C23_forward_offset_direction_and_reach (cfg : Config) (c : LightPropagationCascade)
    (camPos camDir : vec3) (hres : cfg.GridRes = 32) (hspan : 0 < c.mGridSpan)
    (hdir : camDir ≠ ⟨0, 0, 0⟩) (hcell : f32.cellExact cfg c)
    (hfin : f32.frameFinite cfg c camPos) :
    binary32V (f32.frameGridCenter cfg c camPos camDir) ∧
    (∃ k : ℚ, 0 < k ∧
      k * max (max (fabsf camDir.x) (fabsf camDir.y)) (fabsf camDir.z) =
        c.mGridSpan / 2 - 4 * f32.getCellSize cfg c ∧
      |(f32.frameGridCenter cfg c camPos camDir).x - camPos.x - camDir.x * k| ≤
        |camPos.x| / 2 ^ 24 + c.mGridSpan / 2 ^ 22 + 1 / 2 ^ 147 ∧
      |(f32.frameGridCenter cfg c camPos camDir).y - camPos.y - camDir.y * k| ≤
        |camPos.y| / 2 ^ 24 + c.mGridSpan / 2 ^ 22 + 1 / 2 ^ 147 ∧
      |(f32.frameGridCenter cfg c camPos camDir).z - camPos.z - camDir.z * k| ≤
        |camPos.z| / 2 ^ 24 + c.mGridSpan / 2 ^ 22 + 1 / 2 ^ 147) ∧
    |max (max |(f32.frameGridCenter cfg c camPos camDir).x - camPos.x|
          |(f32.frameGridCenter cfg c camPos camDir).y - camPos.y|)
        |(f32.frameGridCenter cfg c camPos camDir).z - camPos.z| -
        (c.mGridSpan / 2 - 4 * f32.getCellSize cfg c)| ≤
      (|camPos.x| + |camPos.y| + |camPos.z|) / 2 ^ 24 + c.mGridSpan / 2 ^ 22 + 1 / 2 ^ 147 ∧
    c.mGridSpan / 2 - 4 * f32.getCellSize cfg c = 3 / 8 * c.mGridSpan ∧
    (f32.frameExact cfg c camPos camDir →
      (∃ k : ℚ, 0 < k ∧
        (f32.frameGridCenter cfg c camPos camDir).sub camPos = camDir.mulS k) ∧
      max (max |(f32.frameGridCenter cfg c camPos camDir).x - camPos.x|
          |(f32.frameGridCenter cfg c camPos camDir).y - camPos.y|)
        |(f32.frameGridCenter cfg c camPos camDir).z - camPos.z| =
        c.mGridSpan / 2 - 4 * f32.getCellSize cfg c) := by
  have hc := f32_getCellSize_eq cfg c hcell
  have H := frameGridCenter_direction_and_reach cfg c camPos camDir hres hspan hdir
  obtain ⟨hb, nx, ny, nz⟩ :=
    f32_frameGridCenter_near cfg c camPos camDir hres hspan hdir hcell hfin
  have hm := maxOffset_pos camDir hdir
  have hreach_pos : 0 < c.mGridSpan / 2 - 4 * getCellSize cfg c := by
    rw [H.2.2]
    positivity
  have gx : (frameGridCenter cfg c camPos camDir).x = camPos.x + camDir.x /
      max (max (fabsf camDir.x) (fabsf camDir.y)) (fabsf camDir.z) *
        (c.mGridSpan / 2 - 4 * getCellSize cfg c) := by
    simp only [frameGridCenter, getSideHalf, vec3.add, vec3.mulS, vec3.divS]
  have gy : (frameGridCenter cfg c camPos camDir).y = camPos.y + camDir.y /
      max (max (fabsf camDir.x) (fabsf camDir.y)) (fabsf camDir.z) *
        (c.mGridSpan / 2 - 4 * getCellSize cfg c) := by
    simp only [frameGridCenter, getSideHalf, vec3.add, vec3.mulS, vec3.divS]
  have gz : (frameGridCenter cfg c camPos camDir).z = camPos.z + camDir.z /
      max (max (fabsf camDir.x) (fabsf camDir.y)) (fabsf camDir.z) *
        (c.mGridSpan / 2 - 4 * getCellSize cfg c) := by
    simp only [frameGridCenter, getSideHalf, vec3.add, vec3.mulS, vec3.divS]
  have ax := abs_nonneg camPos.x
  have ay := abs_nonneg camPos.y
  have az := abs_nonneg camPos.z
  have key : ∀ g1 g cam A : ℚ, 0 ≤ A → |g1 - g| ≤ |cam| / 2 ^ 24 + c.mGridSpan / 2 ^ 22 +
      1 / 2 ^ 147 → |(|g1 - cam| - |g - cam|)| ≤
        (|cam| + A) / 2 ^ 24 + c.mGridSpan / 2 ^ 22 + 1 / 2 ^ 147 := by
    intro g1 g cam A hA h
    refine le_trans (abs_abs_sub_abs_le_abs_sub _ _) ?_
    have e : g1 - cam - (g - cam) = g1 - g := by ring
    rw [e]
    have e2 : (|cam| + A) / 2 ^ 24 = |cam| / 2 ^ 24 + A / 2 ^ 24 := by ring
    have : 0 ≤ A / 2 ^ 24 := by positivity
    linarith
  refine ⟨hb, ⟨(c.mGridSpan / 2 - 4 * getCellSize cfg c) /
      max (max (fabsf camDir.x) (fabsf camDir.y)) (fabsf camDir.z), div_pos hreach_pos hm,
      ?_, ?_, ?_, ?_⟩, ?_, ?_, ?_⟩
  · rw [hc]
    exact div_mul_cancel₀ _ hm.ne'
  · have e : (f32.frameGridCenter cfg c camPos camDir).x - camPos.x - camDir.x *
        ((c.mGridSpan / 2 - 4 * getCellSize cfg c) /
          max (max (fabsf camDir.x) (fabsf camDir.y)) (fabsf camDir.z)) =
        (f32.frameGridCenter cfg c camPos camDir).x - (frameGridCenter cfg c camPos camDir).x := by
      rw [gx]
      ring
    rw [e]
    exact nx
  · have e : (f32.frameGridCenter cfg c camPos camDir).y - camPos.y - camDir.y *
        ((c.mGridSpan / 2 - 4 * getCellSize cfg c) /
          max (max (fabsf camDir.x) (fabsf camDir.y)) (fabsf camDir.z)) =
        (f32.frameGridCenter cfg c camPos camDir).y - (frameGridCenter cfg c camPos camDir).y := by
      rw [gy]
      ring
    rw [e]
    exact ny
  · have e : (f32.frameGridCenter cfg c camPos camDir).z - camPos.z - camDir.z *
        ((c.mGridSpan / 2 - 4 * getCellSize cfg c) /
          max (max (fabsf camDir.x) (fabsf camDir.y)) (fabsf camDir.z)) =
        (f32.frameGridCenter cfg c camPos camDir).z - (frameGridCenter cfg c camPos camDir).z := by
      rw [gz]
      ring
    rw [e]
    exact nz
  · rw [hc, ← H.2.1]
    apply abs_max3_sub_le
    · have h := key _ _ camPos.x (|camPos.y| + |camPos.z|) (by positivity) nx
      rw [← add_assoc] at h
      exact h
    · have h := key _ _ camPos.y (|camPos.x| + |camPos.z|) (by positivity) ny
      have e : |camPos.y| + (|camPos.x| + |camPos.z|) = |camPos.x| + |camPos.y| + |camPos.z| := by
        ring
      rw [e] at h
      exact h
    · have h := key _ _ camPos.z (|camPos.x| + |camPos.y|) (by positivity) nz
      have e : |camPos.z| + (|camPos.x| + |camPos.y|) = |camPos.x| + |camPos.y| + |camPos.z| := by
        ring
      rw [e] at h
      exact h
  · rw [hc]
    exact H.2.2
  · intro hframe
    rw [hc, f32_frameGridCenter_eq cfg c camPos camDir hcell hframe]
    exact ⟨H.1, H.2.1⟩

/-- C23, amended, at two inputs of the span-32 cascade. With the camera at
`(1/2 - 2^-25, 0, 0)` looking along `(1, 0, 0)`, where the sum `camPos.x + 12` is rounded,
the largest absolute component of the centre minus `camPos` is within the stated distance
of 12. With the camera at `(1, 2, 3)` looking along `(2, 0, -1)` the unsnapped centre is
`(13, 2, -3)`, nothing rounds, the offset `(12, 0, -6)` is six times the direction and its
largest absolute component is 12, three eighths of the span. -/
theorem C23_forward_offset_direction_and_reach_witness :
    (sampleConfig.GridRes = 32 ∧ (0 : ℚ) < (sampleCascade 0).mGridSpan ∧
      (⟨1, 0, 0⟩ : vec3) ≠ ⟨0, 0, 0⟩ ∧
      f32.cellExact sampleConfig (sampleCascade 0) ∧
      f32.frameFinite sampleConfig (sampleCascade 0) ⟨16777215 / 33554432, 0, 0⟩ ∧
      |max (max
            |(f32.frameGridCenter sampleConfig (sampleCascade 0) ⟨16777215 / 33554432, 0, 0⟩
              ⟨1, 0, 0⟩).x - (⟨16777215 / 33554432, 0, 0⟩ : vec3).x|
            |(f32.frameGridCenter sampleConfig (sampleCascade 0) ⟨16777215 / 33554432, 0, 0⟩
              ⟨1, 0, 0⟩).y - (⟨16777215 / 33554432, 0, 0⟩ : vec3).y|)
          |(f32.frameGridCenter sampleConfig (sampleCascade 0) ⟨16777215 / 33554432, 0, 0⟩
              ⟨1, 0, 0⟩).z - (⟨16777215 / 33554432, 0, 0⟩ : vec3).z| -
          ((sampleCascade 0).mGridSpan / 2 -
            4 * f32.getCellSize sampleConfig (sampleCascade 0))| ≤
        (|(⟨16777215 / 33554432, 0, 0⟩ : vec3).x| + |(⟨16777215 / 33554432, 0, 0⟩ : vec3).y| +
          |(⟨16777215 / 33554432, 0, 0⟩ : vec3).z|) / 2 ^ 24 +
          (sampleCascade 0).mGridSpan / 2 ^ 22 + 1 / 2 ^ 147) ∧
    ((⟨2, 0, -1⟩ : vec3) ≠ ⟨0, 0, 0⟩ ∧
      f32.frameFinite sampleConfig (sampleCascade 0) ⟨1, 2, 3⟩ ∧
      f32.frameExact sampleConfig (sampleCascade 0) ⟨1, 2, 3⟩ ⟨2, 0, -1⟩ ∧
      max (max |(f32.frameGridCenter sampleConfig (sampleCascade 0) ⟨1, 2, 3⟩ ⟨2, 0, -1⟩).x - 1|
          |(f32.frameGridCenter sampleConfig (sampleCascade 0) ⟨1, 2, 3⟩ ⟨2, 0, -1⟩).y - 2|)
        |(f32.frameGridCenter sampleConfig (sampleCascade 0) ⟨1, 2, 3⟩ ⟨2, 0, -1⟩).z - 3| =
        (sampleCascade 0).mGridSpan / 2 - 4 * f32.getCellSize sampleConfig (sampleCascade 0) ∧
      (sampleCascade 0).mGridSpan / 2 - 4 * f32.getCellSize sampleConfig (sampleCascade 0) =
        3 / 8 * (sampleCascade 0).mGridSpan) :=
  ⟨⟨rfl, by norm_num [sampleCascade], vec3_x_ne_zero, cellExact_sample,
      frameFinite_sample _ (by rw [abs_of_pos (by norm_num)]; norm_num) (by norm_num)
        (by norm_num),
      (C23_forward_offset_direction_and_reach sampleConfig (sampleCascade 0)
        ⟨16777215 / 33554432, 0, 0⟩ ⟨1, 0, 0⟩ rfl (by norm_num [sampleCascade])
        vec3_x_ne_zero cellExact_sample
        (frameFinite_sample _ (by rw [abs_of_pos (by norm_num)]; norm_num) (by norm_num)
          (by norm_num))).2.2.1⟩,
    ⟨vec3_sample_dir_ne_zero,
      frameFinite_sample _ (by norm_num) (by norm_num) (by norm_num), frameExact_sample,
      ((C23_forward_offset_direction_and_reach sampleConfig (sampleCascade 0) ⟨1, 2, 3⟩
        ⟨2, 0, -1⟩ rfl (by norm_num [sampleCascade]) vec3_sample_dir_ne_zero cellExact_sample
        (frameFinite_sample _ (by norm_num) (by norm_num) (by norm_num))).2.2.2.2
        frameExact_sample).2,
      (C23_forward_offset_direction_and_reach sampleConfig (sampleCascade 0) ⟨1, 2, 3⟩
        ⟨2, 0, -1⟩ rfl (by norm_num [sampleCascade]) vec3_sample_dir_ne_zero cellExact_sample
        (frameFinite_sample _ (by norm_num) (by norm_num) (by norm_num))).2.2.2.1⟩⟩

theorem fl_25_16 : fl (25 / 16) = 25 / 16 :=
  fl_of_eq (25 / 16) 25 (-4) (by norm_num) (by norm_num) (by norm_num)

theorem fl_half : fl (1 / 2) = 1 / 2 :=
  fl_of_eq (1 / 2) 1 (-1) (by norm_num) (by norm_num) (by norm_num)

/-- The transforms `setGridCenter` stores at span 50 for the requested centre `(0, 0, 0)`:
`mGridToWorld` has the entries 50 and -25, and the diagonal of `mWorldToGrid` is the
binary32 value nearest to `1 / 50`. -/
theorem f32_setGridCenter_span50 :
    (f32.setGridCenter sampleConfig (sampleCascadeOfSpan 50) ⟨0, 0, 0⟩).mInjectState.mGridToWorld
      = gridToWorldOf 50 ⟨0, 0, 0⟩ ∧
    (f32.setGridCenter sampleConfig (sampleCascadeOfSpan 50) ⟨0, 0, 0⟩).mInjectState.mWorldToGrid
      = ⟨⟨5368709 / 268435456, 0, 0, 1 / 2⟩, ⟨0, 5368709 / 268435456, 0, 1 / 2⟩,
         ⟨0, 0, 5368709 / 268435456, 1 / 2⟩, ⟨0, 0, 0, 1⟩⟩ ∧
    (f32.setGridCenter sampleConfig (sampleCascadeOfSpan 50)
        ⟨0, 0, 0⟩).mInjectState.mWorldToGridScale =
      ⟨5368709 / 268435456, 5368709 / 268435456, 5368709 / 268435456⟩ := by
  have hspan : (sampleCascadeOfSpan 50).mGridSpan = 50 := rfl
  have hcell : f32.getCellSize sampleConfig (sampleCascadeOfSpan 50) = 25 / 16 := by
    have e : (50 : ℚ) / 32 = 25 / 16 := by norm_num
    simp only [f32.getCellSize, f32.div, sampleConfig, hspan, Nat.cast_ofNat, fl_32, e,
      fl_25_16]
  have hsnap : f32.snapToGrid (25 / 16) ⟨0, 0, 0⟩ = ⟨0, 0, 0⟩ := by
    simp only [f32.snapToGrid, f32.divS, f32.mulS, f32.div, f32.mul, zero_div, fl_zero,
      roundf_zero, zero_mul]
  have hside : f32.getSideHalf (sampleCascadeOfSpan 50) = 25 := by
    have e : (50 : ℚ) / 2 = 25 := by norm_num
    simp only [f32.getSideHalf, f32.div, hspan, e]
    exact fl_of_eq 25 25 0 (by norm_num) (by norm_num) (by norm_num)
  have hG := f32_gridToWorld_eq 25 ⟨0, 0, 0⟩
    (binary32_of_eq _ 25 0 (by norm_num) (by norm_num) (by norm_num) (by norm_num))
    (binary32_of_eq _ 50 0 (by norm_num) (by norm_num) (by norm_num) (by norm_num))
    ⟨binary32_zero, binary32_zero, binary32_zero⟩
    ⟨binary32_of_eq _ (-25) 0 (by norm_num) (by norm_num) (by norm_num) (by norm_num),
      binary32_of_eq _ (-25) 0 (by norm_num) (by norm_num) (by norm_num) (by norm_num),
      binary32_of_eq _ (-25) 0 (by norm_num) (by norm_num) (by norm_num) (by norm_num)⟩
  have e2 : (25 : ℚ) * 2 = 50 := by norm_num
  rw [e2] at hG
  have e3 : (1 : ℚ) / 2 - 0 / 50 = 1 / 2 := by norm_num
  have hW : f32.inverse (gridToWorldOf 50 ⟨0, 0, 0⟩) =
      ⟨⟨5368709 / 268435456, 0, 0, 1 / 2⟩, ⟨0, 5368709 / 268435456, 0, 1 / 2⟩,
       ⟨0, 0, 5368709 / 268435456, 1 / 2⟩, ⟨0, 0, 0, 1⟩⟩ := by
    simp only [f32.inverse, f32.round4, inverse_gridToWorldOf 50 ⟨0, 0, 0⟩ (by norm_num),
      worldToGridOf, fl_zero, fl_one, fl_one_fiftieth, e3, fl_half]
  refine ⟨?_, ?_, ?_⟩
  · simp only [f32.setGridCenter, hcell, hsnap, hside, hG]
  · simp only [f32.setGridCenter, hcell, hsnap, hside, hG, hW]
  · simp only [f32.setGridCenter, hcell, hsnap, hside, hG, hW]

/-- C19 as stated fails in binary32 arithmetic. At span 50 (a binary32 value) and the
requested centre `(0, 0, 0)`, `1 / gridSpan = 1 / 50` is not a binary32 value, so no `float`
can hold it: `setGridCenter` stores `mWorldToGridScale = 5368709 / 2^28` on every axis, the
binary32 value nearest to `1 / 50`, and the product of the stored `mWorldToGrid` and
`mGridToWorld` has the diagonal entry `50 * 5368709 / 2^28 = 1 - 3 / 2^27` instead of 1. -/
theorem C19_counterexample :
    (0 : ℚ) < (sampleCascadeOfSpan 50).mGridSpan ∧
    binary32 (sampleCascadeOfSpan 50).mGridSpan ∧
    ¬ binary32 (1 / (sampleCascadeOfSpan 50).mGridSpan) ∧
    (f32.setGridCenter sampleConfig (sampleCascadeOfSpan 50)
        ⟨0, 0, 0⟩).mInjectState.mWorldToGridScale =
      ⟨5368709 / 268435456, 5368709 / 268435456, 5368709 / 268435456⟩ ∧
    (f32.setGridCenter sampleConfig (sampleCascadeOfSpan 50)
        ⟨0, 0, 0⟩).mInjectState.mWorldToGridScale ≠
      ⟨1 / (sampleCascadeOfSpan 50).mGridSpan, 1 / (sampleCascadeOfSpan 50).mGridSpan,
        1 / (sampleCascadeOfSpan 50).mGridSpan⟩ ∧
    ((f32.setGridCenter sampleConfig (sampleCascadeOfSpan 50)
        ⟨0, 0, 0⟩).mInjectState.mWorldToGrid.mul
      (f32.setGridCenter sampleConfig (sampleCascadeOfSpan 50)
        ⟨0, 0, 0⟩).mInjectState.mGridToWorld).rows0.x = 134217725 / 134217728 ∧
    (f32.setGridCenter sampleConfig (sampleCascadeOfSpan 50)
        ⟨0, 0, 0⟩).mInjectState.mWorldToGrid.mul
      (f32.setGridCenter sampleConfig (sampleCascadeOfSpan 50)
        ⟨0, 0, 0⟩).mInjectState.mGridToWorld ≠ mat4.identity := by
  have hspan : (sampleCascadeOfSpan 50).mGridSpan = 50 := rfl
  obtain ⟨hG, hW, hS⟩ := f32_setGridCenter_span50
  have hprod : ((f32.setGridCenter sampleConfig (sampleCascadeOfSpan 50)
        ⟨0, 0, 0⟩).mInjectState.mWorldToGrid.mul
      (f32.setGridCenter sampleConfig (sampleCascadeOfSpan 50)
        ⟨0, 0, 0⟩).mInjectState.mGridToWorld).rows0.x = 134217725 / 134217728 := by
    rw [hG, hW]
    simp only [mat4.mul, mat4.col, float4.dot, gridToWorldOf]
    norm_num
  refine ⟨by rw [hspan]; norm_num, ?_, ?_, hS, ?_, hprod, ?_⟩
  · rw [hspan]
    exact binary32_of_eq _ 50 0 (by norm_num) (by norm_num) (by norm_num) (by norm_num)
  · rw [hspan]
    intro h
    have h1 := h.1
    rw [fl_one_fiftieth] at h1
    norm_num at h1
  · rw [hS, hspan]
    intro h
    have := congrArg vec3.x h
    norm_num at this
  · intro h
    have h1 := congrArg (fun m : mat4 => m.rows0.x) h
    simp only [hprod, mat4.identity] at h1
    norm_num at h1

/-- C19, amended. In binary32 arithmetic the scale/translate pair is a faithful
decomposition of the world-to-grid transform, and the transform is the inverse of
`mGridToWorld` whenever the entries of the two matrices are binary32 values. After
`setGridCenter` on a cascade of positive span, with a snap that stays inside the binary32
range and snapped centre `s`, `gridSpan / 2` and `gridSpan` being binary32 values and
`s_i - gridSpan / 2`, `1 / gridSpan` and the rounded `s_i - gridSpan / 2` divided by
`gridSpan` at most `FLT_MAX` in magnitude: `s`, `mWorldToGridScale` and
`mWorldToGridTranslate` are vectors of binary32 values, and for every world point `w` the
image `(mWorldToGrid * (w, 1)).xyz` is `w * mWorldToGridScale + mWorldToGridTranslate`
componentwise, both when the two sides are evaluated without rounding and when every
product and sum in them is rounded; and if `s_i`, `s_i - gridSpan / 2`, `1 / gridSpan` and
`1/2 - s_i / gridSpan` are binary32 values as well, then `mWorldToGridScale` is
`1 / gridSpan` on every axis, `mWorldToGridTranslate` is `1/2 - s / gridSpan`, and
`mWorldToGrid * mGridToWorld` (as well as the product in the other order) is the
identity. -/
theorem C19_scale_translate_decomposition (cfg : Config) (c : LightPropagationCascade)
    (u : vec3) (hspan : 0 < c.mGridSpan)
    (hsnap : f32.snapFinite (f32.getCellSize cfg c) u)
    (hfin : f32.transformFinite c.mGridSpan (f32.snapToGrid (f32.getCellSize cfg c) u)) :
    binary32V (f32.snapToGrid (f32.getCellSize cfg c) u) ∧
    binary32V (f32.setGridCenter cfg c u).mInjectState.mWorldToGridScale ∧
    binary32V (f32.setGridCenter cfg c u).mInjectState.mWorldToGridTranslate ∧
    (∀ w : vec3,
      ((f32.setGridCenter cfg c u).mInjectState.mWorldToGrid.mulVec (float4.ofVec3 w 1)).xyz =
        ⟨w.x * (f32.setGridCenter cfg c u).mInjectState.mWorldToGridScale.x +
            (f32.setGridCenter cfg c u).mInjectState.mWorldToGridTranslate.x,
          w.y * (f32.setGridCenter cfg c u).mInjectState.mWorldToGridScale.y +
            (f32.setGridCenter cfg c u).mInjectState.mWorldToGridTranslate.y,
          w.z * (f32.setGridCenter cfg c u).mInjectState.mWorldToGridScale.z +
            (f32.setGridCenter cfg c u).mInjectState.mWorldToGridTranslate.z⟩) ∧
    (∀ w : vec3,
      (f32.mulVec (f32.setGridCenter cfg c u).mInjectState.mWorldToGrid
          (float4.ofVec3 w 1)).xyz =
        ⟨f32.add (f32.mul w.x (f32.setGridCenter cfg c u).mInjectState.mWorldToGridScale.x)
            (f32.setGridCenter cfg c u).mInjectState.mWorldToGridTranslate.x,
          f32.add (f32.mul w.y (f32.setGridCenter cfg c u).mInjectState.mWorldToGridScale.y)
            (f32.setGridCenter cfg c u).mInjectState.mWorldToGridTranslate.y,
          f32.add (f32.mul w.z (f32.setGridCenter cfg c u).mInjectState.mWorldToGridScale.z)
            (f32.setGridCenter cfg c u).mInjectState.mWorldToGridTranslate.z⟩) ∧
    (f32.transformExact c.mGridSpan (f32.snapToGrid (f32.getCellSize cfg c) u) →
      (f32.setGridCenter cfg c u).mInjectState.mWorldToGridScale =
        ⟨1 / c.mGridSpan, 1 / c.mGridSpan, 1 / c.mGridSpan⟩ ∧
      (f32.setGridCenter cfg c u).mInjectState.mWorldToGridTranslate =
        ⟨1 / 2 - (f32.snapToGrid (f32.getCellSize cfg c) u).x / c.mGridSpan,
          1 / 2 - (f32.snapToGrid (f32.getCellSize cfg c) u).y / c.mGridSpan,
          1 / 2 - (f32.snapToGrid (f32.getCellSize cfg c) u).z / c.mGridSpan⟩ ∧
      (f32.setGridCenter cfg c u).mInjectState.mWorldToGrid.mul
        (f32.setGridCenter cfg c u).mInjectState.mGridToWorld = mat4.identity ∧
      (f32.setGridCenter cfg c u).mInjectState.mGridToWorld.mul
        (f32.setGridCenter cfg c u).mInjectState.mWorldToGrid = mat4.identity) := by
  obtain ⟨hh, h2, _, h1, tx, ty, tz⟩ := id hfin
  obtain ⟨hW, hS, hTr⟩ := f32_setGridCenter_stored cfg c u hspan.ne' hh h2
  have key : ∀ x : ℚ, |fl (x - c.mGridSpan / 2) / c.mGridSpan| ≤ FLT_MAX →
      binary32 (fl (-(fl (x - c.mGridSpan / 2) / c.mGridSpan))) := by
    intro x h
    apply binary32_fl
    rw [abs_neg]
    exact h
  refine ⟨f32_snapToGrid_binary32V _ u hsnap, ?_, ?_, ?_, ?_, ?_⟩
  · rw [hS]
    exact ⟨binary32_fl _ h1, binary32_fl _ h1, binary32_fl _ h1⟩
  · rw [hTr]
    exact ⟨key _ tx, key _ ty, key _ tz⟩
  · intro w
    rw [hW, hS, hTr]
    simp only [mat4.mulVec, float4.dot, float4.ofVec3, float4.xyz]
    congr 1 <;> ring
  · intro w
    rw [hW, hS, hTr]
    simp only [f32.mulVec, f32.dot, f32.add, f32.mul, float4.ofVec3, float4.xyz, zero_mul,
      fl_zero, add_zero, zero_add, mul_one, fl_fl, mul_comm w.x, mul_comm w.y, mul_comm w.z]
  · intro hT
    obtain ⟨hG, hW, hS, hTr⟩ := f32_setGridCenter_transforms cfg c u hspan.ne' hT
    rw [hG, hW, hS, hTr]
    exact ⟨rfl, rfl, worldToGridOf_mul_gridToWorldOf _ _ hspan.ne',
      gridToWorldOf_mul_worldToGridOf _ _ hspan.ne'⟩

/-- The requested centre `(13/4, -2, 0)` snaps to `(3, -2, 0)` at span 32 in `float`
arithmetic as well. -/
theorem f32_snapToGrid_sample :
    f32.snapToGrid (f32.getCellSize sampleConfig (sampleCascade 0)) ⟨13 / 4, -2, 0⟩ =
      ⟨3, -2, 0⟩ := by
  have hs : f32.snapExact (getCellSize sampleConfig (sampleCascade 0)) ⟨13 / 4, -2, 0⟩ := by
    refine ⟨⟨?_, ?_, ?_⟩, ?_⟩
    · exact binary32_of_eq _ 13 (-2)
        (by norm_num [getCellSize, sampleConfig, sampleCascade, vec3.divS])
        (by norm_num) (by norm_num) (by norm_num)
    · exact binary32_of_eq _ (-2) 0
        (by norm_num [getCellSize, sampleConfig, sampleCascade, vec3.divS])
        (by norm_num) (by norm_num) (by norm_num)
    · exact binary32_of_eq _ 0 0
        (by norm_num [getCellSize, sampleConfig, sampleCascade, vec3.divS])
        (by norm_num) (by norm_num) (by norm_num)
    · rw [snapToGrid_sample]
      exact ⟨binary32_of_eq _ 3 0 (by norm_num) (by norm_num) (by norm_num) (by norm_num),
        binary32_of_eq _ (-2) 0 (by norm_num) (by norm_num) (by norm_num) (by norm_num),
        binary32_zero⟩
  rw [f32_getCellSize_eq _ _ cellExact_sample, f32_snapToGrid_eq _ _ hs, snapToGrid_sample]

theorem transformExact_sample :
    f32.transformExact (sampleCascade 0).mGridSpan
      (f32.snapToGrid (f32.getCellSize sampleConfig (sampleCascade 0)) ⟨13 / 4, -2, 0⟩) := by
  rw [f32_snapToGrid_sample]
  have hspan : (sampleCascade 0).mGridSpan = 32 := rfl
  rw [hspan]
  refine ⟨?_, ?_, ⟨?_, ?_, ?_⟩, ⟨?_, ?_, ?_⟩, ?_, ⟨?_, ?_, ?_⟩⟩
  · exact binary32_of_eq _ 16 0 (by norm_num) (by norm_num) (by norm_num) (by norm_num)
  · exact binary32_of_eq _ 32 0 (by norm_num) (by norm_num) (by norm_num) (by norm_num)
  · exact binary32_of_eq _ 3 0 (by norm_num) (by norm_num) (by norm_num) (by norm_num)
  · exact binary32_of_eq _ (-2) 0 (by norm_num) (by norm_num) (by norm_num) (by norm_num)
  · exact binary32_zero
  · exact binary32_of_eq _ (-13) 0 (by norm_num) (by norm_num) (by norm_num) (by norm_num)
  · exact binary32_of_eq _ (-18) 0 (by norm_num) (by norm_num) (by norm_num) (by norm_num)
  · exact binary32_of_eq _ (-16) 0 (by norm_num) (by norm_num) (by norm_num) (by norm_num)
  · exact binary32_of_eq _ 1 (-5) (by norm_num) (by norm_num) (by norm_num) (by norm_num)
  · exact binary32_of_eq _ 13 (-5) (by norm_num) (by norm_num) (by norm_num) (by norm_num)
  · exact binary32_of_eq _ 9 (-4) (by norm_num) (by norm_num) (by norm_num) (by norm_num)
  · exact binary32_of_eq _ 1 (-1) (by norm_num) (by norm_num) (by norm_num) (by norm_num)

theorem sample_span_binary32 : binary32 (sampleCascade 0).mGridSpan :=
  binary32_of_eq _ 32 0 (by norm_num [sampleCascade]) (by norm_num) (by norm_num) (by norm_num)

theorem sample_half_span_binary32 : binary32 ((sampleCascade 0).mGridSpan / 2) :=
  binary32_of_eq _ 16 0 (by norm_num [sampleCascade]) (by norm_num) (by norm_num) (by norm_num)

theorem snapFinite_sample :
    f32.snapFinite (f32.getCellSize sampleConfig (sampleCascade 0)) ⟨13 / 4, -2, 0⟩ := by
  rw [f32_getCellSize_sample]
  have e1 : fl (13 / 4) = 13 / 4 :=
    fl_of_eq (13 / 4) 13 (-2) (by norm_num) (by norm_num) (by norm_num)
  have e2 : fl (-2) = -2 := by rw [fl_neg, fl_two]
  have r1 : roundf (13 / 4) = 3 := by
    unfold roundf
    rw [if_pos (by norm_num)]
    have : ⌊(13 / 4 : ℚ) + 1 / 2⌋ = 3 := by
      rw [Int.floor_eq_iff]
      constructor <;> norm_num
    rw [this]
    norm_num
  have r2 : roundf (-2) = -2 := by simpa using roundf_intCast (-2)
  simp only [f32.snapFinite, f32.div, div_one, e1, e2, r1, r2, fl_zero, roundf_zero, mul_one,
    abs_zero]
  refine ⟨by norm_num, ⟨?_, ?_, ?_⟩, ?_, ?_, ?_⟩ <;>
    first
      | (rw [abs_le]; constructor <;> norm_num [FLT_MAX])
      | norm_num [FLT_MAX]

/-- C19, amended, at the span-32 cascade, the requested centre `(13/4, -2, 0)` (snapped to
`(3, -2, 0)`) and the world point `(5, 6, 7)`: every entry of the two matrices is a small
multiple of `1/32`. -/
theorem C19_scale_translate_decomposition_witness :
    (0 : ℚ) < (sampleCascade 0).mGridSpan ∧
    f32.snapFinite (f32.getCellSize sampleConfig (sampleCascade 0)) ⟨13 / 4, -2, 0⟩ ∧
    f32.transformFinite (sampleCascade 0).mGridSpan
      (f32.snapToGrid (f32.getCellSize sampleConfig (sampleCascade 0)) ⟨13 / 4, -2, 0⟩) ∧
    f32.transformExact (sampleCascade 0).mGridSpan
      (f32.snapToGrid (f32.getCellSize sampleConfig (sampleCascade 0)) ⟨13 / 4, -2, 0⟩) ∧
    ((f32.setGridCenter sampleConfig (sampleCascade 0)
        ⟨13 / 4, -2, 0⟩).mInjectState.mWorldToGrid.mulVec (float4.ofVec3 ⟨5, 6, 7⟩ 1)).xyz =
      ⟨5 * (f32.setGridCenter sampleConfig (sampleCascade 0)
            ⟨13 / 4, -2, 0⟩).mInjectState.mWorldToGridScale.x +
          (f32.setGridCenter sampleConfig (sampleCascade 0)
            ⟨13 / 4, -2, 0⟩).mInjectState.mWorldToGridTranslate.x,
        6 * (f32.setGridCenter sampleConfig (sampleCascade 0)
            ⟨13 / 4, -2, 0⟩).mInjectState.mWorldToGridScale.y +
          (f32.setGridCenter sampleConfig (sampleCascade 0)
            ⟨13 / 4, -2, 0⟩).mInjectState.mWorldToGridTranslate.y,
        7 * (f32.setGridCenter sampleConfig (sampleCascade 0)
            ⟨13 / 4, -2, 0⟩).mInjectState.mWorldToGridScale.z +
          (f32.setGridCenter sampleConfig (sampleCascade 0)
            ⟨13 / 4, -2, 0⟩).mInjectState.mWorldToGridTranslate.z⟩ ∧
    (f32.setGridCenter sampleConfig (sampleCascade 0)
        ⟨13 / 4, -2, 0⟩).mInjectState.mWorldToGridScale =
      ⟨1 / (sampleCascade 0).mGridSpan, 1 / (sampleCascade 0).mGridSpan,
        1 / (sampleCascade 0).mGridSpan⟩ ∧
    (f32.setGridCenter sampleConfig (sampleCascade 0)
        ⟨13 / 4, -2, 0⟩).mInjectState.mWorldToGrid.mul
      (f32.setGridCenter sampleConfig (sampleCascade 0)
        ⟨13 / 4, -2, 0⟩).mInjectState.mGridToWorld = mat4.identity :=
  ⟨by norm_num [sampleCascade], snapFinite_sample,
    transformFinite_of_transformExact _ _ (by norm_num [sampleCascade]) transformExact_sample,
    transformExact_sample,
    (C19_scale_translate_decomposition sampleConfig (sampleCascade 0) ⟨13 / 4, -2, 0⟩
      (by norm_num [sampleCascade]) snapFinite_sample
      (transformFinite_of_transformExact _ _ (by norm_num [sampleCascade])
        transformExact_sample)).2.2.2.1 ⟨5, 6, 7⟩,
    ((C19_scale_translate_decomposition sampleConfig (sampleCascade 0) ⟨13 / 4, -2, 0⟩
      (by norm_num [sampleCascade]) snapFinite_sample
      (transformFinite_of_transformExact _ _ (by norm_num [sampleCascade])
        transformExact_sample)).2.2.2.2.2 transformExact_sample).1,
    ((C19_scale_translate_decomposition sampleConfig (sampleCascade 0) ⟨13 / 4, -2, 0⟩
      (by norm_num [sampleCascade]) snapFinite_sample
      (transformFinite_of_transformExact _ _ (by norm_num [sampleCascade])
        transformExact_sample)).2.2.2.2.2 transformExact_sample).2.2.1⟩


/-! ## The order of the commit among the statements of `propagateLight` -/

theorem runStatements_append (l1 l2 : List Statement) (st : Aura × List Call) :
    runStatements (l1 ++ l2) st = runStatements l2 (runStatements l1 st) := by
  simp only [runStatements, List.foldl_append]

theorem runStatements_calls (l : List Call) (st : Aura × List Call) :
    runStatements (l.map Statement.call) st = (st.1, st.2 ++ l) := by
  induction l generalizing st with
  | nil => simp [runStatements]
  | cons c l ih =>
    have h : runStatements ((c :: l).map Statement.call) st =
        runStatements (l.map Statement.call) (st.1, st.2 ++ [c]) := rfl
    rw [h, ih]
    simp

/-- The statements of `propagateLight(cascade)`, run from any state: the cascade is
committed and the calls are appended. -/
theorem runStatements_propagateLight (cfg : Config) (a : Aura) (cascade : ℕ)
    (st : Aura × List Call) :
    runStatements (propagateLightStatements cfg a cascade) st =
      (st.1.modifyCascade cascade commitApplyState,
        st.2 ++ (propagatePasses cfg a cascade ++ [Call.cmdEndDebugMarker])) := by
  unfold propagateLightStatements
  rw [runStatements_append, runStatements_calls]
  simp [runStatements, Statement.run]

/-- Statements that hold no commit of cascade `j` leave cascade `j` as it is. -/
theorem runStatements_pCascades_of_not_mem (l : List Statement) (st : Aura × List Call)
    (j : ℕ) (h : Statement.commit j ∉ l) :
    (runStatements l st).1.pCascades[j]? = st.1.pCascades[j]? := by
  induction l generalizing st with
  | nil => rfl
  | cons s l ih =>
    have hs : Statement.commit j ≠ s := fun e => h (by rw [e]; exact List.mem_cons_self _ _)
    have hl : Statement.commit j ∉ l := fun e => h (List.mem_cons_of_mem _ e)
    have hrun : runStatements (s :: l) st = runStatements l (s.run st) := rfl
    rw [hrun, ih _ hl]
    cases s with
    | call c => rfl
    | commit i =>
      have hji : j ≠ i := fun e => hs (by rw [e])
      simp only [Statement.run, modifyCascade_pCascades_getElem?, if_neg hji]

/-- In a sequence of blocks, each the passes of a cascade followed by its commit and
`cmdEndDebugMarker`, every commit comes right after all passes of its cascade and right
before `cmdEndDebugMarker`. -/
theorem commit_follows_passes (P : ℕ → List Call) (l : List ℕ) (pre post : List Statement)
    (j : ℕ)
    (h : l.flatMap (fun i => (P i).map Statement.call ++
        [Statement.commit i, Statement.call Call.cmdEndDebugMarker]) =
      pre ++ Statement.commit j :: post) :
    j ∈ l ∧ (∃ pre' : List Statement, pre = pre' ++ (P j).map Statement.call) ∧
      ∃ post' : List Statement, post = Statement.call Call.cmdEndDebugMarker :: post' := by
  induction l generalizing pre with
  | nil =>
    simp at h
  | cons i l ih =>
    rw [List.flatMap_cons, List.append_assoc] at h
    -- is the commit inside the passes of `i`, the commit of `i`, or later?
    rcases List.append_eq_append_iff.mp h with ⟨a', hpre, hrest⟩ | ⟨c', hP, hrest⟩
    · -- `pre` goes beyond the passes of `i`
      cases a' with
      | nil =>
        simp only [List.nil_append, List.cons_append, List.cons.injEq] at hrest
        obtain ⟨hc, hrest⟩ := hrest
        injection hc with hc
        subst hc
        exact ⟨List.mem_cons_self _ _, ⟨[], by simpa using hpre⟩, ⟨_, hrest.symm⟩⟩
      | cons x a'' =>
        simp only [List.cons_append, List.cons.injEq] at hrest
        obtain ⟨_, hrest⟩ := hrest
        cases a'' with
        | nil =>
          simp only [List.nil_append, List.cons.injEq] at hrest
          exact absurd hrest.1 (by simp)
        | cons y a3 =>
          simp only [List.cons_append, List.cons.injEq] at hrest
          obtain ⟨_, hrest⟩ := hrest
          obtain ⟨hj, ⟨pre', hpre'⟩, hpost⟩ := ih a3 hrest
          refine ⟨List.mem_cons_of_mem _ hj, ⟨(P i).map Statement.call ++ x :: y :: pre', ?_⟩,
            hpost⟩
          rw [hpre, hpre']
          simp
    · -- the commit would be one of the passes of `i`
      cases c' with
      | nil =>
        simp only [List.nil_append, List.cons_append, List.cons.injEq] at hrest
        obtain ⟨hc, hrest⟩ := hrest
        injection hc with hc
        subst hc
        exact ⟨List.mem_cons_self _ _, ⟨[], by simpa using hP.symm⟩, ⟨_, hrest⟩⟩
      | cons x c'' =>
        exfalso
        simp only [List.cons_append, List.cons.injEq] at hrest
        have hx : Statement.commit j ∈ (P i).map Statement.call := by
          rw [hP, ← hrest.1]
          simp
        simp at hx

theorem propagateLightStatements_eq_flatMap (cfg : Config) (a : Aura) (cascade : ℕ) :
    propagateLightStatements cfg a cascade =
      [cascade].flatMap (fun i => (propagatePasses cfg a i).map Statement.call ++
        [Statement.commit i, Statement.call Call.cmdEndDebugMarker]) := by
  simp [propagateLightStatements]

/-- The single commit of `propagateLight(cascade)` comes after all of its passes and is
followed by `cmdEndDebugMarker` alone. -/
theorem propagateLightStatements_commit (cfg : Config) (a : Aura) (cascade : ℕ)
    (pre post : List Statement) (j : ℕ)
    (h : propagateLightStatements cfg a cascade = pre ++ Statement.commit j :: post) :
    j = cascade ∧ pre = (propagatePasses cfg a cascade).map Statement.call ∧
      post = [Statement.call Call.cmdEndDebugMarker] := by
  have h' := h
  rw [propagateLightStatements_eq_flatMap] at h'
  obtain ⟨hj, ⟨pre', hpre⟩, ⟨post', hpost⟩⟩ :=
    commit_follows_passes (propagatePasses cfg a) [cascade] pre post j h'
  have hjc : j = cascade := by simpa using hj
  subst hjc
  have hlen := congrArg List.length h
  rw [hpre, hpost] at hlen
  simp only [propagateLightStatements, List.length_append, List.length_map, List.length_cons,
    List.length_nil] at hlen
  have h1 : pre'.length = 0 := by omega
  have h2 : post'.length = 0 := by omega
  rw [List.length_eq_zero] at h1 h2
  subst h1 h2
  exact ⟨rfl, by simpa using hpre, hpost⟩

/-- The statements of a loop of `propagateLight(cascade)` over the indices `l`, run from any
state. -/
theorem runStatements_flatMap (cfg : Config) (a : Aura) (l : List ℕ) (st : Aura × List Call) :
    runStatements (l.flatMap (fun i => propagateLightStatements cfg a i)) st =
      (l.foldl (fun s i => s.modifyCascade i commitApplyState) st.1,
        st.2 ++ l.flatMap (fun i => propagatePasses cfg a i ++ [Call.cmdEndDebugMarker])) := by
  induction l generalizing st with
  | nil => simp [runStatements]
  | cons i l ih =>
    rw [List.flatMap_cons, runStatements_append, runStatements_propagateLight, ih]
    simp

/-- A loop of `propagateLight(cascade)` over the indices `l`, in closed form. -/
theorem foldl_propagateLight_eq (cfg : Config) (a : Aura) (l : List ℕ)
    (acc : Aura × List Call) (hpar : acc.1.mParams = a.mParams) :
    l.foldl (fun (acc : Aura × List Call) i =>
        ((propagateLight cfg acc.1 i).1, acc.2 ++ (propagateLight cfg acc.1 i).2)) acc =
      (l.foldl (fun s i => s.modifyCascade i commitApplyState) acc.1,
        acc.2 ++ l.flatMap (fun i => propagatePasses cfg a i ++ [Call.cmdEndDebugMarker])) := by
  induction l generalizing acc with
  | nil => simp
  | cons i l ih =>
    rw [List.foldl_cons, ih _ (by rw [propagateLight_fst, modifyCascade_mParams]; exact hpar)]
    rw [propagateLight_fst, propagateLight_snd, propagatePasses_congr cfg _ a hpar]
    simp

/-- The statements of the GPU branch, run in order, give the state and the calls of the GPU
branch. -/
theorem runStatements_propagateLightGPU (cfg : Config) (b : Aura) :
    runStatements (propagateLightGPUStatements cfg b) (b, []) = propagateLightGPU cfg b := by
  unfold propagateLightGPUStatements propagateLightGPU
  by_cases halt : doAlternateGPUUpdates cfg b = true
  · simp only [halt, if_true]
    rw [runStatements_append, runStatements_propagateLight]
    simp [runStatements, Statement.run, propagateLight]
  · have halt' : doAlternateGPUUpdates cfg b = false := by simpa using halt
    simp only [halt', Bool.false_eq_true, if_false]
    rw [runStatements_append, runStatements_flatMap]
    simp only [forEachCascade]
    rw [foldl_propagateLight_eq cfg b _ _ rfl]
    simp [runStatements, Statement.run]

/-- Every commit of the GPU branch comes right after all passes of its cascade and right
before `cmdEndDebugMarker`. -/
theorem propagateLightGPUStatements_commit (cfg : Config) (b : Aura)
    (pre post : List Statement) (j : ℕ)
    (h : propagateLightGPUStatements cfg b = pre ++ Statement.commit j :: post) :
    (∃ pre' : List Statement, pre = pre' ++ (propagatePasses cfg b j).map Statement.call) ∧
      ∃ post' : List Statement, post = Statement.call Call.cmdEndDebugMarker :: post' := by
  have key : ∀ (x : Call) (l : List ℕ),
      [Statement.call x] ++ l.flatMap (fun i => propagateLightStatements cfg b i) =
        pre ++ Statement.commit j :: post →
      (∃ pre' : List Statement, pre = pre' ++ (propagatePasses cfg b j).map Statement.call) ∧
        ∃ post' : List Statement, post = Statement.call Call.cmdEndDebugMarker :: post' := by
    intro x l hl
    cases pre with
    | nil =>
      simp only [List.singleton_append, List.nil_append, List.cons.injEq] at hl
      exact Statement.noConfusion hl.1
    | cons y pre2 =>
      simp only [List.singleton_append, List.cons_append, List.cons.injEq] at hl
      obtain ⟨_, ⟨pre', hpre⟩, hpost⟩ :=
        commit_follows_passes (propagatePasses cfg b) l pre2 post j hl.2
      exact ⟨⟨y :: pre', by rw [hpre]; rfl⟩, hpost⟩
  unfold propagateLightGPUStatements at h
  by_cases halt : doAlternateGPUUpdates cfg b = true
  · simp only [halt, if_true] at h
    have e : propagateLightStatements cfg b b.mGPUPropagationCurrentGrid =
        [b.mGPUPropagationCurrentGrid].flatMap (fun i => propagateLightStatements cfg b i) := by
      simp
    rw [e] at h
    exact key _ _ h
  · have halt' : doAlternateGPUUpdates cfg b = false := by simpa using halt
    simp only [halt', Bool.false_eq_true, if_false] at h
    exact key _ (List.range b.mCascadeCount) h

/-- C7. Apply-state never reflects an uncommitted step. Both `beginFrame` overloads,
`setGridCenter`, `setCascadeCenter`, `injectRSM` and `endFrame` leave the `mApplyState` of
every cascade as it was. The statements of `propagateLight(cascade)`, run in the order of
the source, give the state and the calls of the function; the only assignment to
`mApplyState` among them comes after every pass of the cascade has been issued and is
followed by `cmdEndDebugMarker` alone, it commits that cascade, and after any leading part
of the statements that does not hold the commit of a cascade that cascade is as it was on
entry. The same holds for the statements of the GPU branch of `propagateLight(Aura)`, from
any state: every assignment to `mApplyState` comes right after all passes of its own
cascade and right before `cmdEndDebugMarker`. On the GPU path `propagateLight(Aura)` is its
GPU branch and leaves each cascade either untouched or committed. -/
theorem C7_apply_state_written_only_by_commit (cfg : Config) (a : Aura) :
    (∀ (c : LightPropagationCascade) (camPos camDir : vec3),
      (beginFrameCascade cfg c camPos camDir).mApplyState = c.mApplyState) ∧
    (∀ (c : LightPropagationCascade) (gridCenter : vec3),
      (setGridCenter cfg c gridCenter).mApplyState = c.mApplyState) ∧
    (∀ camPos camDir : vec3, (beginFrame cfg a camPos camDir).applyStates = a.applyStates) ∧
    (∀ (Cascade : ℕ) (center : vec3),
      (setCascadeCenter cfg a Cascade center).applyStates = a.applyStates) ∧
    (∀ (iVolume : ℕ) (invVP : mat4) (camDir : vec3) (rtWidth rtHeight : ℕ)
        (viewAreaForUnitDepth : ℚ),
      (injectRSM cfg a iVolume invVP camDir rtWidth rtHeight viewAreaForUnitDepth).1 = a) ∧
    (endFrame cfg a).1.applyStates = a.applyStates ∧
    (∀ cascade : ℕ,
      runStatements (propagateLightStatements cfg a cascade) (a, []) =
        propagateLight cfg a cascade ∧
      (∀ (pre post : List Statement) (j : ℕ),
        propagateLightStatements cfg a cascade = pre ++ Statement.commit j :: post →
          j = cascade ∧ pre = (propagatePasses cfg a cascade).map Statement.call ∧
            post = [Statement.call Call.cmdEndDebugMarker]) ∧
      (∀ (pre post : List Statement) (j : ℕ),
        propagateLightStatements cfg a cascade = pre ++ post → Statement.commit j ∉ pre →
          (runStatements pre (a, [])).1.pCascades[j]? = a.pCascades[j]?) ∧
      (propagateLight cfg a cascade).2 =
        propagatePasses cfg a cascade ++ [Call.cmdEndDebugMarker] ∧
      (propagateLight cfg a cascade).1 = a.modifyCascade cascade commitApplyState ∧
      ∀ j : ℕ, j ≠ cascade → (propagateLight cfg a cascade).1.pCascades[j]? = a.pCascades[j]?) ∧
    (∀ b : Aura,
      runStatements (propagateLightGPUStatements cfg b) (b, []) = propagateLightGPU cfg b ∧
      (∀ (pre post : List Statement) (j : ℕ),
        propagateLightGPUStatements cfg b = pre ++ Statement.commit j :: post →
          (∃ pre' : List Statement,
            pre = pre' ++ (propagatePasses cfg b j).map Statement.call) ∧
          ∃ post' : List Statement, post = Statement.call Call.cmdEndDebugMarker :: post') ∧
      (∀ (pre post : List Statement) (j : ℕ),
        propagateLightGPUStatements cfg b = pre ++ post → Statement.commit j ∉ pre →
          (runStatements pre (b, [])).1.pCascades[j]? = b.pCascades[j]?)) ∧
    ((cfg.ENABLE_CPU_PROPAGATION = false ∨ a.mParams.bUseCPUPropagation = false) →
      propagateLightAura cfg a =
        propagateLightGPU cfg
          (if cfg.ENABLE_CPU_PROPAGATION then
            { a with bUseCPUPropagationPreviousFrame := a.mParams.bUseCPUPropagation }
          else a) ∧
      ∀ j : ℕ, (propagateLightAura cfg a).1.pCascades[j]? = a.pCascades[j]? ∨
        (propagateLightAura cfg a).1.pCascades[j]? = (a.pCascades[j]?).map commitApplyState) := by
  refine ⟨fun c camPos camDir => beginFrameCascade_mApplyState cfg c camPos camDir,
    fun c g => rfl, fun camPos camDir => beginFrame_applyStates cfg a camPos camDir,
    fun i center => modifyCascade_applyStates a i _ (fun c => rfl),
    fun iVolume invVP camDir w h v => injectRSM_fst cfg a iVolume invVP camDir w h v, rfl,
    ?_, ?_, ?_⟩
  · intro cascade
    refine ⟨?_, propagateLightStatements_commit cfg a cascade, ?_, rfl, rfl, ?_⟩
    · rw [runStatements_propagateLight]
      simp [propagateLight]
    · intro pre post j _ hj
      exact runStatements_pCascades_of_not_mem pre (a, []) j hj
    · intro j hj
      rw [propagateLight_fst, modifyCascade_pCascades_getElem?, if_neg hj]
  · intro b
    refine ⟨runStatements_propagateLightGPU cfg b, propagateLightGPUStatements_commit cfg b, ?_⟩
    intro pre post j _ hj
    exact runStatements_pCascades_of_not_mem pre (b, []) j hj
  · intro hgpu
    refine ⟨propagateLightAura_gpu cfg a hgpu, ?_⟩
    intro j
    rw [propagateLightAura_gpu_pCascades cfg a hgpu]
    by_cases halt : doAlternateGPUUpdates cfg a = true
    · rw [if_pos halt]
      by_cases hj : j = a.mGPUPropagationCurrentGrid
      · rw [if_pos hj]; exact Or.inr rfl
      · rw [if_neg hj]; exact Or.inl rfl
    · rw [if_neg halt]
      by_cases hj : j < a.mCascadeCount
      · rw [if_pos hj]; exact Or.inr rfl
      · rw [if_neg hj]; exact Or.inl rfl

/-- C7 at the sample configuration (no CPU propagation compiled in) and the sample `Aura`:
`propagateLight(Aura)` is its GPU branch, every cascade is left untouched or committed, and
the statements of `propagateLight(cascade 1)` split at their commit into the passes of
cascade 1 before it and `cmdEndDebugMarker` after it. -/
theorem C7_apply_state_written_only_by_commit_witness :
    (sampleConfig.ENABLE_CPU_PROPAGATION = false ∨
      (sampleAura false 0).mParams.bUseCPUPropagation = false) ∧
    (∀ j : ℕ,
      (propagateLightAura sampleConfig (sampleAura false 0)).1.pCascades[j]? =
        (sampleAura false 0).pCascades[j]? ∨
      (propagateLightAura sampleConfig (sampleAura false 0)).1.pCascades[j]? =
        ((sampleAura false 0).pCascades[j]?).map commitApplyState) ∧
    propagateLightStatements sampleConfig (sampleAura false 0) 1 =
      (propagatePasses sampleConfig (sampleAura false 0) 1).map Statement.call ++
        Statement.commit 1 :: [Statement.call Call.cmdEndDebugMarker] ∧
    (runStatements ((propagatePasses sampleConfig (sampleAura false 0) 1).map Statement.call)
      (sampleAura false 0, [])).1.pCascades[1]? = (sampleAura false 0).pCascades[1]? :=
  ⟨Or.inl rfl,
    ((C7_apply_state_written_only_by_commit sampleConfig (sampleAura false 0)).2.2.2.2.2.2.2.2
      (Or.inl rfl)).2,
    rfl,
    ((C7_apply_state_written_only_by_commit sampleConfig (sampleAura false 0)).2.2.2.2.2.2.1
      1).2.2.1 _ [Statement.commit 1, Statement.call Call.cmdEndDebugMarker] 1 rfl
      (by simp)⟩


/-! ## C13 and C15 with four cascades -/

/-- C13 fails for four cascades. At the sample `Aura` with `mCascadeCount = 4` (compute
shaders), cascade 0: in the turn `i = 1` the `PropagateN` pass binds descriptor
`0 * 2 + !(1 & 1) = 0`, whose `LPVGrid` array, bound by `initAura` with
`mCount = mCascadeCount = 4` textures from `pWorkingTex + 0`, is `pWorkingGrids[0..3]`, while
its `workCoeffs0..2` are `pWorkingGrids[3..5]`: the grid `pWorkingGrids[3]` is read and
written by the same pass, and it belongs to working set 1, not to the set
`(i + 1) mod 2 = 0` the pass is to read. In the turn `i = 2` the descriptor 1 is bound,
whose `LPVGrid` array is `pWorkingGrids[3..6]`: its last texture lies outside the six
working grids. -/
theorem C13_four_cascades_read_the_set_being_written :
    (sampleAuraOfCount 4).mCascadeCount = 4 ∧
    Call.cmdBindDescriptorSet 0 DescriptorSet.pDescriptorSetLightPropagateN ∈
      propagateStep sampleConfig (sampleAuraOfCount 4) 0 1 (phaseAt 1) ∧
    propagateNIndex 0 1 = 0 ∧
    initAuraDescriptor sampleConfig (sampleAuraOfCount 4)
        DescriptorSet.pDescriptorSetLightPropagateN 0 =
      some { LPVGrid := [Resource.pWorkingGrids 0, Resource.pWorkingGrids 1,
               Resource.pWorkingGrids 2, Resource.pWorkingGrids 3]
             workCoeffs := [Resource.pWorkingGrids 3, Resource.pWorkingGrids 4,
               Resource.pWorkingGrids 5]
             RWGrid := [Resource.pLightGrids 0 0, Resource.pLightGrids 0 1,
               Resource.pLightGrids 0 2] } ∧
    workingSet (Resource.pWorkingGrids 3) = some (1 % 2) ∧
    workingSet (Resource.pWorkingGrids 3) ≠ some ((1 + 1) % 2) ∧
    Call.cmdBindDescriptorSet 1 DescriptorSet.pDescriptorSetLightPropagateN ∈
      propagateStep sampleConfig (sampleAuraOfCount 4) 0 2 (phaseAt 2) ∧
    propagateNIndex 0 2 = 1 ∧
    initAuraDescriptor sampleConfig (sampleAuraOfCount 4)
        DescriptorSet.pDescriptorSetLightPropagateN 1 =
      some { LPVGrid := [Resource.pWorkingGrids 3, Resource.pWorkingGrids 4,
               Resource.pWorkingGrids 5, Resource.pWorkingGrids 6]
             workCoeffs := [Resource.pWorkingGrids 0, Resource.pWorkingGrids 1,
               Resource.pWorkingGrids 2]
             RWGrid := [Resource.pLightGrids 0 0, Resource.pLightGrids 0 1,
               Resource.pLightGrids 0 2] } ∧
    workingSet (Resource.pWorkingGrids 6) = none := by
  refine ⟨rfl, ?_, by decide, by decide, by decide, by decide, ?_, by decide, by decide,
    by decide⟩
  · simp [propagateStep, sampleConfig]
  · simp [propagateStep, sampleConfig]

/-- C15 fails for four cascades. At the sample `Aura` with `mCascadeCount = 4` (compute
shaders, four steps), cascade 0, entered with the six working grids in the writable state
and the grids of the cascade in `RESOURCE_STATE_SHADER_RESOURCE`: every check passes up to
the first `PropagateN` pass; at that pass the texture `pWorkingGrids[3]` is among the
textures read (the `LPVGrid` array of descriptor 0 holds `mCascadeCount = 4` textures) and
among the textures written, and it is in the writable state, not in
`RESOURCE_STATE_SHADER_RESOURCE`; the pass fails its check, and so does the whole call
list. -/
theorem C15_four_cascades_fail_the_read_check :
    (sampleAuraOfCount 4).mCascadeCount = 4 ∧
    (∀ j : ℕ, j < 2 * NUM_GRIDS_PER_CASCADE →
      sampleEntryStates sampleConfig (Resource.pWorkingGrids j) = writableState sampleConfig) ∧
    (∀ k : ℕ, k < NUM_GRIDS_PER_CASCADE →
      sampleEntryStates sampleConfig (Resource.pLightGrids 0 k) =
        ResourceState.RESOURCE_STATE_SHADER_RESOURCE) ∧
    (propagateLight sampleConfig (sampleAuraOfCount 4) 0).2 =
      ([Call.cmdBeginDebugMarker 0] ++ propagateFirstStep sampleConfig (sampleAuraOfCount 4) 0 ++
        (propagateStep sampleConfig (sampleAuraOfCount 4) 0 1 true).take 3) ++
      (dispatchGrid sampleConfig ::
        ((propagateLight sampleConfig (sampleAuraOfCount 4) 0).2.drop
          (1 + (propagateFirstStep sampleConfig (sampleAuraOfCount 4) 0).length + 3 + 1))) ∧
    (Tracker.run sampleConfig (sampleAuraOfCount 4)
      (Tracker.start (sampleEntryStates sampleConfig))
      ([Call.cmdBeginDebugMarker 0] ++ propagateFirstStep sampleConfig (sampleAuraOfCount 4) 0 ++
        (propagateStep sampleConfig (sampleAuraOfCount 4) 0 1 true).take 3)).ok = true ∧
    (Tracker.run sampleConfig (sampleAuraOfCount 4)
      (Tracker.start (sampleEntryStates sampleConfig))
      ([Call.cmdBeginDebugMarker 0] ++ propagateFirstStep sampleConfig (sampleAuraOfCount 4) 0 ++
        (propagateStep sampleConfig (sampleAuraOfCount 4) 0 1 true).take 3)).pipeline =
      some (Pipeline.pPipelineLightPropagateN false) ∧
    Resource.pWorkingGrids 3 ∈
      (Tracker.run sampleConfig (sampleAuraOfCount 4)
        (Tracker.start (sampleEntryStates sampleConfig))
        ([Call.cmdBeginDebugMarker 0] ++
          propagateFirstStep sampleConfig (sampleAuraOfCount 4) 0 ++
          (propagateStep sampleConfig (sampleAuraOfCount 4) 0 1 true).take 3)).reads
        sampleConfig (sampleAuraOfCount 4) ∧
    Resource.pWorkingGrids 3 ∈
      (Tracker.run sampleConfig (sampleAuraOfCount 4)
        (Tracker.start (sampleEntryStates sampleConfig))
        ([Call.cmdBeginDebugMarker 0] ++
          propagateFirstStep sampleConfig (sampleAuraOfCount 4) 0 ++
          (propagateStep sampleConfig (sampleAuraOfCount 4) 0 1 true).take 3)).writes
        sampleConfig (sampleAuraOfCount 4) ∧
    (Tracker.run sampleConfig (sampleAuraOfCount 4)
      (Tracker.start (sampleEntryStates sampleConfig))
      ([Call.cmdBeginDebugMarker 0] ++ propagateFirstStep sampleConfig (sampleAuraOfCount 4) 0 ++
        (propagateStep sampleConfig (sampleAuraOfCount 4) 0 1 true).take 3)).state
        (Resource.pWorkingGrids 3) = ResourceState.RESOURCE_STATE_UNORDERED_ACCESS ∧
    (Tracker.run sampleConfig (sampleAuraOfCount 4)
      (Tracker.start (sampleEntryStates sampleConfig))
      ([Call.cmdBeginDebugMarker 0] ++ propagateFirstStep sampleConfig (sampleAuraOfCount 4) 0 ++
        (propagateStep sampleConfig (sampleAuraOfCount 4) 0 1 true).take 3 ++
        [dispatchGrid sampleConfig])).ok = false ∧
    (Tracker.run sampleConfig (sampleAuraOfCount 4)
      (Tracker.start (sampleEntryStates sampleConfig))
      (propagateLight sampleConfig (sampleAuraOfCount 4) 0).2).ok = false := by
  refine ⟨rfl, by decide, by decide, by decide, by decide, by decide, by decide, by decide,
    by decide, by decide, by decide⟩

end aura

namespace VolumetricClouds

/-! ## C29: the temporal jitter -/

/-- `AfterSubmit` steps an index below 16 to its successor modulo 16. -/
theorem AfterSubmit_eq (g : ℕ) (h : g < 16) : AfterSubmit g = (g + 1) % 16 := by
  unfold AfterSubmit
  have h1 : (g + 1) % UINT32 = g + 1 := Nat.mod_eq_of_lt (by unfold UINT32; omega)
  rw [h1]
  rfl

/-- `AfterSubmit` leaves an index below 16, whatever it starts from. -/
theorem AfterSubmit_lt (g : ℕ) : AfterSubmit g < 16 := by
  unfold AfterSubmit
  exact Nat.mod_lt _ (by decide)

theorem frameIndexAfter_lt (k g : ℕ) (h : g < 16) : frameIndexAfter k g < 16 := by
  cases k with
  | zero => exact h
  | succ k => exact AfterSubmit_lt _

/-- After `k` calls of `AfterSubmit` the index has moved `k` steps modulo 16. -/
theorem frameIndexAfter_eq (k g : ℕ) (h : g < 16) : frameIndexAfter k g = (g + k) % 16 := by
  induction k with
  | zero => exact (Nat.mod_eq_of_lt h).symm
  | succ k ih =>
    simp only [frameIndexAfter]
    rw [AfterSubmit_eq _ (frameIndexAfter_lt k g h), ih, Nat.mod_add_mod]
    rfl

/-- The table holds every position of the 4 x 4 grid exactly once. -/
theorem offset_permutation :
    offset.length = 16 ∧ offset.Nodup ∧
    (∀ p ∈ offset, 0 ≤ p.1 ∧ p.1 ≤ 3 ∧ 0 ≤ p.2 ∧ p.2 ≤ 3) ∧
    ∀ x : ℕ, x < 4 → ∀ y : ℕ, y < 4 → offset.count ((x : ℤ), (y : ℤ)) = 1 := by
  refine ⟨rfl, by decide, by decide, by decide⟩

/-- Sixteen consecutive frames from index `g` use every jitter position exactly once. -/
theorem jitter_cycle (g : ℕ) (h : g < 16) (x : ℕ) (hx : x < 4) (y : ℕ) (hy : y < 4) :
    ((List.range 16).map (fun k => jitter (frameIndexAfter k g))).count (some (x, y)) = 1 := by
  have e : (List.range 16).map (fun k => jitter (frameIndexAfter k g)) =
      (List.range 16).map (fun k => jitter ((g + k) % 16)) := by
    apply List.map_congr_left
    intro k _
    rw [frameIndexAfter_eq k g h]
  rw [e]
  revert x y
  revert g
  decide

/-- C29. The cloud renderer's temporal jitter visits every sub-pixel once per cycle.
`AfterSubmit` leaves `g_LowResFrameIndex` below 16 and steps an index below 16 to its
successor modulo 16; the 16-entry table `offset` holds every pair `(x, y)` with
`0 <= x, y <= 3` exactly once; so for an index `g < 16` (the index starts at 0) every read
of the table in the next 16 frames is inside it, and the 16 jitter positions read in those
frames contain every position of the 4 x 4 grid exactly once. -/
theorem C29_jitter_visits_every_position_once (g : ℕ) (h : g < 16) :
    AfterSubmit g < 16 ∧ AfterSubmit g = (g + 1) % 16 ∧
    (∀ k : ℕ, frameIndexAfter k g = (g + k) % 16) ∧
    (offset.length = 16 ∧ offset.Nodup ∧
      (∀ p ∈ offset, 0 ≤ p.1 ∧ p.1 ≤ 3 ∧ 0 ≤ p.2 ∧ p.2 ≤ 3) ∧
      ∀ x : ℕ, x < 4 → ∀ y : ℕ, y < 4 → offset.count ((x : ℤ), (y : ℤ)) = 1) ∧
    (∀ k : ℕ, (jitter (frameIndexAfter k g)).isSome = true) ∧
    (∀ x : ℕ, x < 4 → ∀ y : ℕ, y < 4 →
      ((List.range 16).map (fun k => jitter (frameIndexAfter k g))).count (some (x, y)) = 1) := by
  refine ⟨AfterSubmit_lt g, AfterSubmit_eq g h, fun k => frameIndexAfter_eq k g h,
    offset_permutation, ?_, fun x hx y hy => jitter_cycle g h x hx y hy⟩
  intro k
  have hk := frameIndexAfter_lt k g h
  generalize frameIndexAfter k g = j at hk
  revert j
  decide

/-- C29 from the initial index 0: the first call of `AfterSubmit` gives 1, and the position
`(3, 2)` is used exactly once in the first 16 frames. -/
theorem C29_jitter_visits_every_position_once_witness :
    0 < 16 ∧ AfterSubmit 0 = (0 + 1) % 16 ∧
    ((List.range 16).map (fun k => jitter (frameIndexAfter k 0))).count (some (3, 2)) = 1 :=
  ⟨by decide, (C29_jitter_visits_every_position_once 0 (by decide)).2.1,
    (C29_jitter_visits_every_position_once 0 (by decide)).2.2.2.2.2 3 (by decide) 2 (by decide)⟩

/-! ## C30: `_itoa` and `reverse_str` -/

theorem swap_length (s : List Char) (i j : ℕ) : (swap s i j).length = s.length := by
  simp [swap]

/-- The swap exchanges the bytes at `i` and `j` and leaves the others. -/
theorem swap_getElem? (s : List Char) (i j k : ℕ) (hi : i < s.length) (hj : j < s.length) :
    (swap s i j)[k]? = if k = j then s[i]? else if k = i then s[j]? else s[k]? := by
  have gi : s.getD i default = s[i] := by
    rw [List.getD_eq_getElem?_getD, List.getElem?_eq_getElem hi]
    rfl
  have gj : s.getD j default = s[j] := by
    rw [List.getD_eq_getElem?_getD, List.getElem?_eq_getElem hj]
    rfl
  simp only [swap, gi, gj, List.getElem?_set, List.length_set]
  by_cases hkj : k = j
  · subst hkj
    simp [hj, List.getElem?_eq_getElem hi]
  · have hjk : ¬ j = k := fun h => hkj h.symm
    simp only [hjk, if_false, hkj]
    by_cases hki : k = i
    · subst hki
      simp [hi, List.getElem?_eq_getElem hj]
    · have hik : ¬ i = k := fun h => hki h.symm
      simp [hik, hki]

theorem reverseLoop_length (turns i j : ℕ) (s : List Char) :
    (reverseLoop turns i j s).length = s.length := by
  induction turns generalizing i j s with
  | zero => rfl
  | succ t ih =>
    simp only [reverseLoop]
    split
    · rw [ih, swap_length]
    · rfl

/-- The loop of `reverse_str`, entered with `i` and `j`, mirrors the bytes between `i` and
`j` and leaves the others. -/
theorem reverseLoop_getElem? (turns i j : ℕ) (s : List Char) (k : ℕ) (hj : j < s.length)
    (hturns : j ≤ i + turns) :
    (reverseLoop turns i j s)[k]? = if i ≤ k ∧ k ≤ j then s[i + j - k]? else s[k]? := by
  induction turns generalizing i j s with
  | zero =>
    simp only [reverseLoop]
    by_cases hk : i ≤ k ∧ k ≤ j
    · have : i + j - k = k := by omega
      rw [if_pos hk, this]
    · rw [if_neg hk]
  | succ t ih =>
    simp only [reverseLoop]
    by_cases hij : i < j
    · rw [if_pos hij]
      have hi : i < s.length := by omega
      rw [ih (i + 1) (j - 1) (swap s i j) (by rw [swap_length]; omega) (by omega)]
      by_cases hk : i + 1 ≤ k ∧ k ≤ j - 1
      · have hk' : i ≤ k ∧ k ≤ j := by omega
        rw [if_pos hk, if_pos hk', swap_getElem? s i j _ hi hj]
        have e : i + 1 + (j - 1) - k = i + j - k := by omega
        rw [e, if_neg (by omega), if_neg (by omega)]
      · rw [if_neg hk, swap_getElem? s i j _ hi hj]
        by_cases hkj : k = j
        · subst hkj
          have e : i + k - k = i := by omega
          rw [if_pos rfl, if_pos (by omega), e]
        · rw [if_neg hkj]
          by_cases hki : k = i
          · subst hki
            have e : k + j - k = j := by omega
            rw [if_pos rfl, if_pos (by omega), e]
          · rw [if_neg hki, if_neg (by omega)]
    · rw [if_neg hij]
      by_cases hk : i ≤ k ∧ k ≤ j
      · have : i + j - k = k := by omega
        rw [if_pos hk, this]
      · rw [if_neg hk]

/-- `reverse_str` reverses the first `len` bytes of the buffer and leaves the rest. -/
theorem reverse_str_eq (s : List Char) (len : ℕ) (hlen : len ≤ s.length) :
    reverse_str s len = (s.take len).reverse ++ s.drop len := by
  apply List.ext_getElem?
  intro k
  unfold reverse_str
  rcases Nat.eq_zero_or_pos len with h0 | hpos
  · subst h0
    simp [reverseLoop]
  · rw [reverseLoop_getElem? len 0 (len - 1) s k (by omega) (by omega)]
    by_cases hk : k < len
    · rw [if_pos (by omega), List.getElem?_append_left (by simp; omega),
        List.getElem?_reverse (by simp; omega), List.getElem?_take]
      have hl : (List.take len s).length = len := by simp; omega
      rw [hl, if_pos (by omega)]
      congr 1
      omega
    · rw [if_neg (by omega), List.getElem?_append_right (by simp; omega), List.getElem?_drop]
      have hl : (List.take len s).reverse.length = len := by simp; omega
      rw [hl]
      congr 1
      omega

/-- The decimal digits of a natural number, least significant first, `[0]` for zero: the
order in which the loop of `_itoa` writes them. -/
theorem decimalDigits_reverse_cons (m : ℕ) (h : m / 10 ≠ 0) :
    (decimalDigits m).reverse = (m % 10) :: (decimalDigits (m / 10)).reverse := by
  have hm : m ≠ 0 := by
    intro h0
    rw [h0] at h
    exact h rfl
  have hpos : 0 < m := Nat.pos_of_ne_zero hm
  unfold decimalDigits
  rw [if_neg hm, if_neg h, List.reverse_reverse, List.reverse_reverse]
  exact Nat.digits_def' (by norm_num) hpos

theorem decimalDigits_reverse_single (m : ℕ) (h : m / 10 = 0) :
    (decimalDigits m).reverse = [m % 10] := by
  have hlt : m < 10 := by
    by_contra hge
    have : 1 ≤ m / 10 := (Nat.one_le_div_iff (by norm_num)).mpr (by omega)
    omega
  unfold decimalDigits
  by_cases hm : m = 0
  · subst hm
    rfl
  · rw [if_neg hm, List.reverse_reverse, Nat.digits_of_lt 10 m hm hlt, Nat.mod_eq_of_lt hlt]

theorem natAbs_tmod_ten (n : ℤ) : (Int.tmod n 10).natAbs = n.natAbs % 10 := by
  cases n with
  | ofNat m => rfl
  | negSucc m => simp [Int.tmod]; rfl

theorem natAbs_tdiv_ten (n : ℤ) : (Int.tdiv n 10).natAbs = n.natAbs / 10 := by
  cases n with
  | ofNat m => rfl
  | negSucc m => simp [Int.tdiv]; rfl

theorem writeChar_append (pre rest : List Char) (x c : Char) :
    writeChar (pre ++ x :: rest) pre.length c = some (pre ++ c :: rest) := by
  simp [writeChar]

/-- The loop of `_itoa`, entered at index `pre.length` with room for the digits: it writes
the digits of `|n|`, least significant first, and leaves the index past them. -/
theorem itoaLoop_append (turns : ℕ) (n : ℤ) (pre rest : List Char) (hturns : n.natAbs < turns)
    (hroom : (decimalDigits n.natAbs).length ≤ rest.length) :
    itoaLoop turns n pre.length (pre ++ rest) =
      some (pre.length + (decimalDigits n.natAbs).length,
        pre ++ (decimalDigits n.natAbs).reverse.map digitChar ++
          rest.drop (decimalDigits n.natAbs).length) := by
  induction turns generalizing n pre rest with
  | zero => omega
  | succ t ih =>
    have hlen : (decimalDigits n.natAbs).length = (decimalDigits n.natAbs).reverse.length := by
      simp
    cases rest with
    | nil =>
      exfalso
      have hne : decimalDigits n.natAbs ≠ [] := by
        unfold decimalDigits
        split
        · simp
        · rename_i h
          simpa using Nat.digits_ne_nil_iff_ne_zero.mpr h
      have h0 : (decimalDigits n.natAbs).length = 0 := Nat.le_zero.mp hroom
      exact hne (List.length_eq_zero.mp h0)
    | cons x rest =>
      simp only [itoaLoop, writeChar_append, natAbs_tmod_ten]
      by_cases hq : Int.tdiv n 10 ≠ 0
      · have hq' : n.natAbs / 10 ≠ 0 := by
          rw [← natAbs_tdiv_ten]
          exact Int.natAbs_ne_zero.mpr hq
        have hcons := decimalDigits_reverse_cons n.natAbs hq'
        have hl : (decimalDigits n.natAbs).length = (decimalDigits (n.natAbs / 10)).length + 1 := by
          rw [hlen, hcons]
          simp
        rw [if_pos hq]
        have e : pre ++ Char.ofNat (n.natAbs % 10 + '0'.toNat) :: rest =
            (pre ++ [Char.ofNat (n.natAbs % 10 + '0'.toNat)]) ++ rest := by simp
        have el : pre.length + 1 = (pre ++ [Char.ofNat (n.natAbs % 10 + '0'.toNat)]).length := by
          simp
        rw [e, el, ih (Int.tdiv n 10) _ rest
          (by
            rw [natAbs_tdiv_ten]
            have : n.natAbs / 10 < n.natAbs := Nat.div_lt_self (by omega) (by norm_num)
            omega)
          (by
            rw [natAbs_tdiv_ten]
            rw [hl] at hroom
            simpa using hroom)]
        rw [natAbs_tdiv_ten, hcons, hl]
        simp [digitChar, Nat.add_assoc, Nat.add_comm 1]
      · have hq0 : Int.tdiv n 10 = 0 := by
          by_contra h
          exact hq h
        have hq' : n.natAbs / 10 = 0 := by
          rw [← natAbs_tdiv_ten, hq0]
          rfl
        have hsingle := decimalDigits_reverse_single n.natAbs hq'
        have hl : (decimalDigits n.natAbs).length = 1 := by
          rw [hlen, hsingle]
          rfl
        rw [if_neg hq, hsingle, hl]
        simp [digitChar]

theorem reverse_str_append (pre rest : List Char) :
    reverse_str (pre ++ rest) pre.length = pre.reverse ++ rest := by
  rw [reverse_str_eq _ _ (by simp)]
  simp

theorem decimalDigits_ne_nil (m : ℕ) : decimalDigits m ≠ [] := by
  unfold decimalDigits
  split
  · simp
  · rename_i h
    simpa using Nat.digits_ne_nil_iff_ne_zero.mpr h

theorem writeChar_append_of_eq (pre rest : List Char) (x c : Char) (k : ℕ)
    (hk : k = pre.length) : writeChar (pre ++ x :: rest) k c = some (pre ++ c :: rest) := by
  rw [hk]
  exact writeChar_append pre rest x c

/-- `_itoa` in a buffer with room for the text and the terminator: the buffer starts with
the decimal text of `n`, then the NUL, and is unchanged after it. -/
theorem itoa_eq (n : ℤ) (s : List Char) (hroom : (decimalText n).length + 1 ≤ s.length) :
    _itoa n s =
      some (decimalText n ++ Char.ofNat 0 :: s.drop ((decimalText n).length + 1)) := by
  have hloop := itoaLoop_append (n.natAbs + 1) n [] s (by omega)
    (by
      simp only [decimalText, List.length_append, List.length_map] at hroom
      omega)
  simp only [List.length_nil, Nat.zero_add, List.nil_append] at hloop
  unfold _itoa
  simp only [hloop]
  have hclen : (decimalDigits n.natAbs).length =
      ((decimalDigits n.natAbs).reverse.map digitChar).length := by simp
  by_cases hneg : n < 0
  · have htext : decimalText n = '-' :: (decimalDigits n.natAbs).map digitChar := by
      simp [decimalText, hneg]
    have hL : (decimalText n).length = (decimalDigits n.natAbs).length + 1 := by
      simp [htext]
    rw [hL] at hroom
    obtain ⟨x, hx⟩ : ∃ x, s.drop (decimalDigits n.natAbs).length =
        x :: s.drop ((decimalDigits n.natAbs).length + 1) :=
      ⟨_, List.drop_eq_getElem_cons (by omega)⟩
    obtain ⟨y, hy⟩ : ∃ y, s.drop ((decimalDigits n.natAbs).length + 1) =
        y :: s.drop ((decimalDigits n.natAbs).length + 1 + 1) :=
      ⟨_, List.drop_eq_getElem_cons (by omega)⟩
    rw [if_pos hneg, hx, hy, writeChar_append_of_eq _ _ _ _ _ hclen]
    simp only [Option.map_some']
    have e1 : (decimalDigits n.natAbs).reverse.map digitChar ++
        '-' :: y :: List.drop ((decimalDigits n.natAbs).length + 1 + 1) s =
        ((decimalDigits n.natAbs).reverse.map digitChar ++ ['-']) ++
          y :: List.drop ((decimalDigits n.natAbs).length + 1 + 1) s := by simp
    have e2 : (decimalDigits n.natAbs).length + 1 =
        ((decimalDigits n.natAbs).reverse.map digitChar ++ ['-']).length := by simp
    rw [e1, writeChar_append_of_eq _ _ _ _ _ e2]
    simp only
    rw [e2, reverse_str_append, htext]
    simp
  · have htext : decimalText n = (decimalDigits n.natAbs).map digitChar := by
      simp [decimalText, hneg]
    have hL : (decimalText n).length = (decimalDigits n.natAbs).length := by
      simp [htext]
    rw [hL] at hroom
    obtain ⟨x, hx⟩ : ∃ x, s.drop (decimalDigits n.natAbs).length =
        x :: s.drop ((decimalDigits n.natAbs).length + 1) :=
      ⟨_, List.drop_eq_getElem_cons (by omega)⟩
    rw [if_neg hneg, hx]
    simp only
    rw [writeChar_append_of_eq _ _ _ _ _ hclen]
    simp only
    rw [hclen, reverse_str_append, htext]
    simp

theorem decimalDigits_lt (m d : ℕ) (hd : d ∈ decimalDigits m) : d < 10 := by
  unfold decimalDigits at hd
  split at hd
  · simp at hd
    omega
  · rw [List.mem_reverse] at hd
    exact Nat.digits_lt_base (by norm_num) hd

/-- The digits have no leading zero, except for the single digit of zero. -/
theorem decimalDigits_head (m : ℕ) (h : (decimalDigits m).head? = some 0) : m = 0 := by
  by_contra hm
  unfold decimalDigits at h
  rw [if_neg hm, List.head?_reverse] at h
  have hne : Nat.digits 10 m ≠ [] := Nat.digits_ne_nil_iff_ne_zero.mpr hm
  have hlast := Nat.getLast_digit_ne_zero 10 hm
  rw [List.getLast?_eq_getLast _ hne] at h
  exact hlast (Option.some.inj h)

/-- The digits are those of `m`: read as a decimal number they give `m` back. -/
theorem ofDigits_decimalDigits (m : ℕ) : Nat.ofDigits 10 (decimalDigits m).reverse = m := by
  unfold decimalDigits
  split
  · rename_i h
    rw [h]
    rfl
  · rw [List.reverse_reverse, Nat.ofDigits_digits]

theorem digitChar_spec :
    ∀ d : ℕ, d < 10 → '0' ≤ digitChar d ∧ digitChar d ≤ '9' ∧
      (digitChar d).toNat - '0'.toNat = d ∧ digitChar d ≠ '-' ∧ digitChar d ≠ Char.ofNat 0 := by
  decide

/-- Reading digit characters most significant first continues the value read so far. -/
theorem foldl_parse_digits (ds : List ℕ) (hds : ∀ d ∈ ds, d < 10) (v : ℕ) :
    (ds.map digitChar).foldl (fun acc c =>
      acc.bind (fun v => if '0' ≤ c ∧ c ≤ '9' then some (v * 10 + (c.toNat - '0'.toNat)) else none))
      (some v) = some (ds.foldl (fun v d => v * 10 + d) v) := by
  induction ds generalizing v with
  | nil => rfl
  | cons d ds ih =>
    obtain ⟨h1, h2, h3, _⟩ := digitChar_spec d (hds d (List.mem_cons_self _ _))
    simp only [List.map_cons, List.foldl_cons, Option.some_bind, h1, h2, and_self, if_true, h3]
    exact ih (fun x hx => hds x (List.mem_cons_of_mem _ hx)) _

theorem foldl_horner (ds : List ℕ) (v : ℕ) :
    ds.foldl (fun v d => v * 10 + d) v = v * 10 ^ ds.length + Nat.ofDigits 10 ds.reverse := by
  induction ds generalizing v with
  | nil => simp
  | cons d ds ih =>
    rw [List.foldl_cons, ih, List.reverse_cons, Nat.ofDigits_append, Nat.ofDigits_singleton,
      List.length_reverse, List.length_cons]
    ring

theorem parseDigits_decimalDigits (m : ℕ) :
    parseDigits ((decimalDigits m).map digitChar) = some m := by
  unfold parseDigits
  rw [foldl_parse_digits _ (fun d hd => decimalDigits_lt m d hd), foldl_horner,
    ofDigits_decimalDigits]
  simp

/-- Parsing the decimal text of an integer gives the integer back. -/
theorem parseDecimal_decimalText (n : ℤ) : parseDecimal (decimalText n) = some n := by
  have hne := decimalDigits_ne_nil n.natAbs
  by_cases hneg : n < 0
  · have htext : decimalText n = '-' :: (decimalDigits n.natAbs).map digitChar := by
      simp [decimalText, hneg]
    rw [htext]
    simp only [parseDecimal, if_true, List.map_eq_nil_iff, hne, if_false,
      parseDigits_decimalDigits, Option.map_some']
    refine congrArg some ?_
    rw [Int.ofNat_natAbs_of_nonpos hneg.le]
    exact neg_neg n
  · have htext : decimalText n = (decimalDigits n.natAbs).map digitChar := by
      simp [decimalText, hneg]
    rw [htext]
    cases hd : decimalDigits n.natAbs with
    | nil => exact absurd hd hne
    | cons d ds =>
      have hdlt : d < 10 := decimalDigits_lt n.natAbs d (by rw [hd]; exact List.mem_cons_self _ _)
      have hminus := (digitChar_spec d hdlt).2.2.2.1
      have hp := parseDigits_decimalDigits n.natAbs
      rw [hd] at hp
      simp only [List.map_cons] at hp ⊢
      simp only [parseDecimal, hminus, if_false, hp, Option.map_some']
      refine congrArg some ?_
      exact Int.natAbs_of_nonneg (not_lt.mp hneg)

/-- The decimal text holds no NUL. -/
theorem nul_not_mem_decimalText (n : ℤ) : Char.ofNat 0 ∉ decimalText n := by
  intro h
  simp only [decimalText, List.mem_append, List.mem_map] at h
  rcases h with h | ⟨d, hd, h⟩
  · split at h
    · rw [List.mem_singleton] at h
      exact absurd h (by decide)
    · simp at h
  · exact (digitChar_spec d (decimalDigits_lt _ d hd)).2.2.2.2 h

/-- A number below `10 ^ k` has at most `k` digits (`k >= 1`). -/
theorem decimalDigits_length_le (m k : ℕ) (hk : 1 ≤ k) (h : m < 10 ^ k) :
    (decimalDigits m).length ≤ k := by
  unfold decimalDigits
  split
  · simpa using hk
  · rename_i hm
    rw [List.length_reverse]
    have h1 := Nat.base_pow_length_digits_le 10 m (by norm_num) hm
    have h2 : 10 ^ (Nat.digits 10 m).length < 10 ^ (k + 1) := by
      rw [Nat.pow_succ]
      omega
    have h3 := (Nat.pow_lt_pow_iff_right (by norm_num : 1 < 10)).mp h2
    omega

/-- A 32-bit `int` has at most ten digits, eleven characters with the sign. -/
theorem decimalText_length_le (n : ℤ) (hlo : -(2 : ℤ) ^ 31 ≤ n) (hhi : n < (2 : ℤ) ^ 31) :
    (decimalText n).length ≤ 11 := by
  have habs : n.natAbs < 10 ^ 10 := by omega
  have hd := decimalDigits_length_le n.natAbs 10 (by norm_num) habs
  simp only [decimalText, List.length_append, List.length_map]
  split <;> simp <;> omega

/-- The values the texture-name loops pass need at most three characters. -/
theorem decimalText_length_small (i : ℕ) (h : i < 128) : (decimalText (i : ℤ)).length ≤ 3 := by
  have hd := decimalDigits_length_le i 3 (by norm_num) (by omega)
  have hneg : ¬ ((i : ℤ) < 0) := by omega
  simp only [decimalText, hneg, if_false, List.nil_append, List.length_map, Int.natAbs_ofNat]
  exact hd

/-- C30. `_itoa` writes the decimal representation of its argument. For every 32-bit `int`
`n` (negative values and `INT_MIN` included) and every buffer with room for the text and
the terminator, the buffer after the call starts with the text, followed by NUL, and is
unchanged after that; the text is an optional leading `-` followed by the decimal digits of
`|n|`, each below 10, without a leading zero unless `n = 0`, whose value is `|n|`; it holds
no NUL and has at most 11 characters; parsing it as a decimal integer returns `n`. For the
values `i < 32` and `i < 128` that the texture-name loops pass, the text has at most 3
characters, so the call stays inside the 4-byte buffer. -/
theorem C30_itoa_writes_decimal_text (n : ℤ) (hlo : -(2 : ℤ) ^ 31 ≤ n)
    (hhi : n < (2 : ℤ) ^ 31) :
    (∀ s : List Char, (decimalText n).length + 1 ≤ s.length →
      _itoa n s =
        some (decimalText n ++ Char.ofNat 0 :: s.drop ((decimalText n).length + 1))) ∧
    decimalText n = (if n < 0 then ['-'] else []) ++ (decimalDigits n.natAbs).map digitChar ∧
    (∀ d ∈ decimalDigits n.natAbs, d < 10) ∧
    ((decimalDigits n.natAbs).head? = some 0 → n = 0) ∧
    Nat.ofDigits 10 (decimalDigits n.natAbs).reverse = n.natAbs ∧
    Char.ofNat 0 ∉ decimalText n ∧
    (decimalText n).length ≤ 11 ∧
    parseDecimal (decimalText n) = some n ∧
    (∀ i : ℕ, i < gHighFreq3DTextureSize ∨ i < gLowFreq3DTextureSize →
      (decimalText (i : ℤ)).length ≤ 3 ∧
      ∀ s : List Char, s.length = 4 →
        _itoa (i : ℤ) s =
          some (decimalText (i : ℤ) ++
            Char.ofNat 0 :: s.drop ((decimalText (i : ℤ)).length + 1))) := by
  refine ⟨fun s hs => itoa_eq n s hs, rfl, fun d hd => decimalDigits_lt _ d hd, ?_,
    ofDigits_decimalDigits _, nul_not_mem_decimalText n, decimalText_length_le n hlo hhi,
    parseDecimal_decimalText n, ?_⟩
  · intro h
    exact Int.natAbs_eq_zero.mp (decimalDigits_head _ h)
  · intro i hi
    have hi' : i < 128 := by
      rcases hi with h | h
      · have : gHighFreq3DTextureSize = 32 := rfl
        omega
      · exact h
    have hl := decimalText_length_small i hi'
    exact ⟨hl, fun s hs => itoa_eq _ s (by omega)⟩

/-- C30 at `INT_MIN`: in a 12-byte buffer `_itoa` leaves the text of `-2147483648` followed
by NUL, and parsing the text returns `-2147483648`. -/
theorem C30_itoa_writes_decimal_text_witness :
    -(2 : ℤ) ^ 31 ≤ -2147483648 ∧ (-2147483648 : ℤ) < (2 : ℤ) ^ 31 ∧
    _itoa (-2147483648) (List.replicate 12 'x') =
      some (decimalText (-2147483648) ++
        Char.ofNat 0 :: (List.replicate 12 'x').drop ((decimalText (-2147483648)).length + 1)) ∧
    parseDecimal (decimalText (-2147483648)) = some (-2147483648) :=
  have h := C30_itoa_writes_decimal_text (-2147483648) (by norm_num) (by norm_num)
  ⟨by norm_num, by norm_num,
    h.1 (List.replicate 12 'x') (by
      have := h.2.2.2.2.2.2.1
      simp only [List.length_replicate]
      omega),
    h.2.2.2.2.2.2.2.1⟩

/-- The code run at `INT_MIN`, at 127 in a 4-byte buffer, and at 1000 in a 4-byte buffer,
where the terminator falls outside the buffer. -/
theorem itoa_samples :
    _itoa (-2147483648) (List.replicate 12 'x') =
      some ['-', '2', '1', '4', '7', '4', '8', '3', '6', '4', '8', Char.ofNat 0] ∧
    _itoa 127 (List.replicate 4 'x') = some ['1', '2', '7', Char.ofNat 0] ∧
    _itoa 0 (List.replicate 4 'x') = some ['0', Char.ofNat 0, 'x', 'x'] ∧
    _itoa 1000 (List.replicate 4 'x') = none := by
  refine ⟨by decide, by decide, by decide, by decide⟩

end VolumetricClouds
